import Mathlib

/-!
Verification of the natural-language specification of the Hermes ARM64 JIT
emitter (`lib/VM/JIT/arm64/JitEmitter.cpp`) against the code, via a shallow
embedding of the emitter's register-binding state machine, slow-path queue,
read-only-data/thunk pools, and the relevant operation emitters.

The embedding translates the source functions into pure Lean functions over an
explicit `EmitState`.  Emitted machine instructions are recorded in an
`emitted` list and their machine effect on register/frame-memory contents is
applied immediately (code emission in the modeled functions is straight-line),
using abstract `Nat` values for 64-bit contents.  The ghost field `latest`
records the authoritative abstract value of each frame register; it is updated
exactly where the source declares a new authoritative value
(`frUpdatedWithHWReg`, and the store-directly-to-frame branch of
`movFRFromHW`).
-/

namespace Jit

/-- Speculative type tag of a frame register (`FRType` in the source). -/
inductive FRType
  | Number
  | Bool
  | Unknown
deriving DecidableEq, Repr

/-- The two physical register classes: general-purpose 64-bit (`GpX`) and
vector/floating (`VecD`). -/
inductive RegClass
  | gp
  | vec
deriving DecidableEq, Repr

/-- A hardware register handle (`HWReg` in the source): invalid, or an index
in one of the two register classes. -/
inductive HWReg
  | invalid
  | reg (cls : RegClass) (i : Nat)
deriving DecidableEq, Repr

def HWReg.gpX (i : Nat) : HWReg := .reg .gp i

def HWReg.vecD (i : Nat) : HWReg := .reg .vec i

def HWReg.isValid : HWReg → Bool
  | .invalid => false
  | .reg _ _ => true

def HWReg.isGpX : HWReg → Bool
  | .reg .gp _ => true
  | _ => false

def HWReg.isVecD : HWReg → Bool
  | .reg .vec _ => true
  | _ => false

/-- `HWReg::isValidGpX`. -/
def HWReg.isValidGpX (h : HWReg) : Bool := h.isGpX

/-- `HWReg::isValidVecD`. -/
def HWReg.isValidVecD (h : HWReg) : Bool := h.isVecD

def HWReg.indexInClass : HWReg → Nat
  | .invalid => 0
  | .reg _ i => i

/-- Modelled from the spec (the register-pool partition constants live in the
header `JitEmitter.h`, which is not part of the given sources): the
callee-saved GP registers available as pinned "global" registers start at
x22 (asserted in the source) and the temporary pools are the caller-saved
registers.  The exact bounds only matter in that the temporary and saved
ranges are disjoint. -/
def kGPTemp : Nat × Nat := (0, 15)

/-- Modelled from the spec: temporary VecD pool. -/
def kVecTemp : Nat × Nat := (0, 7)

/-- Modelled from the spec: callee-saved GP range (starts at x22, per the
static assertion in `frameSetup`). -/
def kGPSaved : Nat × Nat := (22, 28)

/-- Modelled from the spec: callee-saved VecD range. -/
def kVecSaved : Nat × Nat := (8, 15)

def inRange (p : Nat × Nat) (i : Nat) : Bool :=
  decide (p.1 ≤ i) && decide (i ≤ p.2)

def isTempIdx : RegClass → Nat → Bool
  | .gp, i => inRange kGPTemp i
  | .vec, i => inRange kVecTemp i

def isSavedIdx : RegClass → Nat → Bool
  | .gp, i => inRange kGPSaved i
  | .vec, i => inRange kVecSaved i

/-- `Emitter::isTempGpX`. -/
def isTempGpX (h : HWReg) : Bool :=
  match h with
  | .reg .gp i => isTempIdx .gp i
  | _ => false

/-- `Emitter::isTempVecD`. -/
def isTempVecD (h : HWReg) : Bool :=
  match h with
  | .reg .vec i => isTempIdx .vec i
  | _ => false

/-- `Emitter::isTemp`. -/
def isTemp (h : HWReg) : Bool :=
  match h with
  | .reg c i => isTempIdx c i
  | .invalid => false

/-- Modelled from the spec: the temporary register pool (`TempRegAlloc`, whose
definition lives in the header, not in the given sources): "a set of indices
available for allocation plus an LRU ordering used to pick an eviction victim
when the pool is exhausted".  `freeList` holds the available indices;
`lruList` holds the allocated indices, least recently used first. -/
structure TempRegAlloc where
  freeList : List Nat
  lruList : List Nat
deriving DecidableEq, Repr

/-- Mark index `i` allocated and most recently used. -/
def TempRegAlloc.allocSpecific (ra : TempRegAlloc) (i : Nat) : TempRegAlloc :=
  { freeList := ra.freeList.erase i, lruList := ra.lruList.erase i ++ [i] }

/-- Modelled from the spec: allocate a register, preferring `pr` when it is
free, falling back to the first free index; fails (returning `none`, with the
pool unchanged) when the pool is exhausted. -/
def TempRegAlloc.alloc (ra : TempRegAlloc) (pr : Option Nat) :
    Option Nat × TempRegAlloc :=
  match pr with
  | some p =>
    if p ∈ ra.freeList then (some p, ra.allocSpecific p)
    else
      match ra.freeList with
      | [] => (none, ra)
      | i :: _ => (some i, ra.allocSpecific i)
  | none =>
    match ra.freeList with
    | [] => (none, ra)
    | i :: _ => (some i, ra.allocSpecific i)

/-- Return index `i` to the free set. -/
def TempRegAlloc.free (ra : TempRegAlloc) (i : Nat) : TempRegAlloc :=
  { freeList := i :: ra.freeList, lruList := ra.lruList.erase i }

/-- Record a use of index `i` (moves it to most-recently-used). -/
def TempRegAlloc.use (ra : TempRegAlloc) (i : Nat) : TempRegAlloc :=
  if i ∈ ra.lruList then { ra with lruList := ra.lruList.erase i ++ [i] }
  else ra

/-- The least-recently-used allocated index. -/
def TempRegAlloc.leastRecentlyUsed (ra : TempRegAlloc) : Nat :=
  ra.lruList.headD 0

/-- Per-frame-register binding state (`FRState` in the source). -/
structure FRState where
  globalReg : HWReg := .invalid
  globalRegUpToDate : Bool := false
  localGpX : HWReg := .invalid
  localVecD : HWReg := .invalid
  frameUpToDate : Bool := false
  localType : FRType := .Unknown
  globalType : FRType := .Unknown
deriving DecidableEq, Repr

/-- One queued slow-path record (`SlowPath` in the source; the emission
closure is determined by the operation, so only the plain data is kept). -/
structure SlowPath where
  slowPathLab : Nat
  contLab : Nat
  frRes : Nat := 0
  frInput1 : Nat := 0
  frInput2 : Nat := 0
  hwRes : HWReg := .invalid
  slowCall : Nat := 0
deriving DecidableEq, Repr

/-- Emitted machine instructions, at the abstraction level the claims need.
`movReg`/`strFrame`/`ldrFrame`/`movImm`/`ldrRo` are the "plain" data moves
produced by the binding manager; `guard` stands for the
`cmp reg, xDoubleLim; b.hs slowPath` pair; `fastArith` for the fast
vector/float instruction of an arithmetic op; the `...Arg` forms for the
ABI-argument setup moves; `callHelper` for the `bl` to an external helper's
thunk; the remaining forms are the specific instructions of `loadParam`. -/
inductive Instr
  | movReg (dst src : HWReg)
  | strFrame (src : HWReg) (fr : Nat)
  | ldrFrame (dst : HWReg) (fr : Nat)
  | movImm (dst : HWReg) (bits : Nat)
  | ldrRo (dst : HWReg) (ofs : Nat)
  | guard (src : HWReg) (lab : Nat)
  | fastArith (tag : Nat) (res l r : HWReg)
  | movRuntimeArg (dst : Nat)
  | movFrameArg (dst : Nat)
  | movImmArg (dst : Nat) (v : Nat)
  | frameAddrArg (dst : Nat) (fr : Nat)
  | ldrRoArg (dst : Nat) (ofs : Nat)
  | addImmArg (dst : Nat) (v : Nat)
  | callHelper (fn : Nat)
  | bindLab (lab : Nat)
  | ldurArgCount (dst : HWReg)
  | cmpArgCount (r : HWReg) (v : Nat)
  | cmpRegs (r1 r2 : HWReg)
  | bLo (lab : Nat)
  | ldurParam (dst : HWReg) (ofs : Int)
  | subFrame (dst : HWReg) (imm : Nat)
  | subFrameReg (dst : HWReg)
  | ldrInd (dst : HWReg)
deriving DecidableEq, Repr

/-- The "plain" instructions: ordinary data moves emitted by the binding
manager (allocation, spilling, synchronization).  Everything else is emitted
explicitly by exactly one place in one operation emitter. -/
def Instr.plain : Instr → Bool
  | .movReg _ _ => true
  | .strFrame _ _ => true
  | .ldrFrame _ _ => true
  | .movImm _ _ => true
  | .ldrRo _ _ => true
  | _ => false

/-- The whole state of the emitter (the mutable members of `Emitter` that the
modeled operations touch), together with the machine contents of registers and
frame memory and the ghost `latest` map described in the file header. -/
structure EmitState where
  nRegs : Nat
  frameRegs : Nat → FRState
  hwContains : RegClass → Nat → Option Nat
  regVal : RegClass → Nat → Nat
  frameVal : Nat → Nat
  latest : Nat → Nat
  gpTemp : TempRegAlloc
  vecTemp : TempRegAlloc
  emitted : List Instr
  slowPaths : List SlowPath
  nextLab : Nat
  roSize : Nat
  fp64ConstMap : List (Nat × Nat)
  thunkMap : List (Nat × Nat)
  thunks : List (Nat × Nat)
  roOfsReadPropertyCachePtr : Nat
  fatalFlag : Bool

/-- Point update of a two-argument function. -/
def upd2 {α : Type} (f : RegClass → Nat → α) (c : RegClass) (i : Nat) (v : α) :
    RegClass → Nat → α :=
  fun c2 i2 => if c2 = c ∧ i2 = i then v else f c2 i2

/-- Point update of a one-argument function. -/
def upd1 {α : Type} (f : Nat → α) (i : Nat) (v : α) : Nat → α :=
  fun i2 => if i2 = i then v else f i2

/-- The abstract 64-bit content currently in a hardware register. -/
def EmitState.rd (s : EmitState) (h : HWReg) : Nat :=
  match h with
  | .invalid => 0
  | .reg c i => s.regVal c i

def emitInstr (s : EmitState) (ins : Instr) : EmitState :=
  { s with emitted := s.emitted ++ [ins] }

def setReg (s : EmitState) (h : HWReg) (v : Nat) : EmitState :=
  match h with
  | .invalid => s
  | .reg c i => { s with regVal := upd2 s.regVal c i v }

def setFrame (s : EmitState) (fr : Nat) (v : Nat) : EmitState :=
  { s with frameVal := upd1 s.frameVal fr v }

def setFRState (s : EmitState) (fr : Nat) (f : FRState → FRState) : EmitState :=
  { s with frameRegs := upd1 s.frameRegs fr (f (s.frameRegs fr)) }

def clearContains (s : EmitState) (h : HWReg) : EmitState :=
  match h with
  | .invalid => s
  | .reg c i => { s with hwContains := upd2 s.hwContains c i none }

def getPool (s : EmitState) : RegClass → TempRegAlloc
  | .gp => s.gpTemp
  | .vec => s.vecTemp

def setPool (s : EmitState) (c : RegClass) (ra : TempRegAlloc) : EmitState :=
  match c with
  | .gp => { s with gpTemp := ra }
  | .vec => { s with vecTemp := ra }

/-- `Emitter::useReg`: record a use of a temporary register in its pool's LRU
order (the source also returns the register unchanged). -/
def useReg (s : EmitState) (h : HWReg) : EmitState :=
  match h with
  | .invalid => s
  | .reg .gp i => if isTempIdx .gp i then { s with gpTemp := s.gpTemp.use i } else s
  | .reg .vec i => if isTempIdx .vec i then { s with vecTemp := s.vecTemp.use i } else s

/-- `Emitter::movHWReg<use>`: emit a register-to-register move when the
registers differ (`fmov`/`mov` depending on the classes), and with `useFlag`
record uses of both registers. -/
def movHWReg (useFlag : Bool) (s : EmitState) (dst src : HWReg) : EmitState :=
  let s1 := if dst ≠ src then setReg (emitInstr s (.movReg dst src)) dst (s.rd src) else s
  if useFlag then useReg (useReg s1 src) dst else s1

/-- `Emitter::_storeFrame` (header): store a hardware register to the frame
slot of `fr`. -/
def _storeFrame (s : EmitState) (src : HWReg) (fr : Nat) : EmitState :=
  setFrame (emitInstr s (.strFrame src fr)) fr (s.rd src)

/-- `Emitter::_loadFrame` (header): load the frame slot of `fr` into a
hardware register. -/
def _loadFrame (s : EmitState) (dst : HWReg) (fr : Nat) : EmitState :=
  setReg (emitInstr s (.ldrFrame dst fr)) dst (s.frameVal fr)

/-- `Emitter::_storeHWRegToFrame`. -/
def _storeHWRegToFrame (s : EmitState) (fr : Nat) (src : HWReg) : EmitState :=
  setFRState (_storeFrame s src fr) fr (fun st => { st with frameUpToDate := true })

/-- `Emitter::freeReg`. -/
def freeReg (s : EmitState) (hwReg : HWReg) : EmitState :=
  match hwReg with
  | .invalid => s
  | .reg c i =>
    let frOpt := s.hwContains c i
    let s := { s with hwContains := upd2 s.hwContains c i none }
    let s :=
      match frOpt with
      | some fr =>
        setFRState s fr (fun st =>
          match c with
          | .gp => { st with localGpX := .invalid }
          | .vec => { st with localVecD := .invalid })
      | none => s
    match c with
    | .gp => if isTempIdx .gp i then { s with gpTemp := s.gpTemp.free i } else s
    | .vec => if isTempIdx .vec i then { s with vecTemp := s.vecTemp.free i } else s

/-- `Emitter::frUpdateType`. -/
def frUpdateType (s : EmitState) (fr : Nat) (t : FRType) : EmitState :=
  setFRState s fr (fun st => { st with localType := t })

/-- The binding update of `Emitter::frUpdatedWithHWReg` (everything except
the trailing optional `frUpdateType` call): declare that `hwReg` now holds the
authoritative value for `fr` (ghost: `latest fr` becomes the current content
of `hwReg`), mark the frame memory stale, update the up-to-date flags and free
the no-longer-needed local register(s). -/
def frUpdatedCore (s : EmitState) (fr : Nat) (hwReg : HWReg) : EmitState :=
  let s := { s with latest := upd1 s.latest fr (s.rd hwReg) }
  let s := setFRState s fr (fun st => { st with frameUpToDate := false })
  let frState := s.frameRegs fr
  if frState.globalReg = hwReg then
    let s := setFRState s fr (fun st => { st with globalRegUpToDate := true })
    let s := if (s.frameRegs fr).localGpX.isValid then freeReg s (s.frameRegs fr).localGpX else s
    let s := if (s.frameRegs fr).localVecD.isValid then freeReg s (s.frameRegs fr).localVecD else s
    s
  else
    let s := setFRState s fr (fun st => { st with globalRegUpToDate := false })
    if hwReg = (s.frameRegs fr).localGpX then freeReg s (s.frameRegs fr).localVecD
    else freeReg s (s.frameRegs fr).localGpX

/-- `Emitter::frUpdatedWithHWReg`: the binding update above followed by the
optional speculative-type update. -/
def frUpdatedWithHWReg (s : EmitState) (fr : Nat) (hwReg : HWReg)
    (localType : Option FRType) : EmitState :=
  match localType with
  | some t => frUpdateType (frUpdatedCore s fr hwReg) fr t
  | none => frUpdatedCore s fr hwReg

/-- The final step of `Emitter::spillTempReg`: clear whichever local binding
field of the FR's record refers to the spilled register. -/
def clearLocal (c : RegClass) (i : Nat) (st : FRState) : FRState :=
  if st.localGpX = .reg c i then { st with localGpX := .invalid }
  else if st.localVecD = .reg c i then { st with localVecD := .invalid }
  else st

/-- `Emitter::spillTempReg`: write a temporary register's value to its
authoritative fallback location (pinned register if present and stale, else
frame memory if stale) and release the binding (the pool slot itself is freed
by the caller). -/
def spillTempReg (s : EmitState) (toSpill : HWReg) : EmitState :=
  match toSpill with
  | .invalid => s
  | .reg c i =>
    match s.hwContains c i with
    | none => s
    | some fr =>
      let s := { s with hwContains := upd2 s.hwContains c i none }
      let frState := s.frameRegs fr
      let s :=
        if frState.globalReg.isValid then
          if !frState.globalRegUpToDate then
            let s := movHWReg false s frState.globalReg (.reg c i)
            setFRState s fr (fun st => { st with globalRegUpToDate := true })
          else s
        else
          if !frState.frameUpToDate then _storeHWRegToFrame s fr (.reg c i) else s
      setFRState s fr (clearLocal c i)

/-- `Emitter::isFRInRegister`: the register currently holding `fr`'s value,
preferring the local GpX, then the local VecD, then the global register
(recording a use of the local register returned). -/
def isFRInRegister (s : EmitState) (fr : Nat) : HWReg × EmitState :=
  let frState := s.frameRegs fr
  if frState.localGpX.isValid then (frState.localGpX, useReg s frState.localGpX)
  else if frState.localVecD.isValid then (frState.localVecD, useReg s frState.localVecD)
  else if frState.globalReg.isValid then (frState.globalReg, s)
  else (.invalid, s)

/-- `Emitter::syncToMem`: if the frame slot is stale, store the FR's current
register (refreshing a stale global register first) and mark it up to date. -/
def syncToMem (s : EmitState) (fr : Nat) : EmitState :=
  if (s.frameRegs fr).frameUpToDate then s
  else
    let p := isFRInRegister s fr
    let hwReg := p.1
    let s := p.2
    let frState := s.frameRegs fr
    let s :=
      if frState.globalReg.isValid && !frState.globalRegUpToDate then
        let s := movHWReg false s frState.globalReg hwReg
        setFRState s fr (fun st => { st with globalRegUpToDate := true })
      else s
    _storeHWRegToFrame s fr hwReg

/-- `Emitter::syncAndFreeTempReg`. -/
def syncAndFreeTempReg (s : EmitState) (hwReg : HWReg) : EmitState :=
  match hwReg with
  | .invalid => s
  | .reg c i =>
    if isTempIdx c i && (s.hwContains c i).isSome then
      freeReg (spillTempReg s (.reg c i)) (.reg c i)
    else s

def tempRangeList (p : Nat × Nat) : List Nat := List.range' p.1 (p.2 + 1 - p.1)

/-- One iteration of the GP loop of `Emitter::syncAllTempExcept`. -/
def syncTempGpStep (exceptFR : Option Nat) (s : EmitState) (i : Nat) : EmitState :=
  match s.hwContains .gp i with
  | none => s
  | some fr =>
    if exceptFR = some fr then s
    else
      let frState := s.frameRegs fr
      if frState.globalReg.isValid then
        if !frState.globalRegUpToDate then
          let s := movHWReg false s frState.globalReg (.reg .gp i)
          setFRState s fr (fun st => { st with globalRegUpToDate := true })
        else s
      else
        if !frState.frameUpToDate then _storeHWRegToFrame s fr (.reg .gp i) else s

/-- One iteration of the Vec loop of `Emitter::syncAllTempExcept` (skips an FR
that also has a local GpX, which the GP loop already synced). -/
def syncTempVecStep (exceptFR : Option Nat) (s : EmitState) (i : Nat) : EmitState :=
  match s.hwContains .vec i with
  | none => s
  | some fr =>
    if exceptFR = some fr then s
    else
      let frState := s.frameRegs fr
      if frState.localGpX.isValid then s
      else if frState.globalReg.isValid then
        if !frState.globalRegUpToDate then
          let s := movHWReg false s frState.globalReg (.reg .vec i)
          setFRState s fr (fun st => { st with globalRegUpToDate := true })
        else s
      else
        if !frState.frameUpToDate then _storeHWRegToFrame s fr (.reg .vec i) else s

/-- `Emitter::syncAllTempExcept`: make sure the value of every FR currently
bound to a temporary register (other than `exceptFR`) is also present in its
global register or frame memory. -/
def syncAllTempExcept (s : EmitState) (exceptFR : Option Nat) : EmitState :=
  let s := (tempRangeList kGPTemp).foldl (fun s i => syncTempGpStep exceptFR s i) s
  (tempRangeList kVecTemp).foldl (fun s i => syncTempVecStep exceptFR s i) s

/-- `Emitter::freeFRTemp`: drop both temporary bindings of `fr` (without
synchronizing). -/
def freeFRTemp (s : EmitState) (fr : Nat) : EmitState :=
  let st := s.frameRegs fr
  let s :=
    if st.localGpX.isValid then
      let s := clearContains s st.localGpX
      let s := { s with gpTemp := s.gpTemp.free st.localGpX.indexInClass }
      setFRState s fr (fun st2 => { st2 with localGpX := .invalid })
    else s
  let st2 := s.frameRegs fr
  if st2.localVecD.isValid then
    let s := clearContains s st2.localVecD
    let s := { s with vecTemp := s.vecTemp.free st2.localVecD.indexInClass }
    setFRState s fr (fun st3 => { st3 with localVecD := .invalid })
  else s

/-- One iteration of a loop of `Emitter::freeAllTempExcept`. -/
def freeAllStep (c : RegClass) (exceptFR : Option Nat) (s : EmitState) (i : Nat) :
    EmitState :=
  match s.hwContains c i with
  | none => s
  | some fr => if exceptFR = some fr then s else freeFRTemp s fr

/-- `Emitter::freeAllTempExcept`. -/
def freeAllTempExcept (s : EmitState) (exceptFR : Option Nat) : EmitState :=
  let s := (tempRangeList kGPTemp).foldl (fun s i => freeAllStep .gp exceptFR s i) s
  (tempRangeList kVecTemp).foldl (fun s i => freeAllStep .vec exceptFR s i) s

/-- `Emitter::assignAllocatedLocalHWReg`. -/
def assignAllocatedLocalHWReg (s : EmitState) (fr : Nat) (hwReg : HWReg) : EmitState :=
  match hwReg with
  | .invalid => s
  | .reg c i =>
    let s := { s with hwContains := upd2 s.hwContains c i (some fr) }
    setFRState s fr (fun st =>
      match c with
      | .gp => { st with localGpX := .reg c i }
      | .vec => { st with localVecD := .reg c i })

/-- `Emitter::_allocTemp<TAG>`: allocate from the class's temporary pool; on
exhaustion spill exactly one register — the preferred one if a preference was
given, otherwise the least-recently-used one — then allocate again. -/
def _allocTemp (s : EmitState) (c : RegClass) (preferred : Option HWReg) :
    HWReg × EmitState :=
  let pr : Option Nat := preferred.map HWReg.indexInClass
  match (getPool s c).alloc pr with
  | (some r, ra) => (HWReg.reg c r, setPool s c ra)
  | (none, _) =>
    let index := match pr with
      | some p => p
      | none => (getPool s c).leastRecentlyUsed
    let s := spillTempReg s (.reg c index)
    let s := setPool s c ((getPool s c).free index)
    let p2 := (getPool s c).alloc none
    (HWReg.reg c (p2.1.getD index), setPool s c p2.2)

/-- `Emitter::allocTempGpX` (header). -/
def allocTempGpX (s : EmitState) : HWReg × EmitState := _allocTemp s .gp none

/-- `Emitter::allocTempVecD` (header). -/
def allocTempVecD (s : EmitState) : HWReg × EmitState := _allocTemp s .vec none

/-- `Emitter::getOrAllocFRInVecD`. -/
def getOrAllocFRInVecD (s : EmitState) (fr : Nat) (load : Bool) :
    HWReg × EmitState :=
  let frState := s.frameRegs fr
  if frState.localVecD.isValid then (frState.localVecD, useReg s frState.localVecD)
  else if frState.globalReg.isValidVecD then
    if load && !frState.globalRegUpToDate then
      let s := movHWReg true s frState.globalReg frState.localGpX
      (frState.globalReg, setFRState s fr (fun st => { st with globalRegUpToDate := true }))
    else (frState.globalReg, s)
  else
    let p := allocTempVecD s
    let hwVecD := p.1
    let s := assignAllocatedLocalHWReg p.2 fr hwVecD
    if load then
      let st := s.frameRegs fr
      if st.localGpX.isValid then (hwVecD, movHWReg false s hwVecD st.localGpX)
      else if st.globalReg.isValidGpX then (hwVecD, movHWReg false s hwVecD st.globalReg)
      else
        let s := _loadFrame s hwVecD fr
        (hwVecD, setFRState s fr (fun st2 => { st2 with frameUpToDate := true }))
    else (hwVecD, s)

/-- `Emitter::getOrAllocFRInGpX`. -/
def getOrAllocFRInGpX (s : EmitState) (fr : Nat) (load : Bool) :
    HWReg × EmitState :=
  let frState := s.frameRegs fr
  if frState.localGpX.isValid then (frState.localGpX, useReg s frState.localGpX)
  else if frState.globalReg.isValidGpX then
    if load && !frState.globalRegUpToDate then
      let s := movHWReg true s frState.globalReg frState.localVecD
      (frState.globalReg, setFRState s fr (fun st => { st with globalRegUpToDate := true }))
    else (frState.globalReg, s)
  else
    let p := allocTempGpX s
    let hwGpX := p.1
    let s := assignAllocatedLocalHWReg p.2 fr hwGpX
    if load then
      let st := s.frameRegs fr
      if st.localVecD.isValid then (hwGpX, movHWReg false s hwGpX st.localVecD)
      else if st.globalReg.isValidVecD then (hwGpX, movHWReg false s hwGpX st.globalReg)
      else
        let s := _loadFrame s hwGpX fr
        (hwGpX, setFRState s fr (fun st2 => { st2 with frameUpToDate := true }))
    else (hwGpX, s)

/-- `Emitter::getOrAllocFRInAnyReg` (the `preferred` argument is accepted but,
as in the source, not passed on to the allocation). -/
def getOrAllocFRInAnyReg (s : EmitState) (fr : Nat) (load : Bool)
    (preferred : Option HWReg) : HWReg × EmitState :=
  let p0 := isFRInRegister s fr
  if p0.1.isValid then p0
  else
    let _pref := match preferred with
      | some h => if !h.isGpX then (none : Option HWReg) else some h
      | none => none
    let p := allocTempGpX s
    let hwGpX := p.1
    let s := assignAllocatedLocalHWReg p.2 fr hwGpX
    if load then
      let s := _loadFrame s hwGpX fr
      (hwGpX, setFRState s fr (fun st => { st with frameUpToDate := true }))
    else (hwGpX, s)

/-- `Emitter::movHWFromFR`: load `src`'s current value into `hwRes` from its
best current location. -/
def movHWFromFR (s : EmitState) (hwRes : HWReg) (src : Nat) : EmitState :=
  let frState := s.frameRegs src
  if frState.localGpX.isValid then movHWReg true s hwRes frState.localGpX
  else if frState.localVecD.isValid then movHWReg true s hwRes frState.localVecD
  else if frState.globalReg.isValid && frState.globalRegUpToDate then
    movHWReg true s hwRes frState.globalReg
  else _loadFrame (useReg s hwRes) hwRes src

/-- `Emitter::movFRFromHW`: move a value into `dst`'s local or global register
(declaring it authoritative), or store it directly to the frame when `dst` has
no register (ghost: `latest dst` becomes the content of `src`). -/
def movFRFromHW (s : EmitState) (dst : Nat) (src : HWReg) (type : Option FRType) :
    EmitState :=
  let frState := s.frameRegs dst
  if frState.localGpX.isValid then
    let s := movHWReg false s frState.localGpX src
    frUpdatedWithHWReg s dst frState.localGpX type
  else if frState.localVecD.isValid then
    let s := movHWReg false s frState.localVecD src
    frUpdatedWithHWReg s dst frState.localVecD type
  else if frState.globalReg.isValid then
    let s := movHWReg false s frState.globalReg src
    frUpdatedWithHWReg s dst frState.globalReg type
  else
    let s := { s with latest := upd1 s.latest dst (s.rd src) }
    let s := _storeHWRegToFrame s dst src
    let s := match type with
      | some t => frUpdateType s dst t
      | none => s
    setFRState s dst (fun st => { st with frameUpToDate := true })

/-- `Emitter::newBasicBlock`: synchronize and drop all temporaries, reset
every FR's speculative `localType` to its persistent `globalType`, and bind
the block label. -/
def newBasicBlock (s : EmitState) (label : Nat) : EmitState :=
  let s := syncAllTempExcept s none
  let s := freeAllTempExcept s none
  let s := { s with frameRegs := fun i =>
    if i < s.nRegs then
      { s.frameRegs i with localType := (s.frameRegs i).globalType }
    else s.frameRegs i }
  emitInstr s (.bindLab label)

/-- `Emitter::mov`: register move between frame registers (the `logComment`
argument only controls logging in the source and has no semantic effect). -/
def mov (s : EmitState) (frRes frInput : Nat) (logComment : Bool) : EmitState :=
  if frRes = frInput then s
  else
    let p1 := getOrAllocFRInAnyReg s frInput true none
    let hwInput := p1.1
    let p2 := getOrAllocFRInAnyReg p1.2 frRes false none
    let hwDest := p2.1
    let s := p2.2
    let s := movHWReg false s hwDest hwInput
    frUpdatedWithHWReg s frRes hwDest (some ((s.frameRegs frInput).localType))

/-! ### Read-only data pool, thunks, and helper calls -/

/-- `Emitter::reserveData` (the `INT32_MAX` overflow check raises the fatal
flag): align the current pool size and grow it, returning the data offset. -/
def reserveData (s : EmitState) (dsize align : Nat) : Nat × EmitState :=
  let dataOfs := ((s.roSize + align - 1) / align) * align
  if dataOfs ≥ 2147483647 then (dataOfs, { s with fatalFlag := true })
  else (dataOfs, { s with roSize := dataOfs + dsize })

/-- `Emitter::uint64Const`: intern a 64-bit constant in RO data, deduplicating
by bit pattern. -/
def uint64Const (s : EmitState) (bits : Nat) : Nat × EmitState :=
  match (s.fp64ConstMap.lookup bits : Option Nat) with
  | some ofs => (ofs, s)
  | none =>
    let p := reserveData s 8 8
    let dataOfs := p.1
    (dataOfs, { p.2 with fp64ConstMap := p.2.fp64ConstMap ++ [(bits, dataOfs)] })

/-- `Emitter::registerCall`: intern a thunk for an external function pointer,
deduplicating by address; returns the thunk's label. -/
def registerCall (s : EmitState) (fn : Nat) : Nat × EmitState :=
  match (s.thunkMap.lookup fn : Option Nat) with
  | some idx => (((s.thunks.get? idx).map Prod.fst).getD 0, s)
  | none =>
    let idx := s.thunks.length
    let p := reserveData s 8 8
    let dataOfs := p.1
    let s := p.2
    let lab := s.nextLab
    let s := { s with
      nextLab := s.nextLab + 1,
      thunkMap := s.thunkMap ++ [(fn, idx)],
      thunks := s.thunks ++ [(lab, dataOfs)] }
    (((s.thunks.get? idx).map Prod.fst).getD 0, s)

/-- The emitter state after a `registerCall` miss (used to state the
deduplication theorem; matches the miss branch of `registerCall`). -/
def registerCallMissState (s : EmitState) (fn : Nat) : EmitState :=
  { (reserveData s 8 8).2 with
      nextLab := (reserveData s 8 8).2.nextLab + 1
      thunkMap := (reserveData s 8 8).2.thunkMap ++ [(fn, s.thunks.length)]
      thunks := (reserveData s 8 8).2.thunks ++
        [((reserveData s 8 8).2.nextLab, (reserveData s 8 8).1)] }

/-- `Emitter::call(void*, const char*)`: `bl` to the function's (deduplicated)
thunk. -/
def callFn (s : EmitState) (fn : Nat) : EmitState :=
  let p := registerCall s fn
  emitInstr p.2 (.callHelper fn)

/-- `isCheapConst` from the source: at most two non-zero 16-bit words. -/
def isCheapConst (k : Nat) : Bool :=
  decide (((List.range 4).countP fun w => decide ((k >>> (16 * w)) % 65536 ≠ 0)) ≤ 2)

/-- `Emitter::loadBits64InGp`: load a 64-bit constant either with a cheap
`mov` immediate sequence or from the RO-data pool. -/
def loadBits64InGp (s : EmitState) (dest : HWReg) (bits : Nat) : EmitState :=
  if isCheapConst bits then setReg (emitInstr s (.movImm dest bits)) dest bits
  else
    let p := uint64Const s bits
    setReg (emitInstr p.2 (.ldrRo dest p.1)) dest bits

/-- `Emitter::loadConstBits64`. -/
def loadConstBits64 (s : EmitState) (frRes : Nat) (bits : Nat) (type : FRType) :
    EmitState :=
  let p := getOrAllocFRInGpX s frRes false
  let hwRes := p.1
  let s := loadBits64InGp p.2 hwRes bits
  frUpdatedWithHWReg s frRes hwRes (some type)

/-! ### ABI-argument setup helpers

The fixed registers are x19 = `xRuntime`, x20 = `xFrame` (their contents are
read from the register file, mirroring `a.mov(x0, xRuntime)` etc.). -/

def emitMovRuntimeArg (s : EmitState) (dst : Nat) : EmitState :=
  setReg (emitInstr s (.movRuntimeArg dst)) (.reg .gp dst) (s.regVal .gp 19)

def emitMovFrameArg (s : EmitState) (dst : Nat) : EmitState :=
  setReg (emitInstr s (.movFrameArg dst)) (.reg .gp dst) (s.regVal .gp 20)

def emitMovImmArg (s : EmitState) (dst v : Nat) : EmitState :=
  setReg (emitInstr s (.movImmArg dst v)) (.reg .gp dst) v

/-- `Emitter::loadFrameAddr` into an argument register (`mov` for FR 0, `add`
otherwise; one instruction either way, value `xFrame + fr * 8`). -/
def emitFrameAddrArg (s : EmitState) (dst fr : Nat) : EmitState :=
  setReg (emitInstr s (.frameAddrArg dst fr)) (.reg .gp dst) (s.regVal .gp 20 + fr * 8)

/-- Load the property-cache pointer from RO data into an argument register
(the loaded pointer value itself is outside the modeled memory, so the
register content is abstracted as 0). -/
def emitLdrRoArg (s : EmitState) (dst ofs : Nat) : EmitState :=
  setReg (emitInstr s (.ldrRoArg dst ofs)) (.reg .gp dst) 0

def emitAddImmArg (s : EmitState) (dst v : Nat) : EmitState :=
  setReg (emitInstr s (.addImmArg dst v)) (.reg .gp dst) (s.regVal .gp dst + v)

/-! ### External constants

These mirror values defined outside the given sources (VM headers /
`StackFrameLayout.h`), modelled from the spec. -/

/-- Modelled from the spec: `StackFrameLayout::ArgCount`. -/
def SFLArgCount : Int := -5

/-- Modelled from the spec: `StackFrameLayout::NewTarget`. -/
def SFLNewTarget : Int := -6

/-- Modelled from the spec: `StackFrameLayout::CalleeClosureOrCB`. -/
def SFLCalleeClosureOrCB : Int := -7

/-- Modelled from the spec: `StackFrameLayout::ThisArg`. -/
def SFLThisArg : Int := -8

/-- Modelled from the spec: the tagged `undefined` value
(`_sh_ljs_undefined().raw`, defined by the external VM headers; the claims
use it only as a distinguished bit pattern). -/
def undefinedRaw : Nat := 0xfff4000000000000

/-- Modelled from the spec: `hbc::PROPERTY_CACHING_DISABLED` (external
front-end constant; a distinguished sentinel cache index). -/
def PROPERTY_CACHING_DISABLED : Nat := 255

/-- Modelled from the spec: `sizeof(SHPropertyCacheEntry)` (external VM
header). -/
def sizeofPropertyCacheEntry : Nat := 16

/-- Helper id for `_sh_ljs_call`. -/
def shLjsCall : Nat := 1

/-- Helper id for `_sh_ljs_store_to_env`. -/
def shLjsStoreToEnv : Nat := 2

/-- Helper id for `_sh_ljs_store_np_to_env`. -/
def shLjsStoreNPToEnv : Nat := 3

/-- `Emitter::isFRKnownNumber` (header): the FR's speculative local type is
statically `Number`. -/
def isFRKnownNumber (s : EmitState) (fr : Nat) : Bool :=
  (s.frameRegs fr).localType = FRType.Number

/-! ### Operation emitters the claims are about -/

/-- `Emitter::arithBinOp`: the binary-arithmetic template.  `fastTag`
identifies the fast vector instruction, `slowCallId` the generic polymorphic
helper.  The fast instruction's value effect is abstracted by
`fastArithVal`. -/
def fastArithVal (tag l r : Nat) : Nat := tag + 2 * l + 3 * r

def arithBinOp (s0 : EmitState) (forceNumber : Bool)
    (frRes frLeft frRight : Nat) (fastTag slowCallId : Nat) : EmitState :=
  let q :=
    if forceNumber then
      let s := frUpdateType s0 frLeft .Number
      let s := frUpdateType s frRight .Number
      ((true, true, false), s)
    else
      ((isFRKnownNumber s0 frLeft, isFRKnownNumber s0 frRight,
        !(isFRKnownNumber s0 frRight && isFRKnownNumber s0 frLeft)), s0)
  let leftIsNum := q.1.1
  let rightIsNum := q.1.2.1
  let slow := q.1.2.2
  let s := q.2
  let slowPathLab := s.nextLab
  let contLab := s.nextLab + 1
  let s := if slow then { s with nextLab := s.nextLab + 2 } else s
  let s :=
    if slow then
      let s := syncAllTempExcept s
        (if frRes ≠ frLeft ∧ frRes ≠ frRight then some frRes else none)
      let s := syncToMem s frLeft
      syncToMem s frRight
    else s
  let pl :=
    if leftIsNum then getOrAllocFRInVecD s frLeft true
    else
      let p := getOrAllocFRInGpX s frLeft true
      (p.1, emitInstr p.2 (.guard p.1 slowPathLab))
  let hwLeft0 := pl.1
  let s := pl.2
  let pr :=
    if rightIsNum then getOrAllocFRInVecD s frRight true
    else
      let p := getOrAllocFRInGpX s frRight true
      (p.1, emitInstr p.2 (.guard p.1 slowPathLab))
  let hwRight0 := pr.1
  let s := pr.2
  let pl2 := if !leftIsNum then getOrAllocFRInVecD s frLeft true else (hwLeft0, s)
  let hwLeft := pl2.1
  let s := pl2.2
  let pr2 := if !rightIsNum then getOrAllocFRInVecD s frRight true else (hwRight0, s)
  let hwRight := pr2.1
  let s := pr2.2
  let pres := getOrAllocFRInVecD s frRes false
  let hwRes := pres.1
  let s := pres.2
  let s := setReg (emitInstr s (.fastArith fastTag hwRes hwLeft hwRight)) hwRes
    (fastArithVal fastTag (s.rd hwLeft) (s.rd hwRight))
  let s := frUpdatedWithHWReg s frRes hwRes
    (if !slow then some FRType.Number else none)
  if !slow then s
  else
    let s := freeAllTempExcept s (some frRes)
    let s := emitInstr s (.bindLab contLab)
    { s with slowPaths := s.slowPaths ++
        [{ slowPathLab := slowPathLab, contLab := contLab, frRes := frRes,
           frInput1 := frLeft, frInput2 := frRight, hwRes := hwRes,
           slowCall := slowCallId }] }

/-- 32-bit truncation (for `w` registers). -/
def w32 (n : Nat) : Nat := n % 4294967296

/-- The part of `Emitter::call` before the `bl` to `_sh_ljs_call`: place the
callee and new-target, synchronize all outgoing slots, drop temporaries, and
set up the helper arguments.  The state this returns is the state in effect at
the emitted call instruction. -/
def callPre (s : EmitState) (frCallee : Nat) (argc : Nat) : EmitState :=
  let nRegs := s.nRegs
  let s := syncAllTempExcept s none
  let calleeFrameArg := ((nRegs : Int) + SFLCalleeClosureOrCB).toNat
  let s :=
    if frCallee ≠ calleeFrameArg then
      let s := freeFRTemp s calleeFrameArg
      let p := getOrAllocFRInAnyReg s frCallee true none
      movFRFromHW p.2 calleeFrameArg p.1 (some ((p.2.frameRegs frCallee).localType))
    else s
  let ntFrameArg := ((nRegs : Int) + SFLNewTarget).toNat
  let s := loadConstBits64 s ntFrameArg undefinedRaw FRType.Unknown
  let s := syncToMem s calleeFrameArg
  let s := syncToMem s ntFrameArg
  let s := (List.range argc).foldl
    (fun s (i : Nat) => syncToMem s (((nRegs : Int) + SFLThisArg - (i : Int)).toNat)) s
  let s := freeAllTempExcept s none
  let s := emitMovRuntimeArg s 0
  let s := emitMovFrameArg s 1
  emitMovImmArg s 2 (w32 (argc + 4294967295))

/-- `Emitter::call(FR, FR, uint32_t)`. -/
def call (s : EmitState) (frRes frCallee : Nat) (argc : Nat) : EmitState :=
  let s := callPre s frCallee argc
  let s := callFn s shLjsCall
  let p := getOrAllocFRInAnyReg s frRes false (some (.reg .gp 0))
  let hwRes := p.1
  let s := movHWReg false p.2 hwRes (.reg .gp 0)
  frUpdatedWithHWReg s frRes hwRes none

/-- The part of `Emitter::getByIdImpl` before the call to the property-get
helper: the sync pass and the helper-argument setup.  The state this returns
is the state in effect at the emitted call instruction. -/
def getByIdImplPre (s : EmitState) (frRes symID frSource cacheIdx : Nat) :
    EmitState :=
  let s := syncAllTempExcept s (if frRes ≠ frSource then some frRes else none)
  let s := syncToMem s frSource
  let s := freeAllTempExcept s none
  let s := emitMovRuntimeArg s 0
  let s := emitFrameAddrArg s 1 frSource
  let s := emitMovImmArg s 2 symID
  if cacheIdx = PROPERTY_CACHING_DISABLED then emitMovImmArg s 3 0
  else
    let s := emitLdrRoArg s 3 s.roOfsReadPropertyCachePtr
    if cacheIdx ≠ 0 then emitAddImmArg s 3 (sizeofPropertyCacheEntry * cacheIdx) else s

/-- `Emitter::getByIdImpl` (`shImplId` identifies the external helper passed
in by the caller). -/
def getByIdImpl (s : EmitState) (frRes symID frSource cacheIdx shImplId : Nat) :
    EmitState :=
  let s := getByIdImplPre s frRes symID frSource cacheIdx
  let s := callFn s shImplId
  let p := getOrAllocFRInAnyReg s frRes false (some (.reg .gp 0))
  let hwRes := p.1
  let s := movHWReg false p.2 hwRes (.reg .gp 0)
  let s := frUpdatedWithHWReg s frRes hwRes none
  freeAllTempExcept s (some frRes)

/-- The part of `Emitter::storeToEnvironment` before the call to the helper:
free the argument registers, sync all temporaries, and populate the
arguments.  The state this returns is the state in effect at the emitted call
instruction. -/
def storeToEnvironmentPre (s : EmitState) (frEnv slot frValue : Nat) : EmitState :=
  let s := syncAndFreeTempReg s (.reg .gp 0)
  let s := syncAndFreeTempReg s (.reg .gp 1)
  let s := syncAndFreeTempReg s (.reg .gp 2)
  let s := syncAndFreeTempReg s (.reg .gp 3)
  let s := syncAllTempExcept s none
  let s := emitMovRuntimeArg s 0
  let s := movHWFromFR s (.reg .gp 1) frEnv
  let s := movHWFromFR s (.reg .gp 2) frValue
  emitMovImmArg s 3 slot

/-- `Emitter::storeToEnvironment`. -/
def storeToEnvironment (s : EmitState) (np : Bool) (frEnv slot frValue : Nat) :
    EmitState :=
  let s := storeToEnvironmentPre s frEnv slot frValue
  let s := callFn s (if np then shLjsStoreNPToEnv else shLjsStoreToEnv)
  freeAllTempExcept s none

/-! ### Error handling (`OurErrorHandler`, `loadParam`) -/

/-- What the error handler decides to do with an encoder error. -/
inductive ErrAction
  | ignored
  | fatal
deriving DecidableEq, Repr

/-- `OurErrorHandler::handleError`: an error matching the expected error code
is ignored (the emitter then locally recovers); anything else aborts via
`hermes_fatal`. -/
def handleError (expectedError err : Nat) : ErrAction :=
  if err = expectedError then .ignored else .fatal

/-- Whether an ARM64 `cmp` with this unsigned immediate can be encoded
(12 bits, optionally shifted left by 12). -/
def cmpImmEncodable (imm : Nat) : Bool :=
  decide (imm < 4096) || (decide (imm % 4096 = 0) && decide (imm < 16777216))

/-- The value of a `uint32_t` reinterpreted as a signed 32-bit `int`. -/
def int32ofUInt32 (n : Nat) : Int :=
  if n < 2147483648 then (n : Int) else (n : Int) - 4294967296

/-- `Emitter::loadParam`: guarded load of a call argument, with local recovery
from the two expected encoder range errors (immediate too large for the
12-bit compare; displacement too large for the 9-bit `ldur` offset).  Values
loaded from the enclosing frame lie outside the modeled frame slots and are
abstracted as 0. -/
def loadParam (s : EmitState) (frRes paramIndex : Nat) : EmitState :=
  let slowPathLab := s.nextLab
  let contLab := s.nextLab + 1
  let s := { s with nextLab := s.nextLab + 2 }
  let p0 := allocTempGpX s
  let hwTmp := p0.1
  let s := setReg (emitInstr p0.2 (.ldurArgCount hwTmp)) hwTmp 0
  let s :=
    if cmpImmEncodable paramIndex then emitInstr s (.cmpArgCount hwTmp paramIndex)
    else
      let p1 := allocTempGpX s
      let hwTmp2 := p1.1
      let s := loadBits64InGp p1.2 hwTmp2 paramIndex
      let s := emitInstr s (.cmpRegs hwTmp hwTmp2)
      freeReg s hwTmp2
  let s := emitInstr s (.bLo slowPathLab)
  let s := freeReg s hwTmp
  let p2 := getOrAllocFRInGpX s frRes false
  let hwRes := p2.1
  let s := p2.2
  let ofs : Int := (SFLThisArg - int32ofUInt32 paramIndex) * 8
  if ofs ≥ 0 then { s with fatalFlag := true }
  else
    let s :=
      if -256 ≤ ofs ∧ ofs ≤ 255 then
        setReg (emitInstr s (.ldurParam hwRes ofs)) hwRes 0
      else
        let ofs2 := (-ofs).toNat
        let s :=
          if ofs2 ≤ 4095 then emitInstr s (.subFrame hwRes ofs2)
          else
            let s := loadBits64InGp s hwRes ofs2
            emitInstr s (.subFrameReg hwRes)
        setReg (emitInstr s (.ldrInd hwRes)) hwRes 0
    let s := emitInstr s (.bindLab contLab)
    let s := frUpdatedWithHWReg s frRes hwRes none
    { s with slowPaths := s.slowPaths ++
        [{ slowPathLab := slowPathLab, contLab := contLab, frRes := frRes,
           hwRes := hwRes }] }

/-- Erase the register operands of an instruction (used to state theorems
about the shape of an emitted sequence without naming allocator-chosen
registers). -/
def stripRegs : Instr → Instr
  | .guard _ lab => .guard .invalid lab
  | .fastArith t _ _ _ => .fastArith t .invalid .invalid .invalid
  | .ldurArgCount _ => .ldurArgCount .invalid
  | .cmpArgCount _ v => .cmpArgCount .invalid v
  | .cmpRegs _ _ => .cmpRegs .invalid .invalid
  | .ldurParam _ o => .ldurParam .invalid o
  | .subFrame _ i => .subFrame .invalid i
  | .subFrameReg _ => .subFrameReg .invalid
  | .ldrInd _ => .ldrInd .invalid
  | x => x

/-- The sequence of non-"plain" instructions emitted so far, with register
operands erased: the operation-level skeleton of the emitted code.  Register
moves, loads and stores produced by the allocator are filtered out, so this
captures exactly the guards, fast instructions, argument setup, calls, and
label binds. -/
def trace (s : EmitState) : List Instr :=
  (s.emitted.filter fun x => !x.plain).map stripRegs

/-- Erase the allocator-chosen result register of a slow-path record (used to
state theorems about the queue without naming that register). -/
def stripSP (sp : SlowPath) : SlowPath := { sp with hwRes := .invalid }

/-! ### The binding-consistency invariant and well-formedness -/

/-- Value-level binding consistency for one frame register: every location
whose up-to-date flag is set holds the FR's latest value, at least one
location is authoritative, and a stale global register implies a local
register exists (the invariant asserted by `syncToMem` and
`getOrAllocFRIn...`). -/
def FRInv (s : EmitState) (fr : Nat) : Prop :=
  ((s.frameRegs fr).localGpX.isValid = true →
    s.rd (s.frameRegs fr).localGpX = s.latest fr) ∧
  ((s.frameRegs fr).localVecD.isValid = true →
    s.rd (s.frameRegs fr).localVecD = s.latest fr) ∧
  ((s.frameRegs fr).globalReg.isValid = true →
    (s.frameRegs fr).globalRegUpToDate = true →
    s.rd (s.frameRegs fr).globalReg = s.latest fr) ∧
  ((s.frameRegs fr).frameUpToDate = true → s.frameVal fr = s.latest fr) ∧
  ((s.frameRegs fr).localGpX.isValid = true ∨
    (s.frameRegs fr).localVecD.isValid = true ∨
    ((s.frameRegs fr).globalReg.isValid = true ∧
      (s.frameRegs fr).globalRegUpToDate = true) ∨
    (s.frameRegs fr).frameUpToDate = true) ∧
  ((s.frameRegs fr).globalReg.isValid = true →
    (s.frameRegs fr).globalRegUpToDate = false →
    (s.frameRegs fr).localGpX.isValid = true ∨
      (s.frameRegs fr).localVecD.isValid = true)

/-- A local binding field is either invalid or a temporary register of the
right class whose hardware-register record points back at `fr`. -/
def localBindingOK (s : EmitState) (c : RegClass) (h : HWReg) (fr : Nat) : Bool :=
  match h with
  | .invalid => true
  | .reg c2 i => c2 = c && isTempIdx c i && s.hwContains c i == some fr

/-- Well-formedness of one FR's binding record. -/
def WFfr (s : EmitState) (fr : Nat) : Bool :=
  localBindingOK s .gp (s.frameRegs fr).localGpX fr &&
  localBindingOK s .vec (s.frameRegs fr).localVecD fr &&
  (match (s.frameRegs fr).globalReg with
   | .invalid => true
   | .reg c i => isSavedIdx c i)

/-- Well-formedness of one hardware-register record: if it is owned, the
owner is a valid FR whose matching local field points back at it. -/
def WFcontains (s : EmitState) (c : RegClass) (i : Nat) : Bool :=
  match s.hwContains c i with
  | none => true
  | some fr =>
    decide (fr < s.nRegs) &&
    (match c with
     | .gp => (s.frameRegs fr).localGpX == HWReg.reg .gp i
     | .vec => (s.frameRegs fr).localVecD == HWReg.reg .vec i)

/-- Distinct FRs have distinct (valid) pinned registers. -/
def WFglobalsDisjoint (s : EmitState) : Prop :=
  ∀ fr1, fr1 < s.nRegs → ∀ fr2, fr2 < s.nRegs → fr1 ≠ fr2 →
    (s.frameRegs fr1).globalReg.isValid = true →
    (s.frameRegs fr1).globalReg ≠ (s.frameRegs fr2).globalReg

/-- Registers on a pool's free list are temporaries of the pool's class and
are unowned. -/
def WFpool (s : EmitState) (c : RegClass) : Prop :=
  ∀ i ∈ (getPool s c).freeList, isTempIdx c i = true ∧ s.hwContains c i = none

/-- Well-formedness of the whole binding state.  (All temporary indices are
below 16, so the hardware-register records are quantified over that range.) -/
def WF (s : EmitState) : Prop :=
  (∀ fr, fr < s.nRegs → WFfr s fr = true) ∧
  (∀ i, i < 16 → WFcontains s .gp i = true ∧ WFcontains s .vec i = true) ∧
  WFglobalsDisjoint s ∧ WFpool s .gp ∧ WFpool s .vec

/-- The full invariant: well-formed, and every FR consistent. -/
def Good (s : EmitState) : Prop :=
  WF s ∧ ∀ fr, fr < s.nRegs → FRInv s fr

/-- The invariant with one FR exempted from value consistency (the state in
the middle of overwriting that FR). -/
def GoodX (s : EmitState) (x : Nat) : Prop :=
  WF s ∧ ∀ fr, fr < s.nRegs → fr ≠ x → FRInv s fr

/-- `fr` is currently bound to at least one temporary register. -/
def tempBound (s : EmitState) (fr : Nat) : Bool :=
  (s.frameRegs fr).localGpX.isValid || (s.frameRegs fr).localVecD.isValid

/-- `fr`'s value is also available outside its temporary registers. -/
def syncedElsewhere (s : EmitState) (fr : Nat) : Prop :=
  ((s.frameRegs fr).globalReg.isValid = true ∧
    (s.frameRegs fr).globalRegUpToDate = true) ∨
  (s.frameRegs fr).frameUpToDate = true

/-- Every temp-bound FR outside `xs` is synced elsewhere. -/
def TempsSynced (s : EmitState) (xs : List Nat) : Prop :=
  ∀ fr, fr < s.nRegs → fr ∉ xs → tempBound s fr = true → syncedElsewhere s fr

/-- `fr`'s latest value is present in frame memory or in its (up-to-date)
pinned register — the property required at an external-call instruction. -/
def valueInMemOrGlobal (s : EmitState) (fr : Nat) : Prop :=
  ((s.frameRegs fr).frameUpToDate = true ∧ s.frameVal fr = s.latest fr) ∨
  ((s.frameRegs fr).globalReg.isValid = true ∧
    (s.frameRegs fr).globalRegUpToDate = true ∧
    s.rd (s.frameRegs fr).globalReg = s.latest fr)

/-- `fr`'s post-sync condition: its value is synced elsewhere and its pinned
register, if any, is up to date — what `syncAllTempExcept` establishes for the
FRs it visits and what `freeFRTemp` requires to drop the temporaries. -/
def frSyncReady (s : EmitState) (fr : Nat) : Prop :=
  syncedElsewhere s fr ∧
  ((s.frameRegs fr).globalReg.isValid = true →
    (s.frameRegs fr).globalRegUpToDate = true)

/-- The binding-shape fields of one FR record (everything except the two
up-to-date flags) agree between two states. -/
def bindShapeEq (s2 s : EmitState) (fr : Nat) : Prop :=
  (s2.frameRegs fr).localGpX = (s.frameRegs fr).localGpX ∧
  (s2.frameRegs fr).localVecD = (s.frameRegs fr).localVecD ∧
  (s2.frameRegs fr).globalReg = (s.frameRegs fr).globalReg ∧
  (s2.frameRegs fr).localType = (s.frameRegs fr).localType ∧
  (s2.frameRegs fr).globalType = (s.frameRegs fr).globalType

/-- Everything in one FR record except the two local-register fields agrees
between two states (what releasing temporaries preserves). -/
def frFlagsEq (s2 s : EmitState) (fr : Nat) : Prop :=
  (s2.frameRegs fr).globalReg = (s.frameRegs fr).globalReg ∧
  (s2.frameRegs fr).globalRegUpToDate = (s.frameRegs fr).globalRegUpToDate ∧
  (s2.frameRegs fr).frameUpToDate = (s.frameRegs fr).frameUpToDate ∧
  (s2.frameRegs fr).localType = (s.frameRegs fr).localType ∧
  (s2.frameRegs fr).globalType = (s.frameRegs fr).globalType

/-- Side invariant of the temporary pools used by the allocation lemmas:
every index on a pool's LRU list is a temporary of the pool's class (so the
eviction victim picked on exhaustion is always a temporary), and the free
lists are duplicate-free. -/
def PoolsOK (s : EmitState) : Prop :=
  (∀ j ∈ s.gpTemp.lruList, isTempIdx RegClass.gp j = true) ∧
  (∀ j ∈ s.vecTemp.lruList, isTempIdx RegClass.vec j = true) ∧
  s.gpTemp.freeList.Nodup ∧ s.vecTemp.freeList.Nodup

/-- `s2` extends `s` by "plain" data-move emissions only (what the binding
manager's allocation/spill/sync machinery emits), leaving the slow-path
queue, label counter, and register count unchanged. -/
def Quiet (s s2 : EmitState) : Prop :=
  (∃ d, s2.emitted = s.emitted ++ d ∧ ∀ x ∈ d, x.plain = true) ∧
  s2.slowPaths = s.slowPaths ∧ s2.nextLab = s.nextLab ∧ s2.nRegs = s.nRegs

/-! ### Concrete states (used by witnesses and the counterexample) -/

/-- An FR state with no bindings and up-to-date frame memory. -/
def initFR : FRState :=
  { globalReg := .invalid, globalRegUpToDate := false, localGpX := .invalid,
    localVecD := .invalid, frameUpToDate := true, localType := .Unknown,
    globalType := .Unknown }

/-- A fresh emitter state with `n` frame registers, everything in frame
memory, and all temporaries free. -/
def sInit (n : Nat) : EmitState :=
  { nRegs := n
    frameRegs := fun _ => initFR
    hwContains := fun _ _ => none
    regVal := fun _ _ => 0
    frameVal := fun _ => 0
    latest := fun _ => 0
    gpTemp := { freeList := tempRangeList kGPTemp, lruList := [] }
    vecTemp := { freeList := tempRangeList kVecTemp, lruList := [] }
    emitted := []
    slowPaths := []
    nextLab := 0
    roSize := 0
    fp64ConstMap := []
    thunkMap := []
    thunks := []
    roOfsReadPropertyCachePtr := 0
    fatalFlag := false }

/-- A state where FR 0 is bound to temporary x0 (holding value 7, its latest),
with stale frame memory, and FR 1 has pinned register x22 up to date. -/
def sBound : EmitState :=
  { sInit 4 with
    frameRegs := fun fr =>
      if fr = 0 then
        { initFR with localGpX := .reg .gp 0, frameUpToDate := false }
      else if fr = 1 then
        { initFR with
            globalReg := .reg .gp 22
            globalRegUpToDate := true
            frameUpToDate := false }
      else initFR
    hwContains := fun c i => if c = .gp ∧ i = 0 then some 0 else none
    regVal := fun c i => if c = .gp ∧ i = 0 then 7 else if c = .gp ∧ i = 22 then 9 else 0
    latest := fun fr => if fr = 0 then 7 else if fr = 1 then 9 else 0
    gpTemp := { freeList := (tempRangeList kGPTemp).erase 0, lruList := [0] } }

/-- A state for the C3 counterexample: FR 0 has BOTH a local temporary (x0)
and an up-to-date pinned register (x22), while its frame slot is stale. -/
def sC3 : EmitState :=
  { sInit 4 with
    frameRegs := fun fr =>
      if fr = 0 then
        { initFR with
            localGpX := .reg .gp 0
            globalReg := .reg .gp 22
            globalRegUpToDate := true
            frameUpToDate := false }
      else initFR
    hwContains := fun c i => if c = .gp ∧ i = 0 then some 0 else none
    regVal := fun c i => if c = .gp ∧ i = 0 then 7 else if c = .gp ∧ i = 22 then 7 else 0
    latest := fun fr => if fr = 0 then 7 else 0
    gpTemp := { freeList := (tempRangeList kGPTemp).erase 0, lruList := [0] } }

/-- A state with the GP temporary pool exhausted: every gp temp is bound to a
distinct FR (fr i ↦ x i for i < 16, with `nRegs = 20`), all with stale frame
memory, LRU order x5 first. -/
def sFull : EmitState :=
  { sInit 20 with
    frameRegs := fun fr =>
      if fr < 16 then
        { initFR with localGpX := .reg .gp fr, frameUpToDate := false }
      else initFR
    hwContains := fun c i => if c = .gp ∧ i < 16 then some i else none
    regVal := fun c i => if c = .gp then 100 + i else 0
    latest := fun fr => if fr < 16 then 100 + fr else 0
    gpTemp := { freeList := [], lruList := 5 :: (List.range 16).filter (· ≠ 5) } }

/-! ## Theorems -/

theorem lookup_append_of_none {l : List (Nat × Nat)} {k v : Nat}
    (h : l.lookup k = none) : (l ++ [(k, v)]).lookup k = some v := by
  induction l with
  | nil => simp [List.lookup]
  | cons a l ih =>
    rcases a with ⟨a1, a2⟩
    simp only [List.lookup, List.cons_append] at h ⊢
    cases hk : (k == a1) with
    | true => rw [hk] at h; exact Option.noConfusion h
    | false => rw [hk] at h; exact ih h

/-! ### Quiet emission infrastructure

The binding manager's allocation / spill / sync machinery emits only "plain"
data moves and never touches the slow-path queue or the label counter.  The
following lemmas make that reusable. -/

theorem quiet_refl (s : EmitState) : Quiet s s :=
  ⟨⟨[], by simp, by simp⟩, rfl, rfl, rfl⟩

theorem quiet_trans {s1 s2 s3 : EmitState} (a : Quiet s1 s2) (b : Quiet s2 s3) :
    Quiet s1 s3 := by
  obtain ⟨⟨d1, he1, hp1⟩, hq1, hl1, hn1⟩ := a
  obtain ⟨⟨d2, he2, hp2⟩, hq2, hl2, hn2⟩ := b
  refine ⟨⟨d1 ++ d2, ?_, ?_⟩, hq2.trans hq1, hl2.trans hl1, hn2.trans hn1⟩
  · rw [he2, he1, List.append_assoc]
  · intro x hx
    rcases List.mem_append.1 hx with h | h
    · exact hp1 x h
    · exact hp2 x h

theorem quiet_same {s s2 : EmitState} (he : s2.emitted = s.emitted)
    (hq : s2.slowPaths = s.slowPaths) (hl : s2.nextLab = s.nextLab)
    (hn : s2.nRegs = s.nRegs) : Quiet s s2 :=
  ⟨⟨[], by simp [he], by simp⟩, hq, hl, hn⟩

theorem quiet_emit (x : Instr) (s : EmitState) (hp : x.plain = true) :
    Quiet s (emitInstr s x) :=
  ⟨⟨[x], rfl, by simpa using hp⟩, rfl, rfl, rfl⟩

theorem quiet_setReg (s : EmitState) (h : HWReg) (v : Nat) :
    Quiet s (setReg s h v) := by
  cases h with
  | invalid => exact quiet_refl s
  | reg c i => exact quiet_same rfl rfl rfl rfl

theorem quiet_setFrame (s : EmitState) (fr v : Nat) : Quiet s (setFrame s fr v) :=
  quiet_same rfl rfl rfl rfl

theorem quiet_setFRState (s : EmitState) (fr : Nat) (f : FRState → FRState) :
    Quiet s (setFRState s fr f) :=
  quiet_same rfl rfl rfl rfl

theorem quiet_clearContains (s : EmitState) (h : HWReg) :
    Quiet s (clearContains s h) := by
  cases h with
  | invalid => exact quiet_refl s
  | reg c i => exact quiet_same rfl rfl rfl rfl

theorem quiet_useReg (s : EmitState) (h : HWReg) : Quiet s (useReg s h) := by
  cases h with
  | invalid => exact quiet_refl s
  | reg c i =>
    cases c with
    | gp =>
      by_cases ht : isTempIdx .gp i = true
      · exact quiet_same (by simp [useReg, ht]) (by simp [useReg, ht])
          (by simp [useReg, ht]) (by simp [useReg, ht])
      · exact quiet_same (by simp [useReg, ht]) (by simp [useReg, ht])
          (by simp [useReg, ht]) (by simp [useReg, ht])
    | vec =>
      by_cases ht : isTempIdx .vec i = true
      · exact quiet_same (by simp [useReg, ht]) (by simp [useReg, ht])
          (by simp [useReg, ht]) (by simp [useReg, ht])
      · exact quiet_same (by simp [useReg, ht]) (by simp [useReg, ht])
          (by simp [useReg, ht]) (by simp [useReg, ht])

theorem quiet_setPool (s : EmitState) (c : RegClass) (ra : TempRegAlloc) :
    Quiet s (setPool s c ra) := by
  cases c with
  | gp => exact quiet_same rfl rfl rfl rfl
  | vec => exact quiet_same rfl rfl rfl rfl

theorem quiet_movHWReg (u : Bool) (s : EmitState) (d sr : HWReg) :
    Quiet s (movHWReg u s d sr) := by
  have h1 : ∀ s2 : EmitState, Quiet s s2 →
      Quiet s (if u = true then useReg (useReg s2 sr) d else s2) := by
    intro s2 hq
    split
    · exact quiet_trans hq (quiet_trans (quiet_useReg s2 sr) (quiet_useReg _ d))
    · exact hq
  unfold movHWReg
  dsimp only
  apply h1
  split
  · exact quiet_trans (quiet_emit (.movReg d sr) s rfl) (quiet_setReg _ d _)
  · exact quiet_refl s

theorem quiet_storeFrame (s : EmitState) (src : HWReg) (fr : Nat) :
    Quiet s (_storeFrame s src fr) :=
  quiet_trans (quiet_emit (.strFrame src fr) s rfl) (quiet_setFrame _ fr _)

theorem quiet_loadFrame (s : EmitState) (dst : HWReg) (fr : Nat) :
    Quiet s (_loadFrame s dst fr) :=
  quiet_trans (quiet_emit (.ldrFrame dst fr) s rfl) (quiet_setReg _ dst _)

theorem quiet_storeHWRegToFrame (s : EmitState) (fr : Nat) (src : HWReg) :
    Quiet s (_storeHWRegToFrame s fr src) :=
  quiet_trans (quiet_storeFrame s src fr) (quiet_setFRState _ fr _)

theorem quiet_freeReg (s : EmitState) (h : HWReg) : Quiet s (freeReg s h) := by
  cases h with
  | invalid => exact quiet_refl s
  | reg c i =>
    have h2 : ∀ s2 : EmitState, Quiet s s2 →
        Quiet s (match s.hwContains c i with
          | some fr =>
            setFRState s2 fr (fun st =>
              match c with
              | .gp => { st with localGpX := .invalid }
              | .vec => { st with localVecD := .invalid })
          | none => s2) := by
      intro s2 hq
      cases s.hwContains c i with
      | none => exact hq
      | some fr => exact quiet_trans hq (quiet_setFRState s2 fr _)
    have h3 := h2 { s with hwContains := upd2 s.hwContains c i none }
      (quiet_same rfl rfl rfl rfl)
    cases c with
    | gp =>
      show Quiet s (freeReg s (.reg .gp i))
      unfold freeReg
      dsimp only
      split
      · exact quiet_trans h3 (quiet_same rfl rfl rfl rfl)
      · exact h3
    | vec =>
      show Quiet s (freeReg s (.reg .vec i))
      unfold freeReg
      dsimp only
      split
      · exact quiet_trans h3 (quiet_same rfl rfl rfl rfl)
      · exact h3

theorem quiet_ite {s s2 s3 : EmitState} {c : Prop} [Decidable c]
    (h2 : Quiet s s2) (h3 : Quiet s s3) : Quiet s (if c then s2 else s3) := by
  split
  · exact h2
  · exact h3

theorem quiet_step_setFRState {s s2 : EmitState} (hq : Quiet s s2) (fr : Nat)
    (f : FRState → FRState) : Quiet s (setFRState s2 fr f) :=
  quiet_trans hq (quiet_setFRState s2 fr f)

theorem quiet_step_setReg {s s2 : EmitState} (hq : Quiet s s2) (h : HWReg) (v : Nat) :
    Quiet s (setReg s2 h v) :=
  quiet_trans hq (quiet_setReg s2 h v)

theorem quiet_step_freeReg {s s2 : EmitState} (hq : Quiet s s2) (h : HWReg) :
    Quiet s (freeReg s2 h) :=
  quiet_trans hq (quiet_freeReg s2 h)

theorem quiet_step_useReg {s s2 : EmitState} (hq : Quiet s s2) (h : HWReg) :
    Quiet s (useReg s2 h) :=
  quiet_trans hq (quiet_useReg s2 h)

theorem quiet_step_movHWReg {s s2 : EmitState} (hq : Quiet s s2) (u : Bool)
    (d sr : HWReg) : Quiet s (movHWReg u s2 d sr) :=
  quiet_trans hq (quiet_movHWReg u s2 d sr)

theorem quiet_step_storeHW {s s2 : EmitState} (hq : Quiet s s2) (fr : Nat)
    (src : HWReg) : Quiet s (_storeHWRegToFrame s2 fr src) :=
  quiet_trans hq (quiet_storeHWRegToFrame s2 fr src)

theorem quiet_step_loadFrame {s s2 : EmitState} (hq : Quiet s s2) (dst : HWReg)
    (fr : Nat) : Quiet s (_loadFrame s2 dst fr) :=
  quiet_trans hq (quiet_loadFrame s2 dst fr)

theorem quiet_step_clearContains {s s2 : EmitState} (hq : Quiet s s2) (h : HWReg) :
    Quiet s (clearContains s2 h) :=
  quiet_trans hq (quiet_clearContains s2 h)

theorem quiet_step_setPool {s s2 : EmitState} (hq : Quiet s s2) (c : RegClass)
    (ra : TempRegAlloc) : Quiet s (setPool s2 c ra) :=
  quiet_trans hq (quiet_setPool s2 c ra)

theorem quiet_upd_latest {s s2 : EmitState} (hq : Quiet s s2) (l : Nat → Nat) :
    Quiet s ({ s2 with latest := l }) :=
  quiet_trans hq (quiet_same rfl rfl rfl rfl)

theorem quiet_upd_hwContains {s s2 : EmitState} (hq : Quiet s s2)
    (h : RegClass → Nat → Option Nat) : Quiet s ({ s2 with hwContains := h }) :=
  quiet_trans hq (quiet_same rfl rfl rfl rfl)

theorem quiet_upd_gpTemp {s s2 : EmitState} (hq : Quiet s s2) (ra : TempRegAlloc) :
    Quiet s ({ s2 with gpTemp := ra }) :=
  quiet_trans hq (quiet_same rfl rfl rfl rfl)

theorem quiet_upd_vecTemp {s s2 : EmitState} (hq : Quiet s s2) (ra : TempRegAlloc) :
    Quiet s ({ s2 with vecTemp := ra }) :=
  quiet_trans hq (quiet_same rfl rfl rfl rfl)

theorem quiet_spillTempReg (s : EmitState) (h : HWReg) :
    Quiet s (spillTempReg s h) := by
  cases h with
  | invalid => exact quiet_refl s
  | reg c i =>
    unfold spillTempReg
    dsimp only
    cases s.hwContains c i with
    | none => exact quiet_refl s
    | some fr =>
      dsimp only
      apply quiet_step_setFRState
      apply quiet_ite
      · apply quiet_ite
        · apply quiet_step_setFRState
          apply quiet_step_movHWReg
          exact quiet_upd_hwContains (quiet_refl s) _
        · exact quiet_upd_hwContains (quiet_refl s) _
      · apply quiet_ite
        · apply quiet_step_storeHW
          exact quiet_upd_hwContains (quiet_refl s) _
        · exact quiet_upd_hwContains (quiet_refl s) _

theorem quiet_frUpdateType (s : EmitState) (fr : Nat) (t : FRType) :
    Quiet s (frUpdateType s fr t) :=
  quiet_setFRState s fr _

theorem quiet_frUpdatedCore (s : EmitState) (fr : Nat) (h : HWReg) :
    Quiet s (frUpdatedCore s fr h) := by
  unfold frUpdatedCore
  dsimp only
  apply quiet_ite
  · apply quiet_ite
    · apply quiet_step_freeReg
      apply quiet_ite
      · apply quiet_step_freeReg
        apply quiet_step_setFRState
        apply quiet_step_setFRState
        exact quiet_upd_latest (quiet_refl s) _
      · apply quiet_step_setFRState
        apply quiet_step_setFRState
        exact quiet_upd_latest (quiet_refl s) _
    · apply quiet_ite
      · apply quiet_step_freeReg
        apply quiet_step_setFRState
        apply quiet_step_setFRState
        exact quiet_upd_latest (quiet_refl s) _
      · apply quiet_step_setFRState
        apply quiet_step_setFRState
        exact quiet_upd_latest (quiet_refl s) _
  · apply quiet_ite
    · apply quiet_step_freeReg
      apply quiet_step_setFRState
      apply quiet_step_setFRState
      exact quiet_upd_latest (quiet_refl s) _
    · apply quiet_step_freeReg
      apply quiet_step_setFRState
      apply quiet_step_setFRState
      exact quiet_upd_latest (quiet_refl s) _

theorem quiet_frUpdatedWithHWReg (s : EmitState) (fr : Nat) (h : HWReg)
    (t : Option FRType) : Quiet s (frUpdatedWithHWReg s fr h t) := by
  cases t with
  | some ty =>
    exact quiet_trans (quiet_frUpdatedCore s fr h) (quiet_frUpdateType _ fr ty)
  | none => exact quiet_frUpdatedCore s fr h

theorem quiet_isFRInRegister (s : EmitState) (fr : Nat) :
    Quiet s (isFRInRegister s fr).2 := by
  unfold isFRInRegister
  dsimp only
  split
  · exact quiet_useReg s _
  · split
    · exact quiet_useReg s _
    · split
      · exact quiet_refl s
      · exact quiet_refl s

theorem quiet_syncToMem (s : EmitState) (fr : Nat) : Quiet s (syncToMem s fr) := by
  unfold syncToMem
  apply quiet_ite
  · exact quiet_refl s
  · apply quiet_step_storeHW
    apply quiet_ite
    · apply quiet_step_setFRState
      apply quiet_step_movHWReg
      exact quiet_isFRInRegister s fr
    · exact quiet_isFRInRegister s fr

theorem quiet_syncAndFreeTempReg (s : EmitState) (h : HWReg) :
    Quiet s (syncAndFreeTempReg s h) := by
  cases h with
  | invalid => exact quiet_refl s
  | reg c i =>
    unfold syncAndFreeTempReg
    apply quiet_ite
    · exact quiet_step_freeReg (quiet_spillTempReg s _) _
    · exact quiet_refl s

theorem quiet_syncTempGpStep (x : Option Nat) (s : EmitState) (i : Nat) :
    Quiet s (syncTempGpStep x s i) := by
  unfold syncTempGpStep
  cases s.hwContains .gp i with
  | none => exact quiet_refl s
  | some fr =>
    dsimp only
    apply quiet_ite
    · exact quiet_refl s
    · apply quiet_ite
      · apply quiet_ite
        · exact quiet_step_setFRState (quiet_movHWReg false s _ _) _ _
        · exact quiet_refl s
      · apply quiet_ite
        · exact quiet_storeHWRegToFrame s _ _
        · exact quiet_refl s

theorem quiet_syncTempVecStep (x : Option Nat) (s : EmitState) (i : Nat) :
    Quiet s (syncTempVecStep x s i) := by
  unfold syncTempVecStep
  cases s.hwContains .vec i with
  | none => exact quiet_refl s
  | some fr =>
    dsimp only
    apply quiet_ite
    · exact quiet_refl s
    · apply quiet_ite
      · exact quiet_refl s
      · apply quiet_ite
        · apply quiet_ite
          · exact quiet_step_setFRState (quiet_movHWReg false s _ _) _ _
          · exact quiet_refl s
        · apply quiet_ite
          · exact quiet_storeHWRegToFrame s _ _
          · exact quiet_refl s

theorem quiet_foldl {α : Type} (f : EmitState → α → EmitState)
    (hf : ∀ s2 a, Quiet s2 (f s2 a)) (l : List α) :
    ∀ s : EmitState, Quiet s (l.foldl f s) := by
  induction l with
  | nil => intro s; exact quiet_refl s
  | cons a l ih =>
    intro s
    exact quiet_trans (hf s a) (ih (f s a))

theorem quiet_syncAllTempExcept (s : EmitState) (x : Option Nat) :
    Quiet s (syncAllTempExcept s x) := by
  unfold syncAllTempExcept
  exact quiet_trans
    (quiet_foldl _ (fun s2 a => quiet_syncTempGpStep x s2 a) _ s)
    (quiet_foldl _ (fun s2 a => quiet_syncTempVecStep x s2 a) _ _)

theorem quiet_freeFRTemp (s : EmitState) (fr : Nat) : Quiet s (freeFRTemp s fr) := by
  unfold freeFRTemp
  dsimp only
  apply quiet_ite
  · apply quiet_step_setFRState
    apply quiet_upd_vecTemp
    apply quiet_step_clearContains
    apply quiet_ite
    · apply quiet_step_setFRState
      apply quiet_upd_gpTemp
      exact quiet_clearContains s _
    · exact quiet_refl s
  · apply quiet_ite
    · apply quiet_step_setFRState
      apply quiet_upd_gpTemp
      exact quiet_clearContains s _
    · exact quiet_refl s

theorem quiet_freeAllStep (c : RegClass) (x : Option Nat) (s : EmitState) (i : Nat) :
    Quiet s (freeAllStep c x s i) := by
  unfold freeAllStep
  cases s.hwContains c i with
  | none => exact quiet_refl s
  | some fr =>
    dsimp only
    apply quiet_ite
    · exact quiet_refl s
    · exact quiet_freeFRTemp s fr

theorem quiet_freeAllTempExcept (s : EmitState) (x : Option Nat) :
    Quiet s (freeAllTempExcept s x) := by
  unfold freeAllTempExcept
  exact quiet_trans
    (quiet_foldl _ (fun s2 a => quiet_freeAllStep .gp x s2 a) _ s)
    (quiet_foldl _ (fun s2 a => quiet_freeAllStep .vec x s2 a) _ _)

theorem quiet_assignAllocatedLocalHWReg (s : EmitState) (fr : Nat) (h : HWReg) :
    Quiet s (assignAllocatedLocalHWReg s fr h) := by
  cases h with
  | invalid => exact quiet_refl s
  | reg c i =>
    unfold assignAllocatedLocalHWReg
    dsimp only
    exact quiet_step_setFRState (quiet_upd_hwContains (quiet_refl s) _) _ _

theorem quiet_allocTemp (s : EmitState) (c : RegClass) (pref : Option HWReg) :
    Quiet s (_allocTemp s c pref).2 := by
  unfold _allocTemp
  rcases h : (getPool s c).alloc (pref.map HWReg.indexInClass) with ⟨o, ra⟩
  cases o with
  | some r =>
    simp only [h]
    exact quiet_setPool s c ra
  | none =>
    simp only [h]
    apply quiet_step_setPool
    apply quiet_step_setPool
    exact quiet_spillTempReg s _

theorem quiet_allocTempGpX (s : EmitState) : Quiet s (allocTempGpX s).2 :=
  quiet_allocTemp s .gp none

theorem quiet_allocTempVecD (s : EmitState) : Quiet s (allocTempVecD s).2 :=
  quiet_allocTemp s .vec none

theorem quiet_getOrAllocFRInVecD (s : EmitState) (fr : Nat) (load : Bool) :
    Quiet s (getOrAllocFRInVecD s fr load).2 := by
  unfold getOrAllocFRInVecD
  dsimp only
  have halloc : Quiet s (assignAllocatedLocalHWReg (allocTempVecD s).2 fr (allocTempVecD s).1) :=
    quiet_trans (quiet_allocTempVecD s) (quiet_assignAllocatedLocalHWReg _ fr _)
  split
  · exact quiet_useReg s _
  · split
    · split
      · exact quiet_step_setFRState (quiet_movHWReg true s _ _) _ _
      · exact quiet_refl s
    · split
      · split
        · exact quiet_step_movHWReg halloc false _ _
        · split
          · exact quiet_step_movHWReg halloc false _ _
          · exact quiet_step_setFRState (quiet_step_loadFrame halloc _ fr) _ _
      · exact halloc

theorem quiet_getOrAllocFRInGpX (s : EmitState) (fr : Nat) (load : Bool) :
    Quiet s (getOrAllocFRInGpX s fr load).2 := by
  unfold getOrAllocFRInGpX
  dsimp only
  have halloc : Quiet s (assignAllocatedLocalHWReg (allocTempGpX s).2 fr (allocTempGpX s).1) :=
    quiet_trans (quiet_allocTempGpX s) (quiet_assignAllocatedLocalHWReg _ fr _)
  split
  · exact quiet_useReg s _
  · split
    · split
      · exact quiet_step_setFRState (quiet_movHWReg true s _ _) _ _
      · exact quiet_refl s
    · split
      · split
        · exact quiet_step_movHWReg halloc false _ _
        · split
          · exact quiet_step_movHWReg halloc false _ _
          · exact quiet_step_setFRState (quiet_step_loadFrame halloc _ fr) _ _
      · exact halloc

theorem quiet_getOrAllocFRInAnyReg (s : EmitState) (fr : Nat) (load : Bool)
    (pref : Option HWReg) : Quiet s (getOrAllocFRInAnyReg s fr load pref).2 := by
  unfold getOrAllocFRInAnyReg
  dsimp only
  have halloc : Quiet s (assignAllocatedLocalHWReg (allocTempGpX s).2 fr (allocTempGpX s).1) :=
    quiet_trans (quiet_allocTempGpX s) (quiet_assignAllocatedLocalHWReg _ fr _)
  split
  · exact quiet_isFRInRegister s fr
  · split
    · exact quiet_step_setFRState (quiet_step_loadFrame halloc _ fr) _ _
    · exact halloc

theorem quiet_movHWFromFR (s : EmitState) (h : HWReg) (src : Nat) :
    Quiet s (movHWFromFR s h src) := by
  unfold movHWFromFR
  dsimp only
  apply quiet_ite
  · exact quiet_movHWReg true s _ _
  · apply quiet_ite
    · exact quiet_movHWReg true s _ _
    · apply quiet_ite
      · exact quiet_movHWReg true s _ _
      · exact quiet_step_loadFrame (quiet_useReg s h) h src

theorem quiet_movFRFromHW (s : EmitState) (dst : Nat) (src : HWReg)
    (t : Option FRType) : Quiet s (movFRFromHW s dst src t) := by
  have hmt : ∀ s2 : EmitState, Quiet s s2 →
      Quiet s (match t with
        | some ty => frUpdateType s2 dst ty
        | none => s2) := by
    intro s2 hq
    cases t with
    | some ty => exact quiet_trans hq (quiet_frUpdateType s2 dst ty)
    | none => exact hq
  unfold movFRFromHW
  dsimp only
  apply quiet_ite
  · exact quiet_trans (quiet_movHWReg false s _ _) (quiet_frUpdatedWithHWReg _ dst _ t)
  · apply quiet_ite
    · exact quiet_trans (quiet_movHWReg false s _ _) (quiet_frUpdatedWithHWReg _ dst _ t)
    · apply quiet_ite
      · exact quiet_trans (quiet_movHWReg false s _ _) (quiet_frUpdatedWithHWReg _ dst _ t)
      · apply quiet_step_setFRState
        apply hmt
        exact quiet_step_storeHW (quiet_upd_latest (quiet_refl s) _) dst src

theorem quiet_reserveData (s : EmitState) (dsize align : Nat) :
    Quiet s (reserveData s dsize align).2 := by
  unfold reserveData
  dsimp only
  split
  · exact quiet_same rfl rfl rfl rfl
  · exact quiet_same rfl rfl rfl rfl

theorem quiet_uint64Const (s : EmitState) (bits : Nat) :
    Quiet s (uint64Const s bits).2 := by
  unfold uint64Const
  cases s.fp64ConstMap.lookup bits with
  | some ofs => exact quiet_refl s
  | none =>
    dsimp only
    exact quiet_trans (quiet_reserveData s 8 8) (quiet_same rfl rfl rfl rfl)

theorem quiet_loadBits64InGp (s : EmitState) (dest : HWReg) (bits : Nat) :
    Quiet s (loadBits64InGp s dest bits) := by
  unfold loadBits64InGp
  apply quiet_ite
  · exact quiet_step_setReg (quiet_emit (.movImm dest bits) s rfl) dest bits
  · apply quiet_step_setReg
    exact quiet_trans (quiet_uint64Const s bits)
      (quiet_emit (.ldrRo dest (uint64Const s bits).1) _ rfl)

theorem quiet_loadConstBits64 (s : EmitState) (frRes bits : Nat) (t : FRType) :
    Quiet s (loadConstBits64 s frRes bits t) := by
  unfold loadConstBits64
  dsimp only
  exact quiet_trans (quiet_getOrAllocFRInGpX s frRes false)
    (quiet_trans (quiet_loadBits64InGp _ _ bits) (quiet_frUpdatedWithHWReg _ frRes _ _))

/-! ### Trace lemmas: the emitted skeleton of each operation -/

theorem trace_quiet {s s2 : EmitState} (h : Quiet s s2) : trace s2 = trace s := by
  obtain ⟨⟨d, he, hp⟩, _, _, _⟩ := h
  unfold trace
  rw [he, List.filter_append, List.map_append]
  have hd : d.filter (fun x => !x.plain) = [] := by
    rw [List.filter_eq_nil]
    intro a ha
    simp [hp a ha]
  rw [hd]
  simp

theorem trace_emit (s : EmitState) (i : Instr) :
    trace (emitInstr s i) = trace s ++ if i.plain then [] else [stripRegs i] := by
  unfold trace emitInstr
  dsimp only
  rw [List.filter_append, List.map_append]
  cases hp : i.plain <;> simp [hp]

theorem trace_setReg (s : EmitState) (h : HWReg) (v : Nat) :
    trace (setReg s h v) = trace s := trace_quiet (quiet_setReg s h v)

theorem trace_setFrame (s : EmitState) (fr v : Nat) :
    trace (setFrame s fr v) = trace s := rfl

theorem trace_setFRState (s : EmitState) (fr : Nat) (f : FRState → FRState) :
    trace (setFRState s fr f) = trace s := rfl

theorem trace_clearContains (s : EmitState) (h : HWReg) :
    trace (clearContains s h) = trace s := trace_quiet (quiet_clearContains s h)

theorem trace_useReg (s : EmitState) (h : HWReg) :
    trace (useReg s h) = trace s := trace_quiet (quiet_useReg s h)

theorem trace_setPool (s : EmitState) (c : RegClass) (ra : TempRegAlloc) :
    trace (setPool s c ra) = trace s := trace_quiet (quiet_setPool s c ra)

theorem trace_movHWReg (u : Bool) (s : EmitState) (d sr : HWReg) :
    trace (movHWReg u s d sr) = trace s := trace_quiet (quiet_movHWReg u s d sr)

theorem trace_storeFrame (s : EmitState) (src : HWReg) (fr : Nat) :
    trace (_storeFrame s src fr) = trace s := trace_quiet (quiet_storeFrame s src fr)

theorem trace_loadFrame (s : EmitState) (dst : HWReg) (fr : Nat) :
    trace (_loadFrame s dst fr) = trace s := trace_quiet (quiet_loadFrame s dst fr)

theorem trace_storeHWRegToFrame (s : EmitState) (fr : Nat) (src : HWReg) :
    trace (_storeHWRegToFrame s fr src) = trace s :=
  trace_quiet (quiet_storeHWRegToFrame s fr src)

theorem trace_freeReg (s : EmitState) (h : HWReg) :
    trace (freeReg s h) = trace s := trace_quiet (quiet_freeReg s h)

theorem trace_spillTempReg (s : EmitState) (h : HWReg) :
    trace (spillTempReg s h) = trace s := trace_quiet (quiet_spillTempReg s h)

theorem trace_frUpdateType (s : EmitState) (fr : Nat) (t : FRType) :
    trace (frUpdateType s fr t) = trace s := rfl

theorem trace_frUpdatedWithHWReg (s : EmitState) (fr : Nat) (h : HWReg)
    (t : Option FRType) : trace (frUpdatedWithHWReg s fr h t) = trace s :=
  trace_quiet (quiet_frUpdatedWithHWReg s fr h t)

theorem trace_isFRInRegister (s : EmitState) (fr : Nat) :
    trace (isFRInRegister s fr).2 = trace s := trace_quiet (quiet_isFRInRegister s fr)

theorem trace_syncToMem (s : EmitState) (fr : Nat) :
    trace (syncToMem s fr) = trace s := trace_quiet (quiet_syncToMem s fr)

theorem trace_syncAndFreeTempReg (s : EmitState) (h : HWReg) :
    trace (syncAndFreeTempReg s h) = trace s :=
  trace_quiet (quiet_syncAndFreeTempReg s h)

theorem trace_syncAllTempExcept (s : EmitState) (x : Option Nat) :
    trace (syncAllTempExcept s x) = trace s :=
  trace_quiet (quiet_syncAllTempExcept s x)

theorem trace_freeFRTemp (s : EmitState) (fr : Nat) :
    trace (freeFRTemp s fr) = trace s := trace_quiet (quiet_freeFRTemp s fr)

theorem trace_freeAllTempExcept (s : EmitState) (x : Option Nat) :
    trace (freeAllTempExcept s x) = trace s :=
  trace_quiet (quiet_freeAllTempExcept s x)

theorem trace_assignAllocatedLocalHWReg (s : EmitState) (fr : Nat) (h : HWReg) :
    trace (assignAllocatedLocalHWReg s fr h) = trace s :=
  trace_quiet (quiet_assignAllocatedLocalHWReg s fr h)

theorem trace_allocTemp (s : EmitState) (c : RegClass) (pref : Option HWReg) :
    trace (_allocTemp s c pref).2 = trace s := trace_quiet (quiet_allocTemp s c pref)

theorem trace_allocTempGpX (s : EmitState) :
    trace (allocTempGpX s).2 = trace s := trace_quiet (quiet_allocTempGpX s)

theorem trace_allocTempVecD (s : EmitState) :
    trace (allocTempVecD s).2 = trace s := trace_quiet (quiet_allocTempVecD s)

theorem trace_getOrAllocFRInVecD (s : EmitState) (fr : Nat) (load : Bool) :
    trace (getOrAllocFRInVecD s fr load).2 = trace s :=
  trace_quiet (quiet_getOrAllocFRInVecD s fr load)

theorem trace_getOrAllocFRInGpX (s : EmitState) (fr : Nat) (load : Bool) :
    trace (getOrAllocFRInGpX s fr load).2 = trace s :=
  trace_quiet (quiet_getOrAllocFRInGpX s fr load)

theorem trace_getOrAllocFRInAnyReg (s : EmitState) (fr : Nat) (load : Bool)
    (pref : Option HWReg) : trace (getOrAllocFRInAnyReg s fr load pref).2 = trace s :=
  trace_quiet (quiet_getOrAllocFRInAnyReg s fr load pref)

theorem trace_movHWFromFR (s : EmitState) (h : HWReg) (src : Nat) :
    trace (movHWFromFR s h src) = trace s := trace_quiet (quiet_movHWFromFR s h src)

theorem trace_movFRFromHW (s : EmitState) (dst : Nat) (src : HWReg)
    (t : Option FRType) : trace (movFRFromHW s dst src t) = trace s :=
  trace_quiet (quiet_movFRFromHW s dst src t)

theorem trace_reserveData (s : EmitState) (d a : Nat) :
    trace (reserveData s d a).2 = trace s := trace_quiet (quiet_reserveData s d a)

theorem trace_uint64Const (s : EmitState) (bits : Nat) :
    trace (uint64Const s bits).2 = trace s := trace_quiet (quiet_uint64Const s bits)

theorem trace_loadBits64InGp (s : EmitState) (dest : HWReg) (bits : Nat) :
    trace (loadBits64InGp s dest bits) = trace s :=
  trace_quiet (quiet_loadBits64InGp s dest bits)

theorem trace_loadConstBits64 (s : EmitState) (frRes bits : Nat) (t : FRType) :
    trace (loadConstBits64 s frRes bits t) = trace s :=
  trace_quiet (quiet_loadConstBits64 s frRes bits t)

/-! ### Projection and point-update lemmas for the state primitives -/

theorem upd1_same {α : Type} (f : Nat → α) (i : Nat) (v : α) : upd1 f i v i = v := by
  simp [upd1]

theorem upd1_other {α : Type} (f : Nat → α) (i : Nat) (v : α) {j : Nat} (h : j ≠ i) :
    upd1 f i v j = f j := by
  simp [upd1, h]

theorem upd2_same {α : Type} (f : RegClass → Nat → α) (c : RegClass) (i : Nat) (v : α) :
    upd2 f c i v c i = v := by
  simp [upd2]

theorem upd2_other {α : Type} (f : RegClass → Nat → α) (c : RegClass) (i : Nat) (v : α)
    {c2 : RegClass} {j : Nat} (h : ¬(c2 = c ∧ j = i)) : upd2 f c i v c2 j = f c2 j := by
  simp only [upd2, if_neg h]

theorem setReg_frameRegs (s : EmitState) (h : HWReg) (v : Nat) :
    (setReg s h v).frameRegs = s.frameRegs := by
  cases h <;> rfl

theorem setReg_frameVal (s : EmitState) (h : HWReg) (v : Nat) :
    (setReg s h v).frameVal = s.frameVal := by
  cases h <;> rfl

theorem setReg_latest (s : EmitState) (h : HWReg) (v : Nat) :
    (setReg s h v).latest = s.latest := by
  cases h <;> rfl

theorem setReg_hwContains (s : EmitState) (h : HWReg) (v : Nat) :
    (setReg s h v).hwContains = s.hwContains := by
  cases h <;> rfl

theorem setReg_nRegs (s : EmitState) (h : HWReg) (v : Nat) :
    (setReg s h v).nRegs = s.nRegs := by
  cases h <;> rfl

theorem setReg_gpTemp (s : EmitState) (h : HWReg) (v : Nat) :
    (setReg s h v).gpTemp = s.gpTemp := by
  cases h <;> rfl

theorem setReg_vecTemp (s : EmitState) (h : HWReg) (v : Nat) :
    (setReg s h v).vecTemp = s.vecTemp := by
  cases h <;> rfl

theorem rd_setReg_same (s : EmitState) (c : RegClass) (i : Nat) (v : Nat) :
    (setReg s (.reg c i) v).rd (.reg c i) = v := by
  simp [setReg, EmitState.rd, upd2]

theorem rd_setReg_other (s : EmitState) (h h2 : HWReg) (v : Nat)
    (hne : h2 ≠ h ∨ h = .invalid) : (setReg s h v).rd h2 = s.rd h2 := by
  cases h with
  | invalid => rfl
  | reg c i =>
    cases h2 with
    | invalid => rfl
    | reg c2 j =>
      rcases hne with hne | hne
      · show upd2 s.regVal c i v c2 j = s.regVal c2 j
        apply upd2_other
        intro ⟨h1, h2⟩
        exact hne (by rw [h1, h2])
      · exact absurd hne (by simp)

theorem emitInstr_proj (s : EmitState) (x : Instr) :
    (emitInstr s x).frameRegs = s.frameRegs ∧
    (emitInstr s x).regVal = s.regVal ∧
    (emitInstr s x).frameVal = s.frameVal ∧
    (emitInstr s x).latest = s.latest ∧
    (emitInstr s x).hwContains = s.hwContains ∧
    (emitInstr s x).nRegs = s.nRegs ∧
    (emitInstr s x).gpTemp = s.gpTemp ∧
    (emitInstr s x).vecTemp = s.vecTemp :=
  ⟨rfl, rfl, rfl, rfl, rfl, rfl, rfl, rfl⟩

theorem rd_emitInstr (s : EmitState) (x : Instr) (h : HWReg) :
    (emitInstr s x).rd h = s.rd h := by
  cases h <;> rfl

theorem setFrame_proj (s : EmitState) (fr v : Nat) :
    (setFrame s fr v).frameRegs = s.frameRegs ∧
    (setFrame s fr v).regVal = s.regVal ∧
    (setFrame s fr v).latest = s.latest ∧
    (setFrame s fr v).hwContains = s.hwContains ∧
    (setFrame s fr v).nRegs = s.nRegs :=
  ⟨rfl, rfl, rfl, rfl, rfl⟩

theorem setFrame_frameVal (s : EmitState) (fr v : Nat) :
    (setFrame s fr v).frameVal = upd1 s.frameVal fr v := rfl

theorem setFRState_frameRegs (s : EmitState) (fr : Nat) (f : FRState → FRState) :
    (setFRState s fr f).frameRegs = upd1 s.frameRegs fr (f (s.frameRegs fr)) := rfl

theorem rd_setFRState (s : EmitState) (fr : Nat) (f : FRState → FRState) (h : HWReg) :
    (setFRState s fr f).rd h = s.rd h := by
  cases h <;> rfl

theorem rd_setFrame (s : EmitState) (fr v : Nat) (h : HWReg) :
    (setFrame s fr v).rd h = s.rd h := by
  cases h <;> rfl

theorem useReg_proj (s : EmitState) (h : HWReg) :
    (useReg s h).frameRegs = s.frameRegs ∧
    (useReg s h).regVal = s.regVal ∧
    (useReg s h).frameVal = s.frameVal ∧
    (useReg s h).latest = s.latest ∧
    (useReg s h).hwContains = s.hwContains ∧
    (useReg s h).nRegs = s.nRegs := by
  cases h with
  | invalid => exact ⟨rfl, rfl, rfl, rfl, rfl, rfl⟩
  | reg c i =>
    cases c with
    | gp =>
      by_cases ht : isTempIdx .gp i = true <;>
        simp [useReg, ht] <;> exact ⟨rfl, rfl, rfl, rfl, rfl, rfl⟩
    | vec =>
      by_cases ht : isTempIdx .vec i = true <;>
        simp [useReg, ht] <;> exact ⟨rfl, rfl, rfl, rfl, rfl, rfl⟩

theorem useReg_gpFree (s : EmitState) (h : HWReg) :
    (useReg s h).gpTemp.freeList = s.gpTemp.freeList ∧
    (useReg s h).vecTemp.freeList = s.vecTemp.freeList := by
  cases h with
  | invalid => exact ⟨rfl, rfl⟩
  | reg c i =>
    cases c with
    | gp =>
      by_cases ht : isTempIdx .gp i = true <;> simp [useReg, ht, TempRegAlloc.use]
      split <;> simp
    | vec =>
      by_cases ht : isTempIdx .vec i = true <;> simp [useReg, ht, TempRegAlloc.use]
      split <;> simp

theorem rd_useReg (s : EmitState) (h h2 : HWReg) : (useReg s h).rd h2 = s.rd h2 := by
  cases h2 with
  | invalid => rfl
  | reg c2 j => show (useReg s h).regVal c2 j = s.regVal c2 j; rw [(useReg_proj s h).2.1]

/-! ### Semantic summaries of the binding-manager primitives -/

theorem movHWReg_proj (u : Bool) (s : EmitState) (d sr : HWReg) :
    (movHWReg u s d sr).frameRegs = s.frameRegs ∧
    (movHWReg u s d sr).frameVal = s.frameVal ∧
    (movHWReg u s d sr).latest = s.latest ∧
    (movHWReg u s d sr).hwContains = s.hwContains ∧
    (movHWReg u s d sr).nRegs = s.nRegs ∧
    (movHWReg u s d sr).gpTemp.freeList = s.gpTemp.freeList ∧
    (movHWReg u s d sr).vecTemp.freeList = s.vecTemp.freeList := by
  unfold movHWReg
  dsimp only
  have base : ∀ s2 : EmitState,
      s2.frameRegs = s.frameRegs → s2.frameVal = s.frameVal → s2.latest = s.latest →
      s2.hwContains = s.hwContains → s2.nRegs = s.nRegs →
      s2.gpTemp.freeList = s.gpTemp.freeList → s2.vecTemp.freeList = s.vecTemp.freeList →
      (if u = true then useReg (useReg s2 sr) d else s2).frameRegs = s.frameRegs ∧
      (if u = true then useReg (useReg s2 sr) d else s2).frameVal = s.frameVal ∧
      (if u = true then useReg (useReg s2 sr) d else s2).latest = s.latest ∧
      (if u = true then useReg (useReg s2 sr) d else s2).hwContains = s.hwContains ∧
      (if u = true then useReg (useReg s2 sr) d else s2).nRegs = s.nRegs ∧
      (if u = true then useReg (useReg s2 sr) d else s2).gpTemp.freeList = s.gpTemp.freeList ∧
      (if u = true then useReg (useReg s2 sr) d else s2).vecTemp.freeList = s.vecTemp.freeList := by
    intro s2 h1 h2 h3 h4 h5 h6 h7
    split
    · refine ⟨?_, ?_, ?_, ?_, ?_, ?_, ?_⟩ <;>
        simp [useReg_proj, useReg_gpFree, (useReg_proj _ _).1, (useReg_proj _ _).2.2.1,
          (useReg_proj _ _).2.2.2.1, (useReg_proj _ _).2.2.2.2.1,
          (useReg_proj _ _).2.2.2.2.2, (useReg_gpFree _ _).1, (useReg_gpFree _ _).2,
          h1, h2, h3, h4, h5, h6, h7]
    · exact ⟨h1, h2, h3, h4, h5, h6, h7⟩
  apply base
  all_goals split
  · rw [setReg_frameRegs]; rfl
  · rfl
  · rw [setReg_frameVal]; rfl
  · rfl
  · rw [setReg_latest]; rfl
  · rfl
  · rw [setReg_hwContains]; rfl
  · rfl
  · rw [setReg_nRegs]; rfl
  · rfl
  · rw [setReg_gpTemp]; rfl
  · rfl
  · rw [setReg_vecTemp]; rfl
  · rfl

theorem rd_movHWReg_dst (u : Bool) (s : EmitState) (c : RegClass) (i : Nat) (sr : HWReg) :
    (movHWReg u s (.reg c i) sr).rd (.reg c i) = s.rd sr := by
  unfold movHWReg
  dsimp only
  have huse : ∀ (s2 : EmitState) (h2 : HWReg),
      (if u = true then useReg (useReg s2 sr) (.reg c i) else s2).rd h2 = s2.rd h2 := by
    intro s2 h2
    split
    · rw [rd_useReg, rd_useReg]
    · rfl
  rw [huse]
  split
  · exact rd_setReg_same _ c i _
  · next hne =>
    have : (HWReg.reg c i) = sr := by
      by_contra hc
      exact hne hc
    rw [← this]

theorem rd_movHWReg_other (u : Bool) (s : EmitState) (d sr h2 : HWReg)
    (hne : h2 ≠ d) : (movHWReg u s d sr).rd h2 = s.rd h2 := by
  unfold movHWReg
  dsimp only
  have huse : ∀ (s2 : EmitState) (h3 : HWReg),
      (if u = true then useReg (useReg s2 sr) d else s2).rd h3 = s2.rd h3 := by
    intro s2 h3
    split
    · rw [rd_useReg, rd_useReg]
    · rfl
  rw [huse]
  split
  · rw [rd_setReg_other]
    · rw [rd_emitInstr]
    · exact Or.inl hne
  · rfl

theorem storeHWRegToFrame_sem (s : EmitState) (fr : Nat) (src : HWReg) :
    (_storeHWRegToFrame s fr src).frameRegs =
      upd1 s.frameRegs fr { s.frameRegs fr with frameUpToDate := true } ∧
    (_storeHWRegToFrame s fr src).frameVal = upd1 s.frameVal fr (s.rd src) ∧
    (_storeHWRegToFrame s fr src).latest = s.latest ∧
    (_storeHWRegToFrame s fr src).hwContains = s.hwContains ∧
    (_storeHWRegToFrame s fr src).nRegs = s.nRegs ∧
    (∀ h2, (_storeHWRegToFrame s fr src).rd h2 = s.rd h2) ∧
    (_storeHWRegToFrame s fr src).gpTemp = s.gpTemp ∧
    (_storeHWRegToFrame s fr src).vecTemp = s.vecTemp := by
  unfold _storeHWRegToFrame _storeFrame
  refine ⟨rfl, rfl, rfl, rfl, rfl, ?_, rfl, rfl⟩
  intro h2
  rw [rd_setFRState, rd_setFrame, rd_emitInstr]

theorem loadFrame_sem (s : EmitState) (d : HWReg) (fr : Nat) :
    (_loadFrame s d fr).frameRegs = s.frameRegs ∧
    (_loadFrame s d fr).frameVal = s.frameVal ∧
    (_loadFrame s d fr).latest = s.latest ∧
    (_loadFrame s d fr).hwContains = s.hwContains ∧
    (_loadFrame s d fr).nRegs = s.nRegs ∧
    (_loadFrame s d fr).gpTemp = s.gpTemp ∧
    (_loadFrame s d fr).vecTemp = s.vecTemp := by
  unfold _loadFrame
  exact ⟨setReg_frameRegs _ _ _, setReg_frameVal _ _ _, setReg_latest _ _ _,
    setReg_hwContains _ _ _, setReg_nRegs _ _ _, setReg_gpTemp _ _ _, setReg_vecTemp _ _ _⟩

theorem rd_loadFrame_dst (s : EmitState) (c : RegClass) (i : Nat) (fr : Nat) :
    (_loadFrame s (.reg c i) fr).rd (.reg c i) = s.frameVal fr := by
  unfold _loadFrame
  rw [rd_setReg_same]

theorem rd_loadFrame_other (s : EmitState) (d h2 : HWReg) (fr : Nat) (hne : h2 ≠ d) :
    (_loadFrame s d fr).rd h2 = s.rd h2 := by
  unfold _loadFrame
  rw [rd_setReg_other _ _ _ _ (Or.inl hne), rd_emitInstr]

theorem freeReg_sem (s : EmitState) (c : RegClass) (i : Nat) :
    (freeReg s (.reg c i)).regVal = s.regVal ∧
    (freeReg s (.reg c i)).frameVal = s.frameVal ∧
    (freeReg s (.reg c i)).latest = s.latest ∧
    (freeReg s (.reg c i)).nRegs = s.nRegs ∧
    (freeReg s (.reg c i)).hwContains = upd2 s.hwContains c i none ∧
    (s.hwContains c i = none → (freeReg s (.reg c i)).frameRegs = s.frameRegs) ∧
    (∀ fr, s.hwContains c i = some fr →
      (c = .gp → (freeReg s (.reg c i)).frameRegs =
        upd1 s.frameRegs fr { s.frameRegs fr with localGpX := .invalid }) ∧
      (c = .vec → (freeReg s (.reg c i)).frameRegs =
        upd1 s.frameRegs fr { s.frameRegs fr with localVecD := .invalid })) := by
  unfold freeReg
  dsimp only
  cases hc : s.hwContains c i with
  | none =>
    dsimp only
    cases c with
    | gp =>
      dsimp only
      refine ⟨?_, ?_, ?_, ?_, ?_, ?_, ?_⟩
      · split <;> rfl
      · split <;> rfl
      · split <;> rfl
      · split <;> rfl
      · split <;> rfl
      · intro _; split <;> rfl
      · intro fr hfr; exact Option.noConfusion hfr
    | vec =>
      dsimp only
      refine ⟨?_, ?_, ?_, ?_, ?_, ?_, ?_⟩
      · split <;> rfl
      · split <;> rfl
      · split <;> rfl
      · split <;> rfl
      · split <;> rfl
      · intro _; split <;> rfl
      · intro fr hfr; exact Option.noConfusion hfr
  | some fr0 =>
    dsimp only
    cases c with
    | gp =>
      dsimp only
      refine ⟨?_, ?_, ?_, ?_, ?_, ?_, ?_⟩
      · split <;> rfl
      · split <;> rfl
      · split <;> rfl
      · split <;> rfl
      · split <;> rfl
      · intro hcc; exact Option.noConfusion hcc
      · intro fr hfr
        cases hfr
        constructor
        · intro _; split <;> rfl
        · intro hcv; exact RegClass.noConfusion hcv
    | vec =>
      dsimp only
      refine ⟨?_, ?_, ?_, ?_, ?_, ?_, ?_⟩
      · split <;> rfl
      · split <;> rfl
      · split <;> rfl
      · split <;> rfl
      · split <;> rfl
      · intro hcc; exact Option.noConfusion hcc
      · intro fr hfr
        cases hfr
        constructor
        · intro hcg; exact RegClass.noConfusion hcg
        · intro _; split <;> rfl

theorem freeReg_gpFree (s : EmitState) (c : RegClass) (i : Nat) :
    (freeReg s (.reg c i)).gpTemp.freeList =
      (if c = .gp ∧ isTempIdx .gp i = true then i :: s.gpTemp.freeList
       else s.gpTemp.freeList) ∧
    (freeReg s (.reg c i)).vecTemp.freeList =
      (if c = .vec ∧ isTempIdx .vec i = true then i :: s.vecTemp.freeList
       else s.vecTemp.freeList) := by
  unfold freeReg
  dsimp only
  cases c with
  | gp =>
    cases hc : s.hwContains .gp i with
    | none =>
      dsimp only
      by_cases ht : isTempIdx .gp i = true <;>
        simp [ht, TempRegAlloc.free, setFRState]
    | some fr =>
      dsimp only
      by_cases ht : isTempIdx .gp i = true <;>
        simp [ht, TempRegAlloc.free, setFRState]
  | vec =>
    cases hc : s.hwContains .vec i with
    | none =>
      dsimp only
      by_cases ht : isTempIdx .vec i = true <;>
        simp [ht, TempRegAlloc.free, setFRState]
    | some fr =>
      dsimp only
      by_cases ht : isTempIdx .vec i = true <;>
        simp [ht, TempRegAlloc.free, setFRState]

/-! ### Working with the invariants -/

theorem tempIdx_lt16 {c : RegClass} {i : Nat} (h : isTempIdx c i = true) : i < 16 := by
  cases c <;> simp [isTempIdx, inRange, kGPTemp, kVecTemp] at h <;> omega

theorem temp_not_saved {c : RegClass} {i : Nat} (h : isTempIdx c i = true) :
    isSavedIdx c i = false := by
  cases c <;> simp [isTempIdx, isSavedIdx, inRange, kGPTemp, kVecTemp, kGPSaved,
    kVecSaved] at h ⊢ <;> omega

theorem localBindingOK_spec {s : EmitState} {c : RegClass} {h : HWReg} {fr : Nat}
    (hok : localBindingOK s c h fr = true) :
    h = .invalid ∨ ∃ i, h = .reg c i ∧ isTempIdx c i = true ∧
      s.hwContains c i = some fr := by
  cases h with
  | invalid => exact Or.inl rfl
  | reg c2 i =>
    simp only [localBindingOK, Bool.and_eq_true, decide_eq_true_eq, beq_iff_eq] at hok
    obtain ⟨⟨hc, ht⟩, hcont⟩ := hok
    subst hc
    exact Or.inr ⟨i, rfl, ht, hcont⟩

theorem localBindingOK_of {s : EmitState} {c : RegClass} {h : HWReg} {fr : Nat}
    (hcase : h = .invalid ∨ ∃ i, h = .reg c i ∧ isTempIdx c i = true ∧
      s.hwContains c i = some fr) : localBindingOK s c h fr = true := by
  rcases hcase with hinv | ⟨i, hh, ht, hcont⟩
  · rw [hinv]; rfl
  · rw [hh]
    simp [localBindingOK, ht, hcont]

theorem WFfr_spec {s : EmitState} {fr : Nat} (h : WFfr s fr = true) :
    localBindingOK s .gp (s.frameRegs fr).localGpX fr = true ∧
    localBindingOK s .vec (s.frameRegs fr).localVecD fr = true ∧
    (∀ c i, (s.frameRegs fr).globalReg = .reg c i → isSavedIdx c i = true) := by
  simp only [WFfr, Bool.and_eq_true] at h
  obtain ⟨⟨h1, h2⟩, h3⟩ := h
  refine ⟨h1, h2, ?_⟩
  intro c i hg
  rw [hg] at h3
  exact h3

theorem WFfr_of {s : EmitState} {fr : Nat}
    (h1 : localBindingOK s .gp (s.frameRegs fr).localGpX fr = true)
    (h2 : localBindingOK s .vec (s.frameRegs fr).localVecD fr = true)
    (h3 : ∀ c i, (s.frameRegs fr).globalReg = .reg c i → isSavedIdx c i = true) :
    WFfr s fr = true := by
  simp only [WFfr, Bool.and_eq_true]
  refine ⟨⟨h1, h2⟩, ?_⟩
  cases hg : (s.frameRegs fr).globalReg with
  | invalid => rfl
  | reg c i => exact h3 c i hg

theorem WFcontains_spec {s : EmitState} {c : RegClass} {i : Nat} {fr : Nat}
    (h : WFcontains s c i = true) (hc : s.hwContains c i = some fr) :
    fr < s.nRegs ∧
    (c = .gp → (s.frameRegs fr).localGpX = .reg .gp i) ∧
    (c = .vec → (s.frameRegs fr).localVecD = .reg .vec i) := by
  unfold WFcontains at h
  rw [hc] at h
  cases c with
  | gp =>
    simp only [Bool.and_eq_true, decide_eq_true_eq, beq_iff_eq] at h
    exact ⟨h.1, fun _ => h.2, fun hcv => RegClass.noConfusion hcv⟩
  | vec =>
    simp only [Bool.and_eq_true, decide_eq_true_eq, beq_iff_eq] at h
    exact ⟨h.1, fun hcv => RegClass.noConfusion hcv, fun _ => h.2⟩

theorem WFcontains_of {s : EmitState} {c : RegClass} {i : Nat}
    (h : ∀ fr, s.hwContains c i = some fr →
      fr < s.nRegs ∧
      (c = .gp → (s.frameRegs fr).localGpX = .reg .gp i) ∧
      (c = .vec → (s.frameRegs fr).localVecD = .reg .vec i)) :
    WFcontains s c i = true := by
  unfold WFcontains
  cases hc : s.hwContains c i with
  | none => rfl
  | some fr =>
    obtain ⟨h1, h2, h3⟩ := h fr hc
    cases c with
    | gp =>
      simp only [Bool.and_eq_true, decide_eq_true_eq, beq_iff_eq]
      exact ⟨h1, h2 rfl⟩
    | vec =>
      simp only [Bool.and_eq_true, decide_eq_true_eq, beq_iff_eq]
      exact ⟨h1, h3 rfl⟩

theorem FRInv_congr {s s2 : EmitState} {fr : Nat}
    (hfr : s2.frameRegs fr = s.frameRegs fr)
    (hl : s2.latest fr = s.latest fr)
    (hfv : s2.frameVal fr = s.frameVal fr)
    (h1 : s2.rd (s.frameRegs fr).localGpX = s.rd (s.frameRegs fr).localGpX)
    (h2 : s2.rd (s.frameRegs fr).localVecD = s.rd (s.frameRegs fr).localVecD)
    (h3 : s2.rd (s.frameRegs fr).globalReg = s.rd (s.frameRegs fr).globalReg)
    (h : FRInv s fr) : FRInv s2 fr := by
  unfold FRInv at h ⊢
  rw [hfr, hl, hfv, h1, h2, h3]
  exact h

theorem FRInv_congr_fields {s s2 : EmitState} {fr : Nat}
    (e1 : (s2.frameRegs fr).localGpX = (s.frameRegs fr).localGpX)
    (e2 : (s2.frameRegs fr).localVecD = (s.frameRegs fr).localVecD)
    (e3 : (s2.frameRegs fr).globalReg = (s.frameRegs fr).globalReg)
    (e4 : (s2.frameRegs fr).globalRegUpToDate = (s.frameRegs fr).globalRegUpToDate)
    (e5 : (s2.frameRegs fr).frameUpToDate = (s.frameRegs fr).frameUpToDate)
    (hl : s2.latest fr = s.latest fr)
    (hfv : s2.frameVal fr = s.frameVal fr)
    (h1 : s2.rd (s.frameRegs fr).localGpX = s.rd (s.frameRegs fr).localGpX)
    (h2 : s2.rd (s.frameRegs fr).localVecD = s.rd (s.frameRegs fr).localVecD)
    (h3 : s2.rd (s.frameRegs fr).globalReg = s.rd (s.frameRegs fr).globalReg)
    (h : FRInv s fr) : FRInv s2 fr := by
  unfold FRInv at h ⊢
  rw [e1, e2, e3, e4, e5, hl, hfv, h1, h2, h3]
  exact h

theorem localBindingOK_congr {s s2 : EmitState} {c : RegClass} {h : HWReg} {fr : Nat}
    (hc : ∀ c2 i, s2.hwContains c2 i = s.hwContains c2 i) :
    localBindingOK s2 c h fr = localBindingOK s c h fr := by
  cases h with
  | invalid => rfl
  | reg c2 i => simp [localBindingOK, hc]

theorem WF_congr {s s2 : EmitState}
    (hn : s2.nRegs = s.nRegs)
    (hb : ∀ fr, (s2.frameRegs fr).localGpX = (s.frameRegs fr).localGpX ∧
      (s2.frameRegs fr).localVecD = (s.frameRegs fr).localVecD ∧
      (s2.frameRegs fr).globalReg = (s.frameRegs fr).globalReg)
    (hc : ∀ c i, s2.hwContains c i = s.hwContains c i)
    (hg : s2.gpTemp.freeList = s.gpTemp.freeList)
    (hvp : s2.vecTemp.freeList = s.vecTemp.freeList)
    (h : WF s) : WF s2 := by
  obtain ⟨h1, h2, h3, h4, h5⟩ := h
  refine ⟨?_, ?_, ?_, ?_, ?_⟩
  · intro fr hlt
    obtain ⟨w1, w2, w3⟩ := WFfr_spec (h1 fr (hn ▸ hlt))
    apply WFfr_of
    · rw [localBindingOK_congr hc, (hb fr).1]
      exact w1
    · rw [localBindingOK_congr hc, (hb fr).2.1]
      exact w2
    · intro c i hgr
      exact w3 c i ((hb fr).2.2 ▸ hgr)
  · intro i hi
    constructor
    · apply WFcontains_of
      intro fr hcont
      rw [hc] at hcont
      obtain ⟨u1, u2, u3⟩ := WFcontains_spec (h2 i hi).1 hcont
      exact ⟨hn ▸ u1, fun hcg => (hb fr).1.trans (u2 hcg),
        fun hcv => RegClass.noConfusion hcv⟩
    · apply WFcontains_of
      intro fr hcont
      rw [hc] at hcont
      obtain ⟨u1, u2, u3⟩ := WFcontains_spec (h2 i hi).2 hcont
      exact ⟨hn ▸ u1, fun hcg => RegClass.noConfusion hcg,
        fun hcv => (hb fr).2.1.trans (u3 hcv)⟩
  · intro fr1 hf1 fr2 hf2 hne hval
    rw [(hb fr1).2.2, (hb fr2).2.2]
    rw [(hb fr1).2.2] at hval
    exact h3 fr1 (hn ▸ hf1) fr2 (hn ▸ hf2) hne hval
  · intro i hi
    have := h4 i (by rwa [show (getPool s2 .gp).freeList = (getPool s .gp).freeList from hg] at hi)
    exact ⟨this.1, (hc .gp i).trans this.2⟩
  · intro i hi
    have := h5 i (by rwa [show (getPool s2 .vec).freeList = (getPool s .vec).freeList from hvp] at hi)
    exact ⟨this.1, (hc .vec i).trans this.2⟩

theorem rd_congr {s s2 : EmitState} (e : s2.regVal = s.regVal) (h : HWReg) :
    s2.rd h = s.rd h := by
  cases h with
  | invalid => rfl
  | reg c i => show s2.regVal c i = s.regVal c i; rw [e]

/-- Freeing a temporary register owned by `fr` preserves well-formedness,
changes only `fr`'s record (clearing the matching local field), and preserves
every other FR's consistency. -/
theorem freeReg_owned_facts {s : EmitState} {fr : Nat} {c : RegClass} {i : Nat}
    (hWF : WF s) (ht : isTempIdx c i = true) (hc : s.hwContains c i = some fr) :
    WF (freeReg s (.reg c i)) ∧
    (∀ fr2, fr2 ≠ fr → (freeReg s (.reg c i)).frameRegs fr2 = s.frameRegs fr2) ∧
    ((c = .gp → (freeReg s (.reg c i)).frameRegs fr =
        { s.frameRegs fr with localGpX := .invalid }) ∧
     (c = .vec → (freeReg s (.reg c i)).frameRegs fr =
        { s.frameRegs fr with localVecD := .invalid })) ∧
    (∀ fr2, fr2 ≠ fr → FRInv s fr2 → FRInv (freeReg s (.reg c i)) fr2) ∧
    (freeReg s (.reg c i)).regVal = s.regVal ∧
    (freeReg s (.reg c i)).frameVal = s.frameVal ∧
    (freeReg s (.reg c i)).latest = s.latest ∧
    (freeReg s (.reg c i)).nRegs = s.nRegs := by
  obtain ⟨hrv, hfv, hlat, hn, hcontA, hnone, hsome⟩ := freeReg_sem s c i
  have hfrsG := (hsome fr hc).1
  have hfrsV := (hsome fr hc).2
  have hi16 : i < 16 := tempIdx_lt16 ht
  have hconts : ∀ c2 i2, (freeReg s (.reg c i)).hwContains c2 i2 =
      if c2 = c ∧ i2 = i then none else s.hwContains c2 i2 := by
    intro c2 i2
    rw [hcontA]
    rfl
  have hothers : ∀ fr2, fr2 ≠ fr →
      (freeReg s (.reg c i)).frameRegs fr2 = s.frameRegs fr2 := by
    intro fr2 hne
    cases c with
    | gp => rw [hfrsG rfl]; exact upd1_other _ _ _ hne
    | vec => rw [hfrsV rfl]; exact upd1_other _ _ _ hne
  have hselfG : c = .gp → (freeReg s (.reg c i)).frameRegs fr =
      { s.frameRegs fr with localGpX := .invalid } := by
    intro hcg
    rw [hfrsG hcg]
    exact upd1_same _ _ _
  have hselfV : c = .vec → (freeReg s (.reg c i)).frameRegs fr =
      { s.frameRegs fr with localVecD := .invalid } := by
    intro hcv
    rw [hfrsV hcv]
    exact upd1_same _ _ _
  have hglobself : ((freeReg s (.reg c i)).frameRegs fr).globalReg =
      (s.frameRegs fr).globalReg := by
    cases c with
    | gp => rw [hselfG rfl]
    | vec => rw [hselfV rfl]
  have hWFci : WFcontains s c i = true := by
    rcases c with _ | _
    · exact (hWF.2.1 i hi16).1
    · exact (hWF.2.1 i hi16).2
  have hlocmatch := WFcontains_spec hWFci hc
  have hLBOK : ∀ (c2 : RegClass) (h2 : HWReg) (fr2 : Nat), h2 ≠ .reg c i →
      localBindingOK s c2 h2 fr2 = true →
      localBindingOK (freeReg s (.reg c i)) c2 h2 fr2 = true := by
    intro c2 h2 fr2 hne hb
    rcases localBindingOK_spec hb with hinv | ⟨j, hj, htj, hcj⟩
    · exact localBindingOK_of (Or.inl hinv)
    · apply localBindingOK_of
      right
      refine ⟨j, hj, htj, ?_⟩
      rw [hconts, if_neg]
      · exact hcj
      · rintro ⟨e1, e2⟩
        subst e1
        subst e2
        exact hne hj
  have hbind_ne : ∀ (c2 : RegClass) (h2 : HWReg) (fr2 : Nat), fr2 ≠ fr →
      localBindingOK s c2 h2 fr2 = true → h2 ≠ .reg c i := by
    intro c2 h2 fr2 hne hb heq
    rcases localBindingOK_spec hb with hinv | ⟨j, hj, htj, hcj⟩
    · rw [hinv] at heq
      exact HWReg.noConfusion heq
    · rw [hj] at heq
      cases heq
      rw [hcj] at hc
      exact hne (Option.some.inj hc.symm).symm
  refine ⟨?_, hothers, ⟨hselfG, hselfV⟩, ?_, hrv, hfv, hlat, hn⟩
  · -- WF preservation
    obtain ⟨w1, w2, w3, w4, w5⟩ := hWF
    refine ⟨?_, ?_, ?_, ?_, ?_⟩
    · -- WFfr
      intro fr2 hlt2
      rw [hn] at hlt2
      obtain ⟨b1, b2, b3⟩ := WFfr_spec (w1 fr2 hlt2)
      by_cases hne : fr2 = fr
      · subst hne
        apply WFfr_of
        · cases c with
          | gp =>
            rw [hselfG rfl]
            simp [localBindingOK]
          | vec =>
            rw [hselfV rfl]
            show localBindingOK _ .gp (s.frameRegs fr2).localGpX fr2 = true
            apply hLBOK .gp _ fr2 ?_ b1
            intro heq
            rcases localBindingOK_spec b1 with hinv | ⟨j, hj, _, _⟩
            · rw [hinv] at heq
              exact HWReg.noConfusion heq
            · rw [hj] at heq
              cases heq
        · cases c with
          | vec =>
            rw [hselfV rfl]
            simp [localBindingOK]
          | gp =>
            rw [hselfG rfl]
            show localBindingOK _ .vec (s.frameRegs fr2).localVecD fr2 = true
            apply hLBOK .vec _ fr2 ?_ b2
            intro heq
            rcases localBindingOK_spec b2 with hinv | ⟨j, hj, _, _⟩
            · rw [hinv] at heq
              exact HWReg.noConfusion heq
            · rw [hj] at heq
              cases heq
        · intro c2 i2 hgr
          rw [hglobself] at hgr
          exact b3 c2 i2 hgr
      · apply WFfr_of
        · rw [hothers fr2 hne]
          exact hLBOK .gp _ fr2 (hbind_ne .gp _ fr2 hne b1) b1
        · rw [hothers fr2 hne]
          exact hLBOK .vec _ fr2 (hbind_ne .vec _ fr2 hne b2) b2
        · intro c2 i2 hgr
          rw [hothers fr2 hne] at hgr
          exact b3 c2 i2 hgr
    · -- WFcontains
      intro i2 hi2
      have main : ∀ c2 : RegClass, WFcontains (freeReg s (.reg c i)) c2 i2 = true := by
        intro c2
        apply WFcontains_of
        intro fr2 hc2
        rw [hconts] at hc2
        by_cases hpos : (c2 = c ∧ i2 = i)
        · rw [if_pos hpos] at hc2
          exact Option.noConfusion hc2
        · rw [if_neg hpos] at hc2
          have hold := WFcontains_spec (by
            rcases c2 with _ | _
            · exact (w2 i2 hi2).1
            · exact (w2 i2 hi2).2) hc2
          refine ⟨hn ▸ hold.1, ?_, ?_⟩
          · intro hcg
            subst hcg
            by_cases hne : fr2 = fr
            · subst hne
              cases c with
              | gp =>
                exfalso
                have h1 := hold.2.1 rfl
                have h2 := hlocmatch.2.1 rfl
                rw [h1] at h2
                cases h2
                exact hpos ⟨rfl, rfl⟩
              | vec =>
                rw [hselfV rfl]
                exact hold.2.1 rfl
            · rw [hothers fr2 hne]
              exact hold.2.1 rfl
          · intro hcv
            subst hcv
            by_cases hne : fr2 = fr
            · subst hne
              cases c with
              | vec =>
                exfalso
                have h1 := hold.2.2 rfl
                have h2 := hlocmatch.2.2 rfl
                rw [h1] at h2
                cases h2
                exact hpos ⟨rfl, rfl⟩
              | gp =>
                rw [hselfG rfl]
                exact hold.2.2 rfl
            · rw [hothers fr2 hne]
              exact hold.2.2 rfl
      exact ⟨main .gp, main .vec⟩
    · -- globals disjoint
      intro fr1 hf1 fr2 hf2 hne hval
      rw [hn] at hf1 hf2
      have e1 : ((freeReg s (.reg c i)).frameRegs fr1).globalReg =
          (s.frameRegs fr1).globalReg := by
        by_cases h1 : fr1 = fr
        · subst h1
          exact hglobself
        · rw [hothers fr1 h1]
      have e2 : ((freeReg s (.reg c i)).frameRegs fr2).globalReg =
          (s.frameRegs fr2).globalReg := by
        by_cases h2 : fr2 = fr
        · subst h2
          exact hglobself
        · rw [hothers fr2 h2]
      rw [e1, e2]
      rw [e1] at hval
      exact w3 fr1 hf1 fr2 hf2 hne hval
    · -- gp pool
      intro j hj
      simp only [getPool] at hj
      have hfree := (freeReg_gpFree s c i).1
      rw [hfree] at hj
      by_cases hcgp : c = .gp ∧ isTempIdx .gp i = true
      · rw [if_pos hcgp] at hj
        rcases List.mem_cons.1 hj with hji | hjold
        · subst hji
          refine ⟨hcgp.2, ?_⟩
          rw [hconts, if_pos ⟨hcgp.1.symm, rfl⟩]
        · have hold := w4 j hjold
          refine ⟨hold.1, ?_⟩
          rw [hconts]
          split
          · rfl
          · exact hold.2
      · rw [if_neg hcgp] at hj
        have hold := w4 j hj
        refine ⟨hold.1, ?_⟩
        rw [hconts]
        split
        · rfl
        · exact hold.2
    · -- vec pool
      intro j hj
      simp only [getPool] at hj
      have hfree := (freeReg_gpFree s c i).2
      rw [hfree] at hj
      by_cases hcv : c = .vec ∧ isTempIdx .vec i = true
      · rw [if_pos hcv] at hj
        rcases List.mem_cons.1 hj with hji | hjold
        · subst hji
          refine ⟨hcv.2, ?_⟩
          rw [hconts, if_pos ⟨hcv.1.symm, rfl⟩]
        · have hold := w5 j hjold
          refine ⟨hold.1, ?_⟩
          rw [hconts]
          split
          · rfl
          · exact hold.2
      · rw [if_neg hcv] at hj
        have hold := w5 j hj
        refine ⟨hold.1, ?_⟩
        rw [hconts]
        split
        · rfl
        · exact hold.2
  · intro fr2 hne hInv2
    apply FRInv_congr_fields (s := s)
    · rw [hothers fr2 hne]
    · rw [hothers fr2 hne]
    · rw [hothers fr2 hne]
    · rw [hothers fr2 hne]
    · rw [hothers fr2 hne]
    · rw [hlat]
    · rw [hfv]
    · exact rd_congr hrv _
    · exact rd_congr hrv _
    · exact rd_congr hrv _
    · exact hInv2

theorem WF_latest (s : EmitState) (l : Nat → Nat) (h : WF s) :
    WF ({ s with latest := l }) :=
  WF_congr rfl (fun _ => ⟨rfl, rfl, rfl⟩) (fun _ _ => rfl) rfl rfl h

theorem WF_setFRState_flags {s : EmitState} (fr : Nat) {f : FRState → FRState}
    (hf : ∀ st, (f st).localGpX = st.localGpX ∧ (f st).localVecD = st.localVecD ∧
      (f st).globalReg = st.globalReg) (h : WF s) : WF (setFRState s fr f) := by
  refine WF_congr ?_ ?_ ?_ ?_ ?_ h
  · rfl
  · intro fr2
    rw [setFRState_frameRegs]
    by_cases hne : fr2 = fr
    · subst hne
      rw [upd1_same]
      exact hf _
    · rw [upd1_other _ _ _ hne]
      exact ⟨rfl, rfl, rfl⟩
  · intro c i
    rfl
  · rfl
  · rfl

theorem FRInv_setFRState_other {s : EmitState} {fr fr2 : Nat} (f : FRState → FRState)
    (hne : fr2 ≠ fr) (hi : FRInv s fr2) : FRInv (setFRState s fr f) fr2 := by
  apply FRInv_congr_fields (s := s)
  · rw [setFRState_frameRegs, upd1_other _ _ _ hne]
  · rw [setFRState_frameRegs, upd1_other _ _ _ hne]
  · rw [setFRState_frameRegs, upd1_other _ _ _ hne]
  · rw [setFRState_frameRegs, upd1_other _ _ _ hne]
  · rw [setFRState_frameRegs, upd1_other _ _ _ hne]
  · rfl
  · rfl
  · exact rd_setFRState s fr f _
  · exact rd_setFRState s fr f _
  · exact rd_setFRState s fr f _
  · exact hi

theorem freeReg_inv (s : EmitState) : freeReg s .invalid = s := rfl

theorem hwreg_inv_of_not_valid {h : HWReg} (hn : ¬h.isValid = true) :
    h = .invalid := by
  cases h with
  | invalid => rfl
  | reg c i => exact absurd rfl hn

theorem frUpdateType_facts (s : EmitState) (fr : Nat) (ty : FRType) :
    (frUpdateType s fr ty).latest = s.latest ∧
    (frUpdateType s fr ty).frameVal = s.frameVal ∧
    (frUpdateType s fr ty).regVal = s.regVal ∧
    (frUpdateType s fr ty).nRegs = s.nRegs ∧
    (∀ fr2, fr2 ≠ fr → (frUpdateType s fr ty).frameRegs fr2 = s.frameRegs fr2) ∧
    (WF s → WF (frUpdateType s fr ty)) ∧
    (∀ fr2, FRInv s fr2 → FRInv (frUpdateType s fr ty) fr2) := by
  refine ⟨rfl, rfl, rfl, rfl, ?_, ?_, ?_⟩
  · intro fr2 hne
    show (setFRState s fr _).frameRegs fr2 = s.frameRegs fr2
    rw [setFRState_frameRegs, upd1_other _ _ _ hne]
  · intro hWF
    exact WF_setFRState_flags fr (fun st => ⟨rfl, rfl, rfl⟩) hWF
  · intro fr2 hi
    by_cases hne : fr2 = fr
    · subst hne
      refine FRInv_congr_fields (s := s) ?_ ?_ ?_ ?_ ?_ rfl rfl ?_ ?_ ?_ hi
      · rw [show frUpdateType s fr2 ty = setFRState s fr2 _ from rfl,
          setFRState_frameRegs, upd1_same]
      · rw [show frUpdateType s fr2 ty = setFRState s fr2 _ from rfl,
          setFRState_frameRegs, upd1_same]
      · rw [show frUpdateType s fr2 ty = setFRState s fr2 _ from rfl,
          setFRState_frameRegs, upd1_same]
      · rw [show frUpdateType s fr2 ty = setFRState s fr2 _ from rfl,
          setFRState_frameRegs, upd1_same]
      · rw [show frUpdateType s fr2 ty = setFRState s fr2 _ from rfl,
          setFRState_frameRegs, upd1_same]
      · exact rd_setFRState s fr2 _ _
      · exact rd_setFRState s fr2 _ _
      · exact rd_setFRState s fr2 _ _
    · exact FRInv_setFRState_other _ hne hi

/-- Re-establishing one FR's value consistency from an explicit description of
its final binding record, when the register `h` holds the latest value. -/
theorem FRInv_self_of {s sF : EmitState} {fr : Nat} {h : HWReg}
    (hv : h.isValid = true)
    (hrd : ∀ h2, sF.rd h2 = s.rd h2)
    (hlat : sF.latest fr = s.rd h)
    (hgx : (sF.frameRegs fr).localGpX = .invalid ∨ (sF.frameRegs fr).localGpX = h)
    (hvd : (sF.frameRegs fr).localVecD = .invalid ∨ (sF.frameRegs fr).localVecD = h)
    (hgl : (sF.frameRegs fr).globalRegUpToDate = true → (sF.frameRegs fr).globalReg = h)
    (hfu : (sF.frameRegs fr).frameUpToDate = false)
    (hauth : (sF.frameRegs fr).localGpX = h ∨ (sF.frameRegs fr).localVecD = h ∨
      ((sF.frameRegs fr).globalReg = h ∧ (sF.frameRegs fr).globalRegUpToDate = true)) :
    FRInv sF fr := by
  refine ⟨?_, ?_, ?_, ?_, ?_, ?_⟩
  · intro hval
    rcases hgx with e | e
    · rw [e] at hval
      exact Bool.noConfusion hval
    · rw [e, hrd, hlat]
  · intro hval
    rcases hvd with e | e
    · rw [e] at hval
      exact Bool.noConfusion hval
    · rw [e, hrd, hlat]
  · intro hval hutd
    rw [hgl hutd, hrd, hlat]
  · intro habs
    rw [hfu] at habs
    exact Bool.noConfusion habs
  · rcases hauth with e | e | ⟨e, eu⟩
    · exact Or.inl (by rw [e]; exact hv)
    · exact Or.inr (Or.inl (by rw [e]; exact hv))
    · exact Or.inr (Or.inr (Or.inl ⟨by rw [e]; exact hv, eu⟩))
  · intro hval hnutd
    rcases hauth with e | e | ⟨e, eu⟩
    · exact Or.inl (by rw [e]; exact hv)
    · exact Or.inr (by rw [e]; exact hv)
    · rw [eu] at hnutd
      exact Bool.noConfusion hnutd

/-- Assemble the conclusion of `frUpdatedCore_good` at one leaf of its case
analysis. -/
theorem core_leaf {s sF : EmitState} {fr : Nat} {h : HWReg}
    (hfr : fr < s.nRegs) (hv : h.isValid = true)
    (hWFF : WF sF)
    (hInvF : ∀ fr2, fr2 < s.nRegs → fr2 ≠ fr → FRInv sF fr2)
    (hlatF : sF.latest = upd1 s.latest fr (s.rd h))
    (hothersF : ∀ fr2, fr2 ≠ fr → sF.frameRegs fr2 = s.frameRegs fr2)
    (hfvF : sF.frameVal = s.frameVal)
    (hrvF : sF.regVal = s.regVal)
    (hnF : sF.nRegs = s.nRegs)
    (hgx : (sF.frameRegs fr).localGpX = .invalid ∨ (sF.frameRegs fr).localGpX = h)
    (hvd : (sF.frameRegs fr).localVecD = .invalid ∨ (sF.frameRegs fr).localVecD = h)
    (hgl : (sF.frameRegs fr).globalRegUpToDate = true → (sF.frameRegs fr).globalReg = h)
    (hfu : (sF.frameRegs fr).frameUpToDate = false)
    (hauth : (sF.frameRegs fr).localGpX = h ∨ (sF.frameRegs fr).localVecD = h ∨
      ((sF.frameRegs fr).globalReg = h ∧ (sF.frameRegs fr).globalRegUpToDate = true)) :
    Good sF ∧ sF.latest = upd1 s.latest fr (s.rd h) ∧
    (∀ fr2, fr2 ≠ fr → sF.frameRegs fr2 = s.frameRegs fr2) ∧
    sF.frameVal = s.frameVal ∧ sF.regVal = s.regVal ∧ sF.nRegs = s.nRegs := by
  have hlat1 : sF.latest fr = s.rd h := by
    rw [hlatF]
    exact upd1_same _ _ _
  have hself : FRInv sF fr :=
    FRInv_self_of hv (fun h2 => rd_congr hrvF h2) hlat1 hgx hvd hgl hfu hauth
  refine ⟨⟨hWFF, ?_⟩, hlatF, hothersF, hfvF, hrvF, hnF⟩
  intro fr2 hlt
  by_cases e : fr2 = fr
  · rw [e]
    exact hself
  · exact hInvF fr2 (by rwa [hnF] at hlt) e

/-- The binding update of `frUpdatedWithHWReg` preserves the invariant (the
target FR's consistency is re-established with `h` as the authoritative
location holding the new latest value) and changes no other FR, no register
content and no frame memory. -/
theorem frUpdatedCore_good (s : EmitState) (fr : Nat) (h : HWReg)
    (hWF : WF s)
    (hInv : ∀ fr2, fr2 < s.nRegs → fr2 ≠ fr → FRInv s fr2)
    (hfr : fr < s.nRegs) (hv : h.isValid = true)
    (hmem : h = (s.frameRegs fr).globalReg ∨ h = (s.frameRegs fr).localGpX ∨
            h = (s.frameRegs fr).localVecD) :
    Good (frUpdatedCore s fr h) ∧
    (frUpdatedCore s fr h).latest = upd1 s.latest fr (s.rd h) ∧
    (∀ fr2, fr2 ≠ fr → (frUpdatedCore s fr h).frameRegs fr2 = s.frameRegs fr2) ∧
    (frUpdatedCore s fr h).frameVal = s.frameVal ∧
    (frUpdatedCore s fr h).regVal = s.regVal ∧
    (frUpdatedCore s fr h).nRegs = s.nRegs := by
  obtain ⟨hb1, hb2, hb3⟩ := WFfr_spec (hWF.1 fr hfr)
  unfold frUpdatedCore
  dsimp only
  generalize hgen2 : setFRState { s with latest := upd1 s.latest fr (s.rd h) } fr
    (fun st => { st with frameUpToDate := false }) = s2
  have hR2 : s2.frameRegs fr = { s.frameRegs fr with frameUpToDate := false } := by
    rw [← hgen2, setFRState_frameRegs, upd1_same]
  have hoth2 : ∀ fr2, fr2 ≠ fr → s2.frameRegs fr2 = s.frameRegs fr2 := by
    intro fr2 hne
    rw [← hgen2, setFRState_frameRegs, upd1_other _ _ _ hne]
  have hlat2 : s2.latest = upd1 s.latest fr (s.rd h) := by
    rw [← hgen2]
    rfl
  have hrv2 : s2.regVal = s.regVal := by
    rw [← hgen2]
    rfl
  have hfv2 : s2.frameVal = s.frameVal := by
    rw [← hgen2]
    rfl
  have hn2 : s2.nRegs = s.nRegs := by
    rw [← hgen2]
    rfl
  have hcont2 : s2.hwContains = s.hwContains := by
    rw [← hgen2]
    rfl
  have hWF2 : WF s2 := by
    rw [← hgen2]
    exact WF_setFRState_flags fr (fun st => ⟨rfl, rfl, rfl⟩) (WF_latest s _ hWF)
  have hInv2 : ∀ fr2, fr2 < s.nRegs → fr2 ≠ fr → FRInv s2 fr2 := by
    intro fr2 hlt hne
    rw [← hgen2]
    refine FRInv_setFRState_other _ hne ?_
    refine FRInv_congr_fields (s := s) rfl rfl rfl rfl rfl ?_ rfl (rd_congr rfl _)
      (rd_congr rfl _) (rd_congr rfl _) (hInv fr2 hlt hne)
    exact upd1_other _ _ _ hne
  rw [hR2]
  dsimp only
  by_cases hG : (s.frameRegs fr).globalReg = h
  · rw [if_pos hG]
    generalize hgenA : setFRState s2 fr (fun st => { st with globalRegUpToDate := true }) = sA
    have hRA : sA.frameRegs fr =
        { s.frameRegs fr with frameUpToDate := false, globalRegUpToDate := true } := by
      rw [← hgenA, setFRState_frameRegs, upd1_same, hR2]
    have hothA : ∀ fr2, fr2 ≠ fr → sA.frameRegs fr2 = s.frameRegs fr2 := by
      intro fr2 hne
      rw [← hgenA, setFRState_frameRegs, upd1_other _ _ _ hne, hoth2 fr2 hne]
    have hlatA : sA.latest = upd1 s.latest fr (s.rd h) := by
      rw [← hgenA]
      exact hlat2
    have hrvA : sA.regVal = s.regVal := by
      rw [← hgenA]
      exact hrv2
    have hfvA : sA.frameVal = s.frameVal := by
      rw [← hgenA]
      exact hfv2
    have hnA : sA.nRegs = s.nRegs := by
      rw [← hgenA]
      exact hn2
    have hcontApre : sA.hwContains = s.hwContains := by
      rw [← hgenA]
      exact hcont2
    have hWFA : WF sA := by
      rw [← hgenA]
      exact WF_setFRState_flags fr (fun st => ⟨rfl, rfl, rfl⟩) hWF2
    have hInvA : ∀ fr2, fr2 < s.nRegs → fr2 ≠ fr → FRInv sA fr2 := by
      intro fr2 hlt hne
      rw [← hgenA]
      exact FRInv_setFRState_other _ hne (hInv2 fr2 hlt hne)
    rw [hRA]
    dsimp only
    by_cases hLg : (s.frameRegs fr).localGpX.isValid = true
    · rcases localBindingOK_spec hb1 with hinvg | ⟨ig, hlg, htg, hcg⟩
      · rw [hinvg] at hLg
        exact Bool.noConfusion hLg
      · rw [if_pos hLg, hlg]
        have hcgA : sA.hwContains .gp ig = some fr := by
          rw [hcontApre]
          exact hcg
        obtain ⟨fWF, fothers, ⟨fselfG, fselfV⟩, fInv, frv, ffv, flat, fn⟩ :=
          freeReg_owned_facts (s := sA) hWFA htg hcgA
        generalize hgenB : freeReg sA (HWReg.reg .gp ig) = sB
        rw [hgenB] at fWF fothers fselfG fInv frv ffv flat fn
        have hRB : sB.frameRegs fr = { s.frameRegs fr with
            frameUpToDate := false
            globalRegUpToDate := true
            localGpX := .invalid } := by
          rw [fselfG rfl, hRA]
        have hothB : ∀ fr2, fr2 ≠ fr → sB.frameRegs fr2 = s.frameRegs fr2 := by
          intro fr2 hne
          rw [fothers fr2 hne, hothA fr2 hne]
        have hlatB : sB.latest = upd1 s.latest fr (s.rd h) := by
          rw [flat, hlatA]
        have hrvB : sB.regVal = s.regVal := by
          rw [frv, hrvA]
        have hfvB : sB.frameVal = s.frameVal := by
          rw [ffv, hfvA]
        have hnB : sB.nRegs = s.nRegs := by
          rw [fn, hnA]
        have hInvB : ∀ fr2, fr2 < s.nRegs → fr2 ≠ fr → FRInv sB fr2 :=
          fun fr2 hlt hne => fInv fr2 hne (hInvA fr2 hlt hne)
        have hcontB : ∀ c2 i2, ¬(c2 = RegClass.gp ∧ i2 = ig) →
            sB.hwContains c2 i2 = s.hwContains c2 i2 := by
          intro c2 i2 hne
          have hc := (freeReg_sem sA .gp ig).2.2.2.2.1
          rw [hgenB] at hc
          rw [hc, upd2_other _ _ _ _ hne, hcontApre]
        rw [hRB]
        dsimp only
        by_cases hLv : (s.frameRegs fr).localVecD.isValid = true
        · rcases localBindingOK_spec hb2 with hinvv | ⟨iv, hlv, htv, hcv⟩
          · rw [hinvv] at hLv
            exact Bool.noConfusion hLv
          · rw [if_pos hLv, hlv]
            have hcvB : sB.hwContains .vec iv = some fr := by
              rw [hcontB .vec iv (by rintro ⟨e, _⟩; exact RegClass.noConfusion e)]
              exact hcv
            obtain ⟨gWF, gothers, ⟨gselfG, gselfV⟩, gInv, grv, gfv, glat, gn⟩ :=
              freeReg_owned_facts (s := sB) fWF htv hcvB
            have hRC : (freeReg sB (HWReg.reg .vec iv)).frameRegs fr =
                { s.frameRegs fr with
                    frameUpToDate := false
                    globalRegUpToDate := true
                    localGpX := .invalid
                    localVecD := .invalid } := by
              rw [gselfV rfl, hRB]
            refine core_leaf hfr hv gWF
              (fun fr2 hlt hne => gInv fr2 hne (hInvB fr2 hlt hne))
              (by rw [glat, hlatB]) (fun fr2 hne => by rw [gothers fr2 hne, hothB fr2 hne])
              (by rw [gfv, hfvB]) (by rw [grv, hrvB]) (by rw [gn, hnB]) ?_ ?_ ?_ ?_ ?_
            · rw [hRC]
              exact Or.inl rfl
            · rw [hRC]
              exact Or.inl rfl
            · rw [hRC]
              intro hu
              exact hG
            · rw [hRC]
            · exact Or.inr (Or.inr ⟨by rw [hRC]; exact hG, by rw [hRC]⟩)
        · rw [if_neg hLv]
          have hinvv : (s.frameRegs fr).localVecD = .invalid := hwreg_inv_of_not_valid hLv
          refine core_leaf hfr hv fWF hInvB hlatB hothB hfvB hrvB hnB ?_ ?_ ?_ ?_ ?_
          · rw [hRB]
            exact Or.inl rfl
          · rw [hRB]
            exact Or.inl hinvv
          · rw [hRB]
            intro hu
            exact hG
          · rw [hRB]
          · exact Or.inr (Or.inr ⟨by rw [hRB]; exact hG, by rw [hRB]⟩)
    · rw [if_neg hLg]
      have hinvg : (s.frameRegs fr).localGpX = .invalid := hwreg_inv_of_not_valid hLg
      rw [hRA]
      dsimp only
      by_cases hLv : (s.frameRegs fr).localVecD.isValid = true
      · rcases localBindingOK_spec hb2 with hinvv | ⟨iv, hlv, htv, hcv⟩
        · rw [hinvv] at hLv
          exact Bool.noConfusion hLv
        · rw [if_pos hLv, hlv]
          have hcvA : sA.hwContains .vec iv = some fr := by
            rw [hcontApre]
            exact hcv
          obtain ⟨gWF, gothers, ⟨gselfG, gselfV⟩, gInv, grv, gfv, glat, gn⟩ :=
            freeReg_owned_facts (s := sA) hWFA htv hcvA
          have hRC : (freeReg sA (HWReg.reg .vec iv)).frameRegs fr =
              { s.frameRegs fr with
                  frameUpToDate := false
                  globalRegUpToDate := true
                  localVecD := .invalid } := by
            rw [gselfV rfl, hRA]
          refine core_leaf hfr hv gWF
            (fun fr2 hlt hne => gInv fr2 hne (hInvA fr2 hlt hne))
            (by rw [glat, hlatA]) (fun fr2 hne => by rw [gothers fr2 hne, hothA fr2 hne])
            (by rw [gfv, hfvA]) (by rw [grv, hrvA]) (by rw [gn, hnA]) ?_ ?_ ?_ ?_ ?_
          · rw [hRC]
            exact Or.inl hinvg
          · rw [hRC]
            exact Or.inl rfl
          · rw [hRC]
            intro hu
            exact hG
          · rw [hRC]
          · exact Or.inr (Or.inr ⟨by rw [hRC]; exact hG, by rw [hRC]⟩)
      · rw [if_neg hLv]
        have hinvv : (s.frameRegs fr).localVecD = .invalid := hwreg_inv_of_not_valid hLv
        refine core_leaf hfr hv hWFA hInvA hlatA hothA hfvA hrvA hnA ?_ ?_ ?_ ?_ ?_
        · rw [hRA]
          exact Or.inl hinvg
        · rw [hRA]
          exact Or.inl hinvv
        · rw [hRA]
          intro hu
          exact hG
        · rw [hRA]
        · exact Or.inr (Or.inr ⟨by rw [hRA]; exact hG, by rw [hRA]⟩)
  · rw [if_neg hG]
    generalize hgenA : setFRState s2 fr (fun st => { st with globalRegUpToDate := false }) = sA
    have hRA : sA.frameRegs fr =
        { s.frameRegs fr with frameUpToDate := false, globalRegUpToDate := false } := by
      rw [← hgenA, setFRState_frameRegs, upd1_same, hR2]
    have hothA : ∀ fr2, fr2 ≠ fr → sA.frameRegs fr2 = s.frameRegs fr2 := by
      intro fr2 hne
      rw [← hgenA, setFRState_frameRegs, upd1_other _ _ _ hne, hoth2 fr2 hne]
    have hlatA : sA.latest = upd1 s.latest fr (s.rd h) := by
      rw [← hgenA]
      exact hlat2
    have hrvA : sA.regVal = s.regVal := by
      rw [← hgenA]
      exact hrv2
    have hfvA : sA.frameVal = s.frameVal := by
      rw [← hgenA]
      exact hfv2
    have hnA : sA.nRegs = s.nRegs := by
      rw [← hgenA]
      exact hn2
    have hcontApre : sA.hwContains = s.hwContains := by
      rw [← hgenA]
      exact hcont2
    have hWFA : WF sA := by
      rw [← hgenA]
      exact WF_setFRState_flags fr (fun st => ⟨rfl, rfl, rfl⟩) hWF2
    have hInvA : ∀ fr2, fr2 < s.nRegs → fr2 ≠ fr → FRInv sA fr2 := by
      intro fr2 hlt hne
      rw [← hgenA]
      exact FRInv_setFRState_other _ hne (hInv2 fr2 hlt hne)
    rw [hRA]
    dsimp only
    by_cases hHG : h = (s.frameRegs fr).localGpX
    · rw [if_pos hHG]
      by_cases hLv : (s.frameRegs fr).localVecD.isValid = true
      · rcases localBindingOK_spec hb2 with hinvv | ⟨iv, hlv, htv, hcv⟩
        · rw [hinvv] at hLv
          exact Bool.noConfusion hLv
        · rw [hlv]
          have hcvA : sA.hwContains .vec iv = some fr := by
            rw [hcontApre]
            exact hcv
          obtain ⟨gWF, gothers, ⟨gselfG, gselfV⟩, gInv, grv, gfv, glat, gn⟩ :=
            freeReg_owned_facts (s := sA) hWFA htv hcvA
          have hRC : (freeReg sA (HWReg.reg .vec iv)).frameRegs fr =
              { s.frameRegs fr with
                  frameUpToDate := false
                  globalRegUpToDate := false
                  localVecD := .invalid } := by
            rw [gselfV rfl, hRA]
          refine core_leaf hfr hv gWF
            (fun fr2 hlt hne => gInv fr2 hne (hInvA fr2 hlt hne))
            (by rw [glat, hlatA]) (fun fr2 hne => by rw [gothers fr2 hne, hothA fr2 hne])
            (by rw [gfv, hfvA]) (by rw [grv, hrvA]) (by rw [gn, hnA]) ?_ ?_ ?_ ?_ ?_
          · rw [hRC]
            exact Or.inr hHG.symm
          · rw [hRC]
            exact Or.inl rfl
          · rw [hRC]
            intro habs
            exact Bool.noConfusion habs
          · rw [hRC]
          · exact Or.inl (by rw [hRC]; exact hHG.symm)
      · rw [hwreg_inv_of_not_valid hLv, freeReg_inv]
        refine core_leaf hfr hv hWFA hInvA hlatA hothA hfvA hrvA hnA ?_ ?_ ?_ ?_ ?_
        · rw [hRA]
          exact Or.inr hHG.symm
        · rw [hRA]
          exact Or.inl (hwreg_inv_of_not_valid hLv)
        · rw [hRA]
          intro habs
          exact Bool.noConfusion habs
        · rw [hRA]
        · exact Or.inl (by rw [hRA]; exact hHG.symm)
    · rw [if_neg hHG]
      have hHV : h = (s.frameRegs fr).localVecD := by
        rcases hmem with e | e | e
        · exact absurd e.symm hG
        · exact absurd e hHG
        · exact e
      by_cases hLg : (s.frameRegs fr).localGpX.isValid = true
      · rcases localBindingOK_spec hb1 with hinvg | ⟨ig, hlg, htg, hcg⟩
        · rw [hinvg] at hLg
          exact Bool.noConfusion hLg
        · rw [hlg]
          have hcgA : sA.hwContains .gp ig = some fr := by
            rw [hcontApre]
            exact hcg
          obtain ⟨gWF, gothers, ⟨gselfG, gselfV⟩, gInv, grv, gfv, glat, gn⟩ :=
            freeReg_owned_facts (s := sA) hWFA htg hcgA
          have hRC : (freeReg sA (HWReg.reg .gp ig)).frameRegs fr =
              { s.frameRegs fr with
                  frameUpToDate := false
                  globalRegUpToDate := false
                  localGpX := .invalid } := by
            rw [gselfG rfl, hRA]
          refine core_leaf hfr hv gWF
            (fun fr2 hlt hne => gInv fr2 hne (hInvA fr2 hlt hne))
            (by rw [glat, hlatA]) (fun fr2 hne => by rw [gothers fr2 hne, hothA fr2 hne])
            (by rw [gfv, hfvA]) (by rw [grv, hrvA]) (by rw [gn, hnA]) ?_ ?_ ?_ ?_ ?_
          · rw [hRC]
            exact Or.inl rfl
          · rw [hRC]
            exact Or.inr hHV.symm
          · rw [hRC]
            intro habs
            exact Bool.noConfusion habs
          · rw [hRC]
          · exact Or.inr (Or.inl (by rw [hRC]; exact hHV.symm))
      · rw [hwreg_inv_of_not_valid hLg, freeReg_inv]
        refine core_leaf hfr hv hWFA hInvA hlatA hothA hfvA hrvA hnA ?_ ?_ ?_ ?_ ?_
        · rw [hRA]
          exact Or.inl (hwreg_inv_of_not_valid hLg)
        · rw [hRA]
          exact Or.inr hHV.symm
        · rw [hRA]
          intro habs
          exact Bool.noConfusion habs
        · rw [hRA]
        · exact Or.inr (Or.inl (by rw [hRA]; exact hHV.symm))

/-- Updating a frame register's binding with a hardware register that holds
its (new) value re-establishes the full invariant: the chosen register becomes
the authoritative location for the new latest value, and nothing else
changes. -/
theorem frUpdatedWithHWReg_good (s : EmitState) (fr : Nat) (h : HWReg)
    (t : Option FRType) (hWF : WF s)
    (hInv : ∀ fr2, fr2 < s.nRegs → fr2 ≠ fr → FRInv s fr2)
    (hfr : fr < s.nRegs) (hv : h.isValid = true)
    (hmem : h = (s.frameRegs fr).globalReg ∨ h = (s.frameRegs fr).localGpX ∨
            h = (s.frameRegs fr).localVecD) :
    Good (frUpdatedWithHWReg s fr h t) ∧
    (frUpdatedWithHWReg s fr h t).latest = upd1 s.latest fr (s.rd h) ∧
    (∀ fr2, fr2 ≠ fr → (frUpdatedWithHWReg s fr h t).frameRegs fr2 = s.frameRegs fr2) ∧
    (frUpdatedWithHWReg s fr h t).frameVal = s.frameVal ∧
    (frUpdatedWithHWReg s fr h t).regVal = s.regVal ∧
    (frUpdatedWithHWReg s fr h t).nRegs = s.nRegs := by
  obtain ⟨⟨cWF, cInv⟩, clat, coth, cfv, crv, cn⟩ :=
    frUpdatedCore_good s fr h hWF hInv hfr hv hmem
  cases t with
  | none => exact ⟨⟨cWF, cInv⟩, clat, coth, cfv, crv, cn⟩
  | some ty =>
    obtain ⟨ulat, ufv, urv, un, uoth, uWF, uInv⟩ :=
      frUpdateType_facts (frUpdatedCore s fr h) fr ty
    exact ⟨⟨uWF cWF, fun fr2 hlt => uInv fr2 (cInv fr2 hlt)⟩,
      clat, fun fr2 hne => (uoth fr2 hne).trans (coth fr2 hne), cfv, crv, cn⟩

theorem setFRState_proj (s : EmitState) (fr : Nat) (f : FRState → FRState) :
    (setFRState s fr f).hwContains = s.hwContains ∧
    (setFRState s fr f).latest = s.latest ∧
    (setFRState s fr f).frameVal = s.frameVal ∧
    (setFRState s fr f).nRegs = s.nRegs ∧
    (setFRState s fr f).gpTemp = s.gpTemp ∧
    (setFRState s fr f).vecTemp = s.vecTemp ∧
    (setFRState s fr f).regVal = s.regVal :=
  ⟨rfl, rfl, rfl, rfl, rfl, rfl, rfl⟩

/-- A saved (pinned) register is never a temporary-pool register. -/
theorem saved_ne_temp {c2 : RegClass} {g : Nat} {c3 : RegClass} {j : Nat}
    (hs : isSavedIdx c2 g = true) (ht2 : isTempIdx c3 j = true) :
    HWReg.reg c2 g ≠ HWReg.reg c3 j := by
  intro he
  cases he
  rw [temp_not_saved ht2] at hs
  exact Bool.noConfusion hs

theorem movHWReg_noUse_pools (s : EmitState) (d sr : HWReg) :
    (movHWReg false s d sr).gpTemp = s.gpTemp ∧
    (movHWReg false s d sr).vecTemp = s.vecTemp := by
  unfold movHWReg
  dsimp only
  rw [if_neg (by decide : ¬(false = true))]
  constructor
  · split
    · rw [setReg_gpTemp]
      rfl
    · rfl
  · split
    · rw [setReg_vecTemp]
      rfl
    · rfl

theorem clearLocal_gp {i : Nat} (st : FRState)
    (hgx : st.localGpX = HWReg.reg RegClass.gp i) :
    clearLocal RegClass.gp i st = { st with localGpX := HWReg.invalid } := by
  unfold clearLocal
  rw [if_pos hgx]

theorem clearLocal_vec {i : Nat} (st : FRState)
    (hgx : st.localGpX = HWReg.invalid ∨ ∃ j, st.localGpX = HWReg.reg RegClass.gp j)
    (hvd : st.localVecD = HWReg.reg RegClass.vec i) :
    clearLocal RegClass.vec i st = { st with localVecD := HWReg.invalid } := by
  have hne : st.localGpX ≠ HWReg.reg RegClass.vec i := by
    rcases hgx with e | ⟨j, e⟩ <;> rw [e] <;> intro he <;> cases he
  unfold clearLocal
  rw [if_neg hne, if_pos hvd]

/-- Well-formedness after releasing the temporary register `(c, i)` owned by
`fr`: the ownership record is cleared, `fr`'s matching local field is made
invalid, and the rest of the binding structure is unchanged. -/
theorem WF_clear_owned {s sF : EmitState} {fr : Nat} {c : RegClass} {i : Nat}
    (hWF : WF s) (ht : isTempIdx c i = true) (hc : s.hwContains c i = some fr)
    (hconts : ∀ c2 i2, sF.hwContains c2 i2 =
      if c2 = c ∧ i2 = i then none else s.hwContains c2 i2)
    (hothers : ∀ fr2, fr2 ≠ fr → sF.frameRegs fr2 = s.frameRegs fr2)
    (hfG : (sF.frameRegs fr).globalReg = (s.frameRegs fr).globalReg)
    (hfgp1 : c = RegClass.gp → (sF.frameRegs fr).localGpX = HWReg.invalid)
    (hfgp2 : c = RegClass.vec → (sF.frameRegs fr).localGpX = (s.frameRegs fr).localGpX)
    (hfvd1 : c = RegClass.vec → (sF.frameRegs fr).localVecD = HWReg.invalid)
    (hfvd2 : c = RegClass.gp → (sF.frameRegs fr).localVecD = (s.frameRegs fr).localVecD)
    (hn : sF.nRegs = s.nRegs)
    (hgp : sF.gpTemp.freeList = s.gpTemp.freeList ∨
      (c = RegClass.gp ∧ sF.gpTemp.freeList = i :: s.gpTemp.freeList))
    (hvp : sF.vecTemp.freeList = s.vecTemp.freeList ∨
      (c = RegClass.vec ∧ sF.vecTemp.freeList = i :: s.vecTemp.freeList)) :
    WF sF := by
  have hi16 : i < 16 := tempIdx_lt16 ht
  obtain ⟨w1, w2, w3, w4, w5⟩ := hWF
  have hWFci : WFcontains s c i = true := by
    rcases c with _ | _
    · exact (w2 i hi16).1
    · exact (w2 i hi16).2
  have hlocmatch := WFcontains_spec hWFci hc
  have hLBOK : ∀ (c2 : RegClass) (h2 : HWReg) (fr2 : Nat), h2 ≠ .reg c i →
      localBindingOK s c2 h2 fr2 = true →
      localBindingOK sF c2 h2 fr2 = true := by
    intro c2 h2 fr2 hne hb
    rcases localBindingOK_spec hb with hinv | ⟨j, hj, htj, hcj⟩
    · exact localBindingOK_of (Or.inl hinv)
    · apply localBindingOK_of
      right
      refine ⟨j, hj, htj, ?_⟩
      rw [hconts, if_neg]
      · exact hcj
      · rintro ⟨e1, e2⟩
        subst e1
        subst e2
        exact hne hj
  have hbind_ne : ∀ (c2 : RegClass) (h2 : HWReg) (fr2 : Nat), fr2 ≠ fr →
      localBindingOK s c2 h2 fr2 = true → h2 ≠ .reg c i := by
    intro c2 h2 fr2 hne hb heq
    rcases localBindingOK_spec hb with hinv | ⟨j, hj, htj, hcj⟩
    · rw [hinv] at heq
      exact HWReg.noConfusion heq
    · rw [hj] at heq
      cases heq
      rw [hcj] at hc
      exact hne (Option.some.inj hc.symm).symm
  refine ⟨?_, ?_, ?_, ?_, ?_⟩
  · intro fr2 hlt2
    rw [hn] at hlt2
    obtain ⟨b1, b2, b3⟩ := WFfr_spec (w1 fr2 hlt2)
    by_cases hne : fr2 = fr
    · subst hne
      apply WFfr_of
      · cases c with
        | gp =>
          rw [hfgp1 rfl]
          rfl
        | vec =>
          rw [hfgp2 rfl]
          apply hLBOK .gp _ fr2 ?_ b1
          intro heq
          rcases localBindingOK_spec b1 with hinv | ⟨j, hj, _, _⟩
          · rw [hinv] at heq
            exact HWReg.noConfusion heq
          · rw [hj] at heq
            cases heq
      · cases c with
        | vec =>
          rw [hfvd1 rfl]
          rfl
        | gp =>
          rw [hfvd2 rfl]
          apply hLBOK .vec _ fr2 ?_ b2
          intro heq
          rcases localBindingOK_spec b2 with hinv | ⟨j, hj, _, _⟩
          · rw [hinv] at heq
            exact HWReg.noConfusion heq
          · rw [hj] at heq
            cases heq
      · intro c2 i2 hgr
        rw [hfG] at hgr
        exact b3 c2 i2 hgr
    · apply WFfr_of
      · rw [hothers fr2 hne]
        exact hLBOK .gp _ fr2 (hbind_ne .gp _ fr2 hne b1) b1
      · rw [hothers fr2 hne]
        exact hLBOK .vec _ fr2 (hbind_ne .vec _ fr2 hne b2) b2
      · intro c2 i2 hgr
        rw [hothers fr2 hne] at hgr
        exact b3 c2 i2 hgr
  · intro i2 hi2
    have main : ∀ c2 : RegClass, WFcontains sF c2 i2 = true := by
      intro c2
      apply WFcontains_of
      intro fr2 hc2
      rw [hconts] at hc2
      by_cases hpos : (c2 = c ∧ i2 = i)
      · rw [if_pos hpos] at hc2
        exact Option.noConfusion hc2
      · rw [if_neg hpos] at hc2
        have hold := WFcontains_spec (by
          rcases c2 with _ | _
          · exact (w2 i2 hi2).1
          · exact (w2 i2 hi2).2) hc2
        refine ⟨hn ▸ hold.1, ?_, ?_⟩
        · intro hcg
          subst hcg
          by_cases hne : fr2 = fr
          · subst hne
            cases c with
            | gp =>
              exfalso
              have h1 := hold.2.1 rfl
              have h2 := hlocmatch.2.1 rfl
              rw [h1] at h2
              cases h2
              exact hpos ⟨rfl, rfl⟩
            | vec =>
              rw [hfgp2 rfl]
              exact hold.2.1 rfl
          · rw [hothers fr2 hne]
            exact hold.2.1 rfl
        · intro hcv
          subst hcv
          by_cases hne : fr2 = fr
          · subst hne
            cases c with
            | vec =>
              exfalso
              have h1 := hold.2.2 rfl
              have h2 := hlocmatch.2.2 rfl
              rw [h1] at h2
              cases h2
              exact hpos ⟨rfl, rfl⟩
            | gp =>
              rw [hfvd2 rfl]
              exact hold.2.2 rfl
          · rw [hothers fr2 hne]
            exact hold.2.2 rfl
    exact ⟨main .gp, main .vec⟩
  · intro fr1 hf1 fr2 hf2 hne hval
    rw [hn] at hf1 hf2
    have e1 : (sF.frameRegs fr1).globalReg = (s.frameRegs fr1).globalReg := by
      by_cases h1 : fr1 = fr
      · subst h1
        exact hfG
      · rw [hothers fr1 h1]
    have e2 : (sF.frameRegs fr2).globalReg = (s.frameRegs fr2).globalReg := by
      by_cases h2 : fr2 = fr
      · subst h2
        exact hfG
      · rw [hothers fr2 h2]
    rw [e1, e2]
    rw [e1] at hval
    exact w3 fr1 hf1 fr2 hf2 hne hval
  · intro j hj
    simp only [getPool] at hj
    rcases hgp with hgp | ⟨hcg, hgp⟩
    · rw [hgp] at hj
      have hold := w4 j hj
      refine ⟨hold.1, ?_⟩
      rw [hconts]
      split
      · rfl
      · exact hold.2
    · subst hcg
      rw [hgp] at hj
      rcases List.mem_cons.1 hj with hji | hjold
      · subst hji
        refine ⟨ht, ?_⟩
        rw [hconts, if_pos ⟨rfl, rfl⟩]
      · have hold := w4 j hjold
        refine ⟨hold.1, ?_⟩
        rw [hconts]
        split
        · rfl
        · exact hold.2
  · intro j hj
    simp only [getPool] at hj
    rcases hvp with hvp | ⟨hcv, hvp⟩
    · rw [hvp] at hj
      have hold := w5 j hj
      refine ⟨hold.1, ?_⟩
      rw [hconts]
      split
      · rfl
      · exact hold.2
    · subst hcv
      rw [hvp] at hj
      rcases List.mem_cons.1 hj with hji | hjold
      · subst hji
        refine ⟨ht, ?_⟩
        rw [hconts, if_pos ⟨rfl, rfl⟩]
      · have hold := w5 j hjold
        refine ⟨hold.1, ?_⟩
        rw [hconts]
        split
        · rfl
        · exact hold.2

/-- Assemble `spillTempReg`'s invariant preservation from explicit facts
about the state `M` reached just before the final local-binding clear. -/
theorem spill_leaf {s M : EmitState} {c : RegClass} {i : Nat} {fr : Nat}
    (hWF : WF s) (hInvAll : ∀ fr2, fr2 < s.nRegs → FRInv s fr2)
    (ht : isTempIdx c i = true) (hc : s.hwContains c i = some fr)
    (hMoth : ∀ fr2, fr2 ≠ fr → M.frameRegs fr2 = s.frameRegs fr2)
    (hMg : (M.frameRegs fr).globalReg = (s.frameRegs fr).globalReg)
    (hMgx : (M.frameRegs fr).localGpX = (s.frameRegs fr).localGpX)
    (hMvd : (M.frameRegs fr).localVecD = (s.frameRegs fr).localVecD)
    (hMcont : ∀ c2 i2, M.hwContains c2 i2 =
      if c2 = c ∧ i2 = i then none else s.hwContains c2 i2)
    (hMn : M.nRegs = s.nRegs)
    (hMlat : M.latest = s.latest)
    (hMgp : M.gpTemp = s.gpTemp)
    (hMvp : M.vecTemp = s.vecTemp)
    (hMfv2 : ∀ fr2, fr2 ≠ fr → M.frameVal fr2 = s.frameVal fr2)
    (hrdtemp : ∀ (c3 : RegClass) (j : Nat), isTempIdx c3 j = true →
      M.rd (HWReg.reg c3 j) = s.rd (HWReg.reg c3 j))
    (hrdglob : ∀ fr2, fr2 < s.nRegs → fr2 ≠ fr →
      M.rd (s.frameRegs fr2).globalReg = s.rd (s.frameRegs fr2).globalReg)
    (hGU : (M.frameRegs fr).globalReg.isValid = true →
      (M.frameRegs fr).globalRegUpToDate = true)
    (hSync : (M.frameRegs fr).globalReg.isValid = true →
      (M.frameRegs fr).globalRegUpToDate = true →
      M.rd (M.frameRegs fr).globalReg = s.latest fr)
    (hFrame : (M.frameRegs fr).frameUpToDate = true → M.frameVal fr = s.latest fr)
    (hAuth : ((M.frameRegs fr).globalReg.isValid = true ∧
        (M.frameRegs fr).globalRegUpToDate = true) ∨
      (M.frameRegs fr).frameUpToDate = true) :
    Good (setFRState M fr (clearLocal c i)) ∧
    (setFRState M fr (clearLocal c i)).latest = s.latest ∧
    (setFRState M fr (clearLocal c i)).nRegs = s.nRegs ∧
    (setFRState M fr (clearLocal c i)).gpTemp = s.gpTemp ∧
    (setFRState M fr (clearLocal c i)).vecTemp = s.vecTemp ∧
    (∀ fr2, fr2 ≠ fr →
      (setFRState M fr (clearLocal c i)).frameRegs fr2 = s.frameRegs fr2) ∧
    fr < s.nRegs ∧ syncedElsewhere (setFRState M fr (clearLocal c i)) fr := by
  have hWFci : WFcontains s c i = true := by
    rcases c with _ | _
    · exact (hWF.2.1 i (tempIdx_lt16 ht)).1
    · exact (hWF.2.1 i (tempIdx_lt16 ht)).2
  have hlocmatch := WFcontains_spec hWFci hc
  have hfrlt : fr < s.nRegs := hlocmatch.1
  obtain ⟨b1, b2, b3⟩ := WFfr_spec (hWF.1 fr hfrlt)
  have hInvfr := hInvAll fr hfrlt
  have hRF : (setFRState M fr (clearLocal c i)).frameRegs fr =
      clearLocal c i (M.frameRegs fr) := by
    rw [setFRState_frameRegs, upd1_same]
  have hRFgp : c = RegClass.gp → (setFRState M fr (clearLocal c i)).frameRegs fr =
      { M.frameRegs fr with localGpX := HWReg.invalid } := by
    intro hcg
    subst hcg
    rw [hRF]
    apply clearLocal_gp
    rw [hMgx]
    exact hlocmatch.2.1 rfl
  have hRFvec : c = RegClass.vec → (setFRState M fr (clearLocal c i)).frameRegs fr =
      { M.frameRegs fr with localVecD := HWReg.invalid } := by
    intro hcv
    subst hcv
    rw [hRF]
    apply clearLocal_vec
    · rcases localBindingOK_spec b1 with e | ⟨j, e, _, _⟩
      · exact Or.inl (by rw [hMgx, e])
      · exact Or.inr ⟨j, by rw [hMgx, e]⟩
    · rw [hMvd]
      exact hlocmatch.2.2 rfl
  have hPg : ((setFRState M fr (clearLocal c i)).frameRegs fr).globalReg =
      (s.frameRegs fr).globalReg := by
    cases c with
    | gp =>
      rw [hRFgp rfl]
      exact hMg
    | vec =>
      rw [hRFvec rfl]
      exact hMg
  have hPgu : ((setFRState M fr (clearLocal c i)).frameRegs fr).globalRegUpToDate =
      (M.frameRegs fr).globalRegUpToDate := by
    cases c with
    | gp => rw [hRFgp rfl]
    | vec => rw [hRFvec rfl]
  have hPfu : ((setFRState M fr (clearLocal c i)).frameRegs fr).frameUpToDate =
      (M.frameRegs fr).frameUpToDate := by
    cases c with
    | gp => rw [hRFgp rfl]
    | vec => rw [hRFvec rfl]
  have hPgx : (c = RegClass.gp →
      ((setFRState M fr (clearLocal c i)).frameRegs fr).localGpX = HWReg.invalid) ∧
      (c = RegClass.vec →
      ((setFRState M fr (clearLocal c i)).frameRegs fr).localGpX =
        (s.frameRegs fr).localGpX) := by
    constructor
    · intro hcg
      rw [hRFgp hcg]
    · intro hcv
      rw [hRFvec hcv]
      exact hMgx
  have hPvd : (c = RegClass.vec →
      ((setFRState M fr (clearLocal c i)).frameRegs fr).localVecD = HWReg.invalid) ∧
      (c = RegClass.gp →
      ((setFRState M fr (clearLocal c i)).frameRegs fr).localVecD =
        (s.frameRegs fr).localVecD) := by
    constructor
    · intro hcv
      rw [hRFvec hcv]
    · intro hcg
      rw [hRFgp hcg]
      exact hMvd
  have hrdF : ∀ h2, (setFRState M fr (clearLocal c i)).rd h2 = M.rd h2 :=
    fun h2 => rd_setFRState M fr _ h2
  have hothF : ∀ fr2, fr2 ≠ fr →
      (setFRState M fr (clearLocal c i)).frameRegs fr2 = s.frameRegs fr2 := by
    intro fr2 hne
    rw [setFRState_frameRegs, upd1_other _ _ _ hne, hMoth fr2 hne]
  have hlatF : (setFRState M fr (clearLocal c i)).latest = s.latest := hMlat
  have hWFF : WF (setFRState M fr (clearLocal c i)) :=
    WF_clear_owned hWF ht hc (fun c2 i2 => hMcont c2 i2) hothF hPg hPgx.1 hPgx.2
      hPvd.1 hPvd.2 hMn (Or.inl (congrArg TempRegAlloc.freeList hMgp))
      (Or.inl (congrArg TempRegAlloc.freeList hMvp))
  have hInvFr : FRInv (setFRState M fr (clearLocal c i)) fr := by
    refine ⟨?_, ?_, ?_, ?_, ?_, ?_⟩
    · cases c with
      | gp =>
        intro hval
        rw [hPgx.1 rfl] at hval
        exact Bool.noConfusion hval
      | vec =>
        intro hval
        rw [hPgx.2 rfl] at hval ⊢
        rw [hrdF, hlatF]
        rcases localBindingOK_spec b1 with e | ⟨j, e, htj, _⟩
        · rw [e] at hval
          exact Bool.noConfusion hval
        · rw [e, hrdtemp .gp j htj]
          have hv2 := hInvfr.1 (by rw [e]; rfl)
          rw [e] at hv2
          exact hv2
    · cases c with
      | vec =>
        intro hval
        rw [hPvd.1 rfl] at hval
        exact Bool.noConfusion hval
      | gp =>
        intro hval
        rw [hPvd.2 rfl] at hval ⊢
        rw [hrdF, hlatF]
        rcases localBindingOK_spec b2 with e | ⟨j, e, htj, _⟩
        · rw [e] at hval
          exact Bool.noConfusion hval
        · rw [e, hrdtemp .vec j htj]
          have hv2 := hInvfr.2.1 (by rw [e]; rfl)
          rw [e] at hv2
          exact hv2
    · intro hval hutd
      rw [hPg] at hval ⊢
      rw [hPgu] at hutd
      rw [hrdF, hlatF, ← hMg]
      rw [← hMg] at hval
      exact hSync hval hutd
    · intro hfut
      rw [hPfu] at hfut
      rw [hlatF]
      exact hFrame hfut
    · rcases hAuth with ⟨hval, hutd⟩ | hfut
      · refine Or.inr (Or.inr (Or.inl ⟨?_, ?_⟩))
        · rw [hPg, ← hMg]
          exact hval
        · rw [hPgu]
          exact hutd
      · refine Or.inr (Or.inr (Or.inr ?_))
        rw [hPfu]
        exact hfut
    · intro hval hnutd
      rw [hPg, ← hMg] at hval
      rw [hPgu] at hnutd
      rw [hGU hval] at hnutd
      exact Bool.noConfusion hnutd
  have hInvF2 : ∀ fr2, fr2 < s.nRegs → fr2 ≠ fr →
      FRInv (setFRState M fr (clearLocal c i)) fr2 := by
    intro fr2 hlt hne
    obtain ⟨d1, d2, d3⟩ := WFfr_spec (hWF.1 fr2 hlt)
    refine FRInv_congr_fields (s := s) ?_ ?_ ?_ ?_ ?_ ?_ ?_ ?_ ?_ ?_ (hInvAll fr2 hlt)
    · rw [hothF fr2 hne]
    · rw [hothF fr2 hne]
    · rw [hothF fr2 hne]
    · rw [hothF fr2 hne]
    · rw [hothF fr2 hne]
    · show (setFRState M fr (clearLocal c i)).latest fr2 = s.latest fr2
      rw [hlatF]
    · exact hMfv2 fr2 hne
    · rw [hrdF]
      rcases localBindingOK_spec d1 with e | ⟨j, e, htj, _⟩
      · rw [e]
        rfl
      · rw [e]
        exact hrdtemp .gp j htj
    · rw [hrdF]
      rcases localBindingOK_spec d2 with e | ⟨j, e, htj, _⟩
      · rw [e]
        rfl
      · rw [e]
        exact hrdtemp .vec j htj
    · rw [hrdF]
      exact hrdglob fr2 hlt hne
  refine ⟨⟨hWFF, ?_⟩, hlatF, hMn, hMgp, hMvp, hothF, hfrlt, ?_⟩
  · intro fr2 hlt
    have hlt2 : fr2 < M.nRegs := hlt
    rw [hMn] at hlt2
    by_cases e : fr2 = fr
    · rw [e]
      exact hInvFr
    · exact hInvF2 fr2 hlt2 e
  · rcases hAuth with ⟨hval, hutd⟩ | hfut
    · refine Or.inl ⟨?_, ?_⟩
      · rw [hPg, ← hMg]
        exact hval
      · rw [hPgu]
        exact hutd
    · refine Or.inr ?_
      rw [hPfu]
      exact hfut

/-- `spillTempReg` preserves the invariant: the spilled FR's value is first
written to its authoritative fallback location (pinned register if present
and stale, else frame memory if stale), so releasing the binding loses no
data; afterwards the spilled FR is synced outside its temporary registers. -/
theorem spillTempReg_good (s : EmitState) (c : RegClass) (i : Nat)
    (hWF : WF s) (hInvAll : ∀ fr2, fr2 < s.nRegs → FRInv s fr2)
    (ht : isTempIdx c i = true) :
    Good (spillTempReg s (.reg c i)) ∧
    (spillTempReg s (.reg c i)).latest = s.latest ∧
    (spillTempReg s (.reg c i)).nRegs = s.nRegs ∧
    (spillTempReg s (.reg c i)).gpTemp = s.gpTemp ∧
    (spillTempReg s (.reg c i)).vecTemp = s.vecTemp ∧
    (∀ fr2, s.hwContains c i ≠ some fr2 →
      (spillTempReg s (.reg c i)).frameRegs fr2 = s.frameRegs fr2) ∧
    (∀ fr, s.hwContains c i = some fr →
      fr < s.nRegs ∧ syncedElsewhere (spillTempReg s (.reg c i)) fr) := by
  unfold spillTempReg
  dsimp only
  cases hcase : s.hwContains c i with
  | none =>
    dsimp only
    exact ⟨⟨hWF, hInvAll⟩, rfl, rfl, rfl, rfl, fun fr2 _ => rfl,
      fun fr hcc => Option.noConfusion hcc⟩
  | some fr =>
    dsimp only
    have hWFci : WFcontains s c i = true := by
      rcases c with _ | _
      · exact (hWF.2.1 i (tempIdx_lt16 ht)).1
      · exact (hWF.2.1 i (tempIdx_lt16 ht)).2
    have hlocmatch := WFcontains_spec hWFci hcase
    have hfrlt : fr < s.nRegs := hlocmatch.1
    obtain ⟨b1, b2, b3⟩ := WFfr_spec (hWF.1 fr hfrlt)
    have hInvfr := hInvAll fr hfrlt
    have hlocval : s.rd (HWReg.reg c i) = s.latest fr := by
      cases c with
      | gp =>
        have e := hlocmatch.2.1 rfl
        have hv2 := hInvfr.1 (by rw [e]; rfl)
        rw [e] at hv2
        exact hv2
      | vec =>
        have e := hlocmatch.2.2 rfl
        have hv2 := hInvfr.2.1 (by rw [e]; rfl)
        rw [e] at hv2
        exact hv2
    by_cases hGV : (s.frameRegs fr).globalReg.isValid = true
    · rw [if_pos hGV]
      cases hU : (s.frameRegs fr).globalRegUpToDate with
      | false =>
        -- the pinned register is stale: refresh it from the spilled register
        rw [Bool.not_false, if_pos rfl]
        cases hGform : (s.frameRegs fr).globalReg with
        | invalid =>
          rw [hGform] at hGV
          exact Bool.noConfusion hGV
        | reg cg ig =>
          have hsaved : isSavedIdx cg ig = true := b3 cg ig hGform
          generalize hgenM : setFRState
            (movHWReg false { s with hwContains := upd2 s.hwContains c i none }
              (HWReg.reg cg ig) (HWReg.reg c i)) fr
            (fun st => { st with globalRegUpToDate := true }) = M
          have hMrec : M.frameRegs fr =
              { s.frameRegs fr with globalRegUpToDate := true } := by
            rw [← hgenM, setFRState_frameRegs, upd1_same, (movHWReg_proj _ _ _ _).1]
          have hMoth : ∀ fr2, fr2 ≠ fr → M.frameRegs fr2 = s.frameRegs fr2 := by
            intro fr2 hne
            rw [← hgenM, setFRState_frameRegs, upd1_other _ _ _ hne,
              (movHWReg_proj _ _ _ _).1]
          have hMcont : ∀ c2 i2, M.hwContains c2 i2 =
              if c2 = c ∧ i2 = i then none else s.hwContains c2 i2 := by
            intro c2 i2
            rw [← hgenM, (setFRState_proj _ _ _).1, (movHWReg_proj _ _ _ _).2.2.2.1]
            rfl
          have hMn : M.nRegs = s.nRegs := by
            rw [← hgenM, (setFRState_proj _ _ _).2.2.2.1, (movHWReg_proj _ _ _ _).2.2.2.2.1]
          have hMlat : M.latest = s.latest := by
            rw [← hgenM, (setFRState_proj _ _ _).2.1, (movHWReg_proj _ _ _ _).2.2.1]
          have hMgp : M.gpTemp = s.gpTemp := by
            rw [← hgenM, (setFRState_proj _ _ _).2.2.2.2.1, (movHWReg_noUse_pools _ _ _).1]
          have hMvp : M.vecTemp = s.vecTemp := by
            rw [← hgenM, (setFRState_proj _ _ _).2.2.2.2.2.1, (movHWReg_noUse_pools _ _ _).2]
          have hMfv : M.frameVal = s.frameVal := by
            rw [← hgenM, (setFRState_proj _ _ _).2.2.1, (movHWReg_proj _ _ _ _).2.1]
          have hrdM : ∀ h2, h2 ≠ HWReg.reg cg ig → M.rd h2 = s.rd h2 := by
            intro h2 hne
            rw [← hgenM, rd_setFRState, rd_movHWReg_other _ _ _ _ _ hne]
            exact rd_congr rfl h2
          have hrdMdst : M.rd (HWReg.reg cg ig) = s.rd (HWReg.reg c i) := by
            rw [← hgenM, rd_setFRState, rd_movHWReg_dst]
            exact rd_congr rfl _
          obtain ⟨g1, g2, g3, g4, g5, g6, g7, g8⟩ :=
            spill_leaf hWF hInvAll ht hcase hMoth
              (by rw [hMrec])
              (by rw [hMrec])
              (by rw [hMrec])
              hMcont hMn hMlat hMgp hMvp
              (fun fr2 _ => by rw [hMfv])
              (fun c3 j htj => hrdM _ (saved_ne_temp hsaved htj).symm)
              (by
                intro fr2 hlt2 hne
                apply hrdM
                intro he
                have hdisj := hWF.2.2.1 fr hfrlt fr2 hlt2 (fun e => hne e.symm) hGV
                exact hdisj (by rw [hGform, he]))
              (by
                intro _
                rw [hMrec])
              (by
                intro hval hutd
                rw [hMrec]
                show M.rd (s.frameRegs fr).globalReg = s.latest fr
                rw [hGform, hrdMdst, hlocval])
              (by
                intro hfut
                rw [hMrec] at hfut
                have hfut2 : (s.frameRegs fr).frameUpToDate = true := hfut
                rw [hMfv]
                exact hInvfr.2.2.2.1 hfut2)
              (Or.inl ⟨by rw [hMrec]; exact hGV, by rw [hMrec]⟩)
          refine ⟨g1, g2, g3, g4, g5, ?_, ?_⟩
          · intro fr2 hne2
            refine g6 fr2 ?_
            intro e
            exact hne2 (by rw [e])
          · intro fr2 hc2
            have heq : fr2 = fr := (Option.some.inj hc2).symm
            subst heq
            exact ⟨g7, g8⟩
      | true =>
        -- the pinned register is already up to date: nothing to write
        rw [Bool.not_true, if_neg Bool.false_ne_true]
        generalize hgenM : ({ s with hwContains := upd2 s.hwContains c i none } :
          EmitState) = M
        have hMoth : ∀ fr2, fr2 ≠ fr → M.frameRegs fr2 = s.frameRegs fr2 := by
          intro fr2 _
          rw [← hgenM]
        have hMrec : M.frameRegs fr = s.frameRegs fr := by
          rw [← hgenM]
        have hMcont : ∀ c2 i2, M.hwContains c2 i2 =
            if c2 = c ∧ i2 = i then none else s.hwContains c2 i2 := by
          intro c2 i2
          rw [← hgenM]
          rfl
        have hrdall : ∀ h2, M.rd h2 = s.rd h2 := by
          intro h2
          rw [← hgenM]
          exact rd_congr rfl h2
        obtain ⟨g1, g2, g3, g4, g5, g6, g7, g8⟩ :=
          spill_leaf hWF hInvAll ht hcase hMoth
            (by rw [hMrec]) (by rw [hMrec]) (by rw [hMrec]) hMcont
            (by rw [← hgenM]) (by rw [← hgenM]) (by rw [← hgenM]) (by rw [← hgenM])
            (fun fr2 _ => by rw [← hgenM])
            (fun c3 j _ => hrdall _)
            (fun fr2 _ _ => hrdall _)
            (by
              intro _
              rw [hMrec]
              exact hU)
            (by
              intro hval hutd
              rw [hMrec]
              rw [hMrec] at hval hutd
              rw [hrdall]
              exact hInvfr.2.2.1 hval hutd)
            (by
              intro hfut
              rw [hMrec] at hfut
              rw [← hgenM]
              show s.frameVal fr = s.latest fr
              exact hInvfr.2.2.2.1 hfut)
            (Or.inl ⟨by rw [hMrec]; exact hGV, by rw [hMrec]; exact hU⟩)
        refine ⟨g1, g2, g3, g4, g5, ?_, ?_⟩
        · intro fr2 hne2
          refine g6 fr2 ?_
          intro e
          exact hne2 (by rw [e])
        · intro fr2 hc2
          have heq : fr2 = fr := (Option.some.inj hc2).symm
          subst heq
          exact ⟨g7, g8⟩
    · rw [if_neg hGV]
      cases hF : (s.frameRegs fr).frameUpToDate with
      | false =>
        -- no pinned register and the frame slot is stale: store to the frame
        rw [Bool.not_false, if_pos rfl]
        have hsem := storeHWRegToFrame_sem
          { s with hwContains := upd2 s.hwContains c i none } fr (HWReg.reg c i)
        generalize hgenM : _storeHWRegToFrame
          { s with hwContains := upd2 s.hwContains c i none } fr (HWReg.reg c i) = M
        rw [hgenM] at hsem
        have hMrec : M.frameRegs fr = { s.frameRegs fr with frameUpToDate := true } := by
          rw [hsem.1, upd1_same]
        have hMoth : ∀ fr2, fr2 ≠ fr → M.frameRegs fr2 = s.frameRegs fr2 := by
          intro fr2 hne
          rw [hsem.1, upd1_other _ _ _ hne]
        have hMcont : ∀ c2 i2, M.hwContains c2 i2 =
            if c2 = c ∧ i2 = i then none else s.hwContains c2 i2 := by
          intro c2 i2
          rw [hsem.2.2.2.1]
          rfl
        have hrdall : ∀ h2, M.rd h2 = s.rd h2 := by
          intro h2
          rw [hsem.2.2.2.2.2.1]
          exact rd_congr rfl h2
        have hMfvfr : M.frameVal fr = s.latest fr := by
          rw [hsem.2.1, upd1_same]
          show s.rd (HWReg.reg c i) = s.latest fr
          exact hlocval
        obtain ⟨g1, g2, g3, g4, g5, g6, g7, g8⟩ :=
          spill_leaf hWF hInvAll ht hcase hMoth
            (by rw [hMrec]) (by rw [hMrec]) (by rw [hMrec]) hMcont
            (by rw [hsem.2.2.2.2.1]) (by rw [hsem.2.2.1])
            (by rw [hsem.2.2.2.2.2.2.1]) (by rw [hsem.2.2.2.2.2.2.2])
            (fun fr2 hne => by rw [hsem.2.1, upd1_other _ _ _ hne])
            (fun c3 j _ => hrdall _)
            (fun fr2 _ _ => hrdall _)
            (by
              intro habs
              rw [hMrec] at habs
              have habs2 : (s.frameRegs fr).globalReg.isValid = true := habs
              exact absurd habs2 hGV)
            (by
              intro hval _
              rw [hMrec] at hval
              have hval2 : (s.frameRegs fr).globalReg.isValid = true := hval
              exact absurd hval2 hGV)
            (fun _ => hMfvfr)
            (Or.inr (by rw [hMrec]))
        refine ⟨g1, g2, g3, g4, g5, ?_, ?_⟩
        · intro fr2 hne2
          refine g6 fr2 ?_
          intro e
          exact hne2 (by rw [e])
        · intro fr2 hc2
          have heq : fr2 = fr := (Option.some.inj hc2).symm
          subst heq
          exact ⟨g7, g8⟩
      | true =>
        -- no pinned register but the frame slot is already up to date
        rw [Bool.not_true, if_neg Bool.false_ne_true]
        generalize hgenM : ({ s with hwContains := upd2 s.hwContains c i none } :
          EmitState) = M
        have hMoth : ∀ fr2, fr2 ≠ fr → M.frameRegs fr2 = s.frameRegs fr2 := by
          intro fr2 _
          rw [← hgenM]
        have hMrec : M.frameRegs fr = s.frameRegs fr := by
          rw [← hgenM]
        have hMcont : ∀ c2 i2, M.hwContains c2 i2 =
            if c2 = c ∧ i2 = i then none else s.hwContains c2 i2 := by
          intro c2 i2
          rw [← hgenM]
          rfl
        have hrdall : ∀ h2, M.rd h2 = s.rd h2 := by
          intro h2
          rw [← hgenM]
          exact rd_congr rfl h2
        obtain ⟨g1, g2, g3, g4, g5, g6, g7, g8⟩ :=
          spill_leaf hWF hInvAll ht hcase hMoth
            (by rw [hMrec]) (by rw [hMrec]) (by rw [hMrec]) hMcont
            (by rw [← hgenM]) (by rw [← hgenM]) (by rw [← hgenM]) (by rw [← hgenM])
            (fun fr2 _ => by rw [← hgenM])
            (fun c3 j _ => hrdall _)
            (fun fr2 _ _ => hrdall _)
            (by
              intro habs
              rw [hMrec] at habs
              have habs2 : (s.frameRegs fr).globalReg.isValid = true := habs
              exact absurd habs2 hGV)
            (by
              intro hval _
              rw [hMrec] at hval
              have hval2 : (s.frameRegs fr).globalReg.isValid = true := hval
              exact absurd hval2 hGV)
            (by
              intro _
              rw [← hgenM]
              show s.frameVal fr = s.latest fr
              exact hInvfr.2.2.2.1 hF)
            (Or.inr (by rw [hMrec]; exact hF))
        refine ⟨g1, g2, g3, g4, g5, ?_, ?_⟩
        · intro fr2 hne2
          refine g6 fr2 ?_
          intro e
          exact hne2 (by rw [e])
        · intro fr2 hc2
          have heq : fr2 = fr := (Option.some.inj hc2).symm
          subst heq
          exact ⟨g7, g8⟩

/-- `freeReg` preserves the invariant when the freed register's owner (if
any) keeps its value in another authoritative location — which every caller
guarantees by spilling or syncing first. -/
theorem freeReg_good (s : EmitState) (c : RegClass) (i : Nat)
    (hWF : WF s) (hInvAll : ∀ fr2, fr2 < s.nRegs → FRInv s fr2)
    (ht : isTempIdx c i = true)
    (hsafe : ∀ fr, s.hwContains c i = some fr →
      syncedElsewhere s fr ∧
      ((s.frameRegs fr).globalReg.isValid = true →
        (s.frameRegs fr).globalRegUpToDate = true)) :
    Good (freeReg s (.reg c i)) ∧
    (freeReg s (.reg c i)).latest = s.latest ∧
    (freeReg s (.reg c i)).nRegs = s.nRegs := by
  cases hcase : s.hwContains c i with
  | none =>
    obtain ⟨hrv, hfv, hlat, hn, hcontA, hnone, _⟩ := freeReg_sem s c i
    have hfrs : (freeReg s (.reg c i)).frameRegs = s.frameRegs := hnone hcase
    have hcpt : ∀ c2 i2, (freeReg s (.reg c i)).hwContains c2 i2 =
        s.hwContains c2 i2 := by
      intro c2 i2
      rw [hcontA]
      by_cases hpos : c2 = c ∧ i2 = i
      · rcases hpos with ⟨e1, e2⟩
        subst e1
        subst e2
        rw [upd2_same]
        exact hcase.symm
      · rw [upd2_other _ _ _ _ hpos]
    obtain ⟨w1, w2, w3, w4, w5⟩ := hWF
    refine ⟨⟨⟨?_, ?_, ?_, ?_, ?_⟩, ?_⟩, hlat, hn⟩
    · intro fr2 hlt
      rw [hn] at hlt
      obtain ⟨b1, b2, b3⟩ := WFfr_spec (w1 fr2 hlt)
      apply WFfr_of
      · rw [hfrs, localBindingOK_congr hcpt]
        exact b1
      · rw [hfrs, localBindingOK_congr hcpt]
        exact b2
      · intro c2 i2 hgr
        rw [hfrs] at hgr
        exact b3 c2 i2 hgr
    · intro i2 hi2
      have main : ∀ c2 : RegClass, WFcontains (freeReg s (.reg c i)) c2 i2 = true := by
        intro c2
        apply WFcontains_of
        intro fr2 hc2
        rw [hcpt] at hc2
        have hold := WFcontains_spec (by
          rcases c2 with _ | _
          · exact (w2 i2 hi2).1
          · exact (w2 i2 hi2).2) hc2
        refine ⟨hn ▸ hold.1, ?_, ?_⟩
        · intro hcg
          rw [hfrs]
          exact hold.2.1 hcg
        · intro hcv
          rw [hfrs]
          exact hold.2.2 hcv
      exact ⟨main .gp, main .vec⟩
    · intro fr1 hf1 fr2 hf2 hne hval
      rw [hn] at hf1 hf2
      rw [hfrs] at hval ⊢
      exact w3 fr1 hf1 fr2 hf2 hne hval
    · intro j hj
      simp only [getPool] at hj
      rw [(freeReg_gpFree s c i).1] at hj
      by_cases hcgp : c = .gp ∧ isTempIdx .gp i = true
      · rw [if_pos hcgp] at hj
        rcases List.mem_cons.1 hj with hji | hjold
        · subst hji
          refine ⟨hcgp.2, ?_⟩
          rw [hcpt, ← hcgp.1]
          exact hcase
        · have hold := w4 j hjold
          exact ⟨hold.1, by rw [hcpt]; exact hold.2⟩
      · rw [if_neg hcgp] at hj
        have hold := w4 j hj
        exact ⟨hold.1, by rw [hcpt]; exact hold.2⟩
    · intro j hj
      simp only [getPool] at hj
      rw [(freeReg_gpFree s c i).2] at hj
      by_cases hcv : c = .vec ∧ isTempIdx .vec i = true
      · rw [if_pos hcv] at hj
        rcases List.mem_cons.1 hj with hji | hjold
        · subst hji
          refine ⟨hcv.2, ?_⟩
          rw [hcpt, ← hcv.1]
          exact hcase
        · have hold := w5 j hjold
          exact ⟨hold.1, by rw [hcpt]; exact hold.2⟩
      · rw [if_neg hcv] at hj
        have hold := w5 j hj
        exact ⟨hold.1, by rw [hcpt]; exact hold.2⟩
    · intro fr2 hlt
      rw [hn] at hlt
      refine FRInv_congr_fields (s := s) ?_ ?_ ?_ ?_ ?_ ?_ ?_ ?_ ?_ ?_ (hInvAll fr2 hlt)
      · rw [hfrs]
      · rw [hfrs]
      · rw [hfrs]
      · rw [hfrs]
      · rw [hfrs]
      · show (freeReg s (.reg c i)).latest fr2 = s.latest fr2
        rw [hlat]
      · show (freeReg s (.reg c i)).frameVal fr2 = s.frameVal fr2
        rw [hfv]
      · exact rd_congr hrv _
      · exact rd_congr hrv _
      · exact rd_congr hrv _
  | some fr =>
    obtain ⟨fWF, fothers, ⟨fselfG, fselfV⟩, fInv, frv, ffv, flat, fn⟩ :=
      freeReg_owned_facts hWF ht hcase
    have hWFci : WFcontains s c i = true := by
      rcases c with _ | _
      · exact (hWF.2.1 i (tempIdx_lt16 ht)).1
      · exact (hWF.2.1 i (tempIdx_lt16 ht)).2
    have hfrlt : fr < s.nRegs := (WFcontains_spec hWFci hcase).1
    have hInvfr := hInvAll fr hfrlt
    obtain ⟨hsync, hgUTD⟩ := hsafe fr hcase
    have hPg : ((freeReg s (.reg c i)).frameRegs fr).globalReg =
        (s.frameRegs fr).globalReg := by
      cases c with
      | gp => rw [fselfG rfl]
      | vec => rw [fselfV rfl]
    have hPgu : ((freeReg s (.reg c i)).frameRegs fr).globalRegUpToDate =
        (s.frameRegs fr).globalRegUpToDate := by
      cases c with
      | gp => rw [fselfG rfl]
      | vec => rw [fselfV rfl]
    have hPfu : ((freeReg s (.reg c i)).frameRegs fr).frameUpToDate =
        (s.frameRegs fr).frameUpToDate := by
      cases c with
      | gp => rw [fselfG rfl]
      | vec => rw [fselfV rfl]
    have hPgx1 : c = RegClass.gp →
        ((freeReg s (.reg c i)).frameRegs fr).localGpX = HWReg.invalid := by
      intro hcg
      subst hcg
      rw [fselfG rfl]
    have hPgx2 : c = RegClass.vec →
        ((freeReg s (.reg c i)).frameRegs fr).localGpX =
          (s.frameRegs fr).localGpX := by
      intro hcv
      subst hcv
      rw [fselfV rfl]
    have hPvd1 : c = RegClass.vec →
        ((freeReg s (.reg c i)).frameRegs fr).localVecD = HWReg.invalid := by
      intro hcv
      subst hcv
      rw [fselfV rfl]
    have hPvd2 : c = RegClass.gp →
        ((freeReg s (.reg c i)).frameRegs fr).localVecD =
          (s.frameRegs fr).localVecD := by
      intro hcg
      subst hcg
      rw [fselfG rfl]
    have hInvFr : FRInv (freeReg s (.reg c i)) fr := by
      refine ⟨?_, ?_, ?_, ?_, ?_, ?_⟩
      · cases c with
        | gp =>
          intro hval
          rw [hPgx1 rfl] at hval
          exact Bool.noConfusion hval
        | vec =>
          intro hval
          rw [hPgx2 rfl] at hval ⊢
          rw [rd_congr frv, flat]
          exact hInvfr.1 hval
      · cases c with
        | vec =>
          intro hval
          rw [hPvd1 rfl] at hval
          exact Bool.noConfusion hval
        | gp =>
          intro hval
          rw [hPvd2 rfl] at hval ⊢
          rw [rd_congr frv, flat]
          exact hInvfr.2.1 hval
      · intro hval hutd
        rw [hPg] at hval ⊢
        rw [hPgu] at hutd
        rw [rd_congr frv, flat]
        exact hInvfr.2.2.1 hval hutd
      · intro hfut
        rw [hPfu] at hfut
        rw [ffv, flat]
        exact hInvfr.2.2.2.1 hfut
      · rcases hsync with ⟨hval, hutd⟩ | hfut
        · exact Or.inr (Or.inr (Or.inl ⟨by rw [hPg]; exact hval,
            by rw [hPgu]; exact hutd⟩))
        · exact Or.inr (Or.inr (Or.inr (by rw [hPfu]; exact hfut)))
      · intro hval hnutd
        rw [hPg] at hval
        rw [hPgu] at hnutd
        rw [hgUTD hval] at hnutd
        exact Bool.noConfusion hnutd
    refine ⟨⟨fWF, ?_⟩, flat, fn⟩
    intro fr2 hlt
    rw [fn] at hlt
    by_cases e : fr2 = fr
    · rw [e]
      exact hInvFr
    · exact fInv fr2 e (hInvAll fr2 hlt)

/-- Assemble `Good` for a state that differs from `s` only in having `fr`'s
local bindings dropped (`fr`'s value being synced elsewhere). -/
theorem freeFR_leaf {s F : EmitState} {fr : Nat}
    (hWFF : WF F)
    (hInvAll : ∀ fr2, fr2 < s.nRegs → FRInv s fr2)
    (hInvF2 : ∀ fr2, fr2 < s.nRegs → fr2 ≠ fr → FRInv F fr2)
    (hfr : fr < s.nRegs)
    (hready : syncedElsewhere s fr ∧
      ((s.frameRegs fr).globalReg.isValid = true →
        (s.frameRegs fr).globalRegUpToDate = true))
    (hgx : (F.frameRegs fr).localGpX = HWReg.invalid)
    (hvd : (F.frameRegs fr).localVecD = HWReg.invalid)
    (hg : (F.frameRegs fr).globalReg = (s.frameRegs fr).globalReg)
    (hgu : (F.frameRegs fr).globalRegUpToDate = (s.frameRegs fr).globalRegUpToDate)
    (hfu : (F.frameRegs fr).frameUpToDate = (s.frameRegs fr).frameUpToDate)
    (hlat : F.latest = s.latest)
    (hrv : F.regVal = s.regVal)
    (hfv : F.frameVal = s.frameVal)
    (hn : F.nRegs = s.nRegs) :
    Good F := by
  have hInvfr := hInvAll fr hfr
  have hSelf : FRInv F fr := by
    refine ⟨?_, ?_, ?_, ?_, ?_, ?_⟩
    · intro hval
      rw [hgx] at hval
      exact Bool.noConfusion hval
    · intro hval
      rw [hvd] at hval
      exact Bool.noConfusion hval
    · intro hval hutd
      rw [hg] at hval ⊢
      rw [hgu] at hutd
      rw [rd_congr hrv]
      rw [show F.latest fr = s.latest fr from by rw [hlat]]
      exact hInvfr.2.2.1 hval hutd
    · intro hfut
      rw [hfu] at hfut
      rw [show F.frameVal fr = s.frameVal fr from by rw [hfv],
        show F.latest fr = s.latest fr from by rw [hlat]]
      exact hInvfr.2.2.2.1 hfut
    · rcases hready.1 with ⟨hval, hutd⟩ | hfut
      · exact Or.inr (Or.inr (Or.inl ⟨by rw [hg]; exact hval, by rw [hgu]; exact hutd⟩))
      · exact Or.inr (Or.inr (Or.inr (by rw [hfu]; exact hfut)))
    · intro hval hnutd
      rw [hg] at hval
      rw [hgu] at hnutd
      rw [hready.2 hval] at hnutd
      exact Bool.noConfusion hnutd
  refine ⟨hWFF, ?_⟩
  intro fr2 hlt
  have hlt2 : fr2 < s.nRegs := by
    rw [hn] at hlt
    exact hlt
  by_cases e : fr2 = fr
  · rw [e]
    exact hSelf
  · exact hInvF2 fr2 hlt2 e

/-- `freeFRTemp` drops both local bindings of `fr` (clearing the ownership
records and returning the registers to the pools), preserving the invariant
when `fr`'s value is synced elsewhere; nothing else changes. -/
theorem freeFRTemp_facts (s : EmitState) (fr : Nat)
    (hWF : WF s) (hfr : fr < s.nRegs) :
    WF (freeFRTemp s fr) ∧
    (∀ fr2, fr2 ≠ fr → (freeFRTemp s fr).frameRegs fr2 = s.frameRegs fr2) ∧
    ((freeFRTemp s fr).frameRegs fr).localGpX = HWReg.invalid ∧
    ((freeFRTemp s fr).frameRegs fr).localVecD = HWReg.invalid ∧
    ((freeFRTemp s fr).frameRegs fr).globalReg = (s.frameRegs fr).globalReg ∧
    ((freeFRTemp s fr).frameRegs fr).globalRegUpToDate =
      (s.frameRegs fr).globalRegUpToDate ∧
    ((freeFRTemp s fr).frameRegs fr).frameUpToDate =
      (s.frameRegs fr).frameUpToDate ∧
    ((freeFRTemp s fr).frameRegs fr).localType = (s.frameRegs fr).localType ∧
    ((freeFRTemp s fr).frameRegs fr).globalType = (s.frameRegs fr).globalType ∧
    (∀ c2 i2, i2 < 16 → (freeFRTemp s fr).hwContains c2 i2 =
      if s.hwContains c2 i2 = some fr then none else s.hwContains c2 i2) ∧
    (freeFRTemp s fr).latest = s.latest ∧
    (freeFRTemp s fr).regVal = s.regVal ∧
    (freeFRTemp s fr).frameVal = s.frameVal ∧
    (freeFRTemp s fr).nRegs = s.nRegs ∧
    (freeFRTemp s fr).emitted = s.emitted := by
  obtain ⟨b1, b2, b3⟩ := WFfr_spec (hWF.1 fr hfr)
  unfold freeFRTemp
  dsimp only
  by_cases hLgV : (s.frameRegs fr).localGpX.isValid = true
  · rcases localBindingOK_spec b1 with hinvg | ⟨j, hlg, htj, hcj⟩
    · rw [hinvg] at hLgV
      exact Bool.noConfusion hLgV
    · rw [if_pos hLgV, hlg]
      generalize hgenT : setFRState
        { clearContains s (HWReg.reg RegClass.gp j) with
          gpTemp := (clearContains s (HWReg.reg RegClass.gp j)).gpTemp.free
            ((HWReg.reg RegClass.gp j).indexInClass) } fr
        (fun st2 => { st2 with localGpX := HWReg.invalid }) = T1
      have hT1cont : ∀ c2 i2, T1.hwContains c2 i2 =
          if c2 = RegClass.gp ∧ i2 = j then none else s.hwContains c2 i2 := by
        intro c2 i2
        rw [← hgenT]
        rfl
      have hT1oth : ∀ fr2, fr2 ≠ fr → T1.frameRegs fr2 = s.frameRegs fr2 := by
        intro fr2 hne
        rw [← hgenT, setFRState_frameRegs, upd1_other _ _ _ hne]
        rfl
      have hT1rec : T1.frameRegs fr =
          { s.frameRegs fr with localGpX := HWReg.invalid } := by
        rw [← hgenT, setFRState_frameRegs, upd1_same]
        rfl
      have hT1lat : T1.latest = s.latest := by
        rw [← hgenT]
        rfl
      have hT1rv : T1.regVal = s.regVal := by
        rw [← hgenT]
        rfl
      have hT1fv : T1.frameVal = s.frameVal := by
        rw [← hgenT]
        rfl
      have hT1n : T1.nRegs = s.nRegs := by
        rw [← hgenT]
        rfl
      have hT1em : T1.emitted = s.emitted := by
        rw [← hgenT]
        rfl
      have hT1gp : T1.gpTemp = s.gpTemp.free j := by
        rw [← hgenT]
        rfl
      have hT1vp : T1.vecTemp = s.vecTemp := by
        rw [← hgenT]
        rfl
      have hWFT1 : WF T1 := by
        refine WF_clear_owned hWF htj hcj hT1cont hT1oth ?_ ?_ ?_ ?_ ?_ hT1n ?_ ?_
        · rw [hT1rec]
        · intro _
          rw [hT1rec]
        · intro hcv
          exact RegClass.noConfusion hcv
        · intro hcv
          exact RegClass.noConfusion hcv
        · intro _
          rw [hT1rec]
        · refine Or.inr ⟨rfl, ?_⟩
          rw [hT1gp]
          rfl
        · refine Or.inl ?_
          rw [hT1vp]
      rw [hT1rec]
      dsimp only
      by_cases hLvV : (s.frameRegs fr).localVecD.isValid = true
      · rcases localBindingOK_spec b2 with hinvv | ⟨k, hlv, htk, hck⟩
        · rw [hinvv] at hLvV
          exact Bool.noConfusion hLvV
        · rw [if_pos hLvV, hlv]
          generalize hgenU : setFRState
            { clearContains T1 (HWReg.reg RegClass.vec k) with
              vecTemp := (clearContains T1 (HWReg.reg RegClass.vec k)).vecTemp.free
                ((HWReg.reg RegClass.vec k).indexInClass) } fr
            (fun st3 => { st3 with localVecD := HWReg.invalid }) = T2
          have hcT1vk : T1.hwContains RegClass.vec k = some fr := by
            rw [hT1cont, if_neg (by rintro ⟨e, _⟩; exact RegClass.noConfusion e)]
            exact hck
          have hT2cont : ∀ c2 i2, T2.hwContains c2 i2 =
              if c2 = RegClass.vec ∧ i2 = k then none else T1.hwContains c2 i2 := by
            intro c2 i2
            rw [← hgenU]
            rfl
          have hT2oth : ∀ fr2, fr2 ≠ fr → T2.frameRegs fr2 = T1.frameRegs fr2 := by
            intro fr2 hne
            rw [← hgenU, setFRState_frameRegs, upd1_other _ _ _ hne]
            rfl
          have hT2rec : T2.frameRegs fr =
              { T1.frameRegs fr with localVecD := HWReg.invalid } := by
            rw [← hgenU, setFRState_frameRegs, upd1_same]
            rfl
          have hT2lat : T2.latest = T1.latest := by
            rw [← hgenU]
            rfl
          have hT2rv : T2.regVal = T1.regVal := by
            rw [← hgenU]
            rfl
          have hT2fv : T2.frameVal = T1.frameVal := by
            rw [← hgenU]
            rfl
          have hT2n : T2.nRegs = T1.nRegs := by
            rw [← hgenU]
            rfl
          have hT2em : T2.emitted = T1.emitted := by
            rw [← hgenU]
            rfl
          have hT2gp : T2.gpTemp = T1.gpTemp := by
            rw [← hgenU]
            rfl
          have hT2vp : T2.vecTemp = T1.vecTemp.free k := by
            rw [← hgenU]
            rfl
          have hWFT2 : WF T2 := by
            refine WF_clear_owned hWFT1 htk hcT1vk hT2cont hT2oth ?_ ?_ ?_ ?_ ?_
              hT2n ?_ ?_
            · rw [hT2rec]
            · intro hcg
              exact RegClass.noConfusion hcg
            · intro _
              rw [hT2rec]
            · intro _
              rw [hT2rec]
            · intro hcg
              exact RegClass.noConfusion hcg
            · refine Or.inl ?_
              rw [hT2gp]
            · refine Or.inr ⟨rfl, ?_⟩
              rw [hT2vp]
              rfl
          have hgx2 : (T2.frameRegs fr).localGpX = HWReg.invalid := by
            rw [hT2rec, hT1rec]
          have hvd2 : (T2.frameRegs fr).localVecD = HWReg.invalid := by
            rw [hT2rec]
          have hg2 : (T2.frameRegs fr).globalReg = (s.frameRegs fr).globalReg := by
            rw [hT2rec, hT1rec]
          have hgu2 : (T2.frameRegs fr).globalRegUpToDate =
              (s.frameRegs fr).globalRegUpToDate := by
            rw [hT2rec, hT1rec]
          have hfu2 : (T2.frameRegs fr).frameUpToDate =
              (s.frameRegs fr).frameUpToDate := by
            rw [hT2rec, hT1rec]
          have hlt2 : (T2.frameRegs fr).localType = (s.frameRegs fr).localType := by
            rw [hT2rec, hT1rec]
          have hgt2 : (T2.frameRegs fr).globalType = (s.frameRegs fr).globalType := by
            rw [hT2rec, hT1rec]
          refine ⟨hWFT2,
            ?_, hgx2, hvd2, hg2, hgu2, hfu2, hlt2, hgt2, ?_,
            by rw [hT2lat, hT1lat], by rw [hT2rv, hT1rv], by rw [hT2fv, hT1fv],
            by rw [hT2n, hT1n], by rw [hT2em, hT1em]⟩
          · intro fr2 hne
            rw [hT2oth fr2 hne, hT1oth fr2 hne]
          · intro c2 i2 h16
            rw [hT2cont, hT1cont]
            by_cases h1 : c2 = RegClass.vec ∧ i2 = k
            · rcases h1 with ⟨e1, e2⟩
              subst e1
              subst e2
              rw [if_pos ⟨rfl, rfl⟩, if_pos hck]
            · rw [if_neg h1]
              by_cases h2 : c2 = RegClass.gp ∧ i2 = j
              · rcases h2 with ⟨e1, e2⟩
                subst e1
                subst e2
                rw [if_pos ⟨rfl, rfl⟩, if_pos hcj]
              · rw [if_neg h2]
                by_cases h3 : s.hwContains c2 i2 = some fr
                · exfalso
                  have hold := WFcontains_spec (by
                    rcases c2 with _ | _
                    · exact (hWF.2.1 i2 h16).1
                    · exact (hWF.2.1 i2 h16).2) h3
                  rcases c2 with _ | _
                  · have hm := hold.2.1 rfl
                    rw [hlg] at hm
                    cases hm
                    exact h2 ⟨rfl, rfl⟩
                  · have hm := hold.2.2 rfl
                    rw [hlv] at hm
                    cases hm
                    exact h1 ⟨rfl, rfl⟩
                · rw [if_neg h3]
      · rw [if_neg hLvV]
        have hinvv : (s.frameRegs fr).localVecD = HWReg.invalid :=
          hwreg_inv_of_not_valid hLvV
        have hgx2 : (T1.frameRegs fr).localGpX = HWReg.invalid := by
          rw [hT1rec]
        have hvd2 : (T1.frameRegs fr).localVecD = HWReg.invalid := by
          rw [hT1rec]
          exact hinvv
        have hg2 : (T1.frameRegs fr).globalReg = (s.frameRegs fr).globalReg := by
          rw [hT1rec]
        have hgu2 : (T1.frameRegs fr).globalRegUpToDate =
            (s.frameRegs fr).globalRegUpToDate := by
          rw [hT1rec]
        have hfu2 : (T1.frameRegs fr).frameUpToDate =
            (s.frameRegs fr).frameUpToDate := by
          rw [hT1rec]
        have hlt2 : (T1.frameRegs fr).localType = (s.frameRegs fr).localType := by
          rw [hT1rec]
        have hgt2 : (T1.frameRegs fr).globalType = (s.frameRegs fr).globalType := by
          rw [hT1rec]
        refine ⟨hWFT1,
          hT1oth, hgx2, hvd2, hg2, hgu2, hfu2, hlt2, hgt2, ?_,
          hT1lat, hT1rv, hT1fv, hT1n, hT1em⟩
        intro c2 i2 h16
        rw [hT1cont]
        by_cases h2 : c2 = RegClass.gp ∧ i2 = j
        · rcases h2 with ⟨e1, e2⟩
          subst e1
          subst e2
          rw [if_pos ⟨rfl, rfl⟩, if_pos hcj]
        · rw [if_neg h2]
          by_cases h3 : s.hwContains c2 i2 = some fr
          · exfalso
            have hold := WFcontains_spec (by
              rcases c2 with _ | _
              · exact (hWF.2.1 i2 h16).1
              · exact (hWF.2.1 i2 h16).2) h3
            rcases c2 with _ | _
            · have hm := hold.2.1 rfl
              rw [hlg] at hm
              cases hm
              exact h2 ⟨rfl, rfl⟩
            · have hm := hold.2.2 rfl
              rw [hinvv] at hm
              exact HWReg.noConfusion hm
          · rw [if_neg h3]
  · rw [if_neg hLgV]
    have hinvg : (s.frameRegs fr).localGpX = HWReg.invalid :=
      hwreg_inv_of_not_valid hLgV
    by_cases hLvV : (s.frameRegs fr).localVecD.isValid = true
    · rcases localBindingOK_spec b2 with hinvv | ⟨k, hlv, htk, hck⟩
      · rw [hinvv] at hLvV
        exact Bool.noConfusion hLvV
      · rw [if_pos hLvV, hlv]
        generalize hgenU : setFRState
          { clearContains s (HWReg.reg RegClass.vec k) with
            vecTemp := (clearContains s (HWReg.reg RegClass.vec k)).vecTemp.free
              ((HWReg.reg RegClass.vec k).indexInClass) } fr
          (fun st3 => { st3 with localVecD := HWReg.invalid }) = T2
        have hT2cont : ∀ c2 i2, T2.hwContains c2 i2 =
            if c2 = RegClass.vec ∧ i2 = k then none else s.hwContains c2 i2 := by
          intro c2 i2
          rw [← hgenU]
          rfl
        have hT2oth : ∀ fr2, fr2 ≠ fr → T2.frameRegs fr2 = s.frameRegs fr2 := by
          intro fr2 hne
          rw [← hgenU, setFRState_frameRegs, upd1_other _ _ _ hne]
          rfl
        have hT2rec : T2.frameRegs fr =
            { s.frameRegs fr with localVecD := HWReg.invalid } := by
          rw [← hgenU, setFRState_frameRegs, upd1_same]
          rfl
        have hT2lat : T2.latest = s.latest := by
          rw [← hgenU]
          rfl
        have hT2rv : T2.regVal = s.regVal := by
          rw [← hgenU]
          rfl
        have hT2fv : T2.frameVal = s.frameVal := by
          rw [← hgenU]
          rfl
        have hT2n : T2.nRegs = s.nRegs := by
          rw [← hgenU]
          rfl
        have hT2em : T2.emitted = s.emitted := by
          rw [← hgenU]
          rfl
        have hT2gp : T2.gpTemp = s.gpTemp := by
          rw [← hgenU]
          rfl
        have hT2vp : T2.vecTemp = s.vecTemp.free k := by
          rw [← hgenU]
          rfl
        have hWFT2 : WF T2 := by
          refine WF_clear_owned hWF htk hck hT2cont hT2oth ?_ ?_ ?_ ?_ ?_ hT2n ?_ ?_
          · rw [hT2rec]
          · intro hcg
            exact RegClass.noConfusion hcg
          · intro _
            rw [hT2rec]
          · intro _
            rw [hT2rec]
          · intro hcg
            exact RegClass.noConfusion hcg
          · refine Or.inl ?_
            rw [hT2gp]
          · refine Or.inr ⟨rfl, ?_⟩
            rw [hT2vp]
            rfl
        have hgx2 : (T2.frameRegs fr).localGpX = HWReg.invalid := by
          rw [hT2rec]
          exact hinvg
        have hvd2 : (T2.frameRegs fr).localVecD = HWReg.invalid := by
          rw [hT2rec]
        have hg2 : (T2.frameRegs fr).globalReg = (s.frameRegs fr).globalReg := by
          rw [hT2rec]
        have hgu2 : (T2.frameRegs fr).globalRegUpToDate =
            (s.frameRegs fr).globalRegUpToDate := by
          rw [hT2rec]
        have hfu2 : (T2.frameRegs fr).frameUpToDate =
            (s.frameRegs fr).frameUpToDate := by
          rw [hT2rec]
        have hlt2 : (T2.frameRegs fr).localType = (s.frameRegs fr).localType := by
          rw [hT2rec]
        have hgt2 : (T2.frameRegs fr).globalType = (s.frameRegs fr).globalType := by
          rw [hT2rec]
        refine ⟨hWFT2,
          hT2oth, hgx2, hvd2, hg2, hgu2, hfu2, hlt2, hgt2, ?_,
          hT2lat, hT2rv, hT2fv, hT2n, hT2em⟩
        intro c2 i2 h16
        rw [hT2cont]
        by_cases h1 : c2 = RegClass.vec ∧ i2 = k
        · rcases h1 with ⟨e1, e2⟩
          subst e1
          subst e2
          rw [if_pos ⟨rfl, rfl⟩, if_pos hck]
        · rw [if_neg h1]
          by_cases h3 : s.hwContains c2 i2 = some fr
          · exfalso
            have hold := WFcontains_spec (by
              rcases c2 with _ | _
              · exact (hWF.2.1 i2 h16).1
              · exact (hWF.2.1 i2 h16).2) h3
            rcases c2 with _ | _
            · have hm := hold.2.1 rfl
              rw [hinvg] at hm
              exact HWReg.noConfusion hm
            · have hm := hold.2.2 rfl
              rw [hlv] at hm
              cases hm
              exact h1 ⟨rfl, rfl⟩
          · rw [if_neg h3]
    · rw [if_neg hLvV]
      have hinvv : (s.frameRegs fr).localVecD = HWReg.invalid :=
        hwreg_inv_of_not_valid hLvV
      refine ⟨hWF, fun _ _ => rfl, hinvg, hinvv, rfl, rfl, rfl, rfl, rfl,
        ?_, rfl, rfl, rfl, rfl, rfl⟩
      intro c2 i2 h16
      by_cases h3 : s.hwContains c2 i2 = some fr
      · exfalso
        have hold := WFcontains_spec (by
          rcases c2 with _ | _
          · exact (hWF.2.1 i2 h16).1
          · exact (hWF.2.1 i2 h16).2) h3
        rcases c2 with _ | _
        · have hm := hold.2.1 rfl
          rw [hinvg] at hm
          exact HWReg.noConfusion hm
        · have hm := hold.2.2 rfl
          rw [hinvv] at hm
          exact HWReg.noConfusion hm
      · rw [if_neg h3]

/-- `freeFRTemp` additionally preserves the full invariant when `fr`'s value
is synced elsewhere. -/
theorem freeFRTemp_good (s : EmitState) (fr : Nat)
    (hWF : WF s) (hInvAll : ∀ fr2, fr2 < s.nRegs → FRInv s fr2)
    (hfr : fr < s.nRegs)
    (hready : syncedElsewhere s fr ∧
      ((s.frameRegs fr).globalReg.isValid = true →
        (s.frameRegs fr).globalRegUpToDate = true)) :
    Good (freeFRTemp s fr) ∧
    (∀ fr2, fr2 ≠ fr → (freeFRTemp s fr).frameRegs fr2 = s.frameRegs fr2) ∧
    ((freeFRTemp s fr).frameRegs fr).localGpX = HWReg.invalid ∧
    ((freeFRTemp s fr).frameRegs fr).localVecD = HWReg.invalid ∧
    ((freeFRTemp s fr).frameRegs fr).globalReg = (s.frameRegs fr).globalReg ∧
    ((freeFRTemp s fr).frameRegs fr).globalRegUpToDate =
      (s.frameRegs fr).globalRegUpToDate ∧
    ((freeFRTemp s fr).frameRegs fr).frameUpToDate =
      (s.frameRegs fr).frameUpToDate ∧
    ((freeFRTemp s fr).frameRegs fr).localType = (s.frameRegs fr).localType ∧
    ((freeFRTemp s fr).frameRegs fr).globalType = (s.frameRegs fr).globalType ∧
    (∀ c2 i2, i2 < 16 → (freeFRTemp s fr).hwContains c2 i2 =
      if s.hwContains c2 i2 = some fr then none else s.hwContains c2 i2) ∧
    (freeFRTemp s fr).latest = s.latest ∧
    (freeFRTemp s fr).regVal = s.regVal ∧
    (freeFRTemp s fr).frameVal = s.frameVal ∧
    (freeFRTemp s fr).nRegs = s.nRegs ∧
    (freeFRTemp s fr).emitted = s.emitted := by
  obtain ⟨hWFF, k2, k3, k4, k5, k6, k7, k8, k9, k10, k11, k12, k13, k14, k15⟩ :=
    freeFRTemp_facts s fr hWF hfr
  refine ⟨freeFR_leaf hWFF hInvAll ?_ hfr hready k3 k4 k5 k6 k7 k11 k12 k13 k14,
    k2, k3, k4, k5, k6, k7, k8, k9, k10, k11, k12, k13, k14, k15⟩
  intro fr2 hlt hne
  refine FRInv_congr_fields (s := s) ?_ ?_ ?_ ?_ ?_ ?_ ?_ ?_ ?_ ?_ (hInvAll fr2 hlt)
  · rw [k2 fr2 hne]
  · rw [k2 fr2 hne]
  · rw [k2 fr2 hne]
  · rw [k2 fr2 hne]
  · rw [k2 fr2 hne]
  · show (freeFRTemp s fr).latest fr2 = s.latest fr2
    rw [k11]
  · show (freeFRTemp s fr).frameVal fr2 = s.frameVal fr2
    rw [k13]
  · exact rd_congr k12 _
  · exact rd_congr k12 _
  · exact rd_congr k12 _

/-- Assemble `syncToMem`'s invariant preservation from explicit facts about
the state `M` and source register `hw` of the final frame store. -/
theorem sync_leaf {s M : EmitState} {fr : Nat} {hw : HWReg}
    (hWF : WF s) (hInvAll : ∀ fr2, fr2 < s.nRegs → FRInv s fr2) (hfr : fr < s.nRegs)
    (hMoth : ∀ fr2, fr2 ≠ fr → M.frameRegs fr2 = s.frameRegs fr2)
    (hMgx : (M.frameRegs fr).localGpX = (s.frameRegs fr).localGpX)
    (hMvd : (M.frameRegs fr).localVecD = (s.frameRegs fr).localVecD)
    (hMg : (M.frameRegs fr).globalReg = (s.frameRegs fr).globalReg)
    (hMcont : M.hwContains = s.hwContains)
    (hMn : M.nRegs = s.nRegs)
    (hMlat : M.latest = s.latest)
    (hMfv : M.frameVal = s.frameVal)
    (hMgpfl : M.gpTemp.freeList = s.gpTemp.freeList)
    (hMvpfl : M.vecTemp.freeList = s.vecTemp.freeList)
    (hrdtemp : ∀ (c3 : RegClass) (j : Nat), isTempIdx c3 j = true →
      M.rd (HWReg.reg c3 j) = s.rd (HWReg.reg c3 j))
    (hrdglob : ∀ fr2, fr2 < s.nRegs → fr2 ≠ fr →
      M.rd (s.frameRegs fr2).globalReg = s.rd (s.frameRegs fr2).globalReg)
    (hrdhw : M.rd hw = s.latest fr)
    (hMg3 : (M.frameRegs fr).globalReg.isValid = true →
      (M.frameRegs fr).globalRegUpToDate = true →
      M.rd (M.frameRegs fr).globalReg = s.latest fr)
    (hMg6 : (M.frameRegs fr).globalReg.isValid = true →
      (M.frameRegs fr).globalRegUpToDate = false →
      (M.frameRegs fr).localGpX.isValid = true ∨
        (M.frameRegs fr).localVecD.isValid = true) :
    Good (_storeHWRegToFrame M fr hw) ∧
    (_storeHWRegToFrame M fr hw).latest = s.latest ∧
    (_storeHWRegToFrame M fr hw).nRegs = s.nRegs ∧
    (∀ c2 i2, (_storeHWRegToFrame M fr hw).hwContains c2 i2 = s.hwContains c2 i2) ∧
    (∀ fr2, fr2 ≠ fr →
      (_storeHWRegToFrame M fr hw).frameRegs fr2 = s.frameRegs fr2) ∧
    (∀ fr2, fr2 ≠ fr →
      (_storeHWRegToFrame M fr hw).frameVal fr2 = s.frameVal fr2) ∧
    ((_storeHWRegToFrame M fr hw).frameRegs fr).frameUpToDate = true ∧
    (_storeHWRegToFrame M fr hw).frameVal fr = s.latest fr ∧
    ((_storeHWRegToFrame M fr hw).frameRegs fr).localGpX =
      (s.frameRegs fr).localGpX ∧
    ((_storeHWRegToFrame M fr hw).frameRegs fr).localVecD =
      (s.frameRegs fr).localVecD ∧
    ((_storeHWRegToFrame M fr hw).frameRegs fr).globalReg =
      (s.frameRegs fr).globalReg ∧
    (_storeHWRegToFrame M fr hw).gpTemp.freeList = s.gpTemp.freeList ∧
    (_storeHWRegToFrame M fr hw).vecTemp.freeList = s.vecTemp.freeList := by
  obtain ⟨e1, e2, e3, e4, e5, e6, e7, e8⟩ := storeHWRegToFrame_sem M fr hw
  have hRF : (_storeHWRegToFrame M fr hw).frameRegs fr =
      { M.frameRegs fr with frameUpToDate := true } := by
    rw [e1, upd1_same]
  have hothF : ∀ fr2, fr2 ≠ fr →
      (_storeHWRegToFrame M fr hw).frameRegs fr2 = s.frameRegs fr2 := by
    intro fr2 hne
    rw [e1, upd1_other _ _ _ hne, hMoth fr2 hne]
  have hfvF : ∀ fr2, fr2 ≠ fr →
      (_storeHWRegToFrame M fr hw).frameVal fr2 = s.frameVal fr2 := by
    intro fr2 hne
    rw [e2, upd1_other _ _ _ hne, hMfv]
  have hfvfr : (_storeHWRegToFrame M fr hw).frameVal fr = s.latest fr := by
    rw [e2, upd1_same, hrdhw]
  have hlatF : (_storeHWRegToFrame M fr hw).latest = s.latest := by
    rw [e3, hMlat]
  have hcontF : ∀ c2 i2,
      (_storeHWRegToFrame M fr hw).hwContains c2 i2 = s.hwContains c2 i2 := by
    intro c2 i2
    rw [e4, hMcont]
  have hnF : (_storeHWRegToFrame M fr hw).nRegs = s.nRegs := by
    rw [e5, hMn]
  have hPgx : ((_storeHWRegToFrame M fr hw).frameRegs fr).localGpX =
      (s.frameRegs fr).localGpX := by
    rw [hRF]
    exact hMgx
  have hPvd : ((_storeHWRegToFrame M fr hw).frameRegs fr).localVecD =
      (s.frameRegs fr).localVecD := by
    rw [hRF]
    exact hMvd
  have hPg : ((_storeHWRegToFrame M fr hw).frameRegs fr).globalReg =
      (s.frameRegs fr).globalReg := by
    rw [hRF]
    exact hMg
  have hPgu : ((_storeHWRegToFrame M fr hw).frameRegs fr).globalRegUpToDate =
      (M.frameRegs fr).globalRegUpToDate := by
    rw [hRF]
  have hPfu : ((_storeHWRegToFrame M fr hw).frameRegs fr).frameUpToDate = true := by
    rw [hRF]
  have hWFF : WF (_storeHWRegToFrame M fr hw) := by
    refine WF_congr ?_ ?_ ?_ ?_ ?_ hWF
    · exact hnF
    · intro fr2
      by_cases e : fr2 = fr
      · subst e
        exact ⟨hPgx, hPvd, hPg⟩
      · rw [hothF fr2 e]
        exact ⟨rfl, rfl, rfl⟩
    · intro c2 i2
      exact hcontF c2 i2
    · rw [e7]
      exact hMgpfl
    · rw [e8]
      exact hMvpfl
  obtain ⟨b1, b2, b3⟩ := WFfr_spec (hWF.1 fr hfr)
  have hInvfr := hInvAll fr hfr
  have hInvFr : FRInv (_storeHWRegToFrame M fr hw) fr := by
    refine ⟨?_, ?_, ?_, ?_, ?_, ?_⟩
    · intro hval
      rw [hPgx] at hval ⊢
      rw [e6, hlatF]
      rcases localBindingOK_spec b1 with e | ⟨j, e, htj, _⟩
      · rw [e] at hval
        exact Bool.noConfusion hval
      · rw [e, hrdtemp .gp j htj]
        have hv2 := hInvfr.1 (by rw [e]; rfl)
        rw [e] at hv2
        exact hv2
    · intro hval
      rw [hPvd] at hval ⊢
      rw [e6, hlatF]
      rcases localBindingOK_spec b2 with e | ⟨j, e, htj, _⟩
      · rw [e] at hval
        exact Bool.noConfusion hval
      · rw [e, hrdtemp .vec j htj]
        have hv2 := hInvfr.2.1 (by rw [e]; rfl)
        rw [e] at hv2
        exact hv2
    · intro hval hutd
      rw [hPg] at hval ⊢
      rw [hPgu] at hutd
      rw [e6, hlatF, ← hMg]
      rw [← hMg] at hval
      exact hMg3 hval hutd
    · intro _
      rw [hlatF]
      exact hfvfr
    · exact Or.inr (Or.inr (Or.inr hPfu))
    · intro hval hnutd
      rw [hPg, ← hMg] at hval
      rw [hPgu] at hnutd
      rcases hMg6 hval hnutd with hl | hl
      · refine Or.inl ?_
        rw [hPgx, ← hMgx]
        exact hl
      · refine Or.inr ?_
        rw [hPvd, ← hMvd]
        exact hl
  have hInvF2 : ∀ fr2, fr2 < s.nRegs → fr2 ≠ fr →
      FRInv (_storeHWRegToFrame M fr hw) fr2 := by
    intro fr2 hlt hne
    obtain ⟨d1, d2, d3⟩ := WFfr_spec (hWF.1 fr2 hlt)
    refine FRInv_congr_fields (s := s) ?_ ?_ ?_ ?_ ?_ ?_ ?_ ?_ ?_ ?_ (hInvAll fr2 hlt)
    · rw [hothF fr2 hne]
    · rw [hothF fr2 hne]
    · rw [hothF fr2 hne]
    · rw [hothF fr2 hne]
    · rw [hothF fr2 hne]
    · show (_storeHWRegToFrame M fr hw).latest fr2 = s.latest fr2
      rw [hlatF]
    · exact hfvF fr2 hne
    · rw [e6]
      rcases localBindingOK_spec d1 with e | ⟨j, e, htj, _⟩
      · rw [e]
        rfl
      · rw [e]
        exact hrdtemp .gp j htj
    · rw [e6]
      rcases localBindingOK_spec d2 with e | ⟨j, e, htj, _⟩
      · rw [e]
        rfl
      · rw [e]
        exact hrdtemp .vec j htj
    · rw [e6]
      exact hrdglob fr2 hlt hne
  refine ⟨⟨hWFF, ?_⟩, hlatF, hnF, hcontF, hothF, hfvF, hPfu, hfvfr, hPgx, hPvd, hPg,
    by rw [e7]; exact hMgpfl, by rw [e8]; exact hMvpfl⟩
  intro fr2 hlt
  have hlt2 : fr2 < s.nRegs := by
    rw [hnF] at hlt
    exact hlt
  by_cases e : fr2 = fr
  · rw [e]
    exact hInvFr
  · exact hInvF2 fr2 hlt2 e

/-- `syncToMem` preserves the invariant and establishes that the FR's frame
slot is marked up to date and holds its latest value, touching nothing else
(modulo refreshing a stale pinned register). -/
theorem syncToMem_good (s : EmitState) (fr : Nat)
    (hWF : WF s) (hInvAll : ∀ fr2, fr2 < s.nRegs → FRInv s fr2)
    (hfr : fr < s.nRegs) :
    Good (syncToMem s fr) ∧
    (syncToMem s fr).latest = s.latest ∧
    (syncToMem s fr).nRegs = s.nRegs ∧
    (∀ c2 i2, (syncToMem s fr).hwContains c2 i2 = s.hwContains c2 i2) ∧
    (∀ fr2, fr2 ≠ fr → (syncToMem s fr).frameRegs fr2 = s.frameRegs fr2) ∧
    (∀ fr2, fr2 ≠ fr → (syncToMem s fr).frameVal fr2 = s.frameVal fr2) ∧
    ((syncToMem s fr).frameRegs fr).frameUpToDate = true ∧
    (syncToMem s fr).frameVal fr = s.latest fr ∧
    ((syncToMem s fr).frameRegs fr).localGpX = (s.frameRegs fr).localGpX ∧
    ((syncToMem s fr).frameRegs fr).localVecD = (s.frameRegs fr).localVecD ∧
    ((syncToMem s fr).frameRegs fr).globalReg = (s.frameRegs fr).globalReg ∧
    (syncToMem s fr).gpTemp.freeList = s.gpTemp.freeList ∧
    (syncToMem s fr).vecTemp.freeList = s.vecTemp.freeList := by
  obtain ⟨b1, b2, b3⟩ := WFfr_spec (hWF.1 fr hfr)
  have hInvfr := hInvAll fr hfr
  unfold syncToMem
  dsimp only
  by_cases hfut : (s.frameRegs fr).frameUpToDate = true
  · rw [if_pos hfut]
    exact ⟨⟨hWF, hInvAll⟩, rfl, rfl, fun _ _ => rfl, fun _ _ => rfl, fun _ _ => rfl,
      hfut, hInvfr.2.2.2.1 hfut, rfl, rfl, rfl, rfl, rfl⟩
  · rw [if_neg hfut]
    unfold isFRInRegister
    dsimp only
    by_cases hLg : (s.frameRegs fr).localGpX.isValid = true
    · -- the FR is in its local GpX
      rw [if_pos hLg]
      dsimp only
      rcases localBindingOK_spec b1 with egx | ⟨j, egx, htj, _⟩
      · rw [egx] at hLg
        exact Bool.noConfusion hLg
      · rw [(useReg_proj _ _).1]
        have hrdu : ∀ h2, (useReg s (s.frameRegs fr).localGpX).rd h2 = s.rd h2 :=
          fun h2 => rd_useReg _ _ h2
        have hwval : s.rd (s.frameRegs fr).localGpX = s.latest fr := hInvfr.1 hLg
        cases hGV2 : (s.frameRegs fr).globalReg.isValid with
        | false =>
          rw [if_neg (fun habs => Bool.noConfusion habs)]
          refine sync_leaf hWF hInvAll hfr
            (fun fr2 _ => by rw [(useReg_proj _ _).1]) (by rw [(useReg_proj _ _).1])
            (by rw [(useReg_proj _ _).1]) (by rw [(useReg_proj _ _).1])
            ((useReg_proj _ _).2.2.2.2.1) ((useReg_proj _ _).2.2.2.2.2)
            ((useReg_proj _ _).2.2.2.1) ((useReg_proj _ _).2.2.1)
            ((useReg_gpFree _ _).1) ((useReg_gpFree _ _).2)
            (fun c3 j2 _ => hrdu _) (fun fr2 _ _ => hrdu _)
            (by rw [hrdu]; exact hwval) ?_ ?_
          · intro hval _
            rw [(useReg_proj _ _).1] at hval
            rw [hGV2] at hval
            exact Bool.noConfusion hval
          · intro hval _
            rw [(useReg_proj _ _).1] at hval
            rw [hGV2] at hval
            exact Bool.noConfusion hval
        | true =>
          cases hU2 : (s.frameRegs fr).globalRegUpToDate with
          | true =>
            rw [if_neg (by decide : ¬((true && !true) = true))]
            refine sync_leaf hWF hInvAll hfr
              (fun fr2 _ => by rw [(useReg_proj _ _).1]) (by rw [(useReg_proj _ _).1])
              (by rw [(useReg_proj _ _).1]) (by rw [(useReg_proj _ _).1])
              ((useReg_proj _ _).2.2.2.2.1) ((useReg_proj _ _).2.2.2.2.2)
              ((useReg_proj _ _).2.2.2.1) ((useReg_proj _ _).2.2.1)
              ((useReg_gpFree _ _).1) ((useReg_gpFree _ _).2)
              (fun c3 j2 _ => hrdu _) (fun fr2 _ _ => hrdu _)
              (by rw [hrdu]; exact hwval) ?_ ?_
            · intro hval hutd
              rw [(useReg_proj _ _).1] at hval hutd ⊢
              rw [hrdu]
              exact hInvfr.2.2.1 hval hutd
            · intro _ hnutd
              rw [(useReg_proj _ _).1] at hnutd
              rw [hU2] at hnutd
              exact Bool.noConfusion hnutd
          | false =>
            -- the pinned register is stale: it is refreshed before the store
            rw [if_pos (by decide : (true && !false) = true)]
            obtain ⟨cg, ig, hGform⟩ : ∃ cg ig,
                (s.frameRegs fr).globalReg = HWReg.reg cg ig := by
              cases hG2 : (s.frameRegs fr).globalReg with
              | invalid =>
                rw [hG2] at hGV2
                exact Bool.noConfusion hGV2
              | reg a b => exact ⟨a, b, rfl⟩
            have hsaved : isSavedIdx cg ig = true := b3 cg ig hGform
            generalize hgenM : setFRState
              (movHWReg false (useReg s (s.frameRegs fr).localGpX)
                ((s.frameRegs fr).globalReg) ((s.frameRegs fr).localGpX)) fr
              (fun st => { st with globalRegUpToDate := true }) = M
            have hMrec : M.frameRegs fr =
                { s.frameRegs fr with globalRegUpToDate := true } := by
              rw [← hgenM, setFRState_frameRegs, upd1_same, (movHWReg_proj _ _ _ _).1,
                (useReg_proj _ _).1]
            have hMoth : ∀ fr2, fr2 ≠ fr → M.frameRegs fr2 = s.frameRegs fr2 := by
              intro fr2 hne
              rw [← hgenM, setFRState_frameRegs, upd1_other _ _ _ hne,
                (movHWReg_proj _ _ _ _).1, (useReg_proj _ _).1]
            have hMcont : M.hwContains = s.hwContains := by
              rw [← hgenM, (setFRState_proj _ _ _).1, (movHWReg_proj _ _ _ _).2.2.2.1,
                (useReg_proj _ _).2.2.2.2.1]
            have hMn : M.nRegs = s.nRegs := by
              rw [← hgenM, (setFRState_proj _ _ _).2.2.2.1,
                (movHWReg_proj _ _ _ _).2.2.2.2.1, (useReg_proj _ _).2.2.2.2.2]
            have hMlat : M.latest = s.latest := by
              rw [← hgenM, (setFRState_proj _ _ _).2.1,
                (movHWReg_proj _ _ _ _).2.2.1, (useReg_proj _ _).2.2.2.1]
            have hMfv : M.frameVal = s.frameVal := by
              rw [← hgenM, (setFRState_proj _ _ _).2.2.1,
                (movHWReg_proj _ _ _ _).2.1, (useReg_proj _ _).2.2.1]
            have hMgpfl : M.gpTemp.freeList = s.gpTemp.freeList := by
              rw [← hgenM, (setFRState_proj _ _ _).2.2.2.2.1,
                (movHWReg_noUse_pools _ _ _).1, (useReg_gpFree _ _).1]
            have hMvpfl : M.vecTemp.freeList = s.vecTemp.freeList := by
              rw [← hgenM, (setFRState_proj _ _ _).2.2.2.2.2.1,
                (movHWReg_noUse_pools _ _ _).2, (useReg_gpFree _ _).2]
            have hrdM : ∀ h2, h2 ≠ HWReg.reg cg ig → M.rd h2 = s.rd h2 := by
              intro h2 hne
              rw [← hgenM, rd_setFRState, hGform, rd_movHWReg_other _ _ _ _ _ hne,
                rd_useReg]
            have hrdMdst : M.rd ((s.frameRegs fr).globalReg) = s.latest fr := by
              rw [← hgenM, rd_setFRState, hGform, rd_movHWReg_dst, rd_useReg]
              exact hwval
            refine sync_leaf hWF hInvAll hfr hMoth
              (by rw [hMrec]) (by rw [hMrec]) (by rw [hMrec]) hMcont hMn hMlat hMfv
              hMgpfl hMvpfl
              (fun c3 j2 htj2 => hrdM _ (saved_ne_temp hsaved htj2).symm)
              ?_ ?_ ?_ ?_
            · intro fr2 hlt2 hne
              apply hrdM
              intro he
              have hdisj := hWF.2.2.1 fr hfr fr2 hlt2 (fun e2 => hne e2.symm) hGV2
              exact hdisj (by rw [hGform, he])
            · rw [egx, hrdM _ (saved_ne_temp hsaved htj).symm, ← egx]
              exact hwval
            · intro _ _
              rw [hMrec]
              show M.rd (s.frameRegs fr).globalReg = s.latest fr
              exact hrdMdst
            · intro _ habs
              rw [hMrec] at habs
              exact Bool.noConfusion habs
    · rw [if_neg hLg]
      by_cases hLv : (s.frameRegs fr).localVecD.isValid = true
      · -- the FR is in its local VecD
        rw [if_pos hLv]
        dsimp only
        rcases localBindingOK_spec b2 with evd | ⟨j, evd, htj, _⟩
        · rw [evd] at hLv
          exact Bool.noConfusion hLv
        · rw [(useReg_proj _ _).1]
          have hrdu : ∀ h2, (useReg s (s.frameRegs fr).localVecD).rd h2 = s.rd h2 :=
            fun h2 => rd_useReg _ _ h2
          have hwval : s.rd (s.frameRegs fr).localVecD = s.latest fr := hInvfr.2.1 hLv
          cases hGV2 : (s.frameRegs fr).globalReg.isValid with
          | false =>
            rw [if_neg (fun habs => Bool.noConfusion habs)]
            refine sync_leaf hWF hInvAll hfr
              (fun fr2 _ => by rw [(useReg_proj _ _).1]) (by rw [(useReg_proj _ _).1])
              (by rw [(useReg_proj _ _).1]) (by rw [(useReg_proj _ _).1])
              ((useReg_proj _ _).2.2.2.2.1) ((useReg_proj _ _).2.2.2.2.2)
              ((useReg_proj _ _).2.2.2.1) ((useReg_proj _ _).2.2.1)
              ((useReg_gpFree _ _).1) ((useReg_gpFree _ _).2)
              (fun c3 j2 _ => hrdu _) (fun fr2 _ _ => hrdu _)
              (by rw [hrdu]; exact hwval) ?_ ?_
            · intro hval _
              rw [(useReg_proj _ _).1] at hval
              rw [hGV2] at hval
              exact Bool.noConfusion hval
            · intro hval _
              rw [(useReg_proj _ _).1] at hval
              rw [hGV2] at hval
              exact Bool.noConfusion hval
          | true =>
            cases hU2 : (s.frameRegs fr).globalRegUpToDate with
            | true =>
              rw [if_neg (by decide : ¬((true && !true) = true))]
              refine sync_leaf hWF hInvAll hfr
                (fun fr2 _ => by rw [(useReg_proj _ _).1]) (by rw [(useReg_proj _ _).1])
                (by rw [(useReg_proj _ _).1]) (by rw [(useReg_proj _ _).1])
                ((useReg_proj _ _).2.2.2.2.1) ((useReg_proj _ _).2.2.2.2.2)
                ((useReg_proj _ _).2.2.2.1) ((useReg_proj _ _).2.2.1)
                ((useReg_gpFree _ _).1) ((useReg_gpFree _ _).2)
                (fun c3 j2 _ => hrdu _) (fun fr2 _ _ => hrdu _)
                (by rw [hrdu]; exact hwval) ?_ ?_
              · intro hval hutd
                rw [(useReg_proj _ _).1] at hval hutd ⊢
                rw [hrdu]
                exact hInvfr.2.2.1 hval hutd
              · intro _ hnutd
                rw [(useReg_proj _ _).1] at hnutd
                rw [hU2] at hnutd
                exact Bool.noConfusion hnutd
            | false =>
              rw [if_pos (by decide : (true && !false) = true)]
              obtain ⟨cg, ig, hGform⟩ : ∃ cg ig,
                  (s.frameRegs fr).globalReg = HWReg.reg cg ig := by
                cases hG2 : (s.frameRegs fr).globalReg with
                | invalid =>
                  rw [hG2] at hGV2
                  exact Bool.noConfusion hGV2
                | reg a b => exact ⟨a, b, rfl⟩
              have hsaved : isSavedIdx cg ig = true := b3 cg ig hGform
              generalize hgenM : setFRState
                (movHWReg false (useReg s (s.frameRegs fr).localVecD)
                  ((s.frameRegs fr).globalReg) ((s.frameRegs fr).localVecD)) fr
                (fun st => { st with globalRegUpToDate := true }) = M
              have hMrec : M.frameRegs fr =
                  { s.frameRegs fr with globalRegUpToDate := true } := by
                rw [← hgenM, setFRState_frameRegs, upd1_same, (movHWReg_proj _ _ _ _).1,
                  (useReg_proj _ _).1]
              have hMoth : ∀ fr2, fr2 ≠ fr → M.frameRegs fr2 = s.frameRegs fr2 := by
                intro fr2 hne
                rw [← hgenM, setFRState_frameRegs, upd1_other _ _ _ hne,
                  (movHWReg_proj _ _ _ _).1, (useReg_proj _ _).1]
              have hMcont : M.hwContains = s.hwContains := by
                rw [← hgenM, (setFRState_proj _ _ _).1, (movHWReg_proj _ _ _ _).2.2.2.1,
                  (useReg_proj _ _).2.2.2.2.1]
              have hMn : M.nRegs = s.nRegs := by
                rw [← hgenM, (setFRState_proj _ _ _).2.2.2.1,
                  (movHWReg_proj _ _ _ _).2.2.2.2.1, (useReg_proj _ _).2.2.2.2.2]
              have hMlat : M.latest = s.latest := by
                rw [← hgenM, (setFRState_proj _ _ _).2.1,
                  (movHWReg_proj _ _ _ _).2.2.1, (useReg_proj _ _).2.2.2.1]
              have hMfv : M.frameVal = s.frameVal := by
                rw [← hgenM, (setFRState_proj _ _ _).2.2.1,
                  (movHWReg_proj _ _ _ _).2.1, (useReg_proj _ _).2.2.1]
              have hMgpfl : M.gpTemp.freeList = s.gpTemp.freeList := by
                rw [← hgenM, (setFRState_proj _ _ _).2.2.2.2.1,
                  (movHWReg_noUse_pools _ _ _).1, (useReg_gpFree _ _).1]
              have hMvpfl : M.vecTemp.freeList = s.vecTemp.freeList := by
                rw [← hgenM, (setFRState_proj _ _ _).2.2.2.2.2.1,
                  (movHWReg_noUse_pools _ _ _).2, (useReg_gpFree _ _).2]
              have hrdM : ∀ h2, h2 ≠ HWReg.reg cg ig → M.rd h2 = s.rd h2 := by
                intro h2 hne
                rw [← hgenM, rd_setFRState, hGform, rd_movHWReg_other _ _ _ _ _ hne,
                  rd_useReg]
              have hrdMdst : M.rd ((s.frameRegs fr).globalReg) = s.latest fr := by
                rw [← hgenM, rd_setFRState, hGform, rd_movHWReg_dst, rd_useReg]
                exact hwval
              refine sync_leaf hWF hInvAll hfr hMoth
                (by rw [hMrec]) (by rw [hMrec]) (by rw [hMrec]) hMcont hMn hMlat hMfv
                hMgpfl hMvpfl
                (fun c3 j2 htj2 => hrdM _ (saved_ne_temp hsaved htj2).symm)
                ?_ ?_ ?_ ?_
              · intro fr2 hlt2 hne
                apply hrdM
                intro he
                have hdisj := hWF.2.2.1 fr hfr fr2 hlt2 (fun e2 => hne e2.symm) hGV2
                exact hdisj (by rw [hGform, he])
              · rw [evd, hrdM _ (saved_ne_temp hsaved htj).symm, ← evd]
                exact hwval
              · intro _ _
                rw [hMrec]
                show M.rd (s.frameRegs fr).globalReg = s.latest fr
                exact hrdMdst
              · intro _ habs
                rw [hMrec] at habs
                exact Bool.noConfusion habs
      · rw [if_neg hLv]
        by_cases hGV3 : (s.frameRegs fr).globalReg.isValid = true
        · -- the FR is only in its (necessarily up-to-date) pinned register
          rw [if_pos hGV3]
          dsimp only
          cases hU2 : (s.frameRegs fr).globalRegUpToDate with
          | false =>
            exfalso
            rcases hInvfr.2.2.2.2.2 hGV3 hU2 with hl | hl
            · exact hLg hl
            · exact hLv hl
          | true =>
            rw [hGV3, if_neg (by decide : ¬((true && !true) = true))]
            refine sync_leaf hWF hInvAll hfr
              (fun fr2 _ => rfl) rfl rfl rfl rfl rfl rfl rfl rfl rfl
              (fun c3 j2 _ => rfl) (fun fr2 _ _ => rfl)
              (hInvfr.2.2.1 hGV3 hU2) ?_ ?_
            · intro hval hutd
              exact hInvfr.2.2.1 hval hutd
            · intro _ hnutd
              rw [hU2] at hnutd
              exact Bool.noConfusion hnutd
        · exfalso
          rcases hInvfr.2.2.2.2.1 with hl | hl | ⟨hv, _⟩ | hl
          · exact hLg hl
          · exact hLv hl
          · exact hGV3 hv
          · exact hfut hl

/-- `frSyncReady` only looks at the flag fields, so it transfers along states
that agree on them. -/
theorem frSyncReady_of_rec {s s2 : EmitState} {fr : Nat}
    (hg : (s2.frameRegs fr).globalReg = (s.frameRegs fr).globalReg)
    (hgu : (s2.frameRegs fr).globalRegUpToDate = (s.frameRegs fr).globalRegUpToDate)
    (hfu : (s2.frameRegs fr).frameUpToDate = (s.frameRegs fr).frameUpToDate)
    (h : frSyncReady s fr) : frSyncReady s2 fr := by
  obtain ⟨h1, h2⟩ := h
  constructor
  · rcases h1 with ⟨a, b⟩ | a
    · exact Or.inl ⟨by rw [hg]; exact a, by rw [hgu]; exact b⟩
    · exact Or.inr (by rw [hfu]; exact a)
  · intro hv
    rw [hg] at hv
    rw [hgu]
    exact h2 hv

theorem not_tempBound_spec {s : EmitState} {fr : Nat} (h : ¬tempBound s fr = true) :
    (s.frameRegs fr).localGpX.isValid = false ∧
    (s.frameRegs fr).localVecD.isValid = false := by
  have h2 : ((s.frameRegs fr).localGpX.isValid ||
      (s.frameRegs fr).localVecD.isValid) = true → False := h
  constructor
  · cases hgx : (s.frameRegs fr).localGpX.isValid with
    | false => rfl
    | true => exact (h2 (by rw [hgx]; rfl)).elim
  · cases hvd : (s.frameRegs fr).localVecD.isValid with
    | false => rfl
    | true => exact (h2 (by rw [hvd, Bool.or_true])).elim

/-- An FR with no temporary bindings is automatically sync-ready: by the
invariant, at least one of its persistent locations is authoritative and a
valid pinned register cannot be stale. -/
theorem frSyncReady_of_not_tempBound {s : EmitState} {fr : Nat}
    (hInv : FRInv s fr) (h : ¬tempBound s fr = true) : frSyncReady s fr := by
  obtain ⟨hgx, hvd⟩ := not_tempBound_spec h
  constructor
  · rcases hInv.2.2.2.2.1 with h1 | h1 | ⟨hv, hu⟩ | h1
    · rw [hgx] at h1
      exact Bool.noConfusion h1
    · rw [hvd] at h1
      exact Bool.noConfusion h1
    · exact Or.inl ⟨hv, hu⟩
    · exact Or.inr h1
  · intro hv
    cases hu : (s.frameRegs fr).globalRegUpToDate with
    | true => rfl
    | false =>
      rcases hInv.2.2.2.2.2 hv hu with h1 | h1
      · rw [hgx] at h1
        exact Bool.noConfusion h1
      · rw [hvd] at h1
        exact Bool.noConfusion h1

/-- A sync-ready FR satisfying the consistency invariant has its latest value
in frame memory or its up-to-date pinned register. -/
theorem valueInMemOrGlobal_of {s : EmitState} {fr : Nat}
    (hInv : FRInv s fr) (h : frSyncReady s fr) : valueInMemOrGlobal s fr := by
  rcases h.1 with ⟨hv, hu⟩ | hfu
  · exact Or.inr ⟨hv, hu, hInv.2.2.1 hv hu⟩
  · exact Or.inl ⟨hfu, hInv.2.2.2.1 hfu⟩

theorem mem_tempRange_gp {j : Nat} (h : isTempIdx RegClass.gp j = true) :
    j ∈ tempRangeList kGPTemp := by
  simp only [isTempIdx, inRange, kGPTemp, Bool.and_eq_true, decide_eq_true_eq] at h
  simp only [tempRangeList, kGPTemp, List.mem_range'_1]
  omega

theorem mem_tempRange_vec {j : Nat} (h : isTempIdx RegClass.vec j = true) :
    j ∈ tempRangeList kVecTemp := by
  simp only [isTempIdx, inRange, kVecTemp, Bool.and_eq_true, decide_eq_true_eq] at h
  simp only [tempRangeList, kVecTemp, List.mem_range'_1]
  omega

/-- One GP iteration of `syncAllTempExcept`: the invariant is preserved, the
binding shape, ownership records, pools and ghost values are untouched, every
already-sync-ready FR stays sync-ready, and the FR owning `xI` (unless
excepted) becomes sync-ready. -/
theorem syncTempGpStep_good (e : Option Nat) (s : EmitState) (i : Nat)
    (hGood : Good s) (hti : isTempIdx RegClass.gp i = true) :
    Good (syncTempGpStep e s i) ∧
    (syncTempGpStep e s i).nRegs = s.nRegs ∧
    (syncTempGpStep e s i).hwContains = s.hwContains ∧
    (syncTempGpStep e s i).latest = s.latest ∧
    (∀ fr2, bindShapeEq (syncTempGpStep e s i) s fr2) ∧
    (syncTempGpStep e s i).gpTemp.freeList = s.gpTemp.freeList ∧
    (syncTempGpStep e s i).vecTemp.freeList = s.vecTemp.freeList ∧
    (∀ fr2, frSyncReady s fr2 → frSyncReady (syncTempGpStep e s i) fr2) ∧
    (∀ fr2, s.hwContains RegClass.gp i = some fr2 → e ≠ some fr2 →
      frSyncReady (syncTempGpStep e s i) fr2) := by
  obtain ⟨hWF, hInvAll⟩ := hGood
  have h16 : i < 16 := tempIdx_lt16 hti
  unfold syncTempGpStep
  cases hcc : s.hwContains RegClass.gp i with
  | none =>
    dsimp only
    exact ⟨⟨hWF, hInvAll⟩, rfl, rfl, rfl, fun _ => ⟨rfl, rfl, rfl, rfl, rfl⟩, rfl,
      rfl, fun _ h => h, fun fr2 habs _ => Option.noConfusion habs⟩
  | some fr0 =>
    dsimp only
    obtain ⟨hfrlt, hlg2, _⟩ := WFcontains_spec (hWF.2.1 i h16).1 hcc
    have hlgx : (s.frameRegs fr0).localGpX = HWReg.reg RegClass.gp i := hlg2 rfl
    by_cases he : e = some fr0
    · rw [if_pos he]
      refine ⟨⟨hWF, hInvAll⟩, rfl, rfl, rfl, fun _ => ⟨rfl, rfl, rfl, rfl, rfl⟩, rfl,
        rfl, fun _ h => h, ?_⟩
      intro fr2 hsome hne2
      cases Option.some.inj hsome
      exact absurd he hne2
    · rw [if_neg he]
      have hval1 : s.rd (HWReg.reg RegClass.gp i) = s.latest fr0 := by
        have hv := (hInvAll fr0 hfrlt).1 (by rw [hlgx]; rfl)
        rw [hlgx] at hv
        exact hv
      obtain ⟨b1, b2, b3⟩ := WFfr_spec (hWF.1 fr0 hfrlt)
      by_cases hGV : (s.frameRegs fr0).globalReg.isValid = true
      · rw [if_pos hGV]
        cases hU : (s.frameRegs fr0).globalRegUpToDate with
        | true =>
          rw [if_neg (by decide : ¬((!true) = true))]
          refine ⟨⟨hWF, hInvAll⟩, rfl, rfl, rfl, fun _ => ⟨rfl, rfl, rfl, rfl, rfl⟩,
            rfl, rfl, fun _ h => h, ?_⟩
          intro fr2 hsome hne2
          cases Option.some.inj hsome
          exact ⟨Or.inl ⟨hGV, hU⟩, fun _ => hU⟩
        | false =>
          rw [if_pos (by decide : (!false) = true)]
          obtain ⟨cg, ig, hGform⟩ : ∃ cg ig,
              (s.frameRegs fr0).globalReg = HWReg.reg cg ig := by
            cases hG2 : (s.frameRegs fr0).globalReg with
            | invalid =>
              rw [hG2] at hGV
              exact Bool.noConfusion hGV
            | reg a b => exact ⟨a, b, rfl⟩
          have hsaved : isSavedIdx cg ig = true := b3 cg ig hGform
          generalize hgenM : setFRState
            (movHWReg false s ((s.frameRegs fr0).globalReg) (HWReg.reg RegClass.gp i))
            fr0 (fun st => { st with globalRegUpToDate := true }) = M
          have hMrec : M.frameRegs fr0 =
              { s.frameRegs fr0 with globalRegUpToDate := true } := by
            rw [← hgenM, setFRState_frameRegs, upd1_same, (movHWReg_proj _ _ _ _).1]
          have hMoth : ∀ fr2, fr2 ≠ fr0 → M.frameRegs fr2 = s.frameRegs fr2 := by
            intro fr2 hne
            rw [← hgenM, setFRState_frameRegs, upd1_other _ _ _ hne,
              (movHWReg_proj _ _ _ _).1]
          have hMcont : M.hwContains = s.hwContains := by
            rw [← hgenM, (setFRState_proj _ _ _).1, (movHWReg_proj _ _ _ _).2.2.2.1]
          have hMn : M.nRegs = s.nRegs := by
            rw [← hgenM, (setFRState_proj _ _ _).2.2.2.1,
              (movHWReg_proj _ _ _ _).2.2.2.2.1]
          have hMlat : M.latest = s.latest := by
            rw [← hgenM, (setFRState_proj _ _ _).2.1, (movHWReg_proj _ _ _ _).2.2.1]
          have hMfv : M.frameVal = s.frameVal := by
            rw [← hgenM, (setFRState_proj _ _ _).2.2.1, (movHWReg_proj _ _ _ _).2.1]
          have hMgp : M.gpTemp = s.gpTemp := by
            rw [← hgenM, (setFRState_proj _ _ _).2.2.2.2.1,
              (movHWReg_noUse_pools _ _ _).1]
          have hMvp : M.vecTemp = s.vecTemp := by
            rw [← hgenM, (setFRState_proj _ _ _).2.2.2.2.2.1,
              (movHWReg_noUse_pools _ _ _).2]
          have hrdM : ∀ h2, h2 ≠ HWReg.reg cg ig → M.rd h2 = s.rd h2 := by
            intro h2 hne2
            rw [← hgenM, rd_setFRState, hGform, rd_movHWReg_other _ _ _ _ _ hne2]
          have hrdMdst : M.rd ((s.frameRegs fr0).globalReg) = s.latest fr0 := by
            rw [← hgenM, rd_setFRState, hGform, rd_movHWReg_dst]
            exact hval1
          have hWFM : WF M := by
            refine WF_congr hMn ?_ (fun c2 i2 => by rw [hMcont]) (by rw [hMgp])
              (by rw [hMvp]) hWF
            intro fr2
            by_cases e2 : fr2 = fr0
            · subst e2
              rw [hMrec]
              exact ⟨rfl, rfl, rfl⟩
            · rw [hMoth fr2 e2]
              exact ⟨rfl, rfl, rfl⟩
          have hInvM0 : FRInv M fr0 := by
            refine ⟨?_, ?_, ?_, ?_, ?_, ?_⟩
            · intro hv
              rw [show (M.frameRegs fr0).localGpX = (s.frameRegs fr0).localGpX from
                by rw [hMrec], hlgx,
                show M.latest fr0 = s.latest fr0 from by rw [hMlat],
                hrdM _ (saved_ne_temp hsaved hti).symm]
              exact hval1
            · intro hv
              rw [show (M.frameRegs fr0).localVecD = (s.frameRegs fr0).localVecD from
                by rw [hMrec]] at hv ⊢
              rw [show M.latest fr0 = s.latest fr0 from by rw [hMlat]]
              rcases localBindingOK_spec b2 with einv | ⟨k, hk, htk, _⟩
              · rw [einv] at hv
                exact Bool.noConfusion hv
              · rw [hk, hrdM _ (saved_ne_temp hsaved htk).symm, ← hk]
                exact (hInvAll fr0 hfrlt).2.1 hv
            · intro _ _
              rw [show (M.frameRegs fr0).globalReg = (s.frameRegs fr0).globalReg from
                by rw [hMrec],
                show M.latest fr0 = s.latest fr0 from by rw [hMlat]]
              exact hrdMdst
            · intro hfut
              rw [show (M.frameRegs fr0).frameUpToDate =
                (s.frameRegs fr0).frameUpToDate from by rw [hMrec]] at hfut
              rw [show M.frameVal fr0 = s.frameVal fr0 from by rw [hMfv],
                show M.latest fr0 = s.latest fr0 from by rw [hMlat]]
              exact (hInvAll fr0 hfrlt).2.2.2.1 hfut
            · refine Or.inl ?_
              rw [show (M.frameRegs fr0).localGpX = (s.frameRegs fr0).localGpX from
                by rw [hMrec], hlgx]
              rfl
            · intro _ hnutd
              rw [show (M.frameRegs fr0).globalRegUpToDate = true from
                by rw [hMrec]] at hnutd
              exact Bool.noConfusion hnutd
          have hInvM : ∀ fr2, fr2 < M.nRegs → FRInv M fr2 := by
            intro fr2 hlt
            have hlt2 : fr2 < s.nRegs := by
              rw [hMn] at hlt
              exact hlt
            by_cases e2 : fr2 = fr0
            · subst e2
              exact hInvM0
            · obtain ⟨d1, d2, _⟩ := WFfr_spec (hWF.1 fr2 hlt2)
              refine FRInv_congr_fields (s := s) ?_ ?_ ?_ ?_ ?_ ?_ ?_ ?_ ?_ ?_
                (hInvAll fr2 hlt2)
              · rw [hMoth fr2 e2]
              · rw [hMoth fr2 e2]
              · rw [hMoth fr2 e2]
              · rw [hMoth fr2 e2]
              · rw [hMoth fr2 e2]
              · show M.latest fr2 = s.latest fr2
                rw [hMlat]
              · show M.frameVal fr2 = s.frameVal fr2
                rw [hMfv]
              · rcases localBindingOK_spec d1 with einv | ⟨k, hk, htk, _⟩
                · rw [einv]
                  rfl
                · rw [hk]
                  exact hrdM _ (saved_ne_temp hsaved htk).symm
              · rcases localBindingOK_spec d2 with einv | ⟨k, hk, htk, _⟩
                · rw [einv]
                  rfl
                · rw [hk]
                  exact hrdM _ (saved_ne_temp hsaved htk).symm
              · apply hrdM
                intro heq
                have hdisj := hWF.2.2.1 fr0 hfrlt fr2 hlt2 (fun e3 => e2 e3.symm) hGV
                exact hdisj (by rw [hGform, heq])
          refine ⟨⟨hWFM, hInvM⟩, hMn, hMcont, hMlat, ?_, by rw [hMgp], by rw [hMvp],
            ?_, ?_⟩
          · intro fr2
            by_cases e2 : fr2 = fr0
            · subst e2
              exact ⟨by rw [hMrec], by rw [hMrec], by rw [hMrec], by rw [hMrec],
                by rw [hMrec]⟩
            · exact ⟨by rw [hMoth fr2 e2], by rw [hMoth fr2 e2], by rw [hMoth fr2 e2],
                by rw [hMoth fr2 e2], by rw [hMoth fr2 e2]⟩
          · intro fr2 hsr
            by_cases e2 : fr2 = fr0
            · subst e2
              exact ⟨Or.inl ⟨by rw [hMrec]; exact hGV, by rw [hMrec]⟩,
                fun _ => by rw [hMrec]⟩
            · exact frSyncReady_of_rec (by rw [hMoth fr2 e2]) (by rw [hMoth fr2 e2])
                (by rw [hMoth fr2 e2]) hsr
          · intro fr2 hsome hne2
            cases Option.some.inj hsome
            exact ⟨Or.inl ⟨by rw [hMrec]; exact hGV, by rw [hMrec]⟩,
              fun _ => by rw [hMrec]⟩
      · rw [if_neg hGV]
        cases hfu : (s.frameRegs fr0).frameUpToDate with
        | true =>
          rw [if_neg (by decide : ¬((!true) = true))]
          refine ⟨⟨hWF, hInvAll⟩, rfl, rfl, rfl, fun _ => ⟨rfl, rfl, rfl, rfl, rfl⟩,
            rfl, rfl, fun _ h => h, ?_⟩
          intro fr2 hsome hne2
          cases Option.some.inj hsome
          exact ⟨Or.inr hfu, fun hv => absurd hv hGV⟩
        | false =>
          rw [if_pos (by decide : (!false) = true)]
          have hg3 : (s.frameRegs fr0).globalReg.isValid = true →
              (s.frameRegs fr0).globalRegUpToDate = true →
              s.rd (s.frameRegs fr0).globalReg = s.latest fr0 :=
            fun hv _ => absurd hv hGV
          have hg6 : (s.frameRegs fr0).globalReg.isValid = true →
              (s.frameRegs fr0).globalRegUpToDate = false →
              (s.frameRegs fr0).localGpX.isValid = true ∨
                (s.frameRegs fr0).localVecD.isValid = true :=
            fun hv _ => absurd hv hGV
          obtain ⟨gGood, gLat, gN, gCont, gOth, gFv, gFu, gFvfr, gGx, gVd, gG, gGfl,
              gVfl⟩ :=
            sync_leaf (s := s) (M := s)
              hWF hInvAll hfrlt (fun _ _ => rfl) rfl rfl rfl rfl rfl rfl rfl rfl rfl
              (fun _ _ _ => rfl) (fun _ _ _ => rfl) hval1 hg3 hg6
          have hrec : (_storeHWRegToFrame s fr0 (HWReg.reg RegClass.gp i)).frameRegs
              fr0 = { s.frameRegs fr0 with frameUpToDate := true } := by
            rw [(storeHWRegToFrame_sem s fr0 _).1, upd1_same]
          refine ⟨gGood, gN, ?_, gLat, ?_, gGfl, gVfl, ?_, ?_⟩
          · funext c2 i2
            exact gCont c2 i2
          · intro fr2
            by_cases e2 : fr2 = fr0
            · subst e2
              exact ⟨by rw [hrec], by rw [hrec], by rw [hrec], by rw [hrec],
                by rw [hrec]⟩
            · exact ⟨by rw [gOth fr2 e2], by rw [gOth fr2 e2], by rw [gOth fr2 e2],
                by rw [gOth fr2 e2], by rw [gOth fr2 e2]⟩
          · intro fr2 hsr
            by_cases e2 : fr2 = fr0
            · subst e2
              refine ⟨Or.inr gFu, fun hv => ?_⟩
              rw [gG] at hv
              exact absurd hv hGV
            · exact frSyncReady_of_rec (by rw [gOth fr2 e2]) (by rw [gOth fr2 e2])
                (by rw [gOth fr2 e2]) hsr
          · intro fr2 hsome hne2
            cases Option.some.inj hsome
            refine ⟨Or.inr gFu, fun hv => ?_⟩
            rw [gG] at hv
            exact absurd hv hGV

/-- One Vec iteration of `syncAllTempExcept`: like the GP iteration, except
that an FR that also holds a local GpX is skipped (its sync-readiness must
come from the GP pass, hence the extra condition on the progress clause). -/
theorem syncTempVecStep_good (e : Option Nat) (s : EmitState) (i : Nat)
    (hGood : Good s) (hti : isTempIdx RegClass.vec i = true) :
    Good (syncTempVecStep e s i) ∧
    (syncTempVecStep e s i).nRegs = s.nRegs ∧
    (syncTempVecStep e s i).hwContains = s.hwContains ∧
    (syncTempVecStep e s i).latest = s.latest ∧
    (∀ fr2, bindShapeEq (syncTempVecStep e s i) s fr2) ∧
    (syncTempVecStep e s i).gpTemp.freeList = s.gpTemp.freeList ∧
    (syncTempVecStep e s i).vecTemp.freeList = s.vecTemp.freeList ∧
    (∀ fr2, frSyncReady s fr2 → frSyncReady (syncTempVecStep e s i) fr2) ∧
    (∀ fr2, s.hwContains RegClass.vec i = some fr2 → e ≠ some fr2 →
      (s.frameRegs fr2).localGpX.isValid = false →
      frSyncReady (syncTempVecStep e s i) fr2) := by
  obtain ⟨hWF, hInvAll⟩ := hGood
  have h16 : i < 16 := tempIdx_lt16 hti
  unfold syncTempVecStep
  cases hcc : s.hwContains RegClass.vec i with
  | none =>
    dsimp only
    exact ⟨⟨hWF, hInvAll⟩, rfl, rfl, rfl, fun _ => ⟨rfl, rfl, rfl, rfl, rfl⟩, rfl,
      rfl, fun _ h => h, fun fr2 habs _ _ => Option.noConfusion habs⟩
  | some fr0 =>
    dsimp only
    obtain ⟨hfrlt, _, hlv2⟩ := WFcontains_spec (hWF.2.1 i h16).2 hcc
    have hlvx : (s.frameRegs fr0).localVecD = HWReg.reg RegClass.vec i := hlv2 rfl
    by_cases he : e = some fr0
    · rw [if_pos he]
      refine ⟨⟨hWF, hInvAll⟩, rfl, rfl, rfl, fun _ => ⟨rfl, rfl, rfl, rfl, rfl⟩, rfl,
        rfl, fun _ h => h, ?_⟩
      intro fr2 hsome hne2 _
      cases Option.some.inj hsome
      exact absurd he hne2
    · rw [if_neg he]
      by_cases hLgV : (s.frameRegs fr0).localGpX.isValid = true
      · rw [if_pos hLgV]
        refine ⟨⟨hWF, hInvAll⟩, rfl, rfl, rfl, fun _ => ⟨rfl, rfl, rfl, rfl, rfl⟩,
          rfl, rfl, fun _ h => h, ?_⟩
        intro fr2 hsome hne2 hnogp
        cases Option.some.inj hsome
        rw [hnogp] at hLgV
        exact Bool.noConfusion hLgV
      · rw [if_neg hLgV]
        have hval1 : s.rd (HWReg.reg RegClass.vec i) = s.latest fr0 := by
          have hv := (hInvAll fr0 hfrlt).2.1 (by rw [hlvx]; rfl)
          rw [hlvx] at hv
          exact hv
        obtain ⟨b1, b2, b3⟩ := WFfr_spec (hWF.1 fr0 hfrlt)
        by_cases hGV : (s.frameRegs fr0).globalReg.isValid = true
        · rw [if_pos hGV]
          cases hU : (s.frameRegs fr0).globalRegUpToDate with
          | true =>
            rw [if_neg (by decide : ¬((!true) = true))]
            refine ⟨⟨hWF, hInvAll⟩, rfl, rfl, rfl,
              fun _ => ⟨rfl, rfl, rfl, rfl, rfl⟩, rfl, rfl, fun _ h => h, ?_⟩
            intro fr2 hsome hne2 _
            cases Option.some.inj hsome
            exact ⟨Or.inl ⟨hGV, hU⟩, fun _ => hU⟩
          | false =>
            rw [if_pos (by decide : (!false) = true)]
            obtain ⟨cg, ig, hGform⟩ : ∃ cg ig,
                (s.frameRegs fr0).globalReg = HWReg.reg cg ig := by
              cases hG2 : (s.frameRegs fr0).globalReg with
              | invalid =>
                rw [hG2] at hGV
                exact Bool.noConfusion hGV
              | reg a b => exact ⟨a, b, rfl⟩
            have hsaved : isSavedIdx cg ig = true := b3 cg ig hGform
            generalize hgenM : setFRState
              (movHWReg false s ((s.frameRegs fr0).globalReg)
                (HWReg.reg RegClass.vec i))
              fr0 (fun st => { st with globalRegUpToDate := true }) = M
            have hMrec : M.frameRegs fr0 =
                { s.frameRegs fr0 with globalRegUpToDate := true } := by
              rw [← hgenM, setFRState_frameRegs, upd1_same, (movHWReg_proj _ _ _ _).1]
            have hMoth : ∀ fr2, fr2 ≠ fr0 → M.frameRegs fr2 = s.frameRegs fr2 := by
              intro fr2 hne
              rw [← hgenM, setFRState_frameRegs, upd1_other _ _ _ hne,
                (movHWReg_proj _ _ _ _).1]
            have hMcont : M.hwContains = s.hwContains := by
              rw [← hgenM, (setFRState_proj _ _ _).1, (movHWReg_proj _ _ _ _).2.2.2.1]
            have hMn : M.nRegs = s.nRegs := by
              rw [← hgenM, (setFRState_proj _ _ _).2.2.2.1,
                (movHWReg_proj _ _ _ _).2.2.2.2.1]
            have hMlat : M.latest = s.latest := by
              rw [← hgenM, (setFRState_proj _ _ _).2.1, (movHWReg_proj _ _ _ _).2.2.1]
            have hMfv : M.frameVal = s.frameVal := by
              rw [← hgenM, (setFRState_proj _ _ _).2.2.1, (movHWReg_proj _ _ _ _).2.1]
            have hMgp : M.gpTemp = s.gpTemp := by
              rw [← hgenM, (setFRState_proj _ _ _).2.2.2.2.1,
                (movHWReg_noUse_pools _ _ _).1]
            have hMvp : M.vecTemp = s.vecTemp := by
              rw [← hgenM, (setFRState_proj _ _ _).2.2.2.2.2.1,
                (movHWReg_noUse_pools _ _ _).2]
            have hrdM : ∀ h2, h2 ≠ HWReg.reg cg ig → M.rd h2 = s.rd h2 := by
              intro h2 hne2
              rw [← hgenM, rd_setFRState, hGform, rd_movHWReg_other _ _ _ _ _ hne2]
            have hrdMdst : M.rd ((s.frameRegs fr0).globalReg) = s.latest fr0 := by
              rw [← hgenM, rd_setFRState, hGform, rd_movHWReg_dst]
              exact hval1
            have hWFM : WF M := by
              refine WF_congr hMn ?_ (fun c2 i2 => by rw [hMcont]) (by rw [hMgp])
                (by rw [hMvp]) hWF
              intro fr2
              by_cases e2 : fr2 = fr0
              · subst e2
                rw [hMrec]
                exact ⟨rfl, rfl, rfl⟩
              · rw [hMoth fr2 e2]
                exact ⟨rfl, rfl, rfl⟩
            have hInvM0 : FRInv M fr0 := by
              refine ⟨?_, ?_, ?_, ?_, ?_, ?_⟩
              · intro hv
                rw [show (M.frameRegs fr0).localGpX = (s.frameRegs fr0).localGpX from
                  by rw [hMrec], hwreg_inv_of_not_valid hLgV] at hv
                exact Bool.noConfusion hv
              · intro _
                rw [show (M.frameRegs fr0).localVecD = (s.frameRegs fr0).localVecD
                  from by rw [hMrec], hlvx,
                  show M.latest fr0 = s.latest fr0 from by rw [hMlat],
                  hrdM _ (saved_ne_temp hsaved hti).symm]
                exact hval1
              · intro _ _
                rw [show (M.frameRegs fr0).globalReg = (s.frameRegs fr0).globalReg
                  from by rw [hMrec],
                  show M.latest fr0 = s.latest fr0 from by rw [hMlat]]
                exact hrdMdst
              · intro hfut
                rw [show (M.frameRegs fr0).frameUpToDate =
                  (s.frameRegs fr0).frameUpToDate from by rw [hMrec]] at hfut
                rw [show M.frameVal fr0 = s.frameVal fr0 from by rw [hMfv],
                  show M.latest fr0 = s.latest fr0 from by rw [hMlat]]
                exact (hInvAll fr0 hfrlt).2.2.2.1 hfut
              · refine Or.inr (Or.inl ?_)
                rw [show (M.frameRegs fr0).localVecD = (s.frameRegs fr0).localVecD
                  from by rw [hMrec], hlvx]
                rfl
              · intro _ hnutd
                rw [show (M.frameRegs fr0).globalRegUpToDate = true from
                  by rw [hMrec]] at hnutd
                exact Bool.noConfusion hnutd
            have hInvM : ∀ fr2, fr2 < M.nRegs → FRInv M fr2 := by
              intro fr2 hlt
              have hlt2 : fr2 < s.nRegs := by
                rw [hMn] at hlt
                exact hlt
              by_cases e2 : fr2 = fr0
              · subst e2
                exact hInvM0
              · obtain ⟨d1, d2, _⟩ := WFfr_spec (hWF.1 fr2 hlt2)
                refine FRInv_congr_fields (s := s) ?_ ?_ ?_ ?_ ?_ ?_ ?_ ?_ ?_ ?_
                  (hInvAll fr2 hlt2)
                · rw [hMoth fr2 e2]
                · rw [hMoth fr2 e2]
                · rw [hMoth fr2 e2]
                · rw [hMoth fr2 e2]
                · rw [hMoth fr2 e2]
                · show M.latest fr2 = s.latest fr2
                  rw [hMlat]
                · show M.frameVal fr2 = s.frameVal fr2
                  rw [hMfv]
                · rcases localBindingOK_spec d1 with einv | ⟨k, hk, htk, _⟩
                  · rw [einv]
                    rfl
                  · rw [hk]
                    exact hrdM _ (saved_ne_temp hsaved htk).symm
                · rcases localBindingOK_spec d2 with einv | ⟨k, hk, htk, _⟩
                  · rw [einv]
                    rfl
                  · rw [hk]
                    exact hrdM _ (saved_ne_temp hsaved htk).symm
                · apply hrdM
                  intro heq
                  have hdisj := hWF.2.2.1 fr0 hfrlt fr2 hlt2 (fun e3 => e2 e3.symm)
                    hGV
                  exact hdisj (by rw [hGform, heq])
            refine ⟨⟨hWFM, hInvM⟩, hMn, hMcont, hMlat, ?_, by rw [hMgp],
              by rw [hMvp], ?_, ?_⟩
            · intro fr2
              by_cases e2 : fr2 = fr0
              · subst e2
                exact ⟨by rw [hMrec], by rw [hMrec], by rw [hMrec], by rw [hMrec],
                  by rw [hMrec]⟩
              · exact ⟨by rw [hMoth fr2 e2], by rw [hMoth fr2 e2],
                  by rw [hMoth fr2 e2], by rw [hMoth fr2 e2], by rw [hMoth fr2 e2]⟩
            · intro fr2 hsr
              by_cases e2 : fr2 = fr0
              · subst e2
                exact ⟨Or.inl ⟨by rw [hMrec]; exact hGV, by rw [hMrec]⟩,
                  fun _ => by rw [hMrec]⟩
              · exact frSyncReady_of_rec (by rw [hMoth fr2 e2])
                  (by rw [hMoth fr2 e2]) (by rw [hMoth fr2 e2]) hsr
            · intro fr2 hsome hne2 _
              cases Option.some.inj hsome
              exact ⟨Or.inl ⟨by rw [hMrec]; exact hGV, by rw [hMrec]⟩,
                fun _ => by rw [hMrec]⟩
        · rw [if_neg hGV]
          cases hfu : (s.frameRegs fr0).frameUpToDate with
          | true =>
            rw [if_neg (by decide : ¬((!true) = true))]
            refine ⟨⟨hWF, hInvAll⟩, rfl, rfl, rfl,
              fun _ => ⟨rfl, rfl, rfl, rfl, rfl⟩, rfl, rfl, fun _ h => h, ?_⟩
            intro fr2 hsome hne2 _
            cases Option.some.inj hsome
            exact ⟨Or.inr hfu, fun hv => absurd hv hGV⟩
          | false =>
            rw [if_pos (by decide : (!false) = true)]
            have hg3 : (s.frameRegs fr0).globalReg.isValid = true →
                (s.frameRegs fr0).globalRegUpToDate = true →
                s.rd (s.frameRegs fr0).globalReg = s.latest fr0 :=
              fun hv _ => absurd hv hGV
            have hg6 : (s.frameRegs fr0).globalReg.isValid = true →
                (s.frameRegs fr0).globalRegUpToDate = false →
                (s.frameRegs fr0).localGpX.isValid = true ∨
                  (s.frameRegs fr0).localVecD.isValid = true :=
              fun hv _ => absurd hv hGV
            obtain ⟨gGood, gLat, gN, gCont, gOth, gFv, gFu, gFvfr, gGx, gVd, gG,
                gGfl, gVfl⟩ :=
              sync_leaf (s := s) (M := s)
                hWF hInvAll hfrlt (fun _ _ => rfl) rfl rfl rfl rfl rfl rfl rfl rfl rfl
                (fun _ _ _ => rfl) (fun _ _ _ => rfl) hval1 hg3 hg6
            have hrec : (_storeHWRegToFrame s fr0 (HWReg.reg RegClass.vec i)).frameRegs
                fr0 = { s.frameRegs fr0 with frameUpToDate := true } := by
              rw [(storeHWRegToFrame_sem s fr0 _).1, upd1_same]
            refine ⟨gGood, gN, ?_, gLat, ?_, gGfl, gVfl, ?_, ?_⟩
            · funext c2 i2
              exact gCont c2 i2
            · intro fr2
              by_cases e2 : fr2 = fr0
              · subst e2
                exact ⟨by rw [hrec], by rw [hrec], by rw [hrec], by rw [hrec],
                  by rw [hrec]⟩
              · exact ⟨by rw [gOth fr2 e2], by rw [gOth fr2 e2], by rw [gOth fr2 e2],
                  by rw [gOth fr2 e2], by rw [gOth fr2 e2]⟩
            · intro fr2 hsr
              by_cases e2 : fr2 = fr0
              · subst e2
                refine ⟨Or.inr gFu, fun hv => ?_⟩
                rw [gG] at hv
                exact absurd hv hGV
              · exact frSyncReady_of_rec (by rw [gOth fr2 e2]) (by rw [gOth fr2 e2])
                  (by rw [gOth fr2 e2]) hsr
            · intro fr2 hsome hne2 _
              cases Option.some.inj hsome
              refine ⟨Or.inr gFu, fun hv => ?_⟩
              rw [gG] at hv
              exact absurd hv hGV

/-- The GP loop of `syncAllTempExcept`, over any list of temporary indices. -/
theorem syncGpFold_good (e : Option Nat) :
    ∀ (l : List Nat) (s : EmitState),
    (∀ i ∈ l, isTempIdx RegClass.gp i = true) → Good s →
    Good (l.foldl (fun s2 i => syncTempGpStep e s2 i) s) ∧
    (l.foldl (fun s2 i => syncTempGpStep e s2 i) s).nRegs = s.nRegs ∧
    (l.foldl (fun s2 i => syncTempGpStep e s2 i) s).hwContains = s.hwContains ∧
    (l.foldl (fun s2 i => syncTempGpStep e s2 i) s).latest = s.latest ∧
    (∀ fr2, bindShapeEq (l.foldl (fun s2 i => syncTempGpStep e s2 i) s) s fr2) ∧
    (l.foldl (fun s2 i => syncTempGpStep e s2 i) s).gpTemp.freeList =
      s.gpTemp.freeList ∧
    (l.foldl (fun s2 i => syncTempGpStep e s2 i) s).vecTemp.freeList =
      s.vecTemp.freeList ∧
    (∀ fr2, frSyncReady s fr2 →
      frSyncReady (l.foldl (fun s2 i => syncTempGpStep e s2 i) s) fr2) ∧
    (∀ i ∈ l, ∀ fr2, s.hwContains RegClass.gp i = some fr2 → e ≠ some fr2 →
      frSyncReady (l.foldl (fun s2 i => syncTempGpStep e s2 i) s) fr2) := by
  intro l
  induction l with
  | nil =>
    intro s _ hGood
    exact ⟨hGood, rfl, rfl, rfl, fun _ => ⟨rfl, rfl, rfl, rfl, rfl⟩, rfl, rfl,
      fun _ h => h, fun i hi => absurd hi (List.not_mem_nil i)⟩
  | cons a t ih =>
    intro s hl hGood
    have hta : isTempIdx RegClass.gp a = true := hl a (List.mem_cons_self a t)
    obtain ⟨g1, g2, g3, g4, g5, g6, g7, g8, g9⟩ := syncTempGpStep_good e s a hGood hta
    obtain ⟨f1, f2, f3, f4, f5, f6, f7, f8, f9⟩ :=
      ih (syncTempGpStep e s a) (fun i hi => hl i (List.mem_cons_of_mem a hi)) g1
    rw [List.foldl_cons]
    refine ⟨f1, f2.trans g2, f3.trans g3, f4.trans g4, ?_, f6.trans g6, f7.trans g7,
      ?_, ?_⟩
    · intro fr2
      obtain ⟨a1, a2, a3, a4, a5⟩ := f5 fr2
      obtain ⟨c1, c2, c3, c4, c5⟩ := g5 fr2
      exact ⟨a1.trans c1, a2.trans c2, a3.trans c3, a4.trans c4, a5.trans c5⟩
    · intro fr2 hsr
      exact f8 fr2 (g8 fr2 hsr)
    · intro i hi fr2 hsome hne2
      rcases List.mem_cons.mp hi with rfl | hit
      · exact f8 fr2 (g9 fr2 hsome hne2)
      · refine f9 i hit fr2 ?_ hne2
        rw [g3]
        exact hsome

/-- The Vec loop of `syncAllTempExcept`, over any list of temporary indices. -/
theorem syncVecFold_good (e : Option Nat) :
    ∀ (l : List Nat) (s : EmitState),
    (∀ i ∈ l, isTempIdx RegClass.vec i = true) → Good s →
    Good (l.foldl (fun s2 i => syncTempVecStep e s2 i) s) ∧
    (l.foldl (fun s2 i => syncTempVecStep e s2 i) s).nRegs = s.nRegs ∧
    (l.foldl (fun s2 i => syncTempVecStep e s2 i) s).hwContains = s.hwContains ∧
    (l.foldl (fun s2 i => syncTempVecStep e s2 i) s).latest = s.latest ∧
    (∀ fr2, bindShapeEq (l.foldl (fun s2 i => syncTempVecStep e s2 i) s) s fr2) ∧
    (l.foldl (fun s2 i => syncTempVecStep e s2 i) s).gpTemp.freeList =
      s.gpTemp.freeList ∧
    (l.foldl (fun s2 i => syncTempVecStep e s2 i) s).vecTemp.freeList =
      s.vecTemp.freeList ∧
    (∀ fr2, frSyncReady s fr2 →
      frSyncReady (l.foldl (fun s2 i => syncTempVecStep e s2 i) s) fr2) ∧
    (∀ i ∈ l, ∀ fr2, s.hwContains RegClass.vec i = some fr2 → e ≠ some fr2 →
      (s.frameRegs fr2).localGpX.isValid = false →
      frSyncReady (l.foldl (fun s2 i => syncTempVecStep e s2 i) s) fr2) := by
  intro l
  induction l with
  | nil =>
    intro s _ hGood
    exact ⟨hGood, rfl, rfl, rfl, fun _ => ⟨rfl, rfl, rfl, rfl, rfl⟩, rfl, rfl,
      fun _ h => h, fun i hi => absurd hi (List.not_mem_nil i)⟩
  | cons a t ih =>
    intro s hl hGood
    have hta : isTempIdx RegClass.vec a = true := hl a (List.mem_cons_self a t)
    obtain ⟨g1, g2, g3, g4, g5, g6, g7, g8, g9⟩ :=
      syncTempVecStep_good e s a hGood hta
    obtain ⟨f1, f2, f3, f4, f5, f6, f7, f8, f9⟩ :=
      ih (syncTempVecStep e s a) (fun i hi => hl i (List.mem_cons_of_mem a hi)) g1
    rw [List.foldl_cons]
    refine ⟨f1, f2.trans g2, f3.trans g3, f4.trans g4, ?_, f6.trans g6, f7.trans g7,
      ?_, ?_⟩
    · intro fr2
      obtain ⟨a1, a2, a3, a4, a5⟩ := f5 fr2
      obtain ⟨c1, c2, c3, c4, c5⟩ := g5 fr2
      exact ⟨a1.trans c1, a2.trans c2, a3.trans c3, a4.trans c4, a5.trans c5⟩
    · intro fr2 hsr
      exact f8 fr2 (g8 fr2 hsr)
    · intro i hi fr2 hsome hne2 hnogp
      rcases List.mem_cons.mp hi with rfl | hit
      · exact f8 fr2 (g9 fr2 hsome hne2 hnogp)
      · refine f9 i hit fr2 ?_ hne2 ?_
        · rw [g3]
          exact hsome
        · rw [(g5 fr2).1]
          exact hnogp

/-- `Emitter::syncAllTempExcept` preserves the invariant, changes no binding
shape, ownership record, ghost value or pool free list, and leaves every FR
other than the excepted one sync-ready: its value is in its frame slot or its
(up-to-date) pinned register even if its temporaries are dropped. -/
theorem syncAllTempExcept_good (s : EmitState) (e : Option Nat) (hGood : Good s) :
    Good (syncAllTempExcept s e) ∧
    (syncAllTempExcept s e).nRegs = s.nRegs ∧
    (syncAllTempExcept s e).hwContains = s.hwContains ∧
    (syncAllTempExcept s e).latest = s.latest ∧
    (∀ fr2, bindShapeEq (syncAllTempExcept s e) s fr2) ∧
    (syncAllTempExcept s e).gpTemp.freeList = s.gpTemp.freeList ∧
    (syncAllTempExcept s e).vecTemp.freeList = s.vecTemp.freeList ∧
    (∀ fr2, fr2 < s.nRegs → e ≠ some fr2 →
      frSyncReady (syncAllTempExcept s e) fr2) := by
  have hglist : ∀ i ∈ tempRangeList kGPTemp, isTempIdx RegClass.gp i = true := by
    decide
  have hvlist : ∀ i ∈ tempRangeList kVecTemp, isTempIdx RegClass.vec i = true := by
    decide
  obtain ⟨g1, g2, g3, g4, g5, g6, g7, g8, g9⟩ :=
    syncGpFold_good e (tempRangeList kGPTemp) s hglist hGood
  obtain ⟨f1, f2, f3, f4, f5, f6, f7, f8, f9⟩ :=
    syncVecFold_good e (tempRangeList kVecTemp)
      ((tempRangeList kGPTemp).foldl (fun s2 i => syncTempGpStep e s2 i) s) hvlist g1
  refine ⟨f1, f2.trans g2, f3.trans g3, f4.trans g4, ?_, f6.trans g6, f7.trans g7,
    ?_⟩
  · intro fr2
    obtain ⟨a1, a2, a3, a4, a5⟩ := f5 fr2
    obtain ⟨c1, c2, c3, c4, c5⟩ := g5 fr2
    exact ⟨a1.trans c1, a2.trans c2, a3.trans c3, a4.trans c4, a5.trans c5⟩
  · intro fr2 hlt hne2
    by_cases htb : tempBound s fr2 = true
    · by_cases hgx : (s.frameRegs fr2).localGpX.isValid = true
      · -- the FR holds a local GpX; the GP pass made it sync-ready
        obtain ⟨d1, _, _⟩ := WFfr_spec (hGood.1.1 fr2 hlt)
        rcases localBindingOK_spec d1 with einv | ⟨j, hj, htj, hcj⟩
        · rw [einv] at hgx
          exact Bool.noConfusion hgx
        · exact f8 fr2 (g9 j (mem_tempRange_gp htj) fr2 hcj hne2)
      · -- no local GpX, so the temp binding is a VecD; the Vec pass covers it
        have hgxF : (s.frameRegs fr2).localGpX.isValid = false := by
          rw [hwreg_inv_of_not_valid hgx]
          rfl
        have hvd : (s.frameRegs fr2).localVecD.isValid = true := by
          have htb2 : ((s.frameRegs fr2).localGpX.isValid ||
              (s.frameRegs fr2).localVecD.isValid) = true := htb
          rcases Bool.or_eq_true_iff.mp htb2 with h | h
          · rw [hgxF] at h
            exact Bool.noConfusion h
          · exact h
        obtain ⟨_, d2, _⟩ := WFfr_spec (hGood.1.1 fr2 hlt)
        rcases localBindingOK_spec d2 with einv | ⟨k, hk, htk, hck⟩
        · rw [einv] at hvd
          exact Bool.noConfusion hvd
        · refine f9 k (mem_tempRange_vec htk) fr2 ?_ hne2 ?_
          · rw [g3]
            exact hck
          · rw [(g5 fr2).1]
            exact hgxF
    · -- not temp-bound: sync-ready already (and the record is unchanged)
      have hready0 : frSyncReady s fr2 :=
        frSyncReady_of_not_tempBound (hGood.2 fr2 hlt) htb
      exact f8 fr2 (g8 fr2 hready0)

/-- One iteration of `freeAllTempExcept`: the invariant is preserved (the
owner of `xI`, unless excepted, was sync-ready, so dropping its temporaries is
safe), flags, types, ghost values and machine contents are untouched,
ownership records are only cleared, and sync-readiness persists. -/
theorem freeAllStep_good (c : RegClass) (e : Option Nat) (s : EmitState) (i : Nat)
    (hGood : Good s) (h16 : i < 16)
    (hready : ∀ fr2, fr2 < s.nRegs → e ≠ some fr2 → frSyncReady s fr2) :
    Good (freeAllStep c e s i) ∧
    (freeAllStep c e s i).nRegs = s.nRegs ∧
    (freeAllStep c e s i).latest = s.latest ∧
    (freeAllStep c e s i).regVal = s.regVal ∧
    (freeAllStep c e s i).frameVal = s.frameVal ∧
    (freeAllStep c e s i).emitted = s.emitted ∧
    (∀ fr2, frFlagsEq (freeAllStep c e s i) s fr2) ∧
    (∀ c2 i2, i2 < 16 → s.hwContains c2 i2 = none →
      (freeAllStep c e s i).hwContains c2 i2 = none) ∧
    (e = none → (freeAllStep c e s i).hwContains c i = none) ∧
    (∀ fr2, fr2 < (freeAllStep c e s i).nRegs → e ≠ some fr2 →
      frSyncReady (freeAllStep c e s i) fr2) := by
  obtain ⟨hWF, hInvAll⟩ := hGood
  unfold freeAllStep
  cases hcc : s.hwContains c i with
  | none =>
    dsimp only
    exact ⟨⟨hWF, hInvAll⟩, rfl, rfl, rfl, rfl, rfl,
      fun _ => ⟨rfl, rfl, rfl, rfl, rfl⟩, fun _ _ _ h => h, fun _ => hcc, hready⟩
  | some fr0 =>
    dsimp only
    by_cases he : e = some fr0
    · rw [if_pos he]
      refine ⟨⟨hWF, hInvAll⟩, rfl, rfl, rfl, rfl, rfl,
        fun _ => ⟨rfl, rfl, rfl, rfl, rfl⟩, fun _ _ _ h => h, ?_, hready⟩
      intro hen
      rw [hen] at he
      exact Option.noConfusion he
    · rw [if_neg he]
      have hWFci : WFcontains s c i = true := by
        rcases c with _ | _
        · exact (hWF.2.1 i h16).1
        · exact (hWF.2.1 i h16).2
      have hfrlt : fr0 < s.nRegs := (WFcontains_spec hWFci hcc).1
      have hr0 : frSyncReady s fr0 := hready fr0 hfrlt he
      obtain ⟨k1, k2, k3, k4, k5, k6, k7, k8, k9, k10, k11, k12, k13, k14, k15⟩ :=
        freeFRTemp_good s fr0 hWF hInvAll hfrlt hr0
      refine ⟨k1, k14, k11, k12, k13, k15, ?_, ?_, ?_, ?_⟩
      · intro fr2
        by_cases e2 : fr2 = fr0
        · subst e2
          exact ⟨k5, k6, k7, k8, k9⟩
        · exact ⟨by rw [k2 fr2 e2], by rw [k2 fr2 e2], by rw [k2 fr2 e2],
            by rw [k2 fr2 e2], by rw [k2 fr2 e2]⟩
      · intro c2 i2 h16b hnone
        rw [k10 c2 i2 h16b,
          if_neg (fun habs => by rw [hnone] at habs; exact Option.noConfusion habs)]
        exact hnone
      · intro _
        rw [k10 c i h16, if_pos hcc]
      · intro fr2 hlt hne2
        have hlt2 : fr2 < s.nRegs := by
          rw [k14] at hlt
          exact hlt
        by_cases e2 : fr2 = fr0
        · subst e2
          exact frSyncReady_of_rec k5 k6 k7 hr0
        · exact frSyncReady_of_rec (by rw [k2 fr2 e2]) (by rw [k2 fr2 e2])
            (by rw [k2 fr2 e2]) (hready fr2 hlt2 hne2)

/-- One loop of `freeAllTempExcept`, over any list of register indices. -/
theorem freeFold_good (c : RegClass) (e : Option Nat) :
    ∀ (l : List Nat) (s : EmitState), (∀ i ∈ l, i < 16) → Good s →
    (∀ fr2, fr2 < s.nRegs → e ≠ some fr2 → frSyncReady s fr2) →
    Good (l.foldl (fun s2 i => freeAllStep c e s2 i) s) ∧
    (l.foldl (fun s2 i => freeAllStep c e s2 i) s).nRegs = s.nRegs ∧
    (l.foldl (fun s2 i => freeAllStep c e s2 i) s).latest = s.latest ∧
    (l.foldl (fun s2 i => freeAllStep c e s2 i) s).regVal = s.regVal ∧
    (l.foldl (fun s2 i => freeAllStep c e s2 i) s).frameVal = s.frameVal ∧
    (l.foldl (fun s2 i => freeAllStep c e s2 i) s).emitted = s.emitted ∧
    (∀ fr2, frFlagsEq (l.foldl (fun s2 i => freeAllStep c e s2 i) s) s fr2) ∧
    (∀ c2 i2, i2 < 16 → s.hwContains c2 i2 = none →
      (l.foldl (fun s2 i => freeAllStep c e s2 i) s).hwContains c2 i2 = none) ∧
    (∀ i ∈ l, e = none →
      (l.foldl (fun s2 i => freeAllStep c e s2 i) s).hwContains c i = none) ∧
    (∀ fr2, fr2 < (l.foldl (fun s2 i => freeAllStep c e s2 i) s).nRegs →
      e ≠ some fr2 →
      frSyncReady (l.foldl (fun s2 i => freeAllStep c e s2 i) s) fr2) := by
  intro l
  induction l with
  | nil =>
    intro s _ hGood hready
    exact ⟨hGood, rfl, rfl, rfl, rfl, rfl, fun _ => ⟨rfl, rfl, rfl, rfl, rfl⟩,
      fun _ _ _ h => h, fun i hi => absurd hi (List.not_mem_nil i), hready⟩
  | cons a t ih =>
    intro s hl hGood hready
    have h16a : a < 16 := hl a (List.mem_cons_self a t)
    obtain ⟨g1, g2, g3, g4, g5, g6, g7, g8, g9, g10⟩ :=
      freeAllStep_good c e s a hGood h16a hready
    obtain ⟨f1, f2, f3, f4, f5, f6, f7, f8, f9, f10⟩ :=
      ih (freeAllStep c e s a) (fun i hi => hl i (List.mem_cons_of_mem a hi)) g1 g10
    rw [List.foldl_cons]
    refine ⟨f1, f2.trans g2, f3.trans g3, f4.trans g4, f5.trans g5, f6.trans g6,
      ?_, ?_, ?_, f10⟩
    · intro fr2
      obtain ⟨a1, a2, a3, a4, a5⟩ := f7 fr2
      obtain ⟨c1, c2, c3, c4, c5⟩ := g7 fr2
      exact ⟨a1.trans c1, a2.trans c2, a3.trans c3, a4.trans c4, a5.trans c5⟩
    · intro c2 i2 h16b hnone
      exact f8 c2 i2 h16b (g8 c2 i2 h16b hnone)
    · intro i hi hen
      rcases List.mem_cons.mp hi with rfl | hit
      · exact f8 c i h16a (g9 hen)
      · exact f9 i hit hen

/-- `Emitter::freeAllTempExcept` preserves the invariant (given that every
non-excepted FR is sync-ready), touches no flag, type, ghost value or machine
content, and — when nothing is excepted — leaves every temporary register
unowned. -/
theorem freeAllTempExcept_good (s : EmitState) (e : Option Nat) (hGood : Good s)
    (hready : ∀ fr2, fr2 < s.nRegs → e ≠ some fr2 → frSyncReady s fr2) :
    Good (freeAllTempExcept s e) ∧
    (freeAllTempExcept s e).nRegs = s.nRegs ∧
    (freeAllTempExcept s e).latest = s.latest ∧
    (freeAllTempExcept s e).regVal = s.regVal ∧
    (freeAllTempExcept s e).frameVal = s.frameVal ∧
    (freeAllTempExcept s e).emitted = s.emitted ∧
    (∀ fr2, frFlagsEq (freeAllTempExcept s e) s fr2) ∧
    (e = none → ∀ c2 i2, isTempIdx c2 i2 = true →
      (freeAllTempExcept s e).hwContains c2 i2 = none) ∧
    (∀ fr2, fr2 < (freeAllTempExcept s e).nRegs → e ≠ some fr2 →
      frSyncReady (freeAllTempExcept s e) fr2) := by
  have hglist : ∀ i ∈ tempRangeList kGPTemp, i < 16 := by
    decide
  have hvlist : ∀ i ∈ tempRangeList kVecTemp, i < 16 := by
    decide
  obtain ⟨g1, g2, g3, g4, g5, g6, g7, g8, g9, g10⟩ :=
    freeFold_good .gp e (tempRangeList kGPTemp) s hglist hGood hready
  obtain ⟨f1, f2, f3, f4, f5, f6, f7, f8, f9, f10⟩ :=
    freeFold_good .vec e (tempRangeList kVecTemp)
      ((tempRangeList kGPTemp).foldl (fun s2 i => freeAllStep .gp e s2 i) s)
      hvlist g1 g10
  refine ⟨f1, f2.trans g2, f3.trans g3, f4.trans g4, f5.trans g5, f6.trans g6,
    ?_, ?_, f10⟩
  · intro fr2
    obtain ⟨a1, a2, a3, a4, a5⟩ := f7 fr2
    obtain ⟨c1, c2, c3, c4, c5⟩ := g7 fr2
    exact ⟨a1.trans c1, a2.trans c2, a3.trans c3, a4.trans c4, a5.trans c5⟩
  · intro hen c2 i2 ht2
    rcases c2 with _ | _
    · exact f8 RegClass.gp i2 (tempIdx_lt16 ht2) (g9 i2 (mem_tempRange_gp ht2) hen)
    · exact f9 i2 (mem_tempRange_vec ht2) hen

/-- Structural effect of one `freeAllTempExcept` iteration, needing only
well-formedness (used where the excepted FR's consistency is deliberately
given up because it is about to be overwritten). -/
theorem freeAllStep_facts (c : RegClass) (e : Option Nat) (s : EmitState) (i : Nat)
    (hWF : WF s) (h16 : i < 16) :
    WF (freeAllStep c e s i) ∧
    (freeAllStep c e s i).nRegs = s.nRegs ∧
    (freeAllStep c e s i).latest = s.latest ∧
    (freeAllStep c e s i).regVal = s.regVal ∧
    (freeAllStep c e s i).frameVal = s.frameVal ∧
    (freeAllStep c e s i).emitted = s.emitted ∧
    (∀ fr2, frFlagsEq (freeAllStep c e s i) s fr2) ∧
    (∀ c2 i2, i2 < 16 → s.hwContains c2 i2 = none →
      (freeAllStep c e s i).hwContains c2 i2 = none) ∧
    (e = none → (freeAllStep c e s i).hwContains c i = none) := by
  unfold freeAllStep
  cases hcc : s.hwContains c i with
  | none =>
    dsimp only
    exact ⟨hWF, rfl, rfl, rfl, rfl, rfl, fun _ => ⟨rfl, rfl, rfl, rfl, rfl⟩,
      fun _ _ _ h => h, fun _ => hcc⟩
  | some fr0 =>
    dsimp only
    by_cases he : e = some fr0
    · rw [if_pos he]
      refine ⟨hWF, rfl, rfl, rfl, rfl, rfl, fun _ => ⟨rfl, rfl, rfl, rfl, rfl⟩,
        fun _ _ _ h => h, ?_⟩
      intro hen
      rw [hen] at he
      exact Option.noConfusion he
    · rw [if_neg he]
      have hWFci : WFcontains s c i = true := by
        rcases c with _ | _
        · exact (hWF.2.1 i h16).1
        · exact (hWF.2.1 i h16).2
      have hfrlt : fr0 < s.nRegs := (WFcontains_spec hWFci hcc).1
      obtain ⟨hWFF, k2, k3, k4, k5, k6, k7, k8, k9, k10, k11, k12, k13, k14, k15⟩ :=
        freeFRTemp_facts s fr0 hWF hfrlt
      refine ⟨hWFF, k14, k11, k12, k13, k15, ?_, ?_, ?_⟩
      · intro fr2
        by_cases e2 : fr2 = fr0
        · subst e2
          exact ⟨k5, k6, k7, k8, k9⟩
        · exact ⟨by rw [k2 fr2 e2], by rw [k2 fr2 e2], by rw [k2 fr2 e2],
            by rw [k2 fr2 e2], by rw [k2 fr2 e2]⟩
      · intro c2 i2 h16b hnone
        rw [k10 c2 i2 h16b,
          if_neg (fun habs => by rw [hnone] at habs; exact Option.noConfusion habs)]
        exact hnone
      · intro _
        rw [k10 c i h16, if_pos hcc]

/-- Structural effect of one loop of `freeAllTempExcept`. -/
theorem freeFold_facts (c : RegClass) (e : Option Nat) :
    ∀ (l : List Nat) (s : EmitState), (∀ i ∈ l, i < 16) → WF s →
    WF (l.foldl (fun s2 i => freeAllStep c e s2 i) s) ∧
    (l.foldl (fun s2 i => freeAllStep c e s2 i) s).nRegs = s.nRegs ∧
    (l.foldl (fun s2 i => freeAllStep c e s2 i) s).latest = s.latest ∧
    (l.foldl (fun s2 i => freeAllStep c e s2 i) s).regVal = s.regVal ∧
    (l.foldl (fun s2 i => freeAllStep c e s2 i) s).frameVal = s.frameVal ∧
    (l.foldl (fun s2 i => freeAllStep c e s2 i) s).emitted = s.emitted ∧
    (∀ fr2, frFlagsEq (l.foldl (fun s2 i => freeAllStep c e s2 i) s) s fr2) ∧
    (∀ c2 i2, i2 < 16 → s.hwContains c2 i2 = none →
      (l.foldl (fun s2 i => freeAllStep c e s2 i) s).hwContains c2 i2 = none) ∧
    (∀ i ∈ l, e = none →
      (l.foldl (fun s2 i => freeAllStep c e s2 i) s).hwContains c i = none) := by
  intro l
  induction l with
  | nil =>
    intro s _ hWF
    exact ⟨hWF, rfl, rfl, rfl, rfl, rfl, fun _ => ⟨rfl, rfl, rfl, rfl, rfl⟩,
      fun _ _ _ h => h, fun i hi => absurd hi (List.not_mem_nil i)⟩
  | cons a t ih =>
    intro s hl hWF
    have h16a : a < 16 := hl a (List.mem_cons_self a t)
    obtain ⟨g1, g2, g3, g4, g5, g6, g7, g8, g9⟩ :=
      freeAllStep_facts c e s a hWF h16a
    obtain ⟨f1, f2, f3, f4, f5, f6, f7, f8, f9⟩ :=
      ih (freeAllStep c e s a) (fun i hi => hl i (List.mem_cons_of_mem a hi)) g1
    rw [List.foldl_cons]
    refine ⟨f1, f2.trans g2, f3.trans g3, f4.trans g4, f5.trans g5, f6.trans g6,
      ?_, ?_, ?_⟩
    · intro fr2
      obtain ⟨a1, a2, a3, a4, a5⟩ := f7 fr2
      obtain ⟨c1, c2, c3, c4, c5⟩ := g7 fr2
      exact ⟨a1.trans c1, a2.trans c2, a3.trans c3, a4.trans c4, a5.trans c5⟩
    · intro c2 i2 h16b hnone
      exact f8 c2 i2 h16b (g8 c2 i2 h16b hnone)
    · intro i hi hen
      rcases List.mem_cons.mp hi with rfl | hit
      · exact f8 c i h16a (g9 hen)
      · exact f9 i hit hen

/-- Structural effect of `Emitter::freeAllTempExcept`: flags, types, ghost
values and machine contents are untouched; when nothing is excepted, every
temporary register ends up unowned. -/
theorem freeAllTempExcept_facts (s : EmitState) (e : Option Nat) (hWF : WF s) :
    WF (freeAllTempExcept s e) ∧
    (freeAllTempExcept s e).nRegs = s.nRegs ∧
    (freeAllTempExcept s e).latest = s.latest ∧
    (freeAllTempExcept s e).regVal = s.regVal ∧
    (freeAllTempExcept s e).frameVal = s.frameVal ∧
    (freeAllTempExcept s e).emitted = s.emitted ∧
    (∀ fr2, frFlagsEq (freeAllTempExcept s e) s fr2) ∧
    (e = none → ∀ c2 i2, isTempIdx c2 i2 = true →
      (freeAllTempExcept s e).hwContains c2 i2 = none) := by
  have hglist : ∀ i ∈ tempRangeList kGPTemp, i < 16 := by
    decide
  have hvlist : ∀ i ∈ tempRangeList kVecTemp, i < 16 := by
    decide
  obtain ⟨g1, g2, g3, g4, g5, g6, g7, g8, g9⟩ :=
    freeFold_facts .gp e (tempRangeList kGPTemp) s hglist hWF
  obtain ⟨f1, f2, f3, f4, f5, f6, f7, f8, f9⟩ :=
    freeFold_facts .vec e (tempRangeList kVecTemp)
      ((tempRangeList kGPTemp).foldl (fun s2 i => freeAllStep .gp e s2 i) s)
      hvlist g1
  refine ⟨f1, f2.trans g2, f3.trans g3, f4.trans g4, f5.trans g5, f6.trans g6,
    ?_, ?_⟩
  · intro fr2
    obtain ⟨a1, a2, a3, a4, a5⟩ := f7 fr2
    obtain ⟨c1, c2, c3, c4, c5⟩ := g7 fr2
    exact ⟨a1.trans c1, a2.trans c2, a3.trans c3, a4.trans c4, a5.trans c5⟩
  · intro hen c2 i2 ht2
    rcases c2 with _ | _
    · exact f8 RegClass.gp i2 (tempIdx_lt16 ht2) (g9 i2 (mem_tempRange_gp ht2) hen)
    · exact f9 i2 (mem_tempRange_vec ht2) hen

theorem isFRInRegister_frameRegs (s : EmitState) (fr : Nat) :
    (isFRInRegister s fr).2.frameRegs = s.frameRegs := by
  unfold isFRInRegister
  dsimp only
  split
  · exact (useReg_proj _ _).1
  · split
    · exact (useReg_proj _ _).1
    · split
      · rfl
      · rfl

/-- `syncToMem` never clears the global-register up-to-date flag. -/
theorem syncToMem_gu (s : EmitState) (fr : Nat) :
    ((syncToMem s fr).frameRegs fr).globalRegUpToDate =
      (s.frameRegs fr).globalRegUpToDate ∨
    ((syncToMem s fr).frameRegs fr).globalRegUpToDate = true := by
  unfold syncToMem
  dsimp only
  split
  · exact Or.inl rfl
  · rw [show ∀ (M : EmitState) (hw : HWReg),
      ((_storeHWRegToFrame M fr hw).frameRegs fr).globalRegUpToDate =
        (M.frameRegs fr).globalRegUpToDate from fun M hw => by
        rw [(storeHWRegToFrame_sem M fr hw).1, upd1_same]]
    split
    · refine Or.inr ?_
      rw [setFRState_frameRegs, upd1_same]
    · refine Or.inl ?_
      rw [isFRInRegister_frameRegs s fr]

/-- `syncToMem` keeps every sync-ready FR sync-ready. -/
theorem syncToMem_ready (s : EmitState) (fr : Nat)
    (hWF : WF s) (hInvAll : ∀ fr2, fr2 < s.nRegs → FRInv s fr2)
    (hfr : fr < s.nRegs) :
    ∀ fr2, frSyncReady s fr2 → frSyncReady (syncToMem s fr) fr2 := by
  obtain ⟨_, _, _, _, gOth, _, gFu, _, _, _, gG, _, _⟩ :=
    syncToMem_good s fr hWF hInvAll hfr
  intro fr2 hsr
  by_cases e2 : fr2 = fr
  · subst e2
    refine ⟨Or.inr gFu, ?_⟩
    intro hv
    rw [gG] at hv
    rcases syncToMem_gu s fr2 with h | h
    · rw [h]
      exact hsr.2 hv
    · exact h
  · exact frSyncReady_of_rec (by rw [gOth fr2 e2]) (by rw [gOth fr2 e2])
      (by rw [gOth fr2 e2]) hsr

/-- Writing an unowned temporary hardware register (and touching nothing
else) preserves the invariant: no FR's bound registers are affected. -/
theorem good_write_unowned {s F : EmitState} {c : RegClass} {i : Nat}
    (hGood : Good s) (hti : isTempIdx c i = true)
    (hfree : s.hwContains c i = none)
    (hfrs : F.frameRegs = s.frameRegs) (hlat : F.latest = s.latest)
    (hfv : F.frameVal = s.frameVal) (hcont : F.hwContains = s.hwContains)
    (hn : F.nRegs = s.nRegs)
    (hgfl : F.gpTemp.freeList = s.gpTemp.freeList)
    (hvfl : F.vecTemp.freeList = s.vecTemp.freeList)
    (hrd : ∀ h2, h2 ≠ HWReg.reg c i → F.rd h2 = s.rd h2) :
    Good F := by
  obtain ⟨hWF, hInvAll⟩ := hGood
  have hWFF : WF F :=
    WF_congr hn (fun fr2 => by rw [hfrs]; exact ⟨rfl, rfl, rfl⟩)
      (fun c2 i2 => by rw [hcont]) hgfl hvfl hWF
  refine ⟨hWFF, ?_⟩
  intro fr2 hlt
  have hlt2 : fr2 < s.nRegs := by
    rw [hn] at hlt
    exact hlt
  obtain ⟨d1, d2, d3⟩ := WFfr_spec (hWF.1 fr2 hlt2)
  refine FRInv_congr (by rw [hfrs]) (by rw [hlat]) (by rw [hfv]) ?_ ?_ ?_
    (hInvAll fr2 hlt2)
  · rcases localBindingOK_spec d1 with einv | ⟨j, hj, _, hcj⟩
    · rw [einv]
      rfl
    · rw [hj]
      refine hrd _ ?_
      intro heq
      cases heq
      rw [hfree] at hcj
      exact Option.noConfusion hcj
  · rcases localBindingOK_spec d2 with einv | ⟨j, hj, _, hcj⟩
    · rw [einv]
      rfl
    · rw [hj]
      refine hrd _ ?_
      intro heq
      cases heq
      rw [hfree] at hcj
      exact Option.noConfusion hcj
  · cases hg : (s.frameRegs fr2).globalReg with
    | invalid => rfl
    | reg cg ig => exact hrd _ (saved_ne_temp (d3 cg ig hg) hti)

/-- `Emitter::movHWFromFR` into an unowned temporary destination preserves the
invariant and touches no binding state. -/
theorem movHWFromFR_good (s : EmitState) (c : RegClass) (i : Nat) (src : Nat)
    (hGood : Good s) (hti : isTempIdx c i = true)
    (hfree : s.hwContains c i = none) :
    Good (movHWFromFR s (.reg c i) src) ∧
    (movHWFromFR s (.reg c i) src).nRegs = s.nRegs ∧
    (movHWFromFR s (.reg c i) src).latest = s.latest ∧
    (movHWFromFR s (.reg c i) src).frameVal = s.frameVal ∧
    (movHWFromFR s (.reg c i) src).frameRegs = s.frameRegs ∧
    (movHWFromFR s (.reg c i) src).hwContains = s.hwContains ∧
    (∀ fr2, frSyncReady s fr2 →
      frSyncReady (movHWFromFR s (.reg c i) src) fr2) := by
  unfold movHWFromFR
  dsimp only
  split
  · exact ⟨good_write_unowned hGood hti hfree (movHWReg_proj _ _ _ _).1
      (movHWReg_proj _ _ _ _).2.2.1 (movHWReg_proj _ _ _ _).2.1
      (movHWReg_proj _ _ _ _).2.2.2.1 (movHWReg_proj _ _ _ _).2.2.2.2.1
      (movHWReg_proj _ _ _ _).2.2.2.2.2.1 (movHWReg_proj _ _ _ _).2.2.2.2.2.2
      (fun h2 hne => rd_movHWReg_other _ _ _ _ _ hne),
      (movHWReg_proj _ _ _ _).2.2.2.2.1, (movHWReg_proj _ _ _ _).2.2.1,
      (movHWReg_proj _ _ _ _).2.1, (movHWReg_proj _ _ _ _).1,
      (movHWReg_proj _ _ _ _).2.2.2.1,
      fun fr2 hsr => frSyncReady_of_rec (by rw [(movHWReg_proj _ _ _ _).1])
        (by rw [(movHWReg_proj _ _ _ _).1]) (by rw [(movHWReg_proj _ _ _ _).1]) hsr⟩
  · split
    · exact ⟨good_write_unowned hGood hti hfree (movHWReg_proj _ _ _ _).1
        (movHWReg_proj _ _ _ _).2.2.1 (movHWReg_proj _ _ _ _).2.1
        (movHWReg_proj _ _ _ _).2.2.2.1 (movHWReg_proj _ _ _ _).2.2.2.2.1
        (movHWReg_proj _ _ _ _).2.2.2.2.2.1 (movHWReg_proj _ _ _ _).2.2.2.2.2.2
        (fun h2 hne => rd_movHWReg_other _ _ _ _ _ hne),
        (movHWReg_proj _ _ _ _).2.2.2.2.1, (movHWReg_proj _ _ _ _).2.2.1,
        (movHWReg_proj _ _ _ _).2.1, (movHWReg_proj _ _ _ _).1,
        (movHWReg_proj _ _ _ _).2.2.2.1,
        fun fr2 hsr => frSyncReady_of_rec (by rw [(movHWReg_proj _ _ _ _).1])
          (by rw [(movHWReg_proj _ _ _ _).1]) (by rw [(movHWReg_proj _ _ _ _).1])
          hsr⟩
    · split
      · exact ⟨good_write_unowned hGood hti hfree (movHWReg_proj _ _ _ _).1
          (movHWReg_proj _ _ _ _).2.2.1 (movHWReg_proj _ _ _ _).2.1
          (movHWReg_proj _ _ _ _).2.2.2.1 (movHWReg_proj _ _ _ _).2.2.2.2.1
          (movHWReg_proj _ _ _ _).2.2.2.2.2.1 (movHWReg_proj _ _ _ _).2.2.2.2.2.2
          (fun h2 hne => rd_movHWReg_other _ _ _ _ _ hne),
          (movHWReg_proj _ _ _ _).2.2.2.2.1, (movHWReg_proj _ _ _ _).2.2.1,
          (movHWReg_proj _ _ _ _).2.1, (movHWReg_proj _ _ _ _).1,
          (movHWReg_proj _ _ _ _).2.2.2.1,
          fun fr2 hsr => frSyncReady_of_rec (by rw [(movHWReg_proj _ _ _ _).1])
            (by rw [(movHWReg_proj _ _ _ _).1])
            (by rw [(movHWReg_proj _ _ _ _).1]) hsr⟩
      · have hfrs : (_loadFrame (useReg s (HWReg.reg c i)) (HWReg.reg c i)
            src).frameRegs = s.frameRegs := by
          rw [(loadFrame_sem _ _ _).1, (useReg_proj _ _).1]
        have hlat : (_loadFrame (useReg s (HWReg.reg c i)) (HWReg.reg c i)
            src).latest = s.latest := by
          rw [(loadFrame_sem _ _ _).2.2.1, (useReg_proj _ _).2.2.2.1]
        have hfv : (_loadFrame (useReg s (HWReg.reg c i)) (HWReg.reg c i)
            src).frameVal = s.frameVal := by
          rw [(loadFrame_sem _ _ _).2.1, (useReg_proj _ _).2.2.1]
        have hcont : (_loadFrame (useReg s (HWReg.reg c i)) (HWReg.reg c i)
            src).hwContains = s.hwContains := by
          rw [(loadFrame_sem _ _ _).2.2.2.1, (useReg_proj _ _).2.2.2.2.1]
        have hn : (_loadFrame (useReg s (HWReg.reg c i)) (HWReg.reg c i)
            src).nRegs = s.nRegs := by
          rw [(loadFrame_sem _ _ _).2.2.2.2.1, (useReg_proj _ _).2.2.2.2.2]
        have hgfl : (_loadFrame (useReg s (HWReg.reg c i)) (HWReg.reg c i)
            src).gpTemp.freeList = s.gpTemp.freeList := by
          rw [(loadFrame_sem _ _ _).2.2.2.2.2.1, (useReg_gpFree _ _).1]
        have hvfl : (_loadFrame (useReg s (HWReg.reg c i)) (HWReg.reg c i)
            src).vecTemp.freeList = s.vecTemp.freeList := by
          rw [(loadFrame_sem _ _ _).2.2.2.2.2.2, (useReg_gpFree _ _).2]
        have hrd : ∀ h2, h2 ≠ HWReg.reg c i →
            (_loadFrame (useReg s (HWReg.reg c i)) (HWReg.reg c i) src).rd h2 =
              s.rd h2 := by
          intro h2 hne
          rw [rd_loadFrame_other _ _ _ _ hne, rd_useReg]
        exact ⟨good_write_unowned hGood hti hfree hfrs hlat hfv hcont hn hgfl hvfl
          hrd, hn, hlat, hfv, hfrs, hcont,
          fun fr2 hsr => frSyncReady_of_rec (by rw [hfrs]) (by rw [hfrs])
            (by rw [hfrs]) hsr⟩

theorem spillTempReg_hwContains (s : EmitState) (c : RegClass) (i : Nat) :
    (spillTempReg s (.reg c i)).hwContains = upd2 s.hwContains c i none ∨
    ((spillTempReg s (.reg c i)).hwContains = s.hwContains ∧
      s.hwContains c i = none) := by
  unfold spillTempReg
  dsimp only
  cases hcase : s.hwContains c i with
  | none =>
    dsimp only
    exact Or.inr ⟨rfl, rfl⟩
  | some fr0 =>
    dsimp only
    refine Or.inl ?_
    rw [(setFRState_proj _ _ _).1]
    split
    · split
      · rw [(setFRState_proj _ _ _).1, (movHWReg_proj _ _ _ _).2.2.2.1]
      · rfl
    · split
      · rw [(storeHWRegToFrame_sem _ _ _).2.2.2.1]
      · rfl

/-- `Emitter::syncAndFreeTempReg` preserves the invariant (the spill writes
the value to its fallback location first) and leaves the register unowned. -/
theorem syncAndFreeTempReg_good (s : EmitState) (c : RegClass) (i : Nat)
    (hGood : Good s) (hti : isTempIdx c i = true) :
    Good (syncAndFreeTempReg s (.reg c i)) ∧
    (syncAndFreeTempReg s (.reg c i)).nRegs = s.nRegs ∧
    (syncAndFreeTempReg s (.reg c i)).latest = s.latest ∧
    (∀ c2 i2, s.hwContains c2 i2 = none →
      (syncAndFreeTempReg s (.reg c i)).hwContains c2 i2 = none) ∧
    (syncAndFreeTempReg s (.reg c i)).hwContains c i = none := by
  obtain ⟨hWF, hInvAll⟩ := hGood
  unfold syncAndFreeTempReg
  dsimp only
  by_cases hg : (isTempIdx c i && (s.hwContains c i).isSome) = true
  · rw [if_pos hg]
    obtain ⟨sGood, sLat, sN, _, _, _, _⟩ := spillTempReg_good s c i hWF hInvAll hti
    have hsome : (s.hwContains c i).isSome = true := ((Bool.and_eq_true _ _).mp hg).2
    have hcontSp : (spillTempReg s (.reg c i)).hwContains =
        upd2 s.hwContains c i none := by
      rcases spillTempReg_hwContains s c i with h | ⟨_, h2⟩
      · exact h
      · rw [h2] at hsome
        exact Bool.noConfusion hsome
    have hspci : (spillTempReg s (.reg c i)).hwContains c i = none := by
      rw [hcontSp]
      exact upd2_same _ _ _ _
    obtain ⟨fGood, fLat, fN⟩ := freeReg_good (spillTempReg s (.reg c i)) c i
      sGood.1 sGood.2 hti
      (fun fr hcc => by rw [hspci] at hcc; exact Option.noConfusion hcc)
    have hcontF : (freeReg (spillTempReg s (.reg c i)) (.reg c i)).hwContains =
        upd2 (spillTempReg s (.reg c i)).hwContains c i none :=
      (freeReg_sem _ c i).2.2.2.2.1
    refine ⟨fGood, fN.trans sN, fLat.trans sLat, ?_, ?_⟩
    · intro c2 i2 hnone
      rw [hcontF]
      show (if c2 = c ∧ i2 = i then none
        else (spillTempReg s (.reg c i)).hwContains c2 i2) = none
      by_cases hx : c2 = c ∧ i2 = i
      · rw [if_pos hx]
      · rw [if_neg hx, hcontSp]
        show (if c2 = c ∧ i2 = i then none else s.hwContains c2 i2) = none
        rw [if_neg hx]
        exact hnone
    · rw [hcontF]
      exact upd2_same _ _ _ _
  · rw [if_neg hg]
    have hnone : s.hwContains c i = none := by
      cases ho : s.hwContains c i with
      | none => rfl
      | some fr =>
        exfalso
        apply hg
        rw [hti, ho]
        rfl
    exact ⟨⟨hWF, hInvAll⟩, rfl, rfl, fun _ _ h => h, hnone⟩

/-- `valueInMemOrGlobal` transfers along states that agree on the flag fields,
frame value, ghost value and pinned-register content. -/
theorem vIMOG_congr {s s2 : EmitState} {fr : Nat}
    (hflags : frFlagsEq s2 s fr) (hl : s2.latest fr = s.latest fr)
    (hfv : s2.frameVal fr = s.frameVal fr)
    (hrd : s2.rd (s.frameRegs fr).globalReg = s.rd (s.frameRegs fr).globalReg)
    (h : valueInMemOrGlobal s fr) : valueInMemOrGlobal s2 fr := by
  obtain ⟨hg, hgu, hfu, _, _⟩ := hflags
  rcases h with ⟨h1, h2⟩ | ⟨h1, h2, h3⟩
  · refine Or.inl ⟨by rw [hfu]; exact h1, ?_⟩
    rw [hfv, hl]
    exact h2
  · refine Or.inr ⟨by rw [hg]; exact h1, by rw [hgu]; exact h2, ?_⟩
    rw [hg, hrd, hl]
    exact h3

theorem emitInstr_nRegs (s : EmitState) (x : Instr) :
    (emitInstr s x).nRegs = s.nRegs := rfl

/-- The binding structure is untouched by an ABI-argument write (emit one
instruction, set one register). -/
theorem WF_setReg_emit (s : EmitState) (x : Instr) (h2 : HWReg) (v : Nat)
    (hWF : WF s) : WF (setReg (emitInstr s x) h2 v) := by
  refine WF_congr ?_ ?_ ?_ ?_ ?_ hWF
  · rw [setReg_nRegs]
    rfl
  · intro fr2
    rw [setReg_frameRegs]
    exact ⟨rfl, rfl, rfl⟩
  · intro c2 i2
    rw [setReg_hwContains]
    rfl
  · rw [setReg_gpTemp]
    rfl
  · rw [setReg_vecTemp]
    rfl

theorem argWrite_nRegs (s : EmitState) (x : Instr) (h2 : HWReg) (v : Nat) :
    (setReg (emitInstr s x) h2 v).nRegs = s.nRegs := by
  rw [setReg_nRegs]
  rfl

/-- Writing an ABI-argument (temporary) register does not disturb any FR's
frame-or-pinned availability: pinned registers are callee-saved. -/
theorem vIMOG_argWrite {s : EmitState} {fr : Nat} (x : Instr) (c : RegClass)
    (i : Nat) (v : Nat) (hti : isTempIdx c i = true)
    (hWF : WF s) (hfr : fr < s.nRegs)
    (h : valueInMemOrGlobal s fr) :
    valueInMemOrGlobal (setReg (emitInstr s x) (.reg c i) v) fr := by
  obtain ⟨_, _, d3⟩ := WFfr_spec (hWF.1 fr hfr)
  refine vIMOG_congr ⟨?_, ?_, ?_, ?_, ?_⟩ ?_ ?_ ?_ h
  · rw [setReg_frameRegs]
    rfl
  · rw [setReg_frameRegs]
    rfl
  · rw [setReg_frameRegs]
    rfl
  · rw [setReg_frameRegs]
    rfl
  · rw [setReg_frameRegs]
    rfl
  · rw [setReg_latest]
    rfl
  · rw [setReg_frameVal]
    rfl
  · cases hg : (s.frameRegs fr).globalReg with
    | invalid => rfl
    | reg cg ig =>
      rw [rd_setReg_other _ _ _ _ (Or.inl (saved_ne_temp (d3 cg ig hg) hti)),
        rd_emitInstr]

/-- The sync pass of `getByIdImpl` leaves, at the emitted helper-call
instruction, every frame register's latest value (other than the result
register being overwritten) in frame memory or its up-to-date pinned
register. -/
theorem getByIdImplPre_sync (s : EmitState) (frRes symID frSource cacheIdx : Nat)
    (hGood : Good s) (hsrc : frSource < s.nRegs) :
    ∀ fr, fr < s.nRegs → (frRes ≠ frSource → fr ≠ frRes) →
      valueInMemOrGlobal (getByIdImplPre s frRes symID frSource cacheIdx) fr := by
  obtain ⟨g1, g2, g3, g4, g5, g6, g7, g8⟩ :=
    syncAllTempExcept_good s (if frRes ≠ frSource then some frRes else none) hGood
  have hfrS1 : frSource <
      (syncAllTempExcept s (if frRes ≠ frSource then some frRes else none)).nRegs := by
    rw [g2]
    exact hsrc
  obtain ⟨t1, t2, t3, t4, t5, t6, t7, t8, t9, t10, t11, t12, t13⟩ :=
    syncToMem_good _ frSource g1.1 g1.2 hfrS1
  obtain ⟨w1, w2, w3, w4, w5, w6, w7, w8⟩ := freeAllTempExcept_facts _ none t1.1
  intro fr hlt hexc
  have hready2 : frSyncReady (syncToMem (syncAllTempExcept s
      (if frRes ≠ frSource then some frRes else none)) frSource) fr := by
    refine syncToMem_ready _ frSource g1.1 g1.2 hfrS1 fr ?_
    refine g8 fr hlt ?_
    by_cases hrs : frRes ≠ frSource
    · rw [if_pos hrs]
      intro heq
      exact hexc hrs (Option.some.inj heq).symm
    · rw [if_neg hrs]
      exact fun h => Option.noConfusion h
  have hv3 : valueInMemOrGlobal (freeAllTempExcept (syncToMem (syncAllTempExcept s
      (if frRes ≠ frSource then some frRes else none)) frSource) none) fr := by
    refine vIMOG_congr (w7 fr) (by rw [w3]) (by rw [w5]) (rd_congr w4 _) ?_
    refine valueInMemOrGlobal_of (t1.2 fr ?_) hready2
    rw [t3, g2]
    exact hlt
  unfold getByIdImplPre
  dsimp only
  generalize hS3 : freeAllTempExcept (syncToMem (syncAllTempExcept s
    (if frRes ≠ frSource then some frRes else none)) frSource) none = S3
  rw [hS3] at hv3 w1 w2
  have hfr3 : fr < S3.nRegs := by
    rw [w2, t3, g2]
    exact hlt
  by_cases hc : cacheIdx = PROPERTY_CACHING_DISABLED
  · rw [if_pos hc]
    unfold emitMovImmArg emitFrameAddrArg emitMovRuntimeArg
    refine vIMOG_argWrite _ _ _ _ (by decide) ?_ ?_ ?_
    · exact WF_setReg_emit _ _ _ _ (WF_setReg_emit _ _ _ _ (WF_setReg_emit _ _ _ _ w1))
    · rw [argWrite_nRegs, argWrite_nRegs, argWrite_nRegs]
      exact hfr3
    · refine vIMOG_argWrite _ _ _ _ (by decide) ?_ ?_ ?_
      · exact WF_setReg_emit _ _ _ _ (WF_setReg_emit _ _ _ _ w1)
      · rw [argWrite_nRegs, argWrite_nRegs]
        exact hfr3
      · refine vIMOG_argWrite _ _ _ _ (by decide) ?_ ?_ ?_
        · exact WF_setReg_emit _ _ _ _ w1
        · rw [argWrite_nRegs]
          exact hfr3
        · exact vIMOG_argWrite _ _ _ _ (by decide) w1 hfr3 hv3
  · rw [if_neg hc]
    by_cases hc2 : cacheIdx ≠ 0
    · rw [if_pos hc2]
      unfold emitAddImmArg emitLdrRoArg emitMovImmArg emitFrameAddrArg
        emitMovRuntimeArg
      refine vIMOG_argWrite _ _ _ _ (by decide) ?_ ?_ ?_
      · exact WF_setReg_emit _ _ _ _ (WF_setReg_emit _ _ _ _ (WF_setReg_emit _ _ _ _
          (WF_setReg_emit _ _ _ _ w1)))
      · rw [argWrite_nRegs, argWrite_nRegs, argWrite_nRegs, argWrite_nRegs]
        exact hfr3
      · refine vIMOG_argWrite _ _ _ _ (by decide) ?_ ?_ ?_
        · exact WF_setReg_emit _ _ _ _ (WF_setReg_emit _ _ _ _
            (WF_setReg_emit _ _ _ _ w1))
        · rw [argWrite_nRegs, argWrite_nRegs, argWrite_nRegs]
          exact hfr3
        · refine vIMOG_argWrite _ _ _ _ (by decide) ?_ ?_ ?_
          · exact WF_setReg_emit _ _ _ _ (WF_setReg_emit _ _ _ _ w1)
          · rw [argWrite_nRegs, argWrite_nRegs]
            exact hfr3
          · refine vIMOG_argWrite _ _ _ _ (by decide) ?_ ?_ ?_
            · exact WF_setReg_emit _ _ _ _ w1
            · rw [argWrite_nRegs]
              exact hfr3
            · exact vIMOG_argWrite _ _ _ _ (by decide) w1 hfr3 hv3
    · rw [if_neg hc2]
      unfold emitLdrRoArg emitMovImmArg emitFrameAddrArg emitMovRuntimeArg
      refine vIMOG_argWrite _ _ _ _ (by decide) ?_ ?_ ?_
      · exact WF_setReg_emit _ _ _ _ (WF_setReg_emit _ _ _ _
          (WF_setReg_emit _ _ _ _ w1))
      · rw [argWrite_nRegs, argWrite_nRegs, argWrite_nRegs]
        exact hfr3
      · refine vIMOG_argWrite _ _ _ _ (by decide) ?_ ?_ ?_
        · exact WF_setReg_emit _ _ _ _ (WF_setReg_emit _ _ _ _ w1)
        · rw [argWrite_nRegs, argWrite_nRegs]
          exact hfr3
        · refine vIMOG_argWrite _ _ _ _ (by decide) ?_ ?_ ?_
          · exact WF_setReg_emit _ _ _ _ w1
          · rw [argWrite_nRegs]
            exact hfr3
          · exact vIMOG_argWrite _ _ _ _ (by decide) w1 hfr3 hv3

/-- The sync pass of `storeToEnvironment` leaves, at the emitted helper-call
instruction, every frame register's latest value in frame memory or its
up-to-date pinned register. -/
theorem storeToEnvironmentPre_sync (s : EmitState) (frEnv slot frValue : Nat)
    (hGood : Good s) :
    ∀ fr, fr < s.nRegs →
      valueInMemOrGlobal (storeToEnvironmentPre s frEnv slot frValue) fr := by
  obtain ⟨q1g, q1n, q1l, q1m, q1s⟩ :=
    syncAndFreeTempReg_good s RegClass.gp 0 hGood (by decide)
  obtain ⟨q2g, q2n, q2l, q2m, q2s⟩ :=
    syncAndFreeTempReg_good _ RegClass.gp 1 q1g (by decide)
  obtain ⟨q3g, q3n, q3l, q3m, q3s⟩ :=
    syncAndFreeTempReg_good _ RegClass.gp 2 q2g (by decide)
  obtain ⟨q4g, q4n, q4l, q4m, q4s⟩ :=
    syncAndFreeTempReg_good _ RegClass.gp 3 q3g (by decide)
  obtain ⟨gg, gn, gc, gl, gs, gf1, gf2, gr⟩ := syncAllTempExcept_good _ none q4g
  intro fr hlt
  unfold storeToEnvironmentPre
  dsimp only
  generalize hS5 : syncAllTempExcept (syncAndFreeTempReg (syncAndFreeTempReg
    (syncAndFreeTempReg (syncAndFreeTempReg s (HWReg.reg RegClass.gp 0))
      (HWReg.reg RegClass.gp 1)) (HWReg.reg RegClass.gp 2))
    (HWReg.reg RegClass.gp 3)) none = S5
  rw [hS5] at gg gn gc gr
  have hfree0 : S5.hwContains RegClass.gp 0 = none := by
    rw [gc]
    exact q4m _ _ (q3m _ _ (q2m _ _ q1s))
  have hfree1 : S5.hwContains RegClass.gp 1 = none := by
    rw [gc]
    exact q4m _ _ (q3m _ _ q2s)
  have hfree2 : S5.hwContains RegClass.gp 2 = none := by
    rw [gc]
    exact q4m _ _ q3s
  unfold emitMovImmArg emitMovRuntimeArg
  have hG0 : Good (setReg (emitInstr S5 (Instr.movRuntimeArg 0))
      (HWReg.reg RegClass.gp 0) (S5.regVal RegClass.gp 19)) := by
    refine good_write_unowned gg (by decide) hfree0 ?_ ?_ ?_ ?_ ?_ ?_ ?_ ?_
    · rw [setReg_frameRegs]
      rfl
    · rw [setReg_latest]
      rfl
    · rw [setReg_frameVal]
      rfl
    · rw [setReg_hwContains]
      rfl
    · rw [setReg_nRegs]
      rfl
    · rw [setReg_gpTemp]
      rfl
    · rw [setReg_vecTemp]
      rfl
    · intro h2 hne
      rw [rd_setReg_other _ _ _ _ (Or.inl hne), rd_emitInstr]
  obtain ⟨m1g, m1n, m1l, m1v, m1f, m1c, m1r⟩ :=
    movHWFromFR_good _ RegClass.gp 1 frEnv hG0 (by decide)
      (by rw [setReg_hwContains]; exact hfree1)
  obtain ⟨m2g, m2n, m2l, m2v, m2f, m2c, m2r⟩ :=
    movHWFromFR_good _ RegClass.gp 2 frValue m1g (by decide)
      (by rw [m1c, setReg_hwContains]; exact hfree2)
  have hr5 : frSyncReady S5 fr :=
    gr fr (by rw [q4n, q3n, q2n, q1n]; exact hlt)
      (fun h => Option.noConfusion h)
  have hr0 : frSyncReady (setReg (emitInstr S5 (Instr.movRuntimeArg 0))
      (HWReg.reg RegClass.gp 0) (S5.regVal RegClass.gp 19)) fr :=
    frSyncReady_of_rec (by rw [setReg_frameRegs]; rfl) (by rw [setReg_frameRegs]; rfl)
      (by rw [setReg_frameRegs]; rfl) hr5
  have hr8 := m2r fr (m1r fr hr0)
  have hinv8 := m2g.2 fr (by
    rw [m2n, m1n, setReg_nRegs, emitInstr_nRegs, gn, q4n, q3n, q2n, q1n]
    exact hlt)
  refine vIMOG_argWrite _ _ _ _ (by decide) m2g.1 ?_ ?_
  · rw [m2n, m1n, setReg_nRegs, emitInstr_nRegs, gn, q4n, q3n, q2n, q1n]
    exact hlt
  · exact valueInMemOrGlobal_of hinv8 hr8

theorem setPool_proj (s : EmitState) (c : RegClass) (ra : TempRegAlloc) :
    (setPool s c ra).frameRegs = s.frameRegs ∧
    (setPool s c ra).hwContains = s.hwContains ∧
    (setPool s c ra).latest = s.latest ∧
    (setPool s c ra).frameVal = s.frameVal ∧
    (setPool s c ra).regVal = s.regVal ∧
    (setPool s c ra).nRegs = s.nRegs ∧
    (setPool s c ra).emitted = s.emitted := by
  cases c <;> exact ⟨rfl, rfl, rfl, rfl, rfl, rfl, rfl⟩

theorem getPool_setPool (s : EmitState) (c : RegClass) (ra : TempRegAlloc) :
    getPool (setPool s c ra) c = ra := by
  cases c <;> rfl

/-- `spillTempReg` never touches the register pools (the caller frees the
slot). -/
theorem spillTempReg_pools (s : EmitState) (h : HWReg) :
    (spillTempReg s h).gpTemp = s.gpTemp ∧ (spillTempReg s h).vecTemp = s.vecTemp := by
  cases h with
  | invalid => exact ⟨rfl, rfl⟩
  | reg c i =>
    unfold spillTempReg
    dsimp only
    cases hcc : s.hwContains c i with
    | none => exact ⟨rfl, rfl⟩
    | some fr =>
      dsimp only
      constructor
      · rw [(setFRState_proj _ _ _).2.2.2.2.1]
        split
        · split
          · rw [(setFRState_proj _ _ _).2.2.2.2.1, (movHWReg_noUse_pools _ _ _).1]
          · rfl
        · split
          · rw [(storeHWRegToFrame_sem _ _ _).2.2.2.2.2.2.1]
          · rfl
      · rw [(setFRState_proj _ _ _).2.2.2.2.2.1]
        split
        · split
          · rw [(setFRState_proj _ _ _).2.2.2.2.2.1, (movHWReg_noUse_pools _ _ _).2]
          · rfl
        · split
          · rw [(storeHWRegToFrame_sem _ _ _).2.2.2.2.2.2.2]
          · rfl

theorem getPool_spill (s : EmitState) (c2 : RegClass) (h : HWReg) :
    getPool (spillTempReg s h) c2 = getPool s c2 := by
  cases c2 with
  | gp => exact (spillTempReg_pools s h).1
  | vec => exact (spillTempReg_pools s h).2

/-- The binding effect of an eviction: after spilling the register `(c, idx)`,
only that ownership record changed (it is cleared), and the evicted FR's
latest value is still available in frame memory or its pinned register. -/
theorem allocSpill_state_facts (s : EmitState) (c : RegClass) (idx : Nat)
    (hGood : Good s) (hidx : isTempIdx c idx = true)
    {F : EmitState}
    (hfrs : F.frameRegs = (spillTempReg s (.reg c idx)).frameRegs)
    (hcont : F.hwContains = (spillTempReg s (.reg c idx)).hwContains)
    (hlat : F.latest = (spillTempReg s (.reg c idx)).latest)
    (hfv : F.frameVal = (spillTempReg s (.reg c idx)).frameVal)
    (hrv : F.regVal = (spillTempReg s (.reg c idx)).regVal) :
    (∀ c2 i2, ¬(c2 = c ∧ i2 = idx) → F.hwContains c2 i2 = s.hwContains c2 i2) ∧
    F.hwContains c idx = none ∧
    (∀ fr, s.hwContains c idx = some fr →
      valueInMemOrGlobal F fr ∧ F.latest fr = s.latest fr) := by
  obtain ⟨spGood, spLat, spN, _, _, _, spOwn⟩ :=
    spillTempReg_good s c idx hGood.1 hGood.2 hidx
  refine ⟨?_, ?_, ?_⟩
  · intro c2 i2 hne
    rw [hcont]
    rcases spillTempReg_hwContains s c idx with hup | ⟨heq, _⟩
    · rw [hup]
      show (if c2 = c ∧ i2 = idx then none else s.hwContains c2 i2) =
        s.hwContains c2 i2
      rw [if_neg hne]
    · rw [heq]
  · rw [hcont]
    rcases spillTempReg_hwContains s c idx with hup | ⟨heq, h2⟩
    · rw [hup]
      show (if c = c ∧ idx = idx then none else s.hwContains c idx) = none
      rw [if_pos ⟨rfl, rfl⟩]
    · rw [heq]
      exact h2
  · intro fr hcc
    obtain ⟨hfrlt, hsy⟩ := spOwn fr hcc
    have hfrSP : fr < (spillTempReg s (.reg c idx)).nRegs := by
      rw [spN]
      exact hfrlt
    have hinvSP := spGood.2 fr hfrSP
    have hvim : valueInMemOrGlobal (spillTempReg s (.reg c idx)) fr := by
      rcases hsy with ⟨hv, hu⟩ | hf
      · exact Or.inr ⟨hv, hu, hinvSP.2.2.1 hv hu⟩
      · exact Or.inl ⟨hf, hinvSP.2.2.2.1 hf⟩
    constructor
    · refine vIMOG_congr ⟨?_, ?_, ?_, ?_, ?_⟩ ?_ ?_ ?_ hvim
      · rw [hfrs]
      · rw [hfrs]
      · rw [hfrs]
      · rw [hfrs]
      · rw [hfrs]
      · rw [hlat]
      · rw [hfv]
      · exact rd_congr hrv _
    · rw [hlat, spLat]

theorem good_sBound : Good sBound := by
  refine ⟨⟨?_, ?_, ?_, ?_, ?_⟩, ?_⟩
  · intro fr hfr
    have h4 : fr = 0 ∨ fr = 1 ∨ fr = 2 ∨ fr = 3 := by
      have : fr < 4 := hfr
      omega
    rcases h4 with rfl | rfl | rfl | rfl <;> decide
  · intro i hi
    interval_cases i <;> exact ⟨by decide, by decide⟩
  · intro fr1 h1 fr2 h2 hne hval
    have e1 : fr1 = 0 ∨ fr1 = 1 ∨ fr1 = 2 ∨ fr1 = 3 := by
      have : fr1 < 4 := h1
      omega
    have e2 : fr2 = 0 ∨ fr2 = 1 ∨ fr2 = 2 ∨ fr2 = 3 := by
      have : fr2 < 4 := h2
      omega
    rcases e1 with rfl | rfl | rfl | rfl <;> rcases e2 with rfl | rfl | rfl | rfl <;>
      first
      | exact absurd rfl hne
      | exact absurd hval (by decide)
      | decide
  · show ∀ i ∈ sBound.gpTemp.freeList,
      isTempIdx .gp i = true ∧ sBound.hwContains .gp i = none
    decide
  · show ∀ i ∈ sBound.vecTemp.freeList,
      isTempIdx .vec i = true ∧ sBound.hwContains .vec i = none
    decide
  · intro fr hfr
    have h4 : fr = 0 ∨ fr = 1 ∨ fr = 2 ∨ fr = 3 := by
      have : fr < 4 := hfr
      omega
    rcases h4 with rfl | rfl | rfl | rfl <;> (unfold FRInv; decide)

/-- C1: In every state satisfying the binding invariant (every program point
outside of slow-path bodies), each frame register has at least one location
among {local temporary register, pinned global register if marked up to date,
frame memory slot if marked up to date} holding its latest value; and every
mutation of the binding state — `frUpdatedWithHWReg`, `spillTempReg`,
`syncToMem`, and `freeReg` (under its call-site precondition that the owner's
value is synced elsewhere) — keeps the three up-to-date flags consistent, so
that at least one location is always authoritative (`Good` is preserved). -/
theorem claim_C1_binding_consistency (s : EmitState) (hGood : Good s) :
    (∀ fr, fr < s.nRegs →
      ((s.frameRegs fr).localGpX.isValid = true ∧
        s.rd (s.frameRegs fr).localGpX = s.latest fr) ∨
      ((s.frameRegs fr).localVecD.isValid = true ∧
        s.rd (s.frameRegs fr).localVecD = s.latest fr) ∨
      ((s.frameRegs fr).globalReg.isValid = true ∧
        (s.frameRegs fr).globalRegUpToDate = true ∧
        s.rd (s.frameRegs fr).globalReg = s.latest fr) ∨
      ((s.frameRegs fr).frameUpToDate = true ∧ s.frameVal fr = s.latest fr)) ∧
    (∀ fr h t, fr < s.nRegs → h.isValid = true →
      (h = (s.frameRegs fr).globalReg ∨ h = (s.frameRegs fr).localGpX ∨
        h = (s.frameRegs fr).localVecD) →
      Good (frUpdatedWithHWReg s fr h t)) ∧
    (∀ c i, isTempIdx c i = true → Good (spillTempReg s (.reg c i))) ∧
    (∀ fr, fr < s.nRegs → Good (syncToMem s fr)) ∧
    (∀ c i, isTempIdx c i = true →
      (∀ fr, s.hwContains c i = some fr →
        syncedElsewhere s fr ∧
        ((s.frameRegs fr).globalReg.isValid = true →
          (s.frameRegs fr).globalRegUpToDate = true)) →
      Good (freeReg s (.reg c i))) := by
  obtain ⟨hWF, hInvAll⟩ := hGood
  refine ⟨?_, ?_, ?_, ?_, ?_⟩
  · intro fr hfr
    have hInvfr := hInvAll fr hfr
    rcases hInvfr.2.2.2.2.1 with h1 | h1 | ⟨h1, h2⟩ | h1
    · exact Or.inl ⟨h1, hInvfr.1 h1⟩
    · exact Or.inr (Or.inl ⟨h1, hInvfr.2.1 h1⟩)
    · exact Or.inr (Or.inr (Or.inl ⟨h1, h2, hInvfr.2.2.1 h1 h2⟩))
    · exact Or.inr (Or.inr (Or.inr ⟨h1, hInvfr.2.2.2.1 h1⟩))
  · intro fr h t hfr hv hmem
    exact (frUpdatedWithHWReg_good s fr h t hWF
      (fun fr2 hlt _ => hInvAll fr2 hlt) hfr hv hmem).1
  · intro c i ht
    exact (spillTempReg_good s c i hWF hInvAll ht).1
  · intro fr hfr
    exact (syncToMem_good s fr hWF hInvAll hfr).1
  · intro c i ht hsafe
    exact (freeReg_good s c i hWF hInvAll ht hsafe).1

theorem claim_C1_binding_consistency_witness :
    Good sBound ∧
    Good (frUpdatedWithHWReg sBound 0 (HWReg.reg .gp 0) none) ∧
    Good (spillTempReg sBound (.reg .gp 0)) ∧
    Good (syncToMem sBound 0) ∧
    Good (freeReg sBound (.reg .gp 5)) := by
  have hmain := claim_C1_binding_consistency sBound good_sBound
  refine ⟨good_sBound, ?_, ?_, ?_, ?_⟩
  · exact hmain.2.1 0 (HWReg.reg .gp 0) none (by decide) (by decide)
      (Or.inr (Or.inl (by decide)))
  · exact hmain.2.2.1 .gp 0 (by decide)
  · exact hmain.2.2.2.1 0 (by decide)
  · exact hmain.2.2.2.2 .gp 5 (by decide) (fun fr hcc => Option.noConfusion hcc)

/-! ### C3: the store source of `syncToMem` -/

theorem useReg_emitted (s : EmitState) (h : HWReg) :
    (useReg s h).emitted = s.emitted := by
  unfold useReg
  split
  · rfl
  · split <;> rfl
  · split <;> rfl

/-- C3 counterexample: the spec says the store of `syncToMemory` prefers the
pinned (global) register as its source; but in `sC3` — where FR 0 is bound to
the local temporary x0 AND has an up-to-date pinned register x22, with a
stale frame slot — the emitted store reads from the LOCAL register x0, not
from the pinned x22. -/
theorem claim_C3_pinned_preference_counterexample :
    (sC3.frameRegs 0).globalReg = HWReg.reg RegClass.gp 22 ∧
    (sC3.frameRegs 0).globalRegUpToDate = true ∧
    (sC3.frameRegs 0).localGpX = HWReg.reg RegClass.gp 0 ∧
    (sC3.frameRegs 0).frameUpToDate = false ∧
    (syncToMem sC3 0).emitted = [Instr.strFrame (HWReg.reg RegClass.gp 0) 0] ∧
    Instr.strFrame (HWReg.reg RegClass.gp 0) 0 ≠
      Instr.strFrame (HWReg.reg RegClass.gp 22) 0 := by
  refine ⟨rfl, rfl, rfl, rfl, ?_, by decide⟩
  rfl

/-- C3 (amended): `syncToMem(FR)` with the frame slot already marked up to
date emits no instructions and changes no state; otherwise it emits a store
to the frame slot from the register `isFRInRegister` picks — preferring the
LOCAL GpX, then the local VecD, and only then the pinned (global) register —
and marks the slot up to date (refreshing a stale pinned register first; the
no-refresh case below shows the single store).  The spec's "preferring the
pinned register" mis-states this order. -/
theorem claim_C3_syncToMem_store_source (s : EmitState) (fr : Nat) :
    ((s.frameRegs fr).frameUpToDate = true → syncToMem s fr = s) ∧
    ((s.frameRegs fr).localGpX.isValid = true →
      (isFRInRegister s fr).1 = (s.frameRegs fr).localGpX) ∧
    ((s.frameRegs fr).localGpX.isValid = false →
      (s.frameRegs fr).localVecD.isValid = true →
      (isFRInRegister s fr).1 = (s.frameRegs fr).localVecD) ∧
    ((s.frameRegs fr).localGpX.isValid = false →
      (s.frameRegs fr).localVecD.isValid = false →
      (s.frameRegs fr).globalReg.isValid = true →
      (isFRInRegister s fr).1 = (s.frameRegs fr).globalReg) ∧
    ((s.frameRegs fr).frameUpToDate = false →
      ((s.frameRegs fr).globalReg.isValid = true →
        (s.frameRegs fr).globalRegUpToDate = true) →
      (syncToMem s fr).emitted =
        s.emitted ++ [Instr.strFrame (isFRInRegister s fr).1 fr] ∧
      ((syncToMem s fr).frameRegs fr).frameUpToDate = true ∧
      (syncToMem s fr).frameVal fr = s.rd (isFRInRegister s fr).1) := by
  refine ⟨?_, ?_, ?_, ?_, ?_⟩
  · intro h
    unfold syncToMem
    dsimp only
    rw [if_pos h]
  · intro hLg
    unfold isFRInRegister
    dsimp only
    rw [if_pos hLg]
  · intro hLgF hLv
    have hLgN : ¬((s.frameRegs fr).localGpX.isValid = true) := by
      intro habs
      rw [hLgF] at habs
      exact Bool.noConfusion habs
    unfold isFRInRegister
    dsimp only
    rw [if_neg hLgN, if_pos hLv]
  · intro hLgF hLvF hGV
    have hLgN : ¬((s.frameRegs fr).localGpX.isValid = true) := by
      intro habs
      rw [hLgF] at habs
      exact Bool.noConfusion habs
    have hLvN : ¬((s.frameRegs fr).localVecD.isValid = true) := by
      intro habs
      rw [hLvF] at habs
      exact Bool.noConfusion habs
    unfold isFRInRegister
    dsimp only
    rw [if_neg hLgN, if_neg hLvN, if_pos hGV]
  · intro hfutF hg
    have hfutN : ¬((s.frameRegs fr).frameUpToDate = true) := by
      intro habs
      rw [hfutF] at habs
      exact Bool.noConfusion habs
    unfold syncToMem
    dsimp only
    rw [if_neg hfutN]
    unfold isFRInRegister
    dsimp only
    by_cases hLg : (s.frameRegs fr).localGpX.isValid = true
    · rw [if_pos hLg]
      dsimp only
      rw [(useReg_proj _ _).1]
      cases hGV2 : (s.frameRegs fr).globalReg.isValid with
      | false =>
        rw [if_neg (fun habs => Bool.noConfusion habs)]
        refine ⟨?_, ?_, ?_⟩
        · show (useReg s _).emitted ++ _ = _
          rw [useReg_emitted]
        · rw [(storeHWRegToFrame_sem _ _ _).1, upd1_same]
        · rw [(storeHWRegToFrame_sem _ _ _).2.1, upd1_same]
          exact rd_useReg _ _ _
      | true =>
        rw [hg hGV2, if_neg (by decide : ¬((true && !true) = true))]
        refine ⟨?_, ?_, ?_⟩
        · show (useReg s _).emitted ++ _ = _
          rw [useReg_emitted]
        · rw [(storeHWRegToFrame_sem _ _ _).1, upd1_same]
        · rw [(storeHWRegToFrame_sem _ _ _).2.1, upd1_same]
          exact rd_useReg _ _ _
    · rw [if_neg hLg]
      by_cases hLv : (s.frameRegs fr).localVecD.isValid = true
      · rw [if_pos hLv]
        dsimp only
        rw [(useReg_proj _ _).1]
        cases hGV2 : (s.frameRegs fr).globalReg.isValid with
        | false =>
          rw [if_neg (fun habs => Bool.noConfusion habs)]
          refine ⟨?_, ?_, ?_⟩
          · show (useReg s _).emitted ++ _ = _
            rw [useReg_emitted]
          · rw [(storeHWRegToFrame_sem _ _ _).1, upd1_same]
          · rw [(storeHWRegToFrame_sem _ _ _).2.1, upd1_same]
            exact rd_useReg _ _ _
        | true =>
          rw [hg hGV2, if_neg (by decide : ¬((true && !true) = true))]
          refine ⟨?_, ?_, ?_⟩
          · show (useReg s _).emitted ++ _ = _
            rw [useReg_emitted]
          · rw [(storeHWRegToFrame_sem _ _ _).1, upd1_same]
          · rw [(storeHWRegToFrame_sem _ _ _).2.1, upd1_same]
            exact rd_useReg _ _ _
      · rw [if_neg hLv]
        by_cases hGV3 : (s.frameRegs fr).globalReg.isValid = true
        · rw [if_pos hGV3]
          dsimp only
          rw [hGV3, hg hGV3, if_neg (by decide : ¬((true && !true) = true))]
          refine ⟨rfl, ?_, ?_⟩
          · rw [(storeHWRegToFrame_sem _ _ _).1, upd1_same]
          · rw [(storeHWRegToFrame_sem _ _ _).2.1, upd1_same]
        · rw [if_neg hGV3]
          dsimp only
          have hGVf : (s.frameRegs fr).globalReg.isValid = false := by
            cases h2 : (s.frameRegs fr).globalReg.isValid with
            | false => rfl
            | true => exact absurd h2 hGV3
          rw [hGVf, if_neg (fun habs => Bool.noConfusion habs)]
          refine ⟨rfl, ?_, ?_⟩
          · rw [(storeHWRegToFrame_sem _ _ _).1, upd1_same]
          · rw [(storeHWRegToFrame_sem _ _ _).2.1, upd1_same]

theorem claim_C3_syncToMem_store_source_witness :
    (isFRInRegister sC3 0).1 = (sC3.frameRegs 0).localGpX ∧
    (syncToMem sC3 0).emitted =
      sC3.emitted ++ [Instr.strFrame (isFRInRegister sC3 0).1 0] := by
  have h := claim_C3_syncToMem_store_source sC3 0
  exact ⟨h.2.1 (by decide), (h.2.2.2.2 (by decide) (fun _ => by decide)).1⟩


/-! ### C5: block-boundary reset -/

/-- C5: immediately after a basic-block entry (`newBasicBlock`), every frame
register has no temporary (local) hardware-register binding in either register
class, and its speculative `localType` equals its persistent
global-register-level type `globalType`. -/
theorem claim_C5_block_boundary_reset (s : EmitState) (label : Nat)
    (hGood : Good s) :
    ∀ fr, fr < (newBasicBlock s label).nRegs →
      ((newBasicBlock s label).frameRegs fr).localGpX = HWReg.invalid ∧
      ((newBasicBlock s label).frameRegs fr).localVecD = HWReg.invalid ∧
      ((newBasicBlock s label).frameRegs fr).localType =
        ((newBasicBlock s label).frameRegs fr).globalType := by
  obtain ⟨sGood, sN, _, _, _, _, _, sReady⟩ := syncAllTempExcept_good s none hGood
  obtain ⟨fGood, _, _, _, _, _, _, ftemps, _⟩ :=
    freeAllTempExcept_good (syncAllTempExcept s none) none sGood
      (fun fr2 hlt _ => sReady fr2 (by rw [sN] at hlt; exact hlt)
        (fun h => Option.noConfusion h))
  intro fr hlt
  have hnn : (newBasicBlock s label).nRegs =
      (freeAllTempExcept (syncAllTempExcept s none) none).nRegs := rfl
  have hfr2 : fr < (freeAllTempExcept (syncAllTempExcept s none) none).nRegs := by
    rw [hnn] at hlt
    exact hlt
  have e1 : (newBasicBlock s label).frameRegs fr =
      (if fr < (freeAllTempExcept (syncAllTempExcept s none) none).nRegs then
        { (freeAllTempExcept (syncAllTempExcept s none) none).frameRegs fr with
          localType := ((freeAllTempExcept (syncAllTempExcept s none)
            none).frameRegs fr).globalType }
      else (freeAllTempExcept (syncAllTempExcept s none) none).frameRegs fr) := rfl
  have e2 : (newBasicBlock s label).frameRegs fr =
      { (freeAllTempExcept (syncAllTempExcept s none) none).frameRegs fr with
        localType := ((freeAllTempExcept (syncAllTempExcept s none) none).frameRegs
          fr).globalType } := by
    rw [e1, if_pos hfr2]
  obtain ⟨d1, d2, _⟩ := WFfr_spec (fGood.1.1 fr hfr2)
  have hgx : ((freeAllTempExcept (syncAllTempExcept s none) none).frameRegs
      fr).localGpX = HWReg.invalid := by
    rcases localBindingOK_spec d1 with einv | ⟨j, hj, htj, hcj⟩
    · exact einv
    · exfalso
      rw [ftemps rfl RegClass.gp j htj] at hcj
      exact Option.noConfusion hcj
  have hvd : ((freeAllTempExcept (syncAllTempExcept s none) none).frameRegs
      fr).localVecD = HWReg.invalid := by
    rcases localBindingOK_spec d2 with einv | ⟨j, hj, htj, hcj⟩
    · exact einv
    · exfalso
      rw [ftemps rfl RegClass.vec j htj] at hcj
      exact Option.noConfusion hcj
  refine ⟨?_, ?_, ?_⟩
  · rw [e2]
    exact hgx
  · rw [e2]
    exact hvd
  · rw [e2]

theorem claim_C5_block_boundary_reset_witness :
    ((newBasicBlock sBound 7).frameRegs 0).localGpX = HWReg.invalid ∧
    ((newBasicBlock sBound 7).frameRegs 0).localVecD = HWReg.invalid ∧
    ((newBasicBlock sBound 7).frameRegs 0).localType =
      ((newBasicBlock sBound 7).frameRegs 0).globalType :=
  claim_C5_block_boundary_reset sBound 7 good_sBound 0 (by decide)

theorem good_sFull : Good sFull := by
  constructor
  · refine ⟨?_, ?_, ?_, ?_, ?_⟩
    · intro fr hfr
      have hfr20 : fr < 20 := hfr
      unfold WFfr
      interval_cases fr <;> decide
    · intro i hi
      interval_cases i <;> decide
    · intro fr1 h1 fr2 h2 hne hval
      have h20 : fr1 < 20 := h1
      exfalso
      revert hval
      show ¬((sFull.frameRegs fr1).globalReg.isValid = true)
      interval_cases fr1 <;> decide
    · show ∀ i ∈ sFull.gpTemp.freeList, _
      decide
    · show ∀ i ∈ sFull.vecTemp.freeList, _
      decide
  · intro fr hfr
    have hfr20 : fr < 20 := hfr
    unfold FRInv
    interval_cases fr <;> decide

/-! ### C2: LRU spill on pool exhaustion -/

/-- C2: allocating a temporary from an exhausted pool evicts exactly one
register — the least-recently-used one when no preference is given, the
preferred register itself when one is — and the evicted FR's value is first
written to its fallback location, so its (unchanged) latest value remains
available in frame memory or its pinned register. -/
theorem claim_C2_alloc_spill (s : EmitState) (c : RegClass) (p : Nat)
    (hGood : Good s)
    (hfull : (getPool s c).freeList = [])
    (hlru : isTempIdx c ((getPool s c).leastRecentlyUsed) = true)
    (hp : isTempIdx c p = true) :
    (_allocTemp s c none).1 =
      HWReg.reg c ((getPool s c).leastRecentlyUsed) ∧
    (_allocTemp s c (some (HWReg.reg c p))).1 = HWReg.reg c p ∧
    (∀ c2 i2, ¬(c2 = c ∧ i2 = (getPool s c).leastRecentlyUsed) →
      (_allocTemp s c none).2.hwContains c2 i2 = s.hwContains c2 i2) ∧
    (_allocTemp s c none).2.hwContains c ((getPool s c).leastRecentlyUsed) =
      none ∧
    (∀ fr, s.hwContains c ((getPool s c).leastRecentlyUsed) = some fr →
      valueInMemOrGlobal (_allocTemp s c none).2 fr ∧
      (_allocTemp s c none).2.latest fr = s.latest fr) ∧
    (∀ c2 i2, ¬(c2 = c ∧ i2 = p) →
      (_allocTemp s c (some (HWReg.reg c p))).2.hwContains c2 i2 =
        s.hwContains c2 i2) ∧
    (_allocTemp s c (some (HWReg.reg c p))).2.hwContains c p = none ∧
    (∀ fr, s.hwContains c p = some fr →
      valueInMemOrGlobal (_allocTemp s c (some (HWReg.reg c p))).2 fr ∧
      (_allocTemp s c (some (HWReg.reg c p))).2.latest fr = s.latest fr) := by
  have hpr0 : Option.map HWReg.indexInClass (none : Option HWReg) =
      (none : Option Nat) := rfl
  have hprP : Option.map HWReg.indexInClass (some (HWReg.reg c p)) = some p := rfl
  have halloc0 : (getPool s c).alloc none = (none, getPool s c) := by
    unfold TempRegAlloc.alloc
    dsimp only
    rw [hfull]
  have hallocP : (getPool s c).alloc (some p) = (none, getPool s c) := by
    unfold TempRegAlloc.alloc
    dsimp only
    rw [hfull, if_neg (List.not_mem_nil p)]
  have hsel0 : (_allocTemp s c none).1 =
      HWReg.reg c ((getPool s c).leastRecentlyUsed) := by
    unfold _allocTemp
    dsimp only
    rw [hpr0, halloc0]
    dsimp only
    rw [getPool_setPool, getPool_spill]
    rw [show ((getPool s c).free ((getPool s c).leastRecentlyUsed)).alloc none =
      (some ((getPool s c).leastRecentlyUsed),
       ((getPool s c).free
         ((getPool s c).leastRecentlyUsed)).allocSpecific
           ((getPool s c).leastRecentlyUsed)) from rfl]
    rfl
  have hselP : (_allocTemp s c (some (HWReg.reg c p))).1 = HWReg.reg c p := by
    unfold _allocTemp
    dsimp only
    rw [hprP, hallocP]
    dsimp only
    rw [getPool_setPool, getPool_spill]
    rw [show ((getPool s c).free p).alloc none =
      (some p, ((getPool s c).free p).allocSpecific p) from rfl]
    rfl
  have hF0 : (_allocTemp s c none).2.frameRegs =
        (spillTempReg s
          (.reg c ((getPool s c).leastRecentlyUsed))).frameRegs ∧
      (_allocTemp s c none).2.hwContains =
        (spillTempReg s
          (.reg c ((getPool s c).leastRecentlyUsed))).hwContains ∧
      (_allocTemp s c none).2.latest =
        (spillTempReg s (.reg c ((getPool s c).leastRecentlyUsed))).latest ∧
      (_allocTemp s c none).2.frameVal =
        (spillTempReg s (.reg c ((getPool s c).leastRecentlyUsed))).frameVal ∧
      (_allocTemp s c none).2.regVal =
        (spillTempReg s (.reg c ((getPool s c).leastRecentlyUsed))).regVal := by
    unfold _allocTemp
    dsimp only
    rw [hpr0, halloc0]
    dsimp only
    refine ⟨?_, ?_, ?_, ?_, ?_⟩
    · rw [(setPool_proj _ _ _).1, (setPool_proj _ _ _).1]
    · rw [(setPool_proj _ _ _).2.1, (setPool_proj _ _ _).2.1]
    · rw [(setPool_proj _ _ _).2.2.1, (setPool_proj _ _ _).2.2.1]
    · rw [(setPool_proj _ _ _).2.2.2.1, (setPool_proj _ _ _).2.2.2.1]
    · rw [(setPool_proj _ _ _).2.2.2.2.1, (setPool_proj _ _ _).2.2.2.2.1]
  have hFP : (_allocTemp s c (some (HWReg.reg c p))).2.frameRegs =
        (spillTempReg s (.reg c p)).frameRegs ∧
      (_allocTemp s c (some (HWReg.reg c p))).2.hwContains =
        (spillTempReg s (.reg c p)).hwContains ∧
      (_allocTemp s c (some (HWReg.reg c p))).2.latest =
        (spillTempReg s (.reg c p)).latest ∧
      (_allocTemp s c (some (HWReg.reg c p))).2.frameVal =
        (spillTempReg s (.reg c p)).frameVal ∧
      (_allocTemp s c (some (HWReg.reg c p))).2.regVal =
        (spillTempReg s (.reg c p)).regVal := by
    unfold _allocTemp
    dsimp only
    rw [hprP, hallocP]
    dsimp only
    refine ⟨?_, ?_, ?_, ?_, ?_⟩
    · rw [(setPool_proj _ _ _).1, (setPool_proj _ _ _).1]
    · rw [(setPool_proj _ _ _).2.1, (setPool_proj _ _ _).2.1]
    · rw [(setPool_proj _ _ _).2.2.1, (setPool_proj _ _ _).2.2.1]
    · rw [(setPool_proj _ _ _).2.2.2.1, (setPool_proj _ _ _).2.2.2.1]
    · rw [(setPool_proj _ _ _).2.2.2.2.1, (setPool_proj _ _ _).2.2.2.2.1]
  obtain ⟨e0a, e0b, e0c⟩ := allocSpill_state_facts s c
    ((getPool s c).leastRecentlyUsed) hGood hlru hF0.1 hF0.2.1 hF0.2.2.1
    hF0.2.2.2.1 hF0.2.2.2.2
  obtain ⟨ePa, ePb, ePc⟩ := allocSpill_state_facts s c p hGood hp hFP.1 hFP.2.1
    hFP.2.2.1 hFP.2.2.2.1 hFP.2.2.2.2
  exact ⟨hsel0, hselP, e0a, e0b, e0c, ePa, ePb, ePc⟩

theorem claim_C2_alloc_spill_witness :
    (getPool sFull RegClass.gp).leastRecentlyUsed = 5 ∧
    (_allocTemp sFull RegClass.gp none).1 = HWReg.reg RegClass.gp 5 ∧
    (_allocTemp sFull RegClass.gp (some (HWReg.reg RegClass.gp 7))).1 =
      HWReg.reg RegClass.gp 7 ∧
    valueInMemOrGlobal (_allocTemp sFull RegClass.gp none).2 5 := by
  obtain ⟨h1, h2, h3, h4, h5, h6, h7, h8⟩ :=
    claim_C2_alloc_spill sFull RegClass.gp 7 good_sFull rfl (by decide) (by decide)
  refine ⟨by decide, ?_, h2, ?_⟩
  · rw [h1]
    decide
  · exact (h5 5 (by decide)).1

/-! ### C4: synchronization before external calls -/

/-- C4: at the emitted call into the external helper of `getByIdImpl` and of
`storeToEnvironment`, no frame register's latest value lives only in a
temporary hardware register: the sync pass (`syncToMemory` /
`syncAllTemporariesExcept`) performed immediately before the call leaves every
live value (every FR except a result register about to be overwritten) in
frame memory or an up-to-date pinned callee-saved register. -/
theorem claim_C4_sync_before_external_call (s : EmitState)
    (frRes symID frSource cacheIdx frEnv slot frValue : Nat)
    (hGood : Good s) (hsrc : frSource < s.nRegs) :
    (∀ fr, fr < s.nRegs → (frRes ≠ frSource → fr ≠ frRes) →
      valueInMemOrGlobal (getByIdImplPre s frRes symID frSource cacheIdx) fr) ∧
    (∀ fr, fr < s.nRegs →
      valueInMemOrGlobal (storeToEnvironmentPre s frEnv slot frValue) fr) :=
  ⟨getByIdImplPre_sync s frRes symID frSource cacheIdx hGood hsrc,
   storeToEnvironmentPre_sync s frEnv slot frValue hGood⟩

theorem claim_C4_sync_before_external_call_witness :
    valueInMemOrGlobal (getByIdImplPre sBound 2 9 1 0) 0 ∧
    valueInMemOrGlobal (storeToEnvironmentPre sBound 1 5 0) 0 :=
  ⟨(claim_C4_sync_before_external_call sBound 2 9 1 0 1 5 0 good_sBound
      (by decide)).1 0 (by decide) (fun _ => by decide),
   (claim_C4_sync_before_external_call sBound 2 9 1 0 1 5 0 good_sBound
      (by decide)).2 0 (by decide)⟩

/-! ### C8: RO-data and thunk pool deduplication -/

theorem reserveData_fp64ConstMap (s : EmitState) (d a : Nat) :
    (reserveData s d a).2.fp64ConstMap = s.fp64ConstMap := by
  unfold reserveData
  dsimp only
  split <;> rfl

theorem reserveData_thunkMap (s : EmitState) (d a : Nat) :
    (reserveData s d a).2.thunkMap = s.thunkMap := by
  unfold reserveData
  dsimp only
  split <;> rfl

theorem reserveData_thunks (s : EmitState) (d a : Nat) :
    (reserveData s d a).2.thunks = s.thunks := by
  unfold reserveData
  dsimp only
  split <;> rfl

theorem reserveData_nextLab (s : EmitState) (d a : Nat) :
    (reserveData s d a).2.nextLab = s.nextLab := by
  unfold reserveData
  dsimp only
  split <;> rfl

theorem reserveData_fst (s : EmitState) (d a : Nat) :
    (reserveData s d a).1 = (s.roSize + a - 1) / a * a := by
  unfold reserveData
  dsimp only
  split <;> rfl

theorem reserveData_roSize_small (s : EmitState) (d a : Nat)
    (h : (s.roSize + a - 1) / a * a < 2147483647) :
    (reserveData s d a).2.roSize = (s.roSize + a - 1) / a * a + d := by
  unfold reserveData
  dsimp only
  rw [if_neg (by omega)]

/-- C8: interning the same 64-bit constant twice returns the same RO-data
offset both times and appends the 8 bytes only on the first interning (the
second call is a pure lookup, leaving the state unchanged); and registering
the same external function pointer twice returns the same thunk label both
times and creates only one thunk (the second call leaves the state
unchanged). -/
theorem claim_C8_pool_dedup :
    ∀ (s : EmitState) (bits fn : Nat),
      (uint64Const (uint64Const s bits).2 bits =
        ((uint64Const s bits).1, (uint64Const s bits).2)) ∧
      (s.fp64ConstMap.lookup bits = none → s.roSize + 7 < 2147483647 →
        (uint64Const s bits).2.roSize = (s.roSize + 7) / 8 * 8 + 8) ∧
      (registerCall (registerCall s fn).2 fn =
        ((registerCall s fn).1, (registerCall s fn).2)) ∧
      (s.thunkMap.lookup fn = none →
        (registerCall s fn).2.thunks =
          s.thunks ++ [(s.nextLab, (s.roSize + 7) / 8 * 8)] ∧
        (registerCall s fn).1 = s.nextLab) := by
  intro s bits fn
  refine ⟨?_, ?_, ?_, ?_⟩
  · cases h1 : s.fp64ConstMap.lookup bits with
    | some ofs =>
      have hu : uint64Const s bits = (ofs, s) := by
        unfold uint64Const
        rw [h1]
      simp only [hu]
    | none =>
      have hu : uint64Const s bits =
          ((reserveData s 8 8).1,
           { (reserveData s 8 8).2 with fp64ConstMap :=
               (reserveData s 8 8).2.fp64ConstMap ++ [(bits, (reserveData s 8 8).1)] }) := by
        unfold uint64Const
        rw [h1]
      simp only [hu]
      have h2 : (({ (reserveData s 8 8).2 with fp64ConstMap :=
            (reserveData s 8 8).2.fp64ConstMap ++ [(bits, (reserveData s 8 8).1)] } :
            EmitState)).fp64ConstMap.lookup bits = some (reserveData s 8 8).1 := by
        dsimp only
        rw [reserveData_fp64ConstMap]
        exact lookup_append_of_none h1
      unfold uint64Const
      rw [h2]
  · intro h1 hsm
    have hu : (uint64Const s bits).2 =
        { (reserveData s 8 8).2 with fp64ConstMap :=
            (reserveData s 8 8).2.fp64ConstMap ++ [(bits, (reserveData s 8 8).1)] } := by
      unfold uint64Const
      rw [h1]
    rw [hu]
    show (reserveData s 8 8).2.roSize = (s.roSize + 7) / 8 * 8 + 8
    have := reserveData_roSize_small s 8 8 (by omega)
    omega
  · cases h1 : s.thunkMap.lookup fn with
    | some idx =>
      have hu : registerCall s fn = (((s.thunks.get? idx).map Prod.fst).getD 0, s) := by
        unfold registerCall
        rw [h1]
      simp only [hu]
    | none =>
      have hu : registerCall s fn =
          ((((registerCallMissState s fn).thunks.get? s.thunks.length).map Prod.fst).getD 0,
            registerCallMissState s fn) := by
        unfold registerCall registerCallMissState
        rw [h1]
      simp only [hu]
      have h2 : (registerCallMissState s fn).thunkMap.lookup fn = some s.thunks.length := by
        unfold registerCallMissState
        dsimp only
        rw [reserveData_thunkMap]
        exact lookup_append_of_none h1
      conv_lhs => unfold registerCall
      rw [h2]
  · intro h1
    have hu : registerCall s fn =
        ((((registerCallMissState s fn).thunks.get? s.thunks.length).map Prod.fst).getD 0,
          registerCallMissState s fn) := by
      unfold registerCall registerCallMissState
      rw [h1]
    have hth : (registerCallMissState s fn).thunks =
        s.thunks ++ [(s.nextLab, (s.roSize + 7) / 8 * 8)] := by
      unfold registerCallMissState
      dsimp only
      rw [reserveData_thunks, reserveData_nextLab, reserveData_fst]
      have h78 : s.roSize + 8 - 1 = s.roSize + 7 := by omega
      rw [h78]
    constructor
    · rw [hu]
      exact hth
    · rw [hu]
      dsimp only
      rw [hth, List.get?_concat_length]
      rfl

theorem claim_C8_pool_dedup_witness :
    (sInit 4).fp64ConstMap.lookup 5 = none ∧
    (uint64Const (sInit 4) 5).2.roSize = ((sInit 4).roSize + 7) / 8 * 8 + 8 ∧
    (sInit 4).thunkMap.lookup 9 = none ∧
    (registerCall (sInit 4) 9).1 = (sInit 4).nextLab := by
  refine ⟨rfl, ?_, rfl, ?_⟩
  · exact (claim_C8_pool_dedup (sInit 4) 5 9).2.1 rfl (by decide)
  · exact ((claim_C8_pool_dedup (sInit 4) 5 9).2.2.2 rfl).2

/-! ### C9: encoder range-error recovery -/

theorem trace_update_slowPaths (s : EmitState) (q : List SlowPath) :
    trace { s with slowPaths := q } = trace s := rfl

theorem trace_update_nextLab (s : EmitState) (n : Nat) :
    trace { s with nextLab := n } = trace s := rfl

theorem trace_update_latest (s : EmitState) (l : Nat → Nat) :
    trace { s with latest := l } = trace s := rfl

/-- C9: an encoder range error matching the expected error code set around a
single emission call is locally recovered while any other error is fatal:
`handleError` aborts exactly on unexpected error codes, and `loadParam`
(which sets the expected code around its `cmp`-immediate and `ldur` calls)
emits the wide compare sequence (constant loaded into a second, subsequently
freed, register) exactly when the parameter index does not fit the 12-bit
immediate, and the subtraction-based address sequence exactly when the
displacement does not fit the 9-bit `ldur` offset. -/
theorem claim_C9_encoder_error_recovery :
    (∀ expectedErr err : Nat,
        handleError expectedErr err = ErrAction.fatal ↔ err ≠ expectedErr) ∧
    (∀ (s : EmitState) (frRes p : Nat), p < 2147483648 →
      trace (loadParam s frRes p) = trace s ++
        [Instr.ldurArgCount .invalid] ++
        (if cmpImmEncodable p then [Instr.cmpArgCount .invalid p]
         else [Instr.cmpRegs .invalid .invalid]) ++
        [Instr.bLo s.nextLab] ++
        (if p ≤ 24 then
           [Instr.ldurParam .invalid ((SFLThisArg - int32ofUInt32 p) * 8)]
         else
           (if p ≤ 503 then [Instr.subFrame .invalid ((8 + p) * 8)]
            else [Instr.subFrameReg .invalid]) ++ [Instr.ldrInd .invalid]) ++
        [Instr.bindLab (s.nextLab + 1)]) := by
  constructor
  · intro expectedErr err
    unfold handleError
    by_cases h : err = expectedErr
    · simp [h]
    · simp [h]
  · intro s frRes p hp
    have hint : int32ofUInt32 p = (p : Int) := by
      unfold int32ofUInt32
      rw [if_pos hp]
    have hofsval : (SFLThisArg - int32ofUInt32 p) * 8 = (-8 - (p : Int)) * 8 := by
      rw [hint]
      rfl
    unfold loadParam
    dsimp only
    rw [if_neg (by rw [hofsval]; omega)]
    by_cases h24 : p ≤ 24
    · rw [if_pos (by constructor <;> (rw [hofsval]; omega)), if_pos h24]
      by_cases henc : cmpImmEncodable p = true
      · rw [if_pos henc, if_pos henc]
        simp [trace_update_slowPaths, trace_frUpdatedWithHWReg, trace_emit,
          trace_setReg, trace_getOrAllocFRInGpX, trace_freeReg,
          trace_allocTempGpX, trace_update_nextLab, stripRegs, Instr.plain]
      · rw [if_neg (by simp [henc]), if_neg (by simp [henc])]
        simp [trace_update_slowPaths, trace_frUpdatedWithHWReg, trace_emit,
          trace_setReg, trace_getOrAllocFRInGpX, trace_freeReg, trace_loadBits64InGp,
          trace_allocTempGpX, trace_update_nextLab, stripRegs, Instr.plain]
    · rw [if_neg (by intro hc; rcases hc with ⟨hc1, hc2⟩; rw [hofsval] at hc1; omega),
        if_neg h24]
      have htoNat : (-((SFLThisArg - int32ofUInt32 p) * 8)).toNat = (8 + p) * 8 := by
        rw [hofsval]
        omega
      rw [htoNat]
      by_cases h503 : p ≤ 503
      · rw [if_pos (by omega), if_pos h503]
        by_cases henc : cmpImmEncodable p = true
        · rw [if_pos henc, if_pos henc]
          simp [trace_update_slowPaths, trace_frUpdatedWithHWReg, trace_emit,
            trace_setReg, trace_getOrAllocFRInGpX, trace_freeReg,
            trace_allocTempGpX, trace_update_nextLab, stripRegs, Instr.plain]
        · rw [if_neg (by simp [henc]), if_neg (by simp [henc])]
          simp [trace_update_slowPaths, trace_frUpdatedWithHWReg, trace_emit,
            trace_setReg, trace_getOrAllocFRInGpX, trace_freeReg, trace_loadBits64InGp,
            trace_allocTempGpX, trace_update_nextLab, stripRegs, Instr.plain]
      · rw [if_neg (by omega), if_neg h503]
        by_cases henc : cmpImmEncodable p = true
        · rw [if_pos henc, if_pos henc]
          simp [trace_update_slowPaths, trace_frUpdatedWithHWReg, trace_emit,
            trace_setReg, trace_getOrAllocFRInGpX, trace_freeReg, trace_loadBits64InGp,
            trace_allocTempGpX, trace_update_nextLab, stripRegs, Instr.plain]
        · rw [if_neg (by simp [henc]), if_neg (by simp [henc])]
          simp [trace_update_slowPaths, trace_frUpdatedWithHWReg, trace_emit,
            trace_setReg, trace_getOrAllocFRInGpX, trace_freeReg, trace_loadBits64InGp,
            trace_allocTempGpX, trace_update_nextLab, stripRegs, Instr.plain]

theorem claim_C9_encoder_error_recovery_witness :
    handleError 7 8 = ErrAction.fatal ∧
    trace (loadParam (sInit 4) 1 5000) = trace (sInit 4) ++
      [Instr.ldurArgCount .invalid] ++ [Instr.cmpRegs .invalid .invalid] ++
      [Instr.bLo (sInit 4).nextLab] ++
      ([Instr.subFrameReg .invalid] ++ [Instr.ldrInd .invalid]) ++
      [Instr.bindLab ((sInit 4).nextLab + 1)] := by
  constructor
  · exact (claim_C9_encoder_error_recovery.1 7 8).2 (by decide)
  · have h := claim_C9_encoder_error_recovery.2 (sInit 4) 1 5000 (by decide)
    simpa [show cmpImmEncodable 5000 = false by decide] using h

/-! ### C6: the binary-arithmetic fast/slow template -/

theorem slowPaths_syncAllTempExcept (s : EmitState) (x : Option Nat) :
    (syncAllTempExcept s x).slowPaths = s.slowPaths :=
  (quiet_syncAllTempExcept s x).2.1

theorem slowPaths_syncToMem (s : EmitState) (fr : Nat) :
    (syncToMem s fr).slowPaths = s.slowPaths := (quiet_syncToMem s fr).2.1

theorem slowPaths_getOrAllocFRInVecD (s : EmitState) (fr : Nat) (load : Bool) :
    (getOrAllocFRInVecD s fr load).2.slowPaths = s.slowPaths :=
  (quiet_getOrAllocFRInVecD s fr load).2.1

theorem slowPaths_getOrAllocFRInGpX (s : EmitState) (fr : Nat) (load : Bool) :
    (getOrAllocFRInGpX s fr load).2.slowPaths = s.slowPaths :=
  (quiet_getOrAllocFRInGpX s fr load).2.1

theorem slowPaths_getOrAllocFRInAnyReg (s : EmitState) (fr : Nat) (load : Bool)
    (pref : Option HWReg) :
    (getOrAllocFRInAnyReg s fr load pref).2.slowPaths = s.slowPaths :=
  (quiet_getOrAllocFRInAnyReg s fr load pref).2.1

theorem slowPaths_freeAllTempExcept (s : EmitState) (x : Option Nat) :
    (freeAllTempExcept s x).slowPaths = s.slowPaths :=
  (quiet_freeAllTempExcept s x).2.1

theorem slowPaths_freeFRTemp (s : EmitState) (fr : Nat) :
    (freeFRTemp s fr).slowPaths = s.slowPaths := (quiet_freeFRTemp s fr).2.1

theorem slowPaths_freeReg (s : EmitState) (h : HWReg) :
    (freeReg s h).slowPaths = s.slowPaths := (quiet_freeReg s h).2.1

theorem slowPaths_frUpdatedWithHWReg (s : EmitState) (fr : Nat) (h : HWReg)
    (t : Option FRType) : (frUpdatedWithHWReg s fr h t).slowPaths = s.slowPaths :=
  (quiet_frUpdatedWithHWReg s fr h t).2.1

theorem slowPaths_setReg (s : EmitState) (h : HWReg) (v : Nat) :
    (setReg s h v).slowPaths = s.slowPaths := (quiet_setReg s h v).2.1

theorem slowPaths_emitInstr (s : EmitState) (i : Instr) :
    (emitInstr s i).slowPaths = s.slowPaths := rfl

theorem slowPaths_frUpdateType (s : EmitState) (fr : Nat) (t : FRType) :
    (frUpdateType s fr t).slowPaths = s.slowPaths := rfl

theorem slowPaths_movFRFromHW (s : EmitState) (dst : Nat) (src : HWReg)
    (t : Option FRType) : (movFRFromHW s dst src t).slowPaths = s.slowPaths :=
  (quiet_movFRFromHW s dst src t).2.1

theorem slowPaths_loadConstBits64 (s : EmitState) (frRes bits : Nat) (t : FRType) :
    (loadConstBits64 s frRes bits t).slowPaths = s.slowPaths :=
  (quiet_loadConstBits64 s frRes bits t).2.1

theorem slowPaths_syncAndFreeTempReg (s : EmitState) (h : HWReg) :
    (syncAndFreeTempReg s h).slowPaths = s.slowPaths :=
  (quiet_syncAndFreeTempReg s h).2.1

theorem slowPaths_movHWFromFR (s : EmitState) (h : HWReg) (src : Nat) :
    (movHWFromFR s h src).slowPaths = s.slowPaths :=
  (quiet_movHWFromFR s h src).2.1

theorem slowPaths_movHWReg (u : Bool) (s : EmitState) (d sr : HWReg) :
    (movHWReg u s d sr).slowPaths = s.slowPaths := (quiet_movHWReg u s d sr).2.1

/-- C6: the binary-arithmetic template: if both operands are statically known
to be `Number` (via `localType`, or forced), no tag-threshold guard is emitted
and no slow-path entry is queued; otherwise exactly one guard (compare against
the tagged-double threshold, branching to the slow-path label) is emitted per
statically-unknown operand, followed by the fast vector instruction, and
exactly one slow-path entry calling the generic polymorphic helper is appended
to the queue. -/
theorem claim_C6_arith_binop_guards :
    ∀ (s : EmitState) (forceNumber : Bool) (frRes frLeft frRight fastTag slowCallId : Nat),
      trace (arithBinOp s forceNumber frRes frLeft frRight fastTag slowCallId) =
        trace s ++
        (if forceNumber || isFRKnownNumber s frLeft then []
         else [Instr.guard .invalid s.nextLab]) ++
        (if forceNumber || isFRKnownNumber s frRight then []
         else [Instr.guard .invalid s.nextLab]) ++
        [Instr.fastArith fastTag .invalid .invalid .invalid] ++
        (if !forceNumber && !(isFRKnownNumber s frRight && isFRKnownNumber s frLeft)
         then [Instr.bindLab (s.nextLab + 1)] else []) ∧
      (arithBinOp s forceNumber frRes frLeft frRight fastTag slowCallId).slowPaths.map stripSP =
        s.slowPaths.map stripSP ++
        (if !forceNumber && !(isFRKnownNumber s frRight && isFRKnownNumber s frLeft)
         then [{ slowPathLab := s.nextLab, contLab := s.nextLab + 1, frRes := frRes,
                 frInput1 := frLeft, frInput2 := frRight, hwRes := .invalid,
                 slowCall := slowCallId }] else []) := by
  intro s forceNumber frRes frLeft frRight fastTag slowCallId
  cases forceNumber with
  | true =>
    constructor
    · unfold arithBinOp
      simp [trace_frUpdateType, trace_syncAllTempExcept, trace_syncToMem,
        trace_getOrAllocFRInVecD, trace_getOrAllocFRInGpX, trace_emit,
        trace_setReg, trace_frUpdatedWithHWReg, trace_freeAllTempExcept,
        trace_update_slowPaths, trace_update_nextLab, stripRegs, Instr.plain]
    · unfold arithBinOp
      simp [slowPaths_frUpdateType, slowPaths_syncAllTempExcept, slowPaths_syncToMem,
        slowPaths_getOrAllocFRInVecD, slowPaths_getOrAllocFRInGpX, slowPaths_emitInstr,
        slowPaths_setReg, slowPaths_frUpdatedWithHWReg, slowPaths_freeAllTempExcept]
  | false =>
    cases hl : isFRKnownNumber s frLeft with
    | true =>
      cases hr : isFRKnownNumber s frRight with
      | true =>
        constructor
        · unfold arithBinOp
          simp [hl, hr, trace_frUpdateType, trace_syncAllTempExcept, trace_syncToMem,
            trace_getOrAllocFRInVecD, trace_getOrAllocFRInGpX, trace_emit,
            trace_setReg, trace_frUpdatedWithHWReg, trace_freeAllTempExcept,
            trace_update_slowPaths, trace_update_nextLab, stripRegs, Instr.plain]
        · unfold arithBinOp
          simp [hl, hr, slowPaths_frUpdateType, slowPaths_syncAllTempExcept,
            slowPaths_syncToMem, slowPaths_getOrAllocFRInVecD,
            slowPaths_getOrAllocFRInGpX, slowPaths_emitInstr, slowPaths_setReg,
            slowPaths_frUpdatedWithHWReg, slowPaths_freeAllTempExcept]
      | false =>
        constructor
        · unfold arithBinOp
          simp [hl, hr, trace_frUpdateType, trace_syncAllTempExcept, trace_syncToMem,
            trace_getOrAllocFRInVecD, trace_getOrAllocFRInGpX, trace_emit,
            trace_setReg, trace_frUpdatedWithHWReg, trace_freeAllTempExcept,
            trace_update_slowPaths, trace_update_nextLab, stripRegs, Instr.plain]
        · unfold arithBinOp
          simp [hl, hr, slowPaths_frUpdateType, slowPaths_syncAllTempExcept,
            slowPaths_syncToMem, slowPaths_getOrAllocFRInVecD,
            slowPaths_getOrAllocFRInGpX, slowPaths_emitInstr, slowPaths_setReg,
            slowPaths_frUpdatedWithHWReg, slowPaths_freeAllTempExcept, stripSP]
    | false =>
      cases hr : isFRKnownNumber s frRight with
      | true =>
        constructor
        · unfold arithBinOp
          simp [hl, hr, trace_frUpdateType, trace_syncAllTempExcept, trace_syncToMem,
            trace_getOrAllocFRInVecD, trace_getOrAllocFRInGpX, trace_emit,
            trace_setReg, trace_frUpdatedWithHWReg, trace_freeAllTempExcept,
            trace_update_slowPaths, trace_update_nextLab, stripRegs, Instr.plain]
        · unfold arithBinOp
          simp [hl, hr, slowPaths_frUpdateType, slowPaths_syncAllTempExcept,
            slowPaths_syncToMem, slowPaths_getOrAllocFRInVecD,
            slowPaths_getOrAllocFRInGpX, slowPaths_emitInstr, slowPaths_setReg,
            slowPaths_frUpdatedWithHWReg, slowPaths_freeAllTempExcept, stripSP]
      | false =>
        constructor
        · unfold arithBinOp
          simp [hl, hr, trace_frUpdateType, trace_syncAllTempExcept, trace_syncToMem,
            trace_getOrAllocFRInVecD, trace_getOrAllocFRInGpX, trace_emit,
            trace_setReg, trace_frUpdatedWithHWReg, trace_freeAllTempExcept,
            trace_update_slowPaths, trace_update_nextLab, stripRegs, Instr.plain]
        · unfold arithBinOp
          simp [hl, hr, slowPaths_frUpdateType, slowPaths_syncAllTempExcept,
            slowPaths_syncToMem, slowPaths_getOrAllocFRInVecD,
            slowPaths_getOrAllocFRInGpX, slowPaths_emitInstr, slowPaths_setReg,
            slowPaths_frUpdatedWithHWReg, slowPaths_freeAllTempExcept, stripSP]

/-- C10: `mov(frRes, frInput)` with `frRes = frInput` is the identity: no
instructions are emitted and the entire binding state (registers, up-to-date
flags, local types, pools, queues) is left unchanged. -/
theorem claim_C10_mov_self_is_noop :
    ∀ (s : EmitState) (fr : Nat) (logComment : Bool), mov s fr fr logComment = s := by
  intro s fr logComment
  simp [mov]

/-! ### C7: the generic call emission

First, preservation of the pool side-invariant `PoolsOK` along the operations
that occur before an allocation inside `Emitter::call`. -/

theorem use_freeList (ra : TempRegAlloc) (i : Nat) :
    (ra.use i).freeList = ra.freeList := by
  unfold TempRegAlloc.use
  split <;> rfl

theorem free_freeList (ra : TempRegAlloc) (i : Nat) :
    (ra.free i).freeList = i :: ra.freeList := rfl

theorem lru_use_sub (ra : TempRegAlloc) (i j : Nat)
    (h : j ∈ (ra.use i).lruList) : j ∈ ra.lruList := by
  unfold TempRegAlloc.use at h
  by_cases hi : i ∈ ra.lruList
  · rw [if_pos hi] at h
    rcases List.mem_append.mp h with h2 | h2
    · exact List.mem_of_mem_erase h2
    · rw [List.mem_singleton.mp h2]
      exact hi
  · rw [if_neg hi] at h
    exact h

theorem lru_free_sub (ra : TempRegAlloc) (i j : Nat)
    (h : j ∈ (ra.free i).lruList) : j ∈ ra.lruList := by
  unfold TempRegAlloc.free at h
  exact List.mem_of_mem_erase h

theorem lru_allocSpecific_sub (ra : TempRegAlloc) (i j : Nat)
    (h : j ∈ (ra.allocSpecific i).lruList) : j ∈ ra.lruList ∨ j = i := by
  unfold TempRegAlloc.allocSpecific at h
  rcases List.mem_append.mp h with h2 | h2
  · exact Or.inl (List.mem_of_mem_erase h2)
  · exact Or.inr (List.mem_singleton.mp h2)

theorem poolsOK_of_eq {s2 s : EmitState} (hg : s2.gpTemp = s.gpTemp)
    (hv : s2.vecTemp = s.vecTemp) (h : PoolsOK s) : PoolsOK s2 := by
  unfold PoolsOK at h ⊢
  rw [hg, hv]
  exact h

theorem poolsOK_useReg (s : EmitState) (h : HWReg) (hp : PoolsOK s) :
    PoolsOK (useReg s h) := by
  cases h with
  | invalid => exact hp
  | reg c i =>
    cases c with
    | gp =>
      show PoolsOK
        (if isTempIdx .gp i then { s with gpTemp := s.gpTemp.use i } else s)
      by_cases ht : isTempIdx RegClass.gp i = true
      · rw [if_pos ht]
        refine ⟨?_, hp.2.1, ?_, hp.2.2.2⟩
        · intro j hj
          exact hp.1 j (lru_use_sub _ i j hj)
        · show (s.gpTemp.use i).freeList.Nodup
          rw [use_freeList]
          exact hp.2.2.1
      · rw [if_neg ht]
        exact hp
    | vec =>
      show PoolsOK
        (if isTempIdx .vec i then { s with vecTemp := s.vecTemp.use i } else s)
      by_cases ht : isTempIdx RegClass.vec i = true
      · rw [if_pos ht]
        refine ⟨hp.1, ?_, hp.2.2.1, ?_⟩
        · intro j hj
          exact hp.2.1 j (lru_use_sub _ i j hj)
        · show (s.vecTemp.use i).freeList.Nodup
          rw [use_freeList]
          exact hp.2.2.2
      · rw [if_neg ht]
        exact hp

theorem poolsOK_foldl {α : Type} (f : EmitState → α → EmitState)
    (hf : ∀ s2 a, PoolsOK s2 → PoolsOK (f s2 a)) (l : List α) :
    ∀ s, PoolsOK s → PoolsOK (l.foldl f s) := by
  induction l with
  | nil =>
    intro s hp
    exact hp
  | cons a t ih =>
    intro s hp
    rw [List.foldl_cons]
    exact ih (f s a) (hf s a hp)

theorem poolsOK_movHWReg (u : Bool) (s : EmitState) (d sr : HWReg)
    (hp : PoolsOK s) : PoolsOK (movHWReg u s d sr) := by
  unfold movHWReg
  dsimp only
  have h1 : PoolsOK
      (if d ≠ sr then setReg (emitInstr s (.movReg d sr)) d (s.rd sr) else s) := by
    split
    · exact poolsOK_of_eq ((setReg_gpTemp _ _ _).trans rfl)
        ((setReg_vecTemp _ _ _).trans rfl) hp
    · exact hp
  cases u with
  | true =>
    rw [if_pos rfl]
    exact poolsOK_useReg _ d (poolsOK_useReg _ sr h1)
  | false =>
    rw [if_neg (by decide : ¬(false = true))]
    exact h1

theorem poolsOK_storeHW (s : EmitState) (fr : Nat) (src : HWReg)
    (hp : PoolsOK s) : PoolsOK (_storeHWRegToFrame s fr src) :=
  poolsOK_of_eq (storeHWRegToFrame_sem s fr src).2.2.2.2.2.2.1
    (storeHWRegToFrame_sem s fr src).2.2.2.2.2.2.2 hp

theorem poolsOK_setFRState (s : EmitState) (fr : Nat) (f : FRState → FRState)
    (hp : PoolsOK s) : PoolsOK (setFRState s fr f) :=
  poolsOK_of_eq (setFRState_proj s fr f).2.2.2.2.1
    (setFRState_proj s fr f).2.2.2.2.2.1 hp

theorem poolsOK_spillTempReg (s : EmitState) (h : HWReg) (hp : PoolsOK s) :
    PoolsOK (spillTempReg s h) :=
  poolsOK_of_eq (spillTempReg_pools s h).1 (spillTempReg_pools s h).2 hp

theorem poolsOK_freeReg_gp (s : EmitState) (i : Nat)
    (hnf : i ∉ s.gpTemp.freeList) (hp : PoolsOK s) :
    PoolsOK (freeReg s (.reg .gp i)) := by
  unfold freeReg
  dsimp only
  have key : ∀ s2 : EmitState, s2.gpTemp = s.gpTemp → s2.vecTemp = s.vecTemp →
      PoolsOK (if isTempIdx RegClass.gp i = true then
        { s2 with gpTemp := s2.gpTemp.free i } else s2) := by
    intro s2 e1 e2
    by_cases ht : isTempIdx RegClass.gp i = true
    · rw [if_pos ht]
      refine ⟨?_, ?_, ?_, ?_⟩
      · intro j hj
        have hj2 : j ∈ (s2.gpTemp.free i).lruList := hj
        rw [e1] at hj2
        exact hp.1 j (lru_free_sub _ _ _ hj2)
      · show ∀ j ∈ s2.vecTemp.lruList, isTempIdx RegClass.vec j = true
        rw [e2]
        exact hp.2.1
      · show (s2.gpTemp.free i).freeList.Nodup
        rw [e1, free_freeList]
        exact List.nodup_cons.mpr ⟨hnf, hp.2.2.1⟩
      · show s2.vecTemp.freeList.Nodup
        rw [e2]
        exact hp.2.2.2
    · rw [if_neg ht]
      exact poolsOK_of_eq e1 e2 hp
  cases hcc : s.hwContains RegClass.gp i with
  | none => exact key _ rfl rfl
  | some fr =>
    dsimp only
    exact key _ ((setFRState_proj _ _ _).2.2.2.2.1.trans rfl)
      ((setFRState_proj _ _ _).2.2.2.2.2.1.trans rfl)

theorem poolsOK_free_gp_upd (M base : EmitState) (k : Nat)
    (eg : M.gpTemp = base.gpTemp) (ev : M.vecTemp = base.vecTemp)
    (hnf : k ∉ base.gpTemp.freeList) (hp : PoolsOK base) :
    PoolsOK { M with gpTemp := M.gpTemp.free k } := by
  refine ⟨?_, ?_, ?_, ?_⟩
  · intro j hj
    have hj2 : j ∈ (M.gpTemp.free k).lruList := hj
    rw [eg] at hj2
    exact hp.1 j (lru_free_sub _ _ _ hj2)
  · show ∀ j ∈ M.vecTemp.lruList, isTempIdx RegClass.vec j = true
    rw [ev]
    exact hp.2.1
  · show (M.gpTemp.free k).freeList.Nodup
    rw [eg, free_freeList]
    exact List.nodup_cons.mpr ⟨hnf, hp.2.2.1⟩
  · show M.vecTemp.freeList.Nodup
    rw [ev]
    exact hp.2.2.2

theorem poolsOK_free_vec_upd (M base : EmitState) (k : Nat)
    (eg : M.gpTemp = base.gpTemp) (ev : M.vecTemp = base.vecTemp)
    (hnf : k ∉ base.vecTemp.freeList) (hp : PoolsOK base) :
    PoolsOK { M with vecTemp := M.vecTemp.free k } := by
  refine ⟨?_, ?_, ?_, ?_⟩
  · show ∀ j ∈ M.gpTemp.lruList, isTempIdx RegClass.gp j = true
    rw [eg]
    exact hp.1
  · intro j hj
    have hj2 : j ∈ (M.vecTemp.free k).lruList := hj
    rw [ev] at hj2
    exact hp.2.1 j (lru_free_sub _ _ _ hj2)
  · show M.gpTemp.freeList.Nodup
    rw [eg]
    exact hp.2.2.1
  · show (M.vecTemp.free k).freeList.Nodup
    rw [ev, free_freeList]
    exact List.nodup_cons.mpr ⟨hnf, hp.2.2.2⟩

theorem poolsOK_freeReg_vec (s : EmitState) (i : Nat)
    (hnf : i ∉ s.vecTemp.freeList) (hp : PoolsOK s) :
    PoolsOK (freeReg s (.reg .vec i)) := by
  unfold freeReg
  dsimp only
  have key : ∀ s2 : EmitState, s2.gpTemp = s.gpTemp → s2.vecTemp = s.vecTemp →
      PoolsOK (if isTempIdx RegClass.vec i = true then
        { s2 with vecTemp := s2.vecTemp.free i } else s2) := by
    intro s2 e1 e2
    by_cases ht : isTempIdx RegClass.vec i = true
    · rw [if_pos ht]
      refine ⟨?_, ?_, ?_, ?_⟩
      · show ∀ j ∈ s2.gpTemp.lruList, isTempIdx RegClass.gp j = true
        rw [e1]
        exact hp.1
      · intro j hj
        have hj2 : j ∈ (s2.vecTemp.free i).lruList := hj
        rw [e2] at hj2
        exact hp.2.1 j (lru_free_sub _ _ _ hj2)
      · show s2.gpTemp.freeList.Nodup
        rw [e1]
        exact hp.2.2.1
      · show (s2.vecTemp.free i).freeList.Nodup
        rw [e2, free_freeList]
        exact List.nodup_cons.mpr ⟨hnf, hp.2.2.2⟩
    · rw [if_neg ht]
      exact poolsOK_of_eq e1 e2 hp
  cases hcc : s.hwContains RegClass.vec i with
  | none => exact key _ rfl rfl
  | some fr =>
    dsimp only
    exact key _ ((setFRState_proj _ _ _).2.2.2.2.1.trans rfl)
      ((setFRState_proj _ _ _).2.2.2.2.2.1.trans rfl)

/-- Freeing a GP register does not touch the Vec pool. -/
theorem freeReg_gp_vecTemp (s : EmitState) (i : Nat) :
    (freeReg s (.reg .gp i)).vecTemp = s.vecTemp := by
  unfold freeReg
  dsimp only
  have key : ∀ s2 : EmitState, s2.vecTemp = s.vecTemp →
      ((if isTempIdx RegClass.gp i = true then
        { s2 with gpTemp := s2.gpTemp.free i } else s2)).vecTemp = s.vecTemp := by
    intro s2 e
    split
    · exact e
    · exact e
  cases hcc : s.hwContains RegClass.gp i with
  | none => exact key _ rfl
  | some fr =>
    dsimp only
    exact key _ ((setFRState_proj _ _ _).2.2.2.2.2.1.trans rfl)

/-- Freeing a GP register never touches the `localVecD` field of any record. -/
theorem freeReg_localVecD_eq (s : EmitState) (i : Nat) (fr2 : Nat) :
    ((freeReg s (.reg .gp i)).frameRegs fr2).localVecD =
      (s.frameRegs fr2).localVecD := by
  unfold freeReg
  dsimp only
  have key : ∀ s2 : EmitState,
      (s2.frameRegs fr2).localVecD = (s.frameRegs fr2).localVecD →
      (((if isTempIdx RegClass.gp i = true then
        { s2 with gpTemp := s2.gpTemp.free i } else s2)).frameRegs fr2).localVecD =
      (s.frameRegs fr2).localVecD := by
    intro s2 e
    split
    · exact e
    · exact e
  cases hcc : s.hwContains RegClass.gp i with
  | none => exact key _ rfl
  | some fr =>
    dsimp only
    refine key _ ?_
    rw [setFRState_frameRegs]
    by_cases hf2 : fr2 = fr
    · subst hf2
      rw [upd1_same]
    · rw [upd1_other _ _ _ hf2]

theorem poolsOK_clearContains (s : EmitState) (h : HWReg) (hp : PoolsOK s) :
    PoolsOK (clearContains s h) := by
  cases h with
  | invalid => exact hp
  | reg c i => exact poolsOK_of_eq rfl rfl hp

theorem poolsOK_frUpdatedCore (s : EmitState) (fr : Nat) (h : HWReg)
    (hWF : WF s) (hfr : fr < s.nRegs) (hp : PoolsOK s) :
    PoolsOK (frUpdatedCore s fr h) := by
  obtain ⟨b1, b2, _⟩ := WFfr_spec (hWF.1 fr hfr)
  have hgx : (s.frameRegs fr).localGpX = HWReg.invalid ∨
      ∃ i, (s.frameRegs fr).localGpX = .reg .gp i ∧ i ∉ s.gpTemp.freeList := by
    rcases localBindingOK_spec b1 with e | ⟨i, e, ht, hc⟩
    · exact Or.inl e
    · refine Or.inr ⟨i, e, ?_⟩
      intro hmem
      have h2 := (hWF.2.2.2.1 i hmem).2
      rw [hc] at h2
      exact Option.noConfusion h2
  have hvd : (s.frameRegs fr).localVecD = HWReg.invalid ∨
      ∃ i, (s.frameRegs fr).localVecD = .reg .vec i ∧ i ∉ s.vecTemp.freeList := by
    rcases localBindingOK_spec b2 with e | ⟨i, e, ht, hc⟩
    · exact Or.inl e
    · refine Or.inr ⟨i, e, ?_⟩
      intro hmem
      have h2 := (hWF.2.2.2.2 i hmem).2
      rw [hc] at h2
      exact Option.noConfusion h2
  unfold frUpdatedCore
  dsimp only
  generalize hg2 : setFRState { s with latest := upd1 s.latest fr (s.rd h) } fr
    (fun st => { st with frameUpToDate := false }) = s2
  have e2gx : (s2.frameRegs fr).localGpX = (s.frameRegs fr).localGpX := by
    rw [← hg2, setFRState_frameRegs, upd1_same]
  have e2vd : (s2.frameRegs fr).localVecD = (s.frameRegs fr).localVecD := by
    rw [← hg2, setFRState_frameRegs, upd1_same]
  have e2g : s2.gpTemp = s.gpTemp := by
    rw [← hg2]
    rfl
  have e2v : s2.vecTemp = s.vecTemp := by
    rw [← hg2]
    rfl
  have hp2 : PoolsOK s2 := poolsOK_of_eq e2g e2v hp
  by_cases hGR : (s2.frameRegs fr).globalReg = h
  · rw [if_pos hGR]
    generalize hg3 : setFRState s2 fr
      (fun st => { st with globalRegUpToDate := true }) = s3
    have e3gx : (s3.frameRegs fr).localGpX = (s.frameRegs fr).localGpX := by
      rw [← hg3, setFRState_frameRegs, upd1_same]
      exact e2gx
    have e3vd : (s3.frameRegs fr).localVecD = (s.frameRegs fr).localVecD := by
      rw [← hg3, setFRState_frameRegs, upd1_same]
      exact e2vd
    have e3g : s3.gpTemp = s.gpTemp := by
      rw [← hg3, (setFRState_proj _ _ _).2.2.2.2.1]
      exact e2g
    have e3v : s3.vecTemp = s.vecTemp := by
      rw [← hg3, (setFRState_proj _ _ _).2.2.2.2.2.1]
      exact e2v
    have hp3 : PoolsOK s3 := poolsOK_of_eq e3g e3v hp
    rcases hgx with egx | ⟨i, egx, hnf⟩
    · rw [e3gx, egx,
        if_neg (by decide : ¬(HWReg.invalid.isValid = true))]
      rcases hvd with evd | ⟨k, evd, hnfv⟩
      · rw [e3vd, evd,
          if_neg (by decide : ¬(HWReg.invalid.isValid = true))]
        exact hp3
      · rw [e3vd, evd,
          if_pos (show (HWReg.reg RegClass.vec k).isValid = true from rfl)]
        refine poolsOK_freeReg_vec s3 k ?_ hp3
        rw [e3v]
        exact hnfv
    · rw [e3gx, egx,
        if_pos (show (HWReg.reg RegClass.gp i).isValid = true from rfl)]
      have hp4 : PoolsOK (freeReg s3 (.reg .gp i)) := by
        refine poolsOK_freeReg_gp s3 i ?_ hp3
        rw [e3g]
        exact hnf
      rw [freeReg_localVecD_eq, e3vd]
      rcases hvd with evd | ⟨k, evd, hnfv⟩
      · rw [evd, if_neg (by decide : ¬(HWReg.invalid.isValid = true))]
        exact hp4
      · rw [evd,
          if_pos (show (HWReg.reg RegClass.vec k).isValid = true from rfl)]
        refine poolsOK_freeReg_vec _ k ?_ hp4
        rw [freeReg_gp_vecTemp, e3v]
        exact hnfv
  · rw [if_neg hGR]
    generalize hg3 : setFRState s2 fr
      (fun st => { st with globalRegUpToDate := false }) = s3
    have e3gx : (s3.frameRegs fr).localGpX = (s.frameRegs fr).localGpX := by
      rw [← hg3, setFRState_frameRegs, upd1_same]
      exact e2gx
    have e3vd : (s3.frameRegs fr).localVecD = (s.frameRegs fr).localVecD := by
      rw [← hg3, setFRState_frameRegs, upd1_same]
      exact e2vd
    have e3g : s3.gpTemp = s.gpTemp := by
      rw [← hg3, (setFRState_proj _ _ _).2.2.2.2.1]
      exact e2g
    have e3v : s3.vecTemp = s.vecTemp := by
      rw [← hg3, (setFRState_proj _ _ _).2.2.2.2.2.1]
      exact e2v
    have hp3 : PoolsOK s3 := poolsOK_of_eq e3g e3v hp
    split
    · rcases hvd with evd | ⟨k, evd, hnfv⟩
      · rw [e3vd, evd]
        exact hp3
      · rw [e3vd, evd]
        refine poolsOK_freeReg_vec s3 k ?_ hp3
        rw [e3v]
        exact hnfv
    · rcases hgx with egx | ⟨i, egx, hnf⟩
      · rw [e3gx, egx]
        exact hp3
      · rw [e3gx, egx]
        refine poolsOK_freeReg_gp s3 i ?_ hp3
        rw [e3g]
        exact hnf

theorem poolsOK_frUpdatedWithHWReg (s : EmitState) (fr : Nat) (h : HWReg)
    (t : Option FRType) (hWF : WF s) (hfr : fr < s.nRegs) (hp : PoolsOK s) :
    PoolsOK (frUpdatedWithHWReg s fr h t) := by
  cases t with
  | none => exact poolsOK_frUpdatedCore s fr h hWF hfr hp
  | some ty =>
    show PoolsOK (frUpdateType (frUpdatedCore s fr h) fr ty)
    unfold frUpdateType
    exact poolsOK_setFRState _ fr _ (poolsOK_frUpdatedCore s fr h hWF hfr hp)

/-- The second (Vec) half of `freeFRTemp` preserves the pool invariant. -/
theorem freeFRTemp_snd_pools (S1 base : EmitState) (fr : Nat)
    (evd : (S1.frameRegs fr).localVecD = (base.frameRegs fr).localVecD)
    (hvd : (base.frameRegs fr).localVecD = HWReg.invalid ∨
      ∃ k, (base.frameRegs fr).localVecD = .reg .vec k ∧ k ∉ base.vecTemp.freeList)
    (ev : S1.vecTemp = base.vecTemp) (hp1 : PoolsOK S1) :
    PoolsOK (if (S1.frameRegs fr).localVecD.isValid = true then
      setFRState { clearContains S1 ((S1.frameRegs fr).localVecD) with
        vecTemp := (clearContains S1 ((S1.frameRegs fr).localVecD)).vecTemp.free
          ((S1.frameRegs fr).localVecD.indexInClass) } fr
        (fun st3 => { st3 with localVecD := .invalid }) else S1) := by
  rcases hvd with evd2 | ⟨k, evd2, hnfv⟩
  · rw [evd, evd2, if_neg (by decide : ¬(HWReg.invalid.isValid = true))]
    exact hp1
  · rw [evd, evd2,
      if_pos (show (HWReg.reg RegClass.vec k).isValid = true from rfl)]
    refine poolsOK_setFRState _ fr _ ?_
    refine poolsOK_free_vec_upd _ S1 k rfl rfl ?_ hp1
    rw [ev]
    exact hnfv

theorem poolsOK_freeFRTemp (s : EmitState) (fr : Nat)
    (hWF : WF s) (hfr : fr < s.nRegs) (hp : PoolsOK s) :
    PoolsOK (freeFRTemp s fr) := by
  obtain ⟨b1, b2, _⟩ := WFfr_spec (hWF.1 fr hfr)
  have hgx : (s.frameRegs fr).localGpX = HWReg.invalid ∨
      ∃ i, (s.frameRegs fr).localGpX = .reg .gp i ∧ i ∉ s.gpTemp.freeList := by
    rcases localBindingOK_spec b1 with e | ⟨i, e, ht, hc⟩
    · exact Or.inl e
    · refine Or.inr ⟨i, e, ?_⟩
      intro hmem
      have h2 := (hWF.2.2.2.1 i hmem).2
      rw [hc] at h2
      exact Option.noConfusion h2
  have hvd : (s.frameRegs fr).localVecD = HWReg.invalid ∨
      ∃ k, (s.frameRegs fr).localVecD = .reg .vec k ∧ k ∉ s.vecTemp.freeList := by
    rcases localBindingOK_spec b2 with e | ⟨i, e, ht, hc⟩
    · exact Or.inl e
    · refine Or.inr ⟨i, e, ?_⟩
      intro hmem
      have h2 := (hWF.2.2.2.2 i hmem).2
      rw [hc] at h2
      exact Option.noConfusion h2
  unfold freeFRTemp
  dsimp only
  rcases hgx with egx | ⟨i, egx, hnf⟩
  · rw [egx, if_neg (by decide : ¬(HWReg.invalid.isValid = true))]
    exact freeFRTemp_snd_pools s s fr rfl hvd rfl hp
  · rw [egx,
      if_pos (show (HWReg.reg RegClass.gp i).isValid = true from rfl)]
    refine freeFRTemp_snd_pools _ s fr ?_ hvd ?_ ?_
    · rw [setFRState_frameRegs, upd1_same]
      rfl
    · rw [(setFRState_proj _ _ _).2.2.2.2.2.1]
      rfl
    · refine poolsOK_setFRState _ fr _ ?_
      exact poolsOK_free_gp_upd (clearContains s (.reg .gp i)) s i rfl rfl hnf hp

theorem poolsOK_isFRInRegister (s : EmitState) (fr : Nat) (hp : PoolsOK s) :
    PoolsOK (isFRInRegister s fr).2 := by
  unfold isFRInRegister
  dsimp only
  split
  · exact poolsOK_useReg _ _ hp
  · split
    · exact poolsOK_useReg _ _ hp
    · split
      · exact hp
      · exact hp

theorem poolsOK_syncToMem (s : EmitState) (fr : Nat) (hp : PoolsOK s) :
    PoolsOK (syncToMem s fr) := by
  unfold syncToMem
  dsimp only
  split
  · exact hp
  · refine poolsOK_storeHW _ fr _ ?_
    split
    · refine poolsOK_setFRState _ fr _ ?_
      exact poolsOK_movHWReg _ _ _ _ (poolsOK_isFRInRegister s fr hp)
    · exact poolsOK_isFRInRegister s fr hp

theorem poolsOK_syncTempGpStep (e : Option Nat) (s : EmitState) (i : Nat)
    (hp : PoolsOK s) : PoolsOK (syncTempGpStep e s i) := by
  unfold syncTempGpStep
  dsimp only
  cases hcc : s.hwContains RegClass.gp i with
  | none => exact hp
  | some fr =>
    dsimp only
    split
    · exact hp
    · split
      · split
        · exact poolsOK_setFRState _ fr _ (poolsOK_movHWReg _ _ _ _ hp)
        · exact hp
      · split
        · exact poolsOK_storeHW _ fr _ hp
        · exact hp

theorem poolsOK_syncTempVecStep (e : Option Nat) (s : EmitState) (i : Nat)
    (hp : PoolsOK s) : PoolsOK (syncTempVecStep e s i) := by
  unfold syncTempVecStep
  dsimp only
  cases hcc : s.hwContains RegClass.vec i with
  | none => exact hp
  | some fr =>
    dsimp only
    split
    · exact hp
    · split
      · exact hp
      · split
        · split
          · exact poolsOK_setFRState _ fr _ (poolsOK_movHWReg _ _ _ _ hp)
          · exact hp
        · split
          · exact poolsOK_storeHW _ fr _ hp
          · exact hp

theorem poolsOK_syncAllTempExcept (s : EmitState) (e : Option Nat)
    (hp : PoolsOK s) : PoolsOK (syncAllTempExcept s e) := by
  unfold syncAllTempExcept
  exact poolsOK_foldl _ (fun s2 a => poolsOK_syncTempVecStep e s2 a) _ _
    (poolsOK_foldl _ (fun s2 a => poolsOK_syncTempGpStep e s2 a) _ s hp)

/-- A register-to-register move preserves well-formedness (it touches no
binding state). -/
theorem WF_quietMov (u : Bool) (s : EmitState) (d sr : HWReg) (hWF : WF s) :
    WF (movHWReg u s d sr) :=
  WF_congr (movHWReg_proj u s d sr).2.2.2.2.1
    (fun fr2 => by
      rw [(movHWReg_proj u s d sr).1]
      exact ⟨rfl, rfl, rfl⟩)
    (fun c i => by rw [(movHWReg_proj u s d sr).2.2.2.1])
    (movHWReg_proj u s d sr).2.2.2.2.2.1 (movHWReg_proj u s d sr).2.2.2.2.2.2 hWF

theorem poolsOK_movFRFromHW (s : EmitState) (dst : Nat) (src : HWReg)
    (t : Option FRType) (hWF : WF s) (hdst : dst < s.nRegs) (hp : PoolsOK s) :
    PoolsOK (movFRFromHW s dst src t) := by
  unfold movFRFromHW
  dsimp only
  split
  · refine poolsOK_frUpdatedWithHWReg _ dst _ t (WF_quietMov false s _ src hWF) ?_
      (poolsOK_movHWReg false s _ src hp)
    rw [(movHWReg_proj _ _ _ _).2.2.2.2.1]
    exact hdst
  · split
    · refine poolsOK_frUpdatedWithHWReg _ dst _ t (WF_quietMov false s _ src hWF) ?_
        (poolsOK_movHWReg false s _ src hp)
      rw [(movHWReg_proj _ _ _ _).2.2.2.2.1]
      exact hdst
    · split
      · refine poolsOK_frUpdatedWithHWReg _ dst _ t (WF_quietMov false s _ src hWF) ?_
          (poolsOK_movHWReg false s _ src hp)
        rw [(movHWReg_proj _ _ _ _).2.2.2.2.1]
        exact hdst
      · refine poolsOK_setFRState _ dst _ ?_
        have base : PoolsOK (_storeHWRegToFrame
            { s with latest := upd1 s.latest dst (s.rd src) } dst src) :=
          poolsOK_storeHW _ dst src (poolsOK_of_eq rfl rfl hp)
        cases t with
        | some ty =>
          show PoolsOK (frUpdateType _ dst ty)
          unfold frUpdateType
          exact poolsOK_setFRState _ dst _ base
        | none => exact base

/-! Trace-level lemmas for the call emission. -/

theorem registerCall_emitted (s : EmitState) (fn : Nat) :
    (registerCall s fn).2.emitted = s.emitted := by
  unfold registerCall
  dsimp only
  cases hl : (s.thunkMap.lookup fn : Option Nat) with
  | some idx => rfl
  | none =>
    dsimp only
    show (reserveData s 8 8).2.emitted = s.emitted
    unfold reserveData
    dsimp only
    split <;> rfl

theorem trace_registerCall (s : EmitState) (fn : Nat) :
    trace (registerCall s fn).2 = trace s := by
  unfold trace
  rw [registerCall_emitted]

theorem trace_callFn (s : EmitState) (fn : Nat) :
    trace (callFn s fn) = trace s ++ [Instr.callHelper fn] := by
  unfold callFn
  dsimp only
  rw [trace_emit, trace_registerCall]
  rfl

theorem trace_emitMovRuntimeArg (s : EmitState) (dst : Nat) :
    trace (emitMovRuntimeArg s dst) = trace s ++ [Instr.movRuntimeArg dst] := by
  unfold emitMovRuntimeArg
  rw [trace_setReg, trace_emit]
  rfl

theorem trace_emitMovFrameArg (s : EmitState) (dst : Nat) :
    trace (emitMovFrameArg s dst) = trace s ++ [Instr.movFrameArg dst] := by
  unfold emitMovFrameArg
  rw [trace_setReg, trace_emit]
  rfl

theorem trace_emitMovImmArg (s : EmitState) (dst v : Nat) :
    trace (emitMovImmArg s dst v) = trace s ++ [Instr.movImmArg dst v] := by
  unfold emitMovImmArg
  rw [trace_setReg, trace_emit]
  rfl

/-- Everything `callPre` does before the three argument moves is quiet, so the
call site's trace is the incoming trace plus exactly the argument setup. -/
theorem trace_callPre (s : EmitState) (frCallee argc : Nat) :
    trace (callPre s frCallee argc) = trace s ++
      [Instr.movRuntimeArg 0, Instr.movFrameArg 1,
       Instr.movImmArg 2 (w32 (argc + 4294967295))] := by
  unfold callPre
  dsimp only
  rw [trace_emitMovImmArg, trace_emitMovFrameArg, trace_emitMovRuntimeArg]
  rw [trace_quiet (quiet_trans (quiet_trans (quiet_trans (quiet_trans (quiet_trans
      (quiet_trans (quiet_syncAllTempExcept s none)
        (quiet_ite (quiet_trans (quiet_freeFRTemp _ _)
            (quiet_trans (quiet_getOrAllocFRInAnyReg _ _ _ _)
              (quiet_movFRFromHW _ _ _ _)))
          (quiet_refl _)))
      (quiet_loadConstBits64 _ _ _ _))
      (quiet_syncToMem _ _))
      (quiet_syncToMem _ _))
      (quiet_foldl _ (fun s2 i => quiet_syncToMem s2 _) _ _))
      (quiet_freeAllTempExcept _ none))]
  rw [List.append_assoc, List.append_assoc]
  rfl

/-- `call` emits the three argument moves and then exactly one `bl` to the
`_sh_ljs_call` helper (everything else it emits is plain data moves). -/
theorem trace_call (s : EmitState) (frRes frCallee argc : Nat) :
    trace (call s frRes frCallee argc) = trace s ++
      [Instr.movRuntimeArg 0, Instr.movFrameArg 1,
       Instr.movImmArg 2 (w32 (argc + 4294967295)),
       Instr.callHelper shLjsCall] := by
  unfold call
  dsimp only
  rw [trace_frUpdatedWithHWReg, trace_movHWReg, trace_getOrAllocFRInAnyReg,
    trace_callFn, trace_callPre, List.append_assoc]
  rfl

/-- The immediate passed for the argument count: adding `UINT32_MAX` in 32-bit
arithmetic subtracts the implicit `this` from the bytecode count. -/
theorem w32_argcount (argc : Nat) (h1 : 1 ≤ argc) (h2 : argc < 4294967296) :
    w32 (argc + 4294967295) = argc - 1 := by
  unfold w32
  omega

/-! Allocation preserves the binding invariant. -/

/-- Under `PoolsOK`, the LRU eviction victim of the GP pool is a temporary. -/
theorem lru_temp_of_poolsOK_gp (s : EmitState) (hp : PoolsOK s) :
    isTempIdx RegClass.gp ((getPool s RegClass.gp).leastRecentlyUsed) = true := by
  show isTempIdx RegClass.gp (s.gpTemp.leastRecentlyUsed) = true
  unfold TempRegAlloc.leastRecentlyUsed
  cases hl : s.gpTemp.lruList with
  | nil => decide
  | cons a t =>
    show isTempIdx RegClass.gp a = true
    refine hp.1 a ?_
    rw [hl]
    exact List.mem_cons_self a t

/-- Replacing the GP pool preserves the invariant provided every index on the
new free list is an unowned temporary. -/
theorem good_setPool_gp (s : EmitState) (ra : TempRegAlloc)
    (hok : ∀ j ∈ ra.freeList, isTempIdx RegClass.gp j = true ∧
      s.hwContains RegClass.gp j = none)
    (hGood : Good s) : Good (setPool s RegClass.gp ra) := by
  obtain ⟨⟨h1, h2, h3, h4, h5⟩, hInv⟩ := hGood
  refine ⟨⟨?_, ?_, ?_, ?_, ?_⟩, ?_⟩
  · intro fr hlt
    obtain ⟨w1, w2, w3⟩ := WFfr_spec (h1 fr hlt)
    apply WFfr_of
    · rw [localBindingOK_congr (fun c2 i => rfl)]
      exact w1
    · rw [localBindingOK_congr (fun c2 i => rfl)]
      exact w2
    · exact w3
  · intro i hi
    refine ⟨?_, ?_⟩
    · apply WFcontains_of
      intro fr hcont
      exact WFcontains_spec (h2 i hi).1 hcont
    · apply WFcontains_of
      intro fr hcont
      exact WFcontains_spec (h2 i hi).2 hcont
  · intro fr1 hf1 fr2 hf2 hne hval
    exact h3 fr1 hf1 fr2 hf2 hne hval
  · intro i hi
    exact hok i hi
  · intro i hi
    exact h5 i hi
  · intro fr hlt
    exact FRInv_congr rfl rfl rfl rfl rfl rfl (hInv fr hlt)

/-- `Emitter::allocTempGpX`: the allocated register is an unowned temporary,
the invariant and the pool side-invariant are preserved, the ghost values are
untouched, and the record of any FR with no local GpX is unchanged (only a
spill victim's record can change, and a victim always has a local GpX). -/
theorem allocTempGp_good (s : EmitState) (hGood : Good s) (hp : PoolsOK s) :
    ∃ r, (_allocTemp s RegClass.gp none).1 = HWReg.reg RegClass.gp r ∧
      isTempIdx RegClass.gp r = true ∧
      Good (_allocTemp s RegClass.gp none).2 ∧
      PoolsOK (_allocTemp s RegClass.gp none).2 ∧
      (_allocTemp s RegClass.gp none).2.hwContains RegClass.gp r = none ∧
      r ∉ (_allocTemp s RegClass.gp none).2.gpTemp.freeList ∧
      (_allocTemp s RegClass.gp none).2.nRegs = s.nRegs ∧
      (_allocTemp s RegClass.gp none).2.latest = s.latest ∧
      (∀ fr2, (s.frameRegs fr2).localGpX.isValid = false →
        (_allocTemp s RegClass.gp none).2.frameRegs fr2 = s.frameRegs fr2) := by
  have hpr0 : Option.map HWReg.indexInClass (none : Option HWReg) =
      (none : Option Nat) := rfl
  cases hfl : s.gpTemp.freeList with
  | cons i t =>
    have halloc : (getPool s RegClass.gp).alloc none =
        (some i, (getPool s RegClass.gp).allocSpecific i) := by
      unfold TempRegAlloc.alloc
      dsimp only
      rw [show (getPool s RegClass.gp).freeList = i :: t from hfl]
    have hred : _allocTemp s RegClass.gp none =
        (HWReg.reg RegClass.gp i,
         setPool s RegClass.gp ((getPool s RegClass.gp).allocSpecific i)) := by
      unfold _allocTemp
      dsimp only
      rw [hpr0, halloc]
    have hmem : i ∈ s.gpTemp.freeList := by
      rw [hfl]
      exact List.mem_cons_self i t
    have hti : isTempIdx RegClass.gp i = true := (hGood.1.2.2.2.1 i hmem).1
    have hcc : s.hwContains RegClass.gp i = none := (hGood.1.2.2.2.1 i hmem).2
    have hGood2 : Good (setPool s RegClass.gp
        ((getPool s RegClass.gp).allocSpecific i)) := by
      refine good_setPool_gp s _ ?_ hGood
      intro j hj
      have hj2 : j ∈ (getPool s RegClass.gp).freeList.erase i := hj
      exact hGood.1.2.2.2.1 j (List.mem_of_mem_erase hj2)
    have hnodup : (i :: t).Nodup := by
      rw [← hfl]
      exact hp.2.2.1
    have hflnew : (setPool s RegClass.gp
        ((getPool s RegClass.gp).allocSpecific i)).gpTemp.freeList = t := by
      show (getPool s RegClass.gp).freeList.erase i = t
      rw [show (getPool s RegClass.gp).freeList = i :: t from hfl,
        List.erase_cons_head]
    refine ⟨i, ?_, hti, ?_, ?_, ?_, ?_, ?_, ?_, ?_⟩
    · rw [hred]
    · rw [hred]
      exact hGood2
    · rw [hred]
      refine ⟨?_, hp.2.1, ?_, hp.2.2.2⟩
      · intro j hj
        have hj2 : j ∈ ((getPool s RegClass.gp).allocSpecific i).lruList := hj
        rcases lru_allocSpecific_sub _ i j hj2 with h2 | h2
        · exact hp.1 j h2
        · rw [h2]
          exact hti
      · show ((getPool s RegClass.gp).allocSpecific i).freeList.Nodup
        show ((getPool s RegClass.gp).freeList.erase i).Nodup
        exact List.Nodup.sublist (List.erase_sublist _ _) hp.2.2.1
    · rw [hred]
      exact hcc
    · rw [hred]
      rw [hflnew]
      exact (List.nodup_cons.mp hnodup).1
    · rw [hred]
      rfl
    · rw [hred]
      rfl
    · intro fr2 _
      rw [hred]
      rfl
  | nil =>
    have halloc : (getPool s RegClass.gp).alloc none =
        (none, getPool s RegClass.gp) := by
      unfold TempRegAlloc.alloc
      dsimp only
      rw [show (getPool s RegClass.gp).freeList = [] from hfl]
    have hlru : isTempIdx RegClass.gp
        ((getPool s RegClass.gp).leastRecentlyUsed) = true :=
      lru_temp_of_poolsOK_gp s hp
    have hsel : (_allocTemp s RegClass.gp none).1 =
        HWReg.reg RegClass.gp ((getPool s RegClass.gp).leastRecentlyUsed) := by
      unfold _allocTemp
      dsimp only
      rw [hpr0, halloc]
      dsimp only
      rw [getPool_setPool, getPool_spill]
      rw [show ((getPool s RegClass.gp).free
          ((getPool s RegClass.gp).leastRecentlyUsed)).alloc none =
        (some ((getPool s RegClass.gp).leastRecentlyUsed),
         ((getPool s RegClass.gp).free
           ((getPool s RegClass.gp).leastRecentlyUsed)).allocSpecific
             ((getPool s RegClass.gp).leastRecentlyUsed)) from rfl]
      rfl
    have hredS : (_allocTemp s RegClass.gp none).2 =
        setPool (setPool (spillTempReg s
            (.reg RegClass.gp ((getPool s RegClass.gp).leastRecentlyUsed)))
          RegClass.gp ((getPool s RegClass.gp).free
            ((getPool s RegClass.gp).leastRecentlyUsed))) RegClass.gp
          (((getPool s RegClass.gp).free
            ((getPool s RegClass.gp).leastRecentlyUsed)).allocSpecific
              ((getPool s RegClass.gp).leastRecentlyUsed)) := by
      unfold _allocTemp
      dsimp only
      rw [hpr0, halloc]
      dsimp only
      rw [getPool_setPool, getPool_spill]
      rw [show ((getPool s RegClass.gp).free
          ((getPool s RegClass.gp).leastRecentlyUsed)).alloc none =
        (some ((getPool s RegClass.gp).leastRecentlyUsed),
         ((getPool s RegClass.gp).free
           ((getPool s RegClass.gp).leastRecentlyUsed)).allocSpecific
             ((getPool s RegClass.gp).leastRecentlyUsed)) from rfl]
    obtain ⟨gS1, latS1, nS1, gpS1, vecS1, othS1, ownS1⟩ :=
      spillTempReg_good s RegClass.gp
        ((getPool s RegClass.gp).leastRecentlyUsed) hGood.1 hGood.2 hlru
    have hccS1 : (spillTempReg s
        (.reg RegClass.gp ((getPool s RegClass.gp).leastRecentlyUsed))).hwContains
          RegClass.gp ((getPool s RegClass.gp).leastRecentlyUsed) = none := by
      rcases spillTempReg_hwContains s RegClass.gp
          ((getPool s RegClass.gp).leastRecentlyUsed) with h2 | ⟨h2, h3⟩
      · rw [h2, upd2_same]
      · rw [h2]
        exact h3
    have hGoodX : Good (setPool (spillTempReg s
        (.reg RegClass.gp ((getPool s RegClass.gp).leastRecentlyUsed)))
        RegClass.gp ((getPool s RegClass.gp).free
          ((getPool s RegClass.gp).leastRecentlyUsed))) := by
      refine good_setPool_gp _ _ ?_ gS1
      intro j hj
      have hj2 : j ∈ ((getPool s RegClass.gp).leastRecentlyUsed) ::
          (getPool s RegClass.gp).freeList := hj
      rcases List.mem_cons.mp hj2 with h2 | h2
      · subst h2
        exact ⟨hlru, hccS1⟩
      · rw [show (getPool s RegClass.gp).freeList = [] from hfl] at h2
        exact absurd h2 (List.not_mem_nil j)
    have hGoodOut : Good (setPool (setPool (spillTempReg s
        (.reg RegClass.gp ((getPool s RegClass.gp).leastRecentlyUsed)))
        RegClass.gp ((getPool s RegClass.gp).free
          ((getPool s RegClass.gp).leastRecentlyUsed))) RegClass.gp
        (((getPool s RegClass.gp).free
          ((getPool s RegClass.gp).leastRecentlyUsed)).allocSpecific
            ((getPool s RegClass.gp).leastRecentlyUsed))) := by
      refine good_setPool_gp _ _ ?_ hGoodX
      intro j hj
      have hj2 : j ∈ (((getPool s RegClass.gp).leastRecentlyUsed) ::
          (getPool s RegClass.gp).freeList).erase
            ((getPool s RegClass.gp).leastRecentlyUsed) := hj
      rw [List.erase_cons_head] at hj2
      rw [show (getPool s RegClass.gp).freeList = [] from hfl] at hj2
      exact absurd hj2 (List.not_mem_nil j)
    have hgp : (_allocTemp s RegClass.gp none).2.gpTemp =
        ((getPool s RegClass.gp).free
          ((getPool s RegClass.gp).leastRecentlyUsed)).allocSpecific
            ((getPool s RegClass.gp).leastRecentlyUsed) := by
      rw [hredS]
      rfl
    have hvec : (_allocTemp s RegClass.gp none).2.vecTemp = s.vecTemp := by
      rw [hredS]
      show (spillTempReg s
        (.reg RegClass.gp ((getPool s RegClass.gp).leastRecentlyUsed))).vecTemp =
          s.vecTemp
      exact vecS1
    have hfl0 : (_allocTemp s RegClass.gp none).2.gpTemp.freeList = [] := by
      rw [hgp]
      show ((((getPool s RegClass.gp).leastRecentlyUsed) ::
        (getPool s RegClass.gp).freeList)).erase
          ((getPool s RegClass.gp).leastRecentlyUsed) = []
      rw [List.erase_cons_head]
      exact hfl
    refine ⟨(getPool s RegClass.gp).leastRecentlyUsed, hsel, hlru, ?_, ?_, ?_,
      ?_, ?_, ?_, ?_⟩
    · rw [hredS]
      exact hGoodOut
    · refine ⟨?_, ?_, ?_, ?_⟩
      · intro j hj
        have hj2 : j ∈ (_allocTemp s RegClass.gp none).2.gpTemp.lruList := hj
        rw [hgp] at hj2
        rcases lru_allocSpecific_sub _ _ _ hj2 with h2 | h2
        · exact hp.1 j (lru_free_sub _ _ _ h2)
        · rw [h2]
          exact hlru
      · intro j hj
        have hj2 : j ∈ (_allocTemp s RegClass.gp none).2.vecTemp.lruList := hj
        rw [hvec] at hj2
        exact hp.2.1 j hj2
      · rw [hfl0]
        exact List.nodup_nil
      · show (_allocTemp s RegClass.gp none).2.vecTemp.freeList.Nodup
        rw [hvec]
        exact hp.2.2.2
    · rw [hredS]
      exact hccS1
    · rw [hfl0]
      exact List.not_mem_nil _
    · rw [hredS]
      exact nS1
    · rw [hredS]
      exact latS1
    · intro fr2 hinv
      rw [hredS]
      refine othS1 fr2 ?_
      intro hcase
      have hcon := (WFcontains_spec (hGood.1.2.1
        ((getPool s RegClass.gp).leastRecentlyUsed) (tempIdx_lt16 hlru)).1
          hcase).2.1 rfl
      rw [hcon] at hinv
      exact Bool.noConfusion hinv

/-- `Emitter::assignAllocatedLocalHWReg` with a freshly allocated unowned
GP temporary: the binding record becomes consistent again (well-formedness),
and everything except the destination's `localGpX` field and the ownership
record of the register is unchanged. -/
theorem assignGp_facts (s : EmitState) (fr r : Nat)
    (hWF : WF s) (hfr : fr < s.nRegs) (htr : isTempIdx RegClass.gp r = true)
    (hfree : s.hwContains RegClass.gp r = none)
    (hnf : r ∉ s.gpTemp.freeList)
    (hlgx : (s.frameRegs fr).localGpX = HWReg.invalid) :
    WF (assignAllocatedLocalHWReg s fr (.reg .gp r)) ∧
    (assignAllocatedLocalHWReg s fr (.reg .gp r)).nRegs = s.nRegs ∧
    (assignAllocatedLocalHWReg s fr (.reg .gp r)).latest = s.latest ∧
    (assignAllocatedLocalHWReg s fr (.reg .gp r)).frameVal = s.frameVal ∧
    (assignAllocatedLocalHWReg s fr (.reg .gp r)).regVal = s.regVal ∧
    (assignAllocatedLocalHWReg s fr (.reg .gp r)).gpTemp = s.gpTemp ∧
    (assignAllocatedLocalHWReg s fr (.reg .gp r)).vecTemp = s.vecTemp ∧
    (assignAllocatedLocalHWReg s fr (.reg .gp r)).frameRegs fr =
      { s.frameRegs fr with localGpX := HWReg.reg RegClass.gp r } ∧
    (∀ fr2, fr2 ≠ fr →
      (assignAllocatedLocalHWReg s fr (.reg .gp r)).frameRegs fr2 =
        s.frameRegs fr2) ∧
    (assignAllocatedLocalHWReg s fr (.reg .gp r)).hwContains RegClass.gp r =
      some fr ∧
    (∀ c2 i2, ¬(c2 = RegClass.gp ∧ i2 = r) →
      (assignAllocatedLocalHWReg s fr (.reg .gp r)).hwContains c2 i2 =
        s.hwContains c2 i2) := by
  have hred : assignAllocatedLocalHWReg s fr (.reg .gp r) =
      setFRState { s with hwContains := upd2 s.hwContains RegClass.gp r (some fr) }
        fr (fun st => { st with localGpX := HWReg.reg RegClass.gp r }) := rfl
  have eF : (assignAllocatedLocalHWReg s fr (.reg .gp r)).frameRegs =
      upd1 s.frameRegs fr
        { s.frameRegs fr with localGpX := HWReg.reg RegClass.gp r } := by
    rw [hred, setFRState_frameRegs]
  have eC : (assignAllocatedLocalHWReg s fr (.reg .gp r)).hwContains =
      upd2 s.hwContains RegClass.gp r (some fr) := by
    rw [hred]
    rfl
  have eFfr : (assignAllocatedLocalHWReg s fr (.reg .gp r)).frameRegs fr =
      { s.frameRegs fr with localGpX := HWReg.reg RegClass.gp r } := by
    rw [eF, upd1_same]
  have eFoth : ∀ fr2, fr2 ≠ fr →
      (assignAllocatedLocalHWReg s fr (.reg .gp r)).frameRegs fr2 =
        s.frameRegs fr2 := by
    intro fr2 hne
    rw [eF, upd1_other _ _ _ hne]
  have eCr : (assignAllocatedLocalHWReg s fr (.reg .gp r)).hwContains
      RegClass.gp r = some fr := by
    rw [eC, upd2_same]
  have eCoth : ∀ c2 i2, ¬(c2 = RegClass.gp ∧ i2 = r) →
      (assignAllocatedLocalHWReg s fr (.reg .gp r)).hwContains c2 i2 =
        s.hwContains c2 i2 := by
    intro c2 i2 hne
    rw [eC, upd2_other _ _ _ _ hne]
  refine ⟨⟨?_, ?_, ?_, ?_, ?_⟩, by rw [hred]; rfl, by rw [hred]; rfl,
    by rw [hred]; rfl, by rw [hred]; rfl, by rw [hred]; rfl, by rw [hred]; rfl,
    eFfr, eFoth, eCr, eCoth⟩
  · intro fr2 hlt
    have hlt2 : fr2 < s.nRegs := hlt
    obtain ⟨w1, w2, w3⟩ := WFfr_spec (hWF.1 fr2 hlt2)
    by_cases hom : fr2 = fr
    · subst hom
      apply WFfr_of
      · apply localBindingOK_of
        refine Or.inr ⟨r, ?_, htr, eCr⟩
        rw [eFfr]
      · apply localBindingOK_of
        rcases localBindingOK_spec w2 with e | ⟨j, e, htj, hcj⟩
        · refine Or.inl ?_
          rw [eFfr]
          exact e
        · refine Or.inr ⟨j, ?_, htj, ?_⟩
          · rw [eFfr]
            exact e
          · rw [eCoth RegClass.vec j (fun hand => RegClass.noConfusion hand.1)]
            exact hcj
      · intro c2 i2 hg
        refine w3 c2 i2 ?_
        rw [eFfr] at hg
        exact hg
    · apply WFfr_of
      · apply localBindingOK_of
        rcases localBindingOK_spec w1 with e | ⟨j, e, htj, hcj⟩
        · refine Or.inl ?_
          rw [eFoth fr2 hom]
          exact e
        · refine Or.inr ⟨j, ?_, htj, ?_⟩
          · rw [eFoth fr2 hom]
            exact e
          · have hjr : ¬(RegClass.gp = RegClass.gp ∧ j = r) := by
              intro hand
              rw [hand.2] at hcj
              rw [hfree] at hcj
              exact Option.noConfusion hcj
            rw [eCoth RegClass.gp j hjr]
            exact hcj
      · apply localBindingOK_of
        rcases localBindingOK_spec w2 with e | ⟨j, e, htj, hcj⟩
        · refine Or.inl ?_
          rw [eFoth fr2 hom]
          exact e
        · refine Or.inr ⟨j, ?_, htj, ?_⟩
          · rw [eFoth fr2 hom]
            exact e
          · rw [eCoth RegClass.vec j (fun hand => RegClass.noConfusion hand.1)]
            exact hcj
      · intro c2 i2 hg
        refine w3 c2 i2 ?_
        rw [eFoth fr2 hom] at hg
        exact hg
  · intro i hi
    refine ⟨?_, ?_⟩
    · apply WFcontains_of
      intro fr2 hcont
      by_cases hir : i = r
      · subst hir
        rw [eCr] at hcont
        injection hcont with h2
        subst h2
        refine ⟨hfr, ?_, ?_⟩
        · intro _
          rw [eFfr]
        · intro hcv
          exact RegClass.noConfusion hcv
      · have hne : ¬(RegClass.gp = RegClass.gp ∧ i = r) := fun hand => hir hand.2
        rw [eCoth RegClass.gp i hne] at hcont
        obtain ⟨u1, u2, u3⟩ := WFcontains_spec (hWF.2.1 i hi).1 hcont
        refine ⟨u1, ?_, fun hcv => RegClass.noConfusion hcv⟩
        intro _
        by_cases hom : fr2 = fr
        · subst hom
          rw [u2 rfl] at hlgx
          exact HWReg.noConfusion hlgx
        · rw [eFoth fr2 hom]
          exact u2 rfl
    · apply WFcontains_of
      intro fr2 hcont
      rw [eCoth RegClass.vec i (fun hand => RegClass.noConfusion hand.1)] at hcont
      obtain ⟨u1, u2, u3⟩ := WFcontains_spec (hWF.2.1 i hi).2 hcont
      refine ⟨u1, fun hcg => RegClass.noConfusion hcg, ?_⟩
      intro _
      by_cases hom : fr2 = fr
      · subst hom
        rw [eFfr]
        exact u3 rfl
      · rw [eFoth fr2 hom]
        exact u3 rfl
  · intro fr1 hf1 fr2 hf2 hne hval
    have key : ∀ fr3, ((assignAllocatedLocalHWReg s fr
        (.reg .gp r)).frameRegs fr3).globalReg = (s.frameRegs fr3).globalReg := by
      intro fr3
      by_cases hom : fr3 = fr
      · subst hom
        rw [eFfr]
      · rw [eFoth fr3 hom]
    rw [key fr1, key fr2]
    rw [key fr1] at hval
    exact hWF.2.2.1 fr1 hf1 fr2 hf2 hne hval
  · intro j hj
    have hj2 : j ∈ s.gpTemp.freeList := hj
    have hjr : ¬(RegClass.gp = RegClass.gp ∧ j = r) := by
      intro hand
      rw [hand.2] at hj2
      exact hnf hj2
    refine ⟨(hWF.2.2.2.1 j hj2).1, ?_⟩
    rw [eCoth RegClass.gp j hjr]
    exact (hWF.2.2.2.1 j hj2).2
  · intro j hj
    have hj2 : j ∈ s.vecTemp.freeList := hj
    refine ⟨(hWF.2.2.2.2 j hj2).1, ?_⟩
    rw [eCoth RegClass.vec j (fun hand => RegClass.noConfusion hand.1)]
    exact (hWF.2.2.2.2 j hj2).2

theorem good_useReg (s : EmitState) (h : HWReg) (hGood : Good s) :
    Good (useReg s h) := by
  obtain ⟨hWF, hInv⟩ := hGood
  refine ⟨?_, ?_⟩
  · refine WF_congr (useReg_proj s h).2.2.2.2.2 ?_ ?_ (useReg_gpFree s h).1
      (useReg_gpFree s h).2 hWF
    · intro fr2
      rw [(useReg_proj s h).1]
      exact ⟨rfl, rfl, rfl⟩
    · intro c i
      rw [(useReg_proj s h).2.2.2.2.1]
  · intro fr hlt
    have hlt2 : fr < s.nRegs := by
      rw [← (useReg_proj s h).2.2.2.2.2]
      exact hlt
    refine FRInv_congr (by rw [(useReg_proj s h).1])
      (by rw [(useReg_proj s h).2.2.2.1]) (by rw [(useReg_proj s h).2.2.1])
      (rd_useReg _ _ _) (rd_useReg _ _ _) (rd_useReg _ _ _) (hInv fr hlt2)

/-- `Emitter::getOrAllocFRInAnyReg` with `load = true`: the result register
holds the FR's latest value, the invariants survive, the ghost values are
untouched, and any other FR with no temporary bindings keeps its record. -/
theorem getOrAllocAny_load_good (s : EmitState) (fr : Nat) (pref : Option HWReg)
    (hGood : Good s) (hp : PoolsOK s) (hfr : fr < s.nRegs) :
    Good (getOrAllocFRInAnyReg s fr true pref).2 ∧
    PoolsOK (getOrAllocFRInAnyReg s fr true pref).2 ∧
    (getOrAllocFRInAnyReg s fr true pref).2.nRegs = s.nRegs ∧
    (getOrAllocFRInAnyReg s fr true pref).2.latest = s.latest ∧
    (getOrAllocFRInAnyReg s fr true pref).2.rd
      (getOrAllocFRInAnyReg s fr true pref).1 = s.latest fr ∧
    (∀ fr2, fr2 ≠ fr → (s.frameRegs fr2).localGpX.isValid = false →
      (s.frameRegs fr2).localVecD.isValid = false →
      (getOrAllocFRInAnyReg s fr true pref).2.frameRegs fr2 =
        s.frameRegs fr2) := by
  unfold getOrAllocFRInAnyReg
  dsimp only
  unfold isFRInRegister
  dsimp only
  by_cases hLg : (s.frameRegs fr).localGpX.isValid = true
  · rw [if_pos hLg]
    dsimp only
    rw [if_pos hLg]
    refine ⟨good_useReg _ _ hGood, poolsOK_useReg _ _ hp,
      (useReg_proj _ _).2.2.2.2.2, (useReg_proj _ _).2.2.2.1, ?_, ?_⟩
    · rw [rd_useReg]
      exact (hGood.2 fr hfr).1 hLg
    · intro fr2 _ _ _
      rw [(useReg_proj _ _).1]
  · rw [if_neg hLg]
    by_cases hLv : (s.frameRegs fr).localVecD.isValid = true
    · rw [if_pos hLv]
      dsimp only
      rw [if_pos hLv]
      refine ⟨good_useReg _ _ hGood, poolsOK_useReg _ _ hp,
        (useReg_proj _ _).2.2.2.2.2, (useReg_proj _ _).2.2.2.1, ?_, ?_⟩
      · rw [rd_useReg]
        exact (hGood.2 fr hfr).2.1 hLv
      · intro fr2 _ _ _
        rw [(useReg_proj _ _).1]
    · rw [if_neg hLv]
      by_cases hG : (s.frameRegs fr).globalReg.isValid = true
      · rw [if_pos hG]
        dsimp only
        rw [if_pos hG]
        have hInvfr := hGood.2 fr hfr
        have hgu : (s.frameRegs fr).globalRegUpToDate = true := by
          cases hu : (s.frameRegs fr).globalRegUpToDate with
          | true => rfl
          | false =>
            rcases hInvfr.2.2.2.2.2 hG hu with h2 | h2
            · exact absurd h2 hLg
            · exact absurd h2 hLv
        exact ⟨hGood, hp, rfl, rfl, hInvfr.2.2.1 hG hgu,
          fun fr2 _ _ _ => rfl⟩
      · rw [if_neg hG]
        dsimp only
        rw [if_neg (by decide : ¬(HWReg.invalid.isValid = true))]
        rw [show allocTempGpX s = _allocTemp s RegClass.gp none from rfl]
        obtain ⟨r, hsel, htr, hGood1, hp1, hfree1, hnf1, hn1, hlat1, hstab1⟩ :=
          allocTempGp_good s hGood hp
        rw [hsel, if_pos (rfl : (true : Bool) = true)]
        dsimp only
        have hgxF : (s.frameRegs fr).localGpX.isValid = false := by
          rw [hwreg_inv_of_not_valid hLg]
          rfl
        have hrecA : (_allocTemp s RegClass.gp none).2.frameRegs fr =
            s.frameRegs fr := hstab1 fr hgxF
        have hfrA : fr < (_allocTemp s RegClass.gp none).2.nRegs := by
          rw [hn1]
          exact hfr
        obtain ⟨BWF, Bn, Blat, Bfv, Brv, Bgp, Bvec, Bfr, Both, Bcr, Bcoth⟩ :=
          assignGp_facts (_allocTemp s RegClass.gp none).2 fr r hGood1.1 hfrA
            htr hfree1 hnf1 (by rw [hrecA]; exact hwreg_inv_of_not_valid hLg)
        have hInvA := hGood1.2 fr hfrA
        have hfutA : (((_allocTemp s RegClass.gp none).2.frameRegs
            fr)).frameUpToDate = true := by
          rcases hInvA.2.2.2.2.1 with h2 | h2 | ⟨h2, _⟩ | h2
          · rw [hrecA, hwreg_inv_of_not_valid hLg] at h2
            exact Bool.noConfusion h2
          · rw [hrecA, hwreg_inv_of_not_valid hLv] at h2
            exact Bool.noConfusion h2
          · rw [hrecA, hwreg_inv_of_not_valid hG] at h2
            exact Bool.noConfusion h2
          · exact h2
        have hfvA : (_allocTemp s RegClass.gp none).2.frameVal fr =
            s.latest fr := by
          rw [hInvA.2.2.2.1 hfutA, hlat1]
        generalize hB : assignAllocatedLocalHWReg
          (_allocTemp s RegClass.gp none).2 fr (HWReg.reg RegClass.gp r) = B
        rw [hB] at BWF Bn Blat Bfv Brv Bgp Bvec Bfr Both Bcr Bcoth
        obtain ⟨Lfrs, Lfv, Llat, Lcont, Ln, Lgp, Lvec⟩ :=
          loadFrame_sem B (HWReg.reg RegClass.gp r) fr
        have hDfr : ((setFRState (_loadFrame B (HWReg.reg RegClass.gp r) fr) fr
            (fun st => { st with frameUpToDate := true })).frameRegs fr) =
            { B.frameRegs fr with frameUpToDate := true } := by
          rw [setFRState_frameRegs, upd1_same, Lfrs]
        have hDoth : ∀ fr2, fr2 ≠ fr →
            ((setFRState (_loadFrame B (HWReg.reg RegClass.gp r) fr) fr
              (fun st => { st with frameUpToDate := true })).frameRegs fr2) =
            B.frameRegs fr2 := by
          intro fr2 hne
          rw [setFRState_frameRegs, upd1_other _ _ _ hne, Lfrs]
        have hDrd : ∀ h2, h2 ≠ HWReg.reg RegClass.gp r →
            (setFRState (_loadFrame B (HWReg.reg RegClass.gp r) fr) fr
              (fun st => { st with frameUpToDate := true })).rd h2 = B.rd h2 := by
          intro h2 hne
          rw [rd_setFRState, rd_loadFrame_other _ _ _ _ hne]
        have hDrdr : (setFRState (_loadFrame B (HWReg.reg RegClass.gp r) fr) fr
            (fun st => { st with frameUpToDate := true })).rd
              (HWReg.reg RegClass.gp r) = s.latest fr := by
          rw [rd_setFRState, rd_loadFrame_dst, Bfv, hfvA]
        have hWFC : WF (_loadFrame B (HWReg.reg RegClass.gp r) fr) := by
          refine WF_congr Ln ?_ ?_ ?_ ?_ BWF
          · intro fr2
            rw [Lfrs]
            exact ⟨rfl, rfl, rfl⟩
          · intro c i
            rw [Lcont]
          · rw [Lgp]
          · rw [Lvec]
        have hWFD : WF (setFRState (_loadFrame B (HWReg.reg RegClass.gp r) fr) fr
            (fun st => { st with frameUpToDate := true })) :=
          WF_setFRState_flags fr (fun st => ⟨rfl, rfl, rfl⟩) hWFC
        have hInvOth : ∀ fr2, fr2 < s.nRegs → fr2 ≠ fr →
            FRInv (setFRState (_loadFrame B (HWReg.reg RegClass.gp r) fr) fr
              (fun st => { st with frameUpToDate := true })) fr2 := by
          intro fr2 hlt2 hne
          have hlt2A : fr2 < (_allocTemp s RegClass.gp none).2.nRegs := by
            rw [hn1]
            exact hlt2
          have hInvA2 := hGood1.2 fr2 hlt2A
          obtain ⟨a1, a2, a3⟩ := WFfr_spec (hGood1.1.1 fr2 hlt2A)
          refine FRInv_congr (s := (_allocTemp s RegClass.gp none).2)
            ((hDoth fr2 hne).trans (Both fr2 hne)) ?_ ?_ ?_ ?_ ?_ hInvA2
          · show (setFRState _ fr _).latest fr2 = _
            rw [(setFRState_proj _ _ _).2.1, Llat, Blat]
          · show (setFRState _ fr _).frameVal fr2 = _
            rw [(setFRState_proj _ _ _).2.2.1, Lfv, Bfv]
          · rcases localBindingOK_spec a1 with e | ⟨j, e, htj, hcj⟩
            · rw [e]
              rw [hDrd _ (fun habs => HWReg.noConfusion habs)]
              exact rd_congr Brv _
            · rw [e]
              have hjr : HWReg.reg RegClass.gp j ≠ HWReg.reg RegClass.gp r := by
                intro habs
                injection habs with _ h2
                rw [h2] at hcj
                rw [hfree1] at hcj
                exact Option.noConfusion hcj
              rw [hDrd _ hjr]
              exact rd_congr Brv _
          · rcases localBindingOK_spec a2 with e | ⟨j, e, htj, hcj⟩
            · rw [e]
              rw [hDrd _ (fun habs => HWReg.noConfusion habs)]
              exact rd_congr Brv _
            · rw [e]
              rw [hDrd _ (fun habs => by
                injection habs with hc _
                exact RegClass.noConfusion hc)]
              exact rd_congr Brv _
          · cases hg : ((_allocTemp s RegClass.gp none).2.frameRegs
                fr2).globalReg with
            | invalid =>
              rw [hDrd _ (fun habs => HWReg.noConfusion habs)]
              exact rd_congr Brv _
            | reg cg ig =>
              rw [hDrd _ (saved_ne_temp (a3 cg ig hg) htr)]
              exact rd_congr Brv _
        have hInvFr : FRInv (setFRState (_loadFrame B (HWReg.reg RegClass.gp r)
            fr) fr (fun st => { st with frameUpToDate := true })) fr := by
          have hrecB : B.frameRegs fr =
              { s.frameRegs fr with localGpX := HWReg.reg RegClass.gp r } := by
            rw [Bfr, hrecA]
          refine ⟨?_, ?_, ?_, ?_, ?_, ?_⟩
          · intro _
            rw [hDfr, hrecB]
            show (setFRState _ fr _).rd (HWReg.reg RegClass.gp r) = _
            rw [hDrdr]
            show _ = (setFRState _ fr _).latest fr
            rw [(setFRState_proj _ _ _).2.1, Llat, Blat, hlat1]
          · intro hv
            rw [hDfr, hrecB] at hv
            change (s.frameRegs fr).localVecD.isValid = true at hv
            rw [hwreg_inv_of_not_valid hLv] at hv
            exact Bool.noConfusion hv
          · intro hv
            rw [hDfr, hrecB] at hv
            change (s.frameRegs fr).globalReg.isValid = true at hv
            rw [hwreg_inv_of_not_valid hG] at hv
            exact Bool.noConfusion hv
          · intro _
            show (setFRState _ fr _).frameVal fr = (setFRState _ fr _).latest fr
            rw [(setFRState_proj _ _ _).2.2.1, Lfv, Bfv, hfvA,
              (setFRState_proj _ _ _).2.1, Llat, Blat, hlat1]
          · refine Or.inl ?_
            rw [hDfr, hrecB]
            rfl
          · intro hv
            rw [hDfr, hrecB] at hv
            change (s.frameRegs fr).globalReg.isValid = true at hv
            rw [hwreg_inv_of_not_valid hG] at hv
            exact Bool.noConfusion hv
        refine ⟨⟨hWFD, ?_⟩, ?_, ?_, ?_, hDrdr, ?_⟩
        · intro fr2 hlt2
          have hlt2s : fr2 < s.nRegs := by
            rw [(setFRState_proj _ _ _).2.2.2.1, Ln, Bn, hn1] at hlt2
            exact hlt2
          by_cases hne : fr2 = fr
          · subst hne
            exact hInvFr
          · exact hInvOth fr2 hlt2s hne
        · refine poolsOK_of_eq ?_ ?_ hp1
          · rw [(setFRState_proj _ _ _).2.2.2.2.1, Lgp, Bgp]
          · rw [(setFRState_proj _ _ _).2.2.2.2.2.1, Lvec, Bvec]
        · rw [(setFRState_proj _ _ _).2.2.2.1, Ln, Bn, hn1]
        · show (setFRState _ fr _).latest = s.latest
          rw [(setFRState_proj _ _ _).2.1, Llat, Blat, hlat1]
        · intro fr2 hne hgx2 hvd2
          rw [hDoth fr2 hne, Both fr2 hne]
          exact hstab1 fr2 hgx2

/-- A register-to-register move into a register that no other FR is bound to
leaves every other FR's consistency intact. -/
theorem movWrite_inv_others (s : EmitState) (dst : Nat) (d sr : HWReg)
    (hGood : Good s)
    (hne_fields : ∀ fr2, fr2 < s.nRegs → fr2 ≠ dst →
      ((s.frameRegs fr2).localGpX.isValid = true →
        (s.frameRegs fr2).localGpX ≠ d) ∧
      ((s.frameRegs fr2).localVecD.isValid = true →
        (s.frameRegs fr2).localVecD ≠ d) ∧
      ((s.frameRegs fr2).globalReg.isValid = true →
        (s.frameRegs fr2).globalReg ≠ d)) :
    ∀ fr2, fr2 < s.nRegs → fr2 ≠ dst → FRInv (movHWReg false s d sr) fr2 := by
  intro fr2 hlt hne
  obtain ⟨hf1, hf2, hf3⟩ := hne_fields fr2 hlt hne
  refine FRInv_congr (by rw [(movHWReg_proj _ _ _ _).1])
    (by rw [(movHWReg_proj _ _ _ _).2.2.1])
    (by rw [(movHWReg_proj _ _ _ _).2.1]) ?_ ?_ ?_ (hGood.2 fr2 hlt)
  · cases hg : (s.frameRegs fr2).localGpX with
    | invalid => rfl
    | reg c i =>
      refine rd_movHWReg_other _ _ _ _ _ ?_
      rw [← hg]
      refine hf1 ?_
      rw [hg]
      rfl
  · cases hg : (s.frameRegs fr2).localVecD with
    | invalid => rfl
    | reg c i =>
      refine rd_movHWReg_other _ _ _ _ _ ?_
      rw [← hg]
      refine hf2 ?_
      rw [hg]
      rfl
  · cases hg : (s.frameRegs fr2).globalReg with
    | invalid => rfl
    | reg c i =>
      refine rd_movHWReg_other _ _ _ _ _ ?_
      rw [← hg]
      refine hf3 ?_
      rw [hg]
      rfl

/-- The `rd` of `movHWReg` on `.invalid` targets: rewriting helper. -/
theorem rd_movHWReg_inv (u : Bool) (s : EmitState) (d sr : HWReg) :
    (movHWReg u s d sr).rd HWReg.invalid = 0 := rfl

/-- Core of the register-less branch of `movFRFromHW`: marking the frame slot
up to date after the ghost update and the store restores the invariant. -/
theorem store_case_core (s M : EmitState) (dst : Nat) (src : HWReg)
    (hGood : Good s) (hdst : dst < s.nRegs)
    (hLg : ¬(s.frameRegs dst).localGpX.isValid = true)
    (hLv : ¬(s.frameRegs dst).localVecD.isValid = true)
    (hGR : ¬(s.frameRegs dst).globalReg.isValid = true)
    (eMgx : (M.frameRegs dst).localGpX = (s.frameRegs dst).localGpX)
    (eMvd : (M.frameRegs dst).localVecD = (s.frameRegs dst).localVecD)
    (eMg : (M.frameRegs dst).globalReg = (s.frameRegs dst).globalReg)
    (eMoth : ∀ fr2, fr2 ≠ dst → M.frameRegs fr2 = s.frameRegs fr2)
    (eMlat : M.latest = upd1 s.latest dst (s.rd src))
    (eMfvd : M.frameVal dst = s.rd src)
    (eMfvo : ∀ fr2, fr2 ≠ dst → M.frameVal fr2 = s.frameVal fr2)
    (eMrd : ∀ h2, M.rd h2 = s.rd h2)
    (eMn : M.nRegs = s.nRegs)
    (hWFM : WF M) :
    Good (setFRState M dst (fun st => { st with frameUpToDate := true })) ∧
    (setFRState M dst (fun st => { st with frameUpToDate := true })).nRegs =
      s.nRegs ∧
    (setFRState M dst (fun st => { st with frameUpToDate := true })).latest dst =
      s.rd src ∧
    (∀ fr2, fr2 ≠ dst →
      (setFRState M dst (fun st => { st with frameUpToDate := true })).latest
        fr2 = s.latest fr2) := by
  have hWFN : WF (setFRState M dst (fun st => { st with frameUpToDate := true })) :=
    WF_setFRState_flags dst (fun st => ⟨rfl, rfl, rfl⟩) hWFM
  have egx : ((setFRState M dst (fun st =>
      { st with frameUpToDate := true })).frameRegs dst).localGpX =
      HWReg.invalid := by
    rw [setFRState_frameRegs, upd1_same]
    show (M.frameRegs dst).localGpX = HWReg.invalid
    rw [eMgx]
    exact hwreg_inv_of_not_valid hLg
  have evd : ((setFRState M dst (fun st =>
      { st with frameUpToDate := true })).frameRegs dst).localVecD =
      HWReg.invalid := by
    rw [setFRState_frameRegs, upd1_same]
    show (M.frameRegs dst).localVecD = HWReg.invalid
    rw [eMvd]
    exact hwreg_inv_of_not_valid hLv
  have eg : ((setFRState M dst (fun st =>
      { st with frameUpToDate := true })).frameRegs dst).globalReg =
      HWReg.invalid := by
    rw [setFRState_frameRegs, upd1_same]
    show (M.frameRegs dst).globalReg = HWReg.invalid
    rw [eMg]
    exact hwreg_inv_of_not_valid hGR
  have efu : ((setFRState M dst (fun st =>
      { st with frameUpToDate := true })).frameRegs dst).frameUpToDate =
      true := by
    rw [setFRState_frameRegs, upd1_same]
  have elatd : (setFRState M dst (fun st =>
      { st with frameUpToDate := true })).latest dst = s.rd src := by
    show M.latest dst = s.rd src
    rw [eMlat, upd1_same]
  have elato : ∀ fr2, fr2 ≠ dst → (setFRState M dst (fun st =>
      { st with frameUpToDate := true })).latest fr2 = s.latest fr2 := by
    intro fr2 hne
    show M.latest fr2 = s.latest fr2
    rw [eMlat, upd1_other _ _ _ hne]
  refine ⟨⟨hWFN, ?_⟩, eMn, elatd, elato⟩
  intro fr2 hlt
  have hlt2 : fr2 < s.nRegs := by
    rw [← eMn]
    exact hlt
  by_cases hne : fr2 = dst
  · subst hne
    refine ⟨?_, ?_, ?_, ?_, ?_, ?_⟩
    · intro hv
      rw [egx] at hv
      exact absurd hv (by decide)
    · intro hv
      rw [evd] at hv
      exact absurd hv (by decide)
    · intro hv
      rw [eg] at hv
      exact absurd hv (by decide)
    · intro _
      show M.frameVal fr2 = _
      rw [eMfvd, elatd]
    · exact Or.inr (Or.inr (Or.inr efu))
    · intro hv
      rw [eg] at hv
      exact absurd hv (by decide)
  · refine FRInv_congr_fields (s := s)
      (by rw [setFRState_frameRegs, upd1_other _ _ _ hne, eMoth fr2 hne])
      (by rw [setFRState_frameRegs, upd1_other _ _ _ hne, eMoth fr2 hne])
      (by rw [setFRState_frameRegs, upd1_other _ _ _ hne, eMoth fr2 hne])
      (by rw [setFRState_frameRegs, upd1_other _ _ _ hne, eMoth fr2 hne])
      (by rw [setFRState_frameRegs, upd1_other _ _ _ hne, eMoth fr2 hne])
      (elato fr2 hne) (by show M.frameVal fr2 = _; rw [eMfvo fr2 hne])
      ((rd_setFRState _ _ _ _).trans (eMrd _))
      ((rd_setFRState _ _ _ _).trans (eMrd _))
      ((rd_setFRState _ _ _ _).trans (eMrd _)) (hGood.2 fr2 hlt2)

/-- The register-less branch of `movFRFromHW` without a type update. -/
theorem movFRFromHW_store_case (s : EmitState) (dst : Nat) (src : HWReg)
    (hGood : Good s) (hdst : dst < s.nRegs)
    (hLg : ¬(s.frameRegs dst).localGpX.isValid = true)
    (hLv : ¬(s.frameRegs dst).localVecD.isValid = true)
    (hGR : ¬(s.frameRegs dst).globalReg.isValid = true) :
    Good (setFRState (_storeHWRegToFrame
        { s with latest := upd1 s.latest dst (s.rd src) } dst src) dst
      (fun st => { st with frameUpToDate := true })) ∧
    (setFRState (_storeHWRegToFrame
        { s with latest := upd1 s.latest dst (s.rd src) } dst src) dst
      (fun st => { st with frameUpToDate := true })).nRegs = s.nRegs ∧
    (setFRState (_storeHWRegToFrame
        { s with latest := upd1 s.latest dst (s.rd src) } dst src) dst
      (fun st => { st with frameUpToDate := true })).latest dst = s.rd src ∧
    (∀ fr2, fr2 ≠ dst → (setFRState (_storeHWRegToFrame
        { s with latest := upd1 s.latest dst (s.rd src) } dst src) dst
      (fun st => { st with frameUpToDate := true })).latest fr2 =
        s.latest fr2) := by
  generalize hM : _storeHWRegToFrame
    { s with latest := upd1 s.latest dst (s.rd src) } dst src = M
  have eMgx : (M.frameRegs dst).localGpX = (s.frameRegs dst).localGpX := by
    rw [← hM, (storeHWRegToFrame_sem _ _ _).1, upd1_same]
  have eMvd : (M.frameRegs dst).localVecD = (s.frameRegs dst).localVecD := by
    rw [← hM, (storeHWRegToFrame_sem _ _ _).1, upd1_same]
  have eMg : (M.frameRegs dst).globalReg = (s.frameRegs dst).globalReg := by
    rw [← hM, (storeHWRegToFrame_sem _ _ _).1, upd1_same]
  have eMoth : ∀ fr2, fr2 ≠ dst → M.frameRegs fr2 = s.frameRegs fr2 := by
    intro fr2 hne
    rw [← hM, (storeHWRegToFrame_sem _ _ _).1, upd1_other _ _ _ hne]
  have eMlat : M.latest = upd1 s.latest dst (s.rd src) := by
    rw [← hM, (storeHWRegToFrame_sem _ _ _).2.2.1]
  have eMfvd : M.frameVal dst = s.rd src := by
    rw [← hM, (storeHWRegToFrame_sem _ _ _).2.1, upd1_same]
    rfl
  have eMfvo : ∀ fr2, fr2 ≠ dst → M.frameVal fr2 = s.frameVal fr2 := by
    intro fr2 hne
    rw [← hM, (storeHWRegToFrame_sem _ _ _).2.1, upd1_other _ _ _ hne]
  have eMrd : ∀ h2, M.rd h2 = s.rd h2 := by
    intro h2
    rw [← hM]
    exact (storeHWRegToFrame_sem _ _ _).2.2.2.2.2.1 h2
  have eMn : M.nRegs = s.nRegs := by
    rw [← hM, (storeHWRegToFrame_sem _ _ _).2.2.2.2.1]
  have hWFM : WF M := by
    rw [← hM]
    refine WF_congr ((storeHWRegToFrame_sem _ _ _).2.2.2.2.1.trans rfl) ?_ ?_
      ((congrArg TempRegAlloc.freeList
        (storeHWRegToFrame_sem _ _ _).2.2.2.2.2.2.1).trans rfl)
      ((congrArg TempRegAlloc.freeList
        (storeHWRegToFrame_sem _ _ _).2.2.2.2.2.2.2).trans rfl) hGood.1
    · intro fr2
      rw [(storeHWRegToFrame_sem _ _ _).1]
      by_cases hne : fr2 = dst
      · subst hne
        rw [upd1_same]
        exact ⟨rfl, rfl, rfl⟩
      · rw [upd1_other _ _ _ hne]
        exact ⟨rfl, rfl, rfl⟩
    · intro c i
      rw [(storeHWRegToFrame_sem _ _ _).2.2.2.1]
  exact store_case_core s M dst src hGood hdst hLg hLv hGR eMgx eMvd eMg eMoth
    eMlat eMfvd eMfvo eMrd eMn hWFM

/-- The register-less branch of `movFRFromHW` with a type update. -/
theorem movFRFromHW_store_case_ty (s : EmitState) (dst : Nat) (src : HWReg)
    (ty : FRType) (hGood : Good s) (hdst : dst < s.nRegs)
    (hLg : ¬(s.frameRegs dst).localGpX.isValid = true)
    (hLv : ¬(s.frameRegs dst).localVecD.isValid = true)
    (hGR : ¬(s.frameRegs dst).globalReg.isValid = true) :
    Good (setFRState (frUpdateType (_storeHWRegToFrame
        { s with latest := upd1 s.latest dst (s.rd src) } dst src) dst ty) dst
      (fun st => { st with frameUpToDate := true })) ∧
    (setFRState (frUpdateType (_storeHWRegToFrame
        { s with latest := upd1 s.latest dst (s.rd src) } dst src) dst ty) dst
      (fun st => { st with frameUpToDate := true })).nRegs = s.nRegs ∧
    (setFRState (frUpdateType (_storeHWRegToFrame
        { s with latest := upd1 s.latest dst (s.rd src) } dst src) dst ty) dst
      (fun st => { st with frameUpToDate := true })).latest dst = s.rd src ∧
    (∀ fr2, fr2 ≠ dst → (setFRState (frUpdateType (_storeHWRegToFrame
        { s with latest := upd1 s.latest dst (s.rd src) } dst src) dst ty) dst
      (fun st => { st with frameUpToDate := true })).latest fr2 =
        s.latest fr2) := by
  generalize hM : frUpdateType (_storeHWRegToFrame
    { s with latest := upd1 s.latest dst (s.rd src) } dst src) dst ty = M
  have eMgx : (M.frameRegs dst).localGpX = (s.frameRegs dst).localGpX := by
    rw [← hM]
    show ((setFRState _ dst _).frameRegs dst).localGpX = _
    rw [setFRState_frameRegs, upd1_same]
    show (((_storeHWRegToFrame { s with latest := upd1 s.latest dst (s.rd src) }
      dst src)).frameRegs dst).localGpX = _
    rw [(storeHWRegToFrame_sem _ _ _).1, upd1_same]
  have eMvd : (M.frameRegs dst).localVecD = (s.frameRegs dst).localVecD := by
    rw [← hM]
    show ((setFRState _ dst _).frameRegs dst).localVecD = _
    rw [setFRState_frameRegs, upd1_same]
    show (((_storeHWRegToFrame { s with latest := upd1 s.latest dst (s.rd src) }
      dst src)).frameRegs dst).localVecD = _
    rw [(storeHWRegToFrame_sem _ _ _).1, upd1_same]
  have eMg : (M.frameRegs dst).globalReg = (s.frameRegs dst).globalReg := by
    rw [← hM]
    show ((setFRState _ dst _).frameRegs dst).globalReg = _
    rw [setFRState_frameRegs, upd1_same]
    show (((_storeHWRegToFrame { s with latest := upd1 s.latest dst (s.rd src) }
      dst src)).frameRegs dst).globalReg = _
    rw [(storeHWRegToFrame_sem _ _ _).1, upd1_same]
  have eMoth : ∀ fr2, fr2 ≠ dst → M.frameRegs fr2 = s.frameRegs fr2 := by
    intro fr2 hne
    rw [← hM]
    show (setFRState _ dst _).frameRegs fr2 = _
    rw [setFRState_frameRegs, upd1_other _ _ _ hne,
      (storeHWRegToFrame_sem _ _ _).1, upd1_other _ _ _ hne]
  have eMlat : M.latest = upd1 s.latest dst (s.rd src) := by
    rw [← hM, (frUpdateType_facts _ _ _).1, (storeHWRegToFrame_sem _ _ _).2.2.1]
  have eMfvd : M.frameVal dst = s.rd src := by
    rw [← hM, (frUpdateType_facts _ _ _).2.1,
      (storeHWRegToFrame_sem _ _ _).2.1, upd1_same]
    rfl
  have eMfvo : ∀ fr2, fr2 ≠ dst → M.frameVal fr2 = s.frameVal fr2 := by
    intro fr2 hne
    rw [← hM, (frUpdateType_facts _ _ _).2.1,
      (storeHWRegToFrame_sem _ _ _).2.1, upd1_other _ _ _ hne]
  have eMrd : ∀ h2, M.rd h2 = s.rd h2 := by
    intro h2
    rw [← hM]
    refine ((rd_setFRState _ _ _ _).trans ?_)
    exact (storeHWRegToFrame_sem _ _ _).2.2.2.2.2.1 h2
  have eMn : M.nRegs = s.nRegs := by
    rw [← hM, (frUpdateType_facts _ _ _).2.2.2.1,
      (storeHWRegToFrame_sem _ _ _).2.2.2.2.1]
  have hWFM : WF M := by
    rw [← hM]
    refine (frUpdateType_facts _ _ _).2.2.2.2.2.1 ?_
    refine WF_congr ((storeHWRegToFrame_sem _ _ _).2.2.2.2.1.trans rfl) ?_ ?_
      ((congrArg TempRegAlloc.freeList
        (storeHWRegToFrame_sem _ _ _).2.2.2.2.2.2.1).trans rfl)
      ((congrArg TempRegAlloc.freeList
        (storeHWRegToFrame_sem _ _ _).2.2.2.2.2.2.2).trans rfl) hGood.1
    · intro fr2
      rw [(storeHWRegToFrame_sem _ _ _).1]
      by_cases hne : fr2 = dst
      · subst hne
        rw [upd1_same]
        exact ⟨rfl, rfl, rfl⟩
      · rw [upd1_other _ _ _ hne]
        exact ⟨rfl, rfl, rfl⟩
    · intro c i
      rw [(storeHWRegToFrame_sem _ _ _).2.2.2.1]
  exact store_case_core s M dst src hGood hdst hLg hLv hGR eMgx eMvd eMg eMoth
    eMlat eMfvd eMfvo eMrd eMn hWFM

/-- `Emitter::movFRFromHW`: the destination's latest value becomes the content
of `src`, every other FR's ghost value is untouched, and the invariant is
preserved. -/
theorem movFRFromHW_dst_good (s : EmitState) (dst : Nat) (src : HWReg)
    (t : Option FRType) (hGood : Good s) (hdst : dst < s.nRegs) :
    Good (movFRFromHW s dst src t) ∧
    (movFRFromHW s dst src t).nRegs = s.nRegs ∧
    (movFRFromHW s dst src t).latest dst = s.rd src ∧
    (∀ fr2, fr2 ≠ dst → (movFRFromHW s dst src t).latest fr2 = s.latest fr2) := by
  obtain ⟨b1, b2, b3⟩ := WFfr_spec (hGood.1.1 dst hdst)
  unfold movFRFromHW
  dsimp only
  by_cases hLg : (s.frameRegs dst).localGpX.isValid = true
  · rw [if_pos hLg]
    rcases localBindingOK_spec b1 with e | ⟨j, e, htj, hcj⟩
    · rw [e] at hLg
      exact Bool.noConfusion hLg
    · have hfields : ∀ fr2, fr2 < s.nRegs → fr2 ≠ dst →
          ((s.frameRegs fr2).localGpX.isValid = true →
            (s.frameRegs fr2).localGpX ≠ (s.frameRegs dst).localGpX) ∧
          ((s.frameRegs fr2).localVecD.isValid = true →
            (s.frameRegs fr2).localVecD ≠ (s.frameRegs dst).localGpX) ∧
          ((s.frameRegs fr2).globalReg.isValid = true →
            (s.frameRegs fr2).globalReg ≠ (s.frameRegs dst).localGpX) := by
        intro fr2 hlt hne
        obtain ⟨w1, w2, w3⟩ := WFfr_spec (hGood.1.1 fr2 hlt)
        refine ⟨?_, ?_, ?_⟩
        · intro hv
          rcases localBindingOK_spec w1 with e2 | ⟨j2, e2, htj2, hcj2⟩
          · rw [e2] at hv
            exact absurd hv (by decide)
          · rw [e2, e]
            intro habs
            injection habs with _ h2
            rw [h2] at hcj2
            rw [hcj2] at hcj
            injection hcj with h3
            exact hne h3
        · intro hv
          rcases localBindingOK_spec w2 with e2 | ⟨j2, e2, htj2, hcj2⟩
          · rw [e2] at hv
            exact absurd hv (by decide)
          · rw [e2, e]
            intro habs
            injection habs with hc _
            exact RegClass.noConfusion hc
        · intro hv
          cases hg2 : (s.frameRegs fr2).globalReg with
          | invalid =>
            rw [hg2] at hv
            exact absurd hv (by decide)
          | reg cg ig =>
            rw [e]
            exact saved_ne_temp (w3 cg ig hg2) htj
      have hInvOth := movWrite_inv_others s dst (s.frameRegs dst).localGpX src
        hGood hfields
      obtain ⟨uGood, ulat, uoth, ufv, urv, un⟩ :=
        frUpdatedWithHWReg_good (movHWReg false s (s.frameRegs dst).localGpX src)
          dst (s.frameRegs dst).localGpX t
          (WF_quietMov false s _ src hGood.1)
          (fun fr2 hlt hne => hInvOth fr2
            (by rw [← (movHWReg_proj _ _ _ _).2.2.2.2.1]; exact hlt) hne)
          (by rw [(movHWReg_proj _ _ _ _).2.2.2.2.1]; exact hdst)
          hLg
          (Or.inr (Or.inl (by rw [(movHWReg_proj _ _ _ _).1])))
      refine ⟨uGood, ?_, ?_, ?_⟩
      · rw [un, (movHWReg_proj _ _ _ _).2.2.2.2.1]
      · rw [ulat, upd1_same]
        rw [e, rd_movHWReg_dst]
      · intro fr2 hne
        rw [ulat, upd1_other _ _ _ hne, (movHWReg_proj _ _ _ _).2.2.1]
  · rw [if_neg hLg]
    by_cases hLv : (s.frameRegs dst).localVecD.isValid = true
    · rw [if_pos hLv]
      rcases localBindingOK_spec b2 with e | ⟨j, e, htj, hcj⟩
      · rw [e] at hLv
        exact Bool.noConfusion hLv
      · have hfields : ∀ fr2, fr2 < s.nRegs → fr2 ≠ dst →
            ((s.frameRegs fr2).localGpX.isValid = true →
              (s.frameRegs fr2).localGpX ≠ (s.frameRegs dst).localVecD) ∧
            ((s.frameRegs fr2).localVecD.isValid = true →
              (s.frameRegs fr2).localVecD ≠ (s.frameRegs dst).localVecD) ∧
            ((s.frameRegs fr2).globalReg.isValid = true →
              (s.frameRegs fr2).globalReg ≠ (s.frameRegs dst).localVecD) := by
          intro fr2 hlt hne
          obtain ⟨w1, w2, w3⟩ := WFfr_spec (hGood.1.1 fr2 hlt)
          refine ⟨?_, ?_, ?_⟩
          · intro hv
            rcases localBindingOK_spec w1 with e2 | ⟨j2, e2, htj2, hcj2⟩
            · rw [e2] at hv
              exact absurd hv (by decide)
            · rw [e2, e]
              intro habs
              injection habs with hc _
              exact RegClass.noConfusion hc
          · intro hv
            rcases localBindingOK_spec w2 with e2 | ⟨j2, e2, htj2, hcj2⟩
            · rw [e2] at hv
              exact absurd hv (by decide)
            · rw [e2, e]
              intro habs
              injection habs with _ h2
              rw [h2] at hcj2
              rw [hcj2] at hcj
              injection hcj with h3
              exact hne h3
          · intro hv
            cases hg2 : (s.frameRegs fr2).globalReg with
            | invalid =>
              rw [hg2] at hv
              exact absurd hv (by decide)
            | reg cg ig =>
              rw [e]
              exact saved_ne_temp (w3 cg ig hg2) htj
        have hInvOth := movWrite_inv_others s dst (s.frameRegs dst).localVecD
          src hGood hfields
        obtain ⟨uGood, ulat, uoth, ufv, urv, un⟩ :=
          frUpdatedWithHWReg_good
            (movHWReg false s (s.frameRegs dst).localVecD src)
            dst (s.frameRegs dst).localVecD t
            (WF_quietMov false s _ src hGood.1)
            (fun fr2 hlt hne => hInvOth fr2
              (by rw [← (movHWReg_proj _ _ _ _).2.2.2.2.1]; exact hlt) hne)
            (by rw [(movHWReg_proj _ _ _ _).2.2.2.2.1]; exact hdst)
            hLv
            (Or.inr (Or.inr (by rw [(movHWReg_proj _ _ _ _).1])))
        refine ⟨uGood, ?_, ?_, ?_⟩
        · rw [un, (movHWReg_proj _ _ _ _).2.2.2.2.1]
        · rw [ulat, upd1_same]
          rw [e, rd_movHWReg_dst]
        · intro fr2 hne
          rw [ulat, upd1_other _ _ _ hne, (movHWReg_proj _ _ _ _).2.2.1]
    · rw [if_neg hLv]
      by_cases hGR : (s.frameRegs dst).globalReg.isValid = true
      · rw [if_pos hGR]
        obtain ⟨cg, g, e⟩ : ∃ cg g, (s.frameRegs dst).globalReg =
            HWReg.reg cg g := by
          cases hg : (s.frameRegs dst).globalReg with
          | invalid =>
            rw [hg] at hGR
            exact Bool.noConfusion hGR
          | reg cg g => exact ⟨cg, g, rfl⟩
        have hsaved : isSavedIdx cg g = true := b3 cg g e
        have hfields : ∀ fr2, fr2 < s.nRegs → fr2 ≠ dst →
            ((s.frameRegs fr2).localGpX.isValid = true →
              (s.frameRegs fr2).localGpX ≠ (s.frameRegs dst).globalReg) ∧
            ((s.frameRegs fr2).localVecD.isValid = true →
              (s.frameRegs fr2).localVecD ≠ (s.frameRegs dst).globalReg) ∧
            ((s.frameRegs fr2).globalReg.isValid = true →
              (s.frameRegs fr2).globalReg ≠ (s.frameRegs dst).globalReg) := by
          intro fr2 hlt hne
          obtain ⟨w1, w2, w3⟩ := WFfr_spec (hGood.1.1 fr2 hlt)
          refine ⟨?_, ?_, ?_⟩
          · intro hv
            rcases localBindingOK_spec w1 with e2 | ⟨j2, e2, htj2, hcj2⟩
            · rw [e2] at hv
              exact absurd hv (by decide)
            · rw [e2, e]
              exact Ne.symm (saved_ne_temp hsaved htj2)
          · intro hv
            rcases localBindingOK_spec w2 with e2 | ⟨j2, e2, htj2, hcj2⟩
            · rw [e2] at hv
              exact absurd hv (by decide)
            · rw [e2, e]
              exact Ne.symm (saved_ne_temp hsaved htj2)
          · intro hv
            exact hGood.1.2.2.1 fr2 hlt dst hdst hne hv
        have hInvOth := movWrite_inv_others s dst (s.frameRegs dst).globalReg
          src hGood hfields
        obtain ⟨uGood, ulat, uoth, ufv, urv, un⟩ :=
          frUpdatedWithHWReg_good
            (movHWReg false s (s.frameRegs dst).globalReg src)
            dst (s.frameRegs dst).globalReg t
            (WF_quietMov false s _ src hGood.1)
            (fun fr2 hlt hne => hInvOth fr2
              (by rw [← (movHWReg_proj _ _ _ _).2.2.2.2.1]; exact hlt) hne)
            (by rw [(movHWReg_proj _ _ _ _).2.2.2.2.1]; exact hdst)
            hGR
            (Or.inl (by rw [(movHWReg_proj _ _ _ _).1]))
        refine ⟨uGood, ?_, ?_, ?_⟩
        · rw [un, (movHWReg_proj _ _ _ _).2.2.2.2.1]
        · rw [ulat, upd1_same]
          rw [e, rd_movHWReg_dst]
        · intro fr2 hne
          rw [ulat, upd1_other _ _ _ hne, (movHWReg_proj _ _ _ _).2.2.1]
      · rw [if_neg hGR]
        cases t with
        | none =>
          dsimp only
          exact movFRFromHW_store_case s dst src hGood hdst hLg hLv hGR
        | some ty =>
          dsimp only
          exact movFRFromHW_store_case_ty s dst src ty hGood hdst hLg hLv hGR

theorem uint64Const_state_proj (M : EmitState) (bits : Nat) :
    (uint64Const M bits).2.frameRegs = M.frameRegs ∧
    (uint64Const M bits).2.frameVal = M.frameVal ∧
    (uint64Const M bits).2.latest = M.latest ∧
    (uint64Const M bits).2.hwContains = M.hwContains ∧
    (uint64Const M bits).2.nRegs = M.nRegs ∧
    (uint64Const M bits).2.gpTemp = M.gpTemp ∧
    (uint64Const M bits).2.vecTemp = M.vecTemp ∧
    (uint64Const M bits).2.regVal = M.regVal := by
  unfold uint64Const
  cases hl : (M.fp64ConstMap.lookup bits : Option Nat) with
  | some ofs => exact ⟨rfl, rfl, rfl, rfl, rfl, rfl, rfl, rfl⟩
  | none =>
    dsimp only
    unfold reserveData
    dsimp only
    split
    · exact ⟨rfl, rfl, rfl, rfl, rfl, rfl, rfl, rfl⟩
    · exact ⟨rfl, rfl, rfl, rfl, rfl, rfl, rfl, rfl⟩

theorem loadBits64InGp_sem (M : EmitState) (dest : HWReg) (bits : Nat) :
    (loadBits64InGp M dest bits).frameRegs = M.frameRegs ∧
    (loadBits64InGp M dest bits).frameVal = M.frameVal ∧
    (loadBits64InGp M dest bits).latest = M.latest ∧
    (loadBits64InGp M dest bits).hwContains = M.hwContains ∧
    (loadBits64InGp M dest bits).nRegs = M.nRegs ∧
    (loadBits64InGp M dest bits).gpTemp = M.gpTemp ∧
    (loadBits64InGp M dest bits).vecTemp = M.vecTemp ∧
    (∀ c i, dest = HWReg.reg c i →
      (loadBits64InGp M dest bits).rd (HWReg.reg c i) = bits) ∧
    (∀ h2, h2 ≠ dest → (loadBits64InGp M dest bits).rd h2 = M.rd h2) := by
  unfold loadBits64InGp
  split
  · refine ⟨(setReg_frameRegs _ _ _).trans rfl, (setReg_frameVal _ _ _).trans rfl,
      (setReg_latest _ _ _).trans rfl, (setReg_hwContains _ _ _).trans rfl,
      (setReg_nRegs _ _ _).trans rfl, (setReg_gpTemp _ _ _).trans rfl,
      (setReg_vecTemp _ _ _).trans rfl, ?_, ?_⟩
    · intro c i hd
      subst hd
      exact rd_setReg_same _ _ _ _
    · intro h2 hne
      rw [rd_setReg_other _ _ _ _ (Or.inl hne), rd_emitInstr]
  · obtain ⟨u1, u2, u3, u4, u5, u6, u7, u8⟩ := uint64Const_state_proj M bits
    refine ⟨(setReg_frameRegs _ _ _).trans u1, (setReg_frameVal _ _ _).trans u2,
      (setReg_latest _ _ _).trans u3, (setReg_hwContains _ _ _).trans u4,
      (setReg_nRegs _ _ _).trans u5, (setReg_gpTemp _ _ _).trans u6,
      (setReg_vecTemp _ _ _).trans u7, ?_, ?_⟩
    · intro c i hd
      subst hd
      exact rd_setReg_same _ _ _ _
    · intro h2 hne
      rw [rd_setReg_other _ _ _ _ (Or.inl hne), rd_emitInstr]
      exact rd_congr u8 h2

theorem isValidGpX_form {h : HWReg} (hv : h.isValidGpX = true) :
    ∃ g, h = HWReg.reg RegClass.gp g := by
  cases h with
  | invalid => exact Bool.noConfusion hv
  | reg c i =>
    cases c with
    | gp => exact ⟨i, rfl⟩
    | vec => exact Bool.noConfusion hv

/-- `Emitter::loadConstBits64`: afterwards the destination's latest value is
the loaded constant, other ghost values are untouched, and the invariants are
preserved. -/
theorem loadConstBits64_good (s : EmitState) (dst bits : Nat) (ty : FRType)
    (hGood : Good s) (hp : PoolsOK s) (hdst : dst < s.nRegs) :
    Good (loadConstBits64 s dst bits ty) ∧
    PoolsOK (loadConstBits64 s dst bits ty) ∧
    (loadConstBits64 s dst bits ty).nRegs = s.nRegs ∧
    (loadConstBits64 s dst bits ty).latest dst = bits ∧
    (∀ fr2, fr2 ≠ dst →
      (loadConstBits64 s dst bits ty).latest fr2 = s.latest fr2) := by
  obtain ⟨b1, b2, b3⟩ := WFfr_spec (hGood.1.1 dst hdst)
  unfold loadConstBits64
  dsimp only
  unfold getOrAllocFRInGpX
  dsimp only
  by_cases hLg : (s.frameRegs dst).localGpX.isValid = true
  · rw [if_pos hLg]
    dsimp only
    rcases localBindingOK_spec b1 with e | ⟨j, e, htj, hcj⟩
    · rw [e] at hLg
      exact Bool.noConfusion hLg
    · rw [e]
      obtain ⟨l1, l2, l3, l4, l5, l6, l7, l8, l9⟩ :=
        loadBits64InGp_sem (useReg s (HWReg.reg RegClass.gp j))
          (HWReg.reg RegClass.gp j) bits
      have hGoodU : Good (useReg s (HWReg.reg RegClass.gp j)) :=
        good_useReg _ _ hGood
      have hWFlb : WF (loadBits64InGp (useReg s (HWReg.reg RegClass.gp j))
          (HWReg.reg RegClass.gp j) bits) := by
        refine WF_congr l5 ?_ ?_ ?_ ?_ hGoodU.1
        · intro fr2
          rw [l1]
          exact ⟨rfl, rfl, rfl⟩
        · intro c i
          rw [l4]
        · rw [l6]
        · rw [l7]
      have hplb : PoolsOK (loadBits64InGp (useReg s (HWReg.reg RegClass.gp j))
          (HWReg.reg RegClass.gp j) bits) :=
        poolsOK_of_eq l6 l7 (poolsOK_useReg _ _ hp)
      have hnlb : dst < (loadBits64InGp (useReg s (HWReg.reg RegClass.gp j))
          (HWReg.reg RegClass.gp j) bits).nRegs := by
        rw [l5, (useReg_proj _ _).2.2.2.2.2]
        exact hdst
      have hInvOth : ∀ fr2, fr2 < (loadBits64InGp (useReg s
          (HWReg.reg RegClass.gp j)) (HWReg.reg RegClass.gp j) bits).nRegs →
          fr2 ≠ dst → FRInv (loadBits64InGp (useReg s (HWReg.reg RegClass.gp j))
            (HWReg.reg RegClass.gp j) bits) fr2 := by
        intro fr2 hlt hne
        have hlt2 : fr2 < s.nRegs := by
          rw [l5, (useReg_proj _ _).2.2.2.2.2] at hlt
          exact hlt
        obtain ⟨w1, w2, w3⟩ := WFfr_spec (hGood.1.1 fr2 hlt2)
        refine FRInv_congr (s := s)
          (by rw [l1, (useReg_proj _ _).1])
          (by rw [l3, (useReg_proj _ _).2.2.2.1])
          (by rw [l2, (useReg_proj _ _).2.2.1]) ?_ ?_ ?_ (hGood.2 fr2 hlt2)
        · rcases localBindingOK_spec w1 with e2 | ⟨j2, e2, htj2, hcj2⟩
          · rw [e2]
            rfl
          · rw [e2]
            have hne2 : HWReg.reg RegClass.gp j2 ≠ HWReg.reg RegClass.gp j := by
              intro habs
              injection habs with _ h2
              rw [h2] at hcj2
              rw [hcj2] at hcj
              injection hcj with h3
              exact hne h3
            rw [l9 _ hne2, rd_useReg]
        · rcases localBindingOK_spec w2 with e2 | ⟨j2, e2, htj2, hcj2⟩
          · rw [e2]
            rfl
          · rw [e2]
            rw [l9 _ (fun habs => by
              injection habs with hc _
              exact RegClass.noConfusion hc), rd_useReg]
        · cases hg2 : (s.frameRegs fr2).globalReg with
          | invalid => rfl
          | reg cg ig =>
            rw [l9 _ (saved_ne_temp (w3 cg ig hg2) htj), rd_useReg]
      obtain ⟨uGood, ulat, uoth, ufv, urv, un⟩ :=
        frUpdatedWithHWReg_good _ dst (HWReg.reg RegClass.gp j) (some ty)
          hWFlb hInvOth hnlb rfl
          (Or.inr (Or.inl (by rw [l1, (useReg_proj _ _).1, e])))
      refine ⟨uGood, ?_, ?_, ?_, ?_⟩
      · refine poolsOK_frUpdatedWithHWReg _ dst _ (some ty) hWFlb hnlb hplb
      · rw [un, l5, (useReg_proj _ _).2.2.2.2.2]
      · rw [ulat, upd1_same, l8 _ _ rfl]
      · intro fr2 hne
        rw [ulat, upd1_other _ _ _ hne, l3, (useReg_proj _ _).2.2.2.1]
  · rw [if_neg hLg]
    by_cases hGg : (s.frameRegs dst).globalReg.isValidGpX = true
    · rw [if_pos hGg]
      rw [Bool.false_and, if_neg (by decide : ¬(false = true))]
      obtain ⟨g, eg⟩ := isValidGpX_form hGg
      rw [eg]
      have hsaved : isSavedIdx RegClass.gp g = true := b3 RegClass.gp g eg
      obtain ⟨l1, l2, l3, l4, l5, l6, l7, l8, l9⟩ :=
        loadBits64InGp_sem s (HWReg.reg RegClass.gp g) bits
      have hWFlb : WF (loadBits64InGp s (HWReg.reg RegClass.gp g) bits) := by
        refine WF_congr l5 ?_ ?_ ?_ ?_ hGood.1
        · intro fr2
          rw [l1]
          exact ⟨rfl, rfl, rfl⟩
        · intro c i
          rw [l4]
        · rw [l6]
        · rw [l7]
      have hplb : PoolsOK (loadBits64InGp s (HWReg.reg RegClass.gp g) bits) :=
        poolsOK_of_eq l6 l7 hp
      have hnlb : dst < (loadBits64InGp s (HWReg.reg RegClass.gp g)
          bits).nRegs := by
        rw [l5]
        exact hdst
      have hInvOth : ∀ fr2, fr2 < (loadBits64InGp s (HWReg.reg RegClass.gp g)
          bits).nRegs → fr2 ≠ dst →
          FRInv (loadBits64InGp s (HWReg.reg RegClass.gp g) bits) fr2 := by
        intro fr2 hlt hne
        have hlt2 : fr2 < s.nRegs := by
          rw [l5] at hlt
          exact hlt
        obtain ⟨w1, w2, w3⟩ := WFfr_spec (hGood.1.1 fr2 hlt2)
        refine FRInv_congr (s := s) (by rw [l1]) (by rw [l3]) (by rw [l2])
          ?_ ?_ ?_ (hGood.2 fr2 hlt2)
        · rcases localBindingOK_spec w1 with e2 | ⟨j2, e2, htj2, hcj2⟩
          · rw [e2]
            rfl
          · rw [e2]
            exact l9 _ (Ne.symm (saved_ne_temp hsaved htj2))
        · rcases localBindingOK_spec w2 with e2 | ⟨j2, e2, htj2, hcj2⟩
          · rw [e2]
            rfl
          · rw [e2]
            exact l9 _ (Ne.symm (saved_ne_temp hsaved htj2))
        · cases hg2 : (s.frameRegs fr2).globalReg with
          | invalid => rfl
          | reg cg ig =>
            refine l9 _ ?_
            rw [← hg2, ← eg]
            refine hGood.1.2.2.1 fr2 hlt2 dst hdst hne ?_
            rw [hg2]
            rfl
      obtain ⟨uGood, ulat, uoth, ufv, urv, un⟩ :=
        frUpdatedWithHWReg_good _ dst (HWReg.reg RegClass.gp g) (some ty)
          hWFlb hInvOth hnlb rfl
          (Or.inl (by rw [l1, eg]))
      refine ⟨uGood, ?_, ?_, ?_, ?_⟩
      · exact poolsOK_frUpdatedWithHWReg _ dst _ (some ty) hWFlb hnlb hplb
      · rw [un, l5]
      · rw [ulat, upd1_same, l8 _ _ rfl]
      · intro fr2 hne
        rw [ulat, upd1_other _ _ _ hne, l3]
    · rw [if_neg hGg]
      rw [show allocTempGpX s = _allocTemp s RegClass.gp none from rfl]
      obtain ⟨r, hsel, htr, hGood1, hp1, hfree1, hnf1, hn1, hlat1, hstab1⟩ :=
        allocTempGp_good s hGood hp
      rw [hsel, if_neg (by decide : ¬(false = true))]
      have hgxF : (s.frameRegs dst).localGpX.isValid = false := by
        rw [hwreg_inv_of_not_valid hLg]
        rfl
      have hrecA : (_allocTemp s RegClass.gp none).2.frameRegs dst =
          s.frameRegs dst := hstab1 dst hgxF
      have hfrA : dst < (_allocTemp s RegClass.gp none).2.nRegs := by
        rw [hn1]
        exact hdst
      obtain ⟨BWF, Bn, Blat, Bfv, Brv, Bgp, Bvec, Bfr, Both, Bcr, Bcoth⟩ :=
        assignGp_facts (_allocTemp s RegClass.gp none).2 dst r hGood1.1 hfrA
          htr hfree1 hnf1 (by rw [hrecA]; exact hwreg_inv_of_not_valid hLg)
      generalize hB : assignAllocatedLocalHWReg
        (_allocTemp s RegClass.gp none).2 dst (HWReg.reg RegClass.gp r) = B
      rw [hB] at BWF Bn Blat Bfv Brv Bgp Bvec Bfr Both Bcr Bcoth
      obtain ⟨l1, l2, l3, l4, l5, l6, l7, l8, l9⟩ :=
        loadBits64InGp_sem B (HWReg.reg RegClass.gp r) bits
      have hWFlb : WF (loadBits64InGp B (HWReg.reg RegClass.gp r) bits) := by
        refine WF_congr l5 ?_ ?_ ?_ ?_ BWF
        · intro fr2
          rw [l1]
          exact ⟨rfl, rfl, rfl⟩
        · intro c i
          rw [l4]
        · rw [l6]
        · rw [l7]
      have hplb : PoolsOK (loadBits64InGp B (HWReg.reg RegClass.gp r) bits) := by
        refine poolsOK_of_eq ?_ ?_ hp1
        · rw [l6, Bgp]
        · rw [l7, Bvec]
      have hnlb : dst < (loadBits64InGp B (HWReg.reg RegClass.gp r)
          bits).nRegs := by
        rw [l5, Bn, hn1]
        exact hdst
      have hInvOth : ∀ fr2, fr2 < (loadBits64InGp B (HWReg.reg RegClass.gp r)
          bits).nRegs → fr2 ≠ dst →
          FRInv (loadBits64InGp B (HWReg.reg RegClass.gp r) bits) fr2 := by
        intro fr2 hlt hne
        have hlt2A : fr2 < (_allocTemp s RegClass.gp none).2.nRegs := by
          rw [l5, Bn] at hlt
          exact hlt
        obtain ⟨a1, a2, a3⟩ := WFfr_spec (hGood1.1.1 fr2 hlt2A)
        refine FRInv_congr (s := (_allocTemp s RegClass.gp none).2)
          (by rw [l1, Both fr2 hne]) (by rw [l3, Blat])
          (by rw [l2, Bfv]) ?_ ?_ ?_ (hGood1.2 fr2 hlt2A)
        · rcases localBindingOK_spec a1 with e2 | ⟨j2, e2, htj2, hcj2⟩
          · rw [e2]
            rfl
          · rw [e2]
            have hne2 : HWReg.reg RegClass.gp j2 ≠ HWReg.reg RegClass.gp r := by
              intro habs
              injection habs with _ h2
              rw [h2] at hcj2
              rw [hfree1] at hcj2
              exact Option.noConfusion hcj2
            rw [l9 _ hne2]
            exact rd_congr Brv _
        · rcases localBindingOK_spec a2 with e2 | ⟨j2, e2, htj2, hcj2⟩
          · rw [e2]
            rfl
          · rw [e2]
            rw [l9 _ (fun habs => by
              injection habs with hc _
              exact RegClass.noConfusion hc)]
            exact rd_congr Brv _
        · cases hg2 : ((_allocTemp s RegClass.gp none).2.frameRegs
              fr2).globalReg with
          | invalid => rfl
          | reg cg ig =>
            rw [l9 _ (saved_ne_temp (a3 cg ig hg2) htr)]
            exact rd_congr Brv _
      obtain ⟨uGood, ulat, uoth, ufv, urv, un⟩ :=
        frUpdatedWithHWReg_good _ dst (HWReg.reg RegClass.gp r) (some ty)
          hWFlb hInvOth hnlb rfl
          (Or.inr (Or.inl (by rw [l1, Bfr])))
      refine ⟨uGood, ?_, ?_, ?_, ?_⟩
      · exact poolsOK_frUpdatedWithHWReg _ dst _ (some ty) hWFlb hnlb hplb
      · rw [un, l5, Bn, hn1]
      · rw [ulat, upd1_same, l8 _ _ rfl]
      · intro fr2 hne
        rw [ulat, upd1_other _ _ _ hne, l3, Blat, hlat1]

theorem emitMovRuntimeArg_proj (s : EmitState) (d : Nat) :
    (emitMovRuntimeArg s d).latest = s.latest ∧
    (emitMovRuntimeArg s d).frameVal = s.frameVal ∧
    (emitMovRuntimeArg s d).nRegs = s.nRegs :=
  ⟨(setReg_latest _ _ _).trans rfl, (setReg_frameVal _ _ _).trans rfl,
   (setReg_nRegs _ _ _).trans rfl⟩

theorem emitMovFrameArg_proj (s : EmitState) (d : Nat) :
    (emitMovFrameArg s d).latest = s.latest ∧
    (emitMovFrameArg s d).frameVal = s.frameVal ∧
    (emitMovFrameArg s d).nRegs = s.nRegs :=
  ⟨(setReg_latest _ _ _).trans rfl, (setReg_frameVal _ _ _).trans rfl,
   (setReg_nRegs _ _ _).trans rfl⟩

theorem emitMovImmArg_proj (s : EmitState) (d v : Nat) :
    (emitMovImmArg s d v).latest = s.latest ∧
    (emitMovImmArg s d v).frameVal = s.frameVal ∧
    (emitMovImmArg s d v).nRegs = s.nRegs :=
  ⟨(setReg_latest _ _ _).trans rfl, (setReg_frameVal _ _ _).trans rfl,
   (setReg_nRegs _ _ _).trans rfl⟩

/-- The outgoing-argument synchronization loop of `Emitter::call`: afterwards
the frame slot of every outgoing argument holds its latest value, and no
slot outside the loop is written. -/
theorem callSyncFold (nR : Nat) : ∀ (argc : Nat) (base : EmitState),
    Good base → base.nRegs = nR → argc + 8 ≤ nR →
    Good ((List.range argc).foldl
      (fun s2 (i : Nat) => syncToMem s2
        (((nR : Int) + SFLThisArg - (i : Int)).toNat)) base) ∧
    ((List.range argc).foldl
      (fun s2 (i : Nat) => syncToMem s2
        (((nR : Int) + SFLThisArg - (i : Int)).toNat)) base).nRegs = nR ∧
    ((List.range argc).foldl
      (fun s2 (i : Nat) => syncToMem s2
        (((nR : Int) + SFLThisArg - (i : Int)).toNat)) base).latest =
      base.latest ∧
    (∀ fr2, (∀ i, i < argc →
        fr2 ≠ (((nR : Int) + SFLThisArg - (i : Int)).toNat)) →
      ((List.range argc).foldl
        (fun s2 (i : Nat) => syncToMem s2
          (((nR : Int) + SFLThisArg - (i : Int)).toNat)) base).frameVal fr2 =
        base.frameVal fr2) ∧
    (∀ i, i < argc →
      ((List.range argc).foldl
        (fun s2 (i : Nat) => syncToMem s2
          (((nR : Int) + SFLThisArg - (i : Int)).toNat)) base).frameVal
            (((nR : Int) + SFLThisArg - (i : Int)).toNat) =
        base.latest (((nR : Int) + SFLThisArg - (i : Int)).toNat)) := by
  intro argc
  induction argc with
  | zero =>
    intro base hGood hn _
    exact ⟨hGood, hn, rfl, fun fr2 _ => rfl, fun i hi => absurd hi (by omega)⟩
  | succ n ih =>
    intro base hGood hn hargs
    obtain ⟨f1, f2, f3, f4, f5⟩ := ih base hGood hn (by omega)
    have hslot : (((nR : Int) + SFLThisArg - (n : Int)).toNat) < nR := by
      unfold SFLThisArg
      omega
    obtain ⟨t1, t2, t3, _, _, t6, _, t8, _, _, _, _, _⟩ :=
      syncToMem_good ((List.range n).foldl
        (fun s2 (i : Nat) => syncToMem s2
          (((nR : Int) + SFLThisArg - (i : Int)).toNat)) base)
        (((nR : Int) + SFLThisArg - (n : Int)).toNat) f1.1 f1.2
        (by rw [f2]; exact hslot)
    rw [List.range_succ, List.foldl_append, List.foldl_cons, List.foldl_nil]
    refine ⟨t1, t3.trans f2, t2.trans f3, ?_, ?_⟩
    · intro fr2 hfr2
      rw [t6 fr2 (hfr2 n (by omega))]
      exact f4 fr2 (fun i hi => hfr2 i (by omega))
    · intro i hi
      by_cases hin : i = n
      · subst hin
        rw [t8]
        show ((List.range i).foldl _ base).latest _ = _
        rw [f3]
      · have hlt : i < n := by omega
        have hne : (((nR : Int) + SFLThisArg - (i : Int)).toNat) ≠
            (((nR : Int) + SFLThisArg - (n : Int)).toNat) := by
          unfold SFLThisArg
          omega
        rw [t6 _ hne]
        exact f5 i hlt

/-- The tail of `callPre` after the callee has been placed: loading the
new-target slot, synchronizing the callee, new-target and argument slots,
dropping temporaries and setting up the helper arguments. -/
theorem callPost_sem (nR : Nat) (X : EmitState) (argc latC : Nat)
    (hGoodX : Good X) (hpX : PoolsOK X) (hXn : X.nRegs = nR)
    (hargs : argc + 8 ≤ nR)
    (hXCA : X.latest (((nR : Int) + SFLCalleeClosureOrCB).toNat) = latC) :
    (emitMovImmArg (emitMovFrameArg (emitMovRuntimeArg (freeAllTempExcept
        ((List.range argc).foldl
          (fun s2 (i : Nat) => syncToMem s2
            (((nR : Int) + SFLThisArg - (i : Int)).toNat))
          (syncToMem (syncToMem
            (loadConstBits64 X (((nR : Int) + SFLNewTarget).toNat)
              undefinedRaw FRType.Unknown)
            (((nR : Int) + SFLCalleeClosureOrCB).toNat))
            (((nR : Int) + SFLNewTarget).toNat))) none) 0) 1) 2
        (w32 (argc + 4294967295))).latest
      (((nR : Int) + SFLCalleeClosureOrCB).toNat) = latC ∧
    (emitMovImmArg (emitMovFrameArg (emitMovRuntimeArg (freeAllTempExcept
        ((List.range argc).foldl
          (fun s2 (i : Nat) => syncToMem s2
            (((nR : Int) + SFLThisArg - (i : Int)).toNat))
          (syncToMem (syncToMem
            (loadConstBits64 X (((nR : Int) + SFLNewTarget).toNat)
              undefinedRaw FRType.Unknown)
            (((nR : Int) + SFLCalleeClosureOrCB).toNat))
            (((nR : Int) + SFLNewTarget).toNat))) none) 0) 1) 2
        (w32 (argc + 4294967295))).latest
      (((nR : Int) + SFLNewTarget).toNat) = undefinedRaw ∧
    (emitMovImmArg (emitMovFrameArg (emitMovRuntimeArg (freeAllTempExcept
        ((List.range argc).foldl
          (fun s2 (i : Nat) => syncToMem s2
            (((nR : Int) + SFLThisArg - (i : Int)).toNat))
          (syncToMem (syncToMem
            (loadConstBits64 X (((nR : Int) + SFLNewTarget).toNat)
              undefinedRaw FRType.Unknown)
            (((nR : Int) + SFLCalleeClosureOrCB).toNat))
            (((nR : Int) + SFLNewTarget).toNat))) none) 0) 1) 2
        (w32 (argc + 4294967295))).frameVal
      (((nR : Int) + SFLCalleeClosureOrCB).toNat) =
    (emitMovImmArg (emitMovFrameArg (emitMovRuntimeArg (freeAllTempExcept
        ((List.range argc).foldl
          (fun s2 (i : Nat) => syncToMem s2
            (((nR : Int) + SFLThisArg - (i : Int)).toNat))
          (syncToMem (syncToMem
            (loadConstBits64 X (((nR : Int) + SFLNewTarget).toNat)
              undefinedRaw FRType.Unknown)
            (((nR : Int) + SFLCalleeClosureOrCB).toNat))
            (((nR : Int) + SFLNewTarget).toNat))) none) 0) 1) 2
        (w32 (argc + 4294967295))).latest
      (((nR : Int) + SFLCalleeClosureOrCB).toNat) ∧
    (emitMovImmArg (emitMovFrameArg (emitMovRuntimeArg (freeAllTempExcept
        ((List.range argc).foldl
          (fun s2 (i : Nat) => syncToMem s2
            (((nR : Int) + SFLThisArg - (i : Int)).toNat))
          (syncToMem (syncToMem
            (loadConstBits64 X (((nR : Int) + SFLNewTarget).toNat)
              undefinedRaw FRType.Unknown)
            (((nR : Int) + SFLCalleeClosureOrCB).toNat))
            (((nR : Int) + SFLNewTarget).toNat))) none) 0) 1) 2
        (w32 (argc + 4294967295))).frameVal
      (((nR : Int) + SFLNewTarget).toNat) =
    (emitMovImmArg (emitMovFrameArg (emitMovRuntimeArg (freeAllTempExcept
        ((List.range argc).foldl
          (fun s2 (i : Nat) => syncToMem s2
            (((nR : Int) + SFLThisArg - (i : Int)).toNat))
          (syncToMem (syncToMem
            (loadConstBits64 X (((nR : Int) + SFLNewTarget).toNat)
              undefinedRaw FRType.Unknown)
            (((nR : Int) + SFLCalleeClosureOrCB).toNat))
            (((nR : Int) + SFLNewTarget).toNat))) none) 0) 1) 2
        (w32 (argc + 4294967295))).latest
      (((nR : Int) + SFLNewTarget).toNat) ∧
    (∀ i, i < argc →
      (emitMovImmArg (emitMovFrameArg (emitMovRuntimeArg (freeAllTempExcept
          ((List.range argc).foldl
            (fun s2 (i : Nat) => syncToMem s2
              (((nR : Int) + SFLThisArg - (i : Int)).toNat))
            (syncToMem (syncToMem
              (loadConstBits64 X (((nR : Int) + SFLNewTarget).toNat)
                undefinedRaw FRType.Unknown)
              (((nR : Int) + SFLCalleeClosureOrCB).toNat))
              (((nR : Int) + SFLNewTarget).toNat))) none) 0) 1) 2
          (w32 (argc + 4294967295))).frameVal
        (((nR : Int) + SFLThisArg - (i : Int)).toNat) =
      (emitMovImmArg (emitMovFrameArg (emitMovRuntimeArg (freeAllTempExcept
          ((List.range argc).foldl
            (fun s2 (i : Nat) => syncToMem s2
              (((nR : Int) + SFLThisArg - (i : Int)).toNat))
            (syncToMem (syncToMem
              (loadConstBits64 X (((nR : Int) + SFLNewTarget).toNat)
                undefinedRaw FRType.Unknown)
              (((nR : Int) + SFLCalleeClosureOrCB).toNat))
              (((nR : Int) + SFLNewTarget).toNat))) none) 0) 1) 2
          (w32 (argc + 4294967295))).latest
        (((nR : Int) + SFLThisArg - (i : Int)).toNat)) := by
  have hCA : (((nR : Int) + SFLCalleeClosureOrCB).toNat) < nR := by
    unfold SFLCalleeClosureOrCB
    omega
  have hNT : (((nR : Int) + SFLNewTarget).toNat) < nR := by
    unfold SFLNewTarget
    omega
  have hCANE : (((nR : Int) + SFLCalleeClosureOrCB).toNat) ≠
      (((nR : Int) + SFLNewTarget).toNat) := by
    unfold SFLCalleeClosureOrCB SFLNewTarget
    omega
  have hCAslot : ∀ i, i < argc → (((nR : Int) + SFLCalleeClosureOrCB).toNat) ≠
      (((nR : Int) + SFLThisArg - (i : Int)).toNat) := by
    intro i hi
    unfold SFLCalleeClosureOrCB SFLThisArg
    omega
  have hNTslot : ∀ i, i < argc → (((nR : Int) + SFLNewTarget).toNat) ≠
      (((nR : Int) + SFLThisArg - (i : Int)).toNat) := by
    intro i hi
    unfold SFLNewTarget SFLThisArg
    omega
  obtain ⟨L1, L2, L3, L4, L5⟩ := loadConstBits64_good X
    (((nR : Int) + SFLNewTarget).toNat) undefinedRaw FRType.Unknown hGoodX hpX
    (by rw [hXn]; exact hNT)
  obtain ⟨a1, a2, a3, _, _, a6, _, a8, _, _, _, _, _⟩ :=
    syncToMem_good _ (((nR : Int) + SFLCalleeClosureOrCB).toNat) L1.1 L1.2
      (by rw [L3, hXn]; exact hCA)
  obtain ⟨b1, b2, b3, _, _, b6, _, b8, _, _, _, _, _⟩ :=
    syncToMem_good _ (((nR : Int) + SFLNewTarget).toNat) a1.1 a1.2
      (by rw [a3, L3, hXn]; exact hNT)
  obtain ⟨c1, c2, c3, c4, c5⟩ := callSyncFold nR argc _ b1
    (by rw [b3, a3, L3, hXn]) hargs
  obtain ⟨d1, d2, d3, _, d5, _, _, _⟩ := freeAllTempExcept_facts _ none c1.1
  have elat : ∀ x, (emitMovImmArg (emitMovFrameArg (emitMovRuntimeArg
      (freeAllTempExcept ((List.range argc).foldl
        (fun s2 (i : Nat) => syncToMem s2
          (((nR : Int) + SFLThisArg - (i : Int)).toNat))
        (syncToMem (syncToMem
          (loadConstBits64 X (((nR : Int) + SFLNewTarget).toNat)
            undefinedRaw FRType.Unknown)
          (((nR : Int) + SFLCalleeClosureOrCB).toNat))
          (((nR : Int) + SFLNewTarget).toNat))) none) 0) 1) 2
      (w32 (argc + 4294967295))).latest x =
      ((List.range argc).foldl
        (fun s2 (i : Nat) => syncToMem s2
          (((nR : Int) + SFLThisArg - (i : Int)).toNat))
        (syncToMem (syncToMem
          (loadConstBits64 X (((nR : Int) + SFLNewTarget).toNat)
            undefinedRaw FRType.Unknown)
          (((nR : Int) + SFLCalleeClosureOrCB).toNat))
          (((nR : Int) + SFLNewTarget).toNat))).latest x := by
    intro x
    rw [(emitMovImmArg_proj _ _ _).1, (emitMovFrameArg_proj _ _).1,
      (emitMovRuntimeArg_proj _ _).1, d3]
  have efv : ∀ x, (emitMovImmArg (emitMovFrameArg (emitMovRuntimeArg
      (freeAllTempExcept ((List.range argc).foldl
        (fun s2 (i : Nat) => syncToMem s2
          (((nR : Int) + SFLThisArg - (i : Int)).toNat))
        (syncToMem (syncToMem
          (loadConstBits64 X (((nR : Int) + SFLNewTarget).toNat)
            undefinedRaw FRType.Unknown)
          (((nR : Int) + SFLCalleeClosureOrCB).toNat))
          (((nR : Int) + SFLNewTarget).toNat))) none) 0) 1) 2
      (w32 (argc + 4294967295))).frameVal x =
      ((List.range argc).foldl
        (fun s2 (i : Nat) => syncToMem s2
          (((nR : Int) + SFLThisArg - (i : Int)).toNat))
        (syncToMem (syncToMem
          (loadConstBits64 X (((nR : Int) + SFLNewTarget).toNat)
            undefinedRaw FRType.Unknown)
          (((nR : Int) + SFLCalleeClosureOrCB).toNat))
          (((nR : Int) + SFLNewTarget).toNat))).frameVal x := by
    intro x
    rw [(emitMovImmArg_proj _ _ _).2.1, (emitMovFrameArg_proj _ _).2.1,
      (emitMovRuntimeArg_proj _ _).2.1, d5]
  have hlatCA : ((List.range argc).foldl
      (fun s2 (i : Nat) => syncToMem s2
        (((nR : Int) + SFLThisArg - (i : Int)).toNat))
      (syncToMem (syncToMem
        (loadConstBits64 X (((nR : Int) + SFLNewTarget).toNat)
          undefinedRaw FRType.Unknown)
        (((nR : Int) + SFLCalleeClosureOrCB).toNat))
        (((nR : Int) + SFLNewTarget).toNat))).latest
      (((nR : Int) + SFLCalleeClosureOrCB).toNat) = latC := by
    rw [c3, b2, a2, L5 _ hCANE, hXCA]
  have hlatNT : ((List.range argc).foldl
      (fun s2 (i : Nat) => syncToMem s2
        (((nR : Int) + SFLThisArg - (i : Int)).toNat))
      (syncToMem (syncToMem
        (loadConstBits64 X (((nR : Int) + SFLNewTarget).toNat)
          undefinedRaw FRType.Unknown)
        (((nR : Int) + SFLCalleeClosureOrCB).toNat))
        (((nR : Int) + SFLNewTarget).toNat))).latest
      (((nR : Int) + SFLNewTarget).toNat) = undefinedRaw := by
    rw [c3, b2, a2, L4]
  refine ⟨?_, ?_, ?_, ?_, ?_⟩
  · rw [elat]
    exact hlatCA
  · rw [elat]
    exact hlatNT
  · rw [efv, elat, hlatCA]
    rw [c4 _ hCAslot, b6 _ hCANE, a8, L5 _ hCANE, hXCA]
  · rw [efv, elat, hlatNT]
    rw [c4 _ hNTslot, b8, a2, L4]
  · intro i hi
    rw [efv, elat, c5 i hi, c3]

set_option maxHeartbeats 1000000 in
/-- The state at the emitted `bl _sh_ljs_call`: the CalleeClosureOrCB slot
holds the callee's latest value (with no move when the callee is already that
slot), the NewTarget slot holds the tagged `undefined`, and the callee,
new-target and all outgoing argument slots are synchronized to frame
memory. -/
theorem callPre_sem (s : EmitState) (frCallee argc : Nat)
    (hGood : Good s) (hp : PoolsOK s)
    (hCallee : frCallee < s.nRegs) (hargs : argc + 8 ≤ s.nRegs) :
    (callPre s frCallee argc).latest
      (((s.nRegs : Int) + SFLCalleeClosureOrCB).toNat) = s.latest frCallee ∧
    (callPre s frCallee argc).latest
      (((s.nRegs : Int) + SFLNewTarget).toNat) = undefinedRaw ∧
    (callPre s frCallee argc).frameVal
      (((s.nRegs : Int) + SFLCalleeClosureOrCB).toNat) =
      (callPre s frCallee argc).latest
        (((s.nRegs : Int) + SFLCalleeClosureOrCB).toNat) ∧
    (callPre s frCallee argc).frameVal
      (((s.nRegs : Int) + SFLNewTarget).toNat) =
      (callPre s frCallee argc).latest
        (((s.nRegs : Int) + SFLNewTarget).toNat) ∧
    (∀ i, i < argc →
      (callPre s frCallee argc).frameVal
        (((s.nRegs : Int) + SFLThisArg - (i : Int)).toNat) =
      (callPre s frCallee argc).latest
        (((s.nRegs : Int) + SFLThisArg - (i : Int)).toNat)) := by
  have hCA : (((s.nRegs : Int) + SFLCalleeClosureOrCB).toNat) < s.nRegs := by
    unfold SFLCalleeClosureOrCB
    omega
  obtain ⟨g1, g2, g3, g4, g5, g6, g7, g8⟩ := syncAllTempExcept_good s none hGood
  have hp1 := poolsOK_syncAllTempExcept s none hp
  unfold callPre
  dsimp only
  generalize hS1 : syncAllTempExcept s none = S1
  rw [hS1] at g1 g2 g4 hp1
  have g8b : ∀ fr2, fr2 < s.nRegs → frSyncReady S1 fr2 := by
    intro fr2 hlt
    rw [← hS1]
    exact g8 fr2 hlt (fun h => Option.noConfusion h)
  by_cases hcase : frCallee ≠ (((s.nRegs : Int) + SFLCalleeClosureOrCB).toNat)
  · rw [if_pos hcase]
    have hCAS1 : (((s.nRegs : Int) + SFLCalleeClosureOrCB).toNat) <
        S1.nRegs := by
      rw [g2]
      exact hCA
    obtain ⟨f1, f2, f3, f4, f5, f6, f7, f8, f9, f10, f11, f12, f13, f14, f15⟩ :=
      freeFRTemp_good S1 (((s.nRegs : Int) + SFLCalleeClosureOrCB).toNat)
        g1.1 g1.2 hCAS1
        (g8b (((s.nRegs : Int) + SFLCalleeClosureOrCB).toNat) hCA)
    have hpF := poolsOK_freeFRTemp S1
      (((s.nRegs : Int) + SFLCalleeClosureOrCB).toNat) g1.1 hCAS1 hp1
    generalize hF1 : freeFRTemp S1
      (((s.nRegs : Int) + SFLCalleeClosureOrCB).toNat) = F1
    rw [hF1] at f1 f11 f14 hpF
    have hCalleeF : frCallee < F1.nRegs := by
      rw [f14, g2]
      exact hCallee
    obtain ⟨q1, q2, q3, q4, q5, q6⟩ :=
      getOrAllocAny_load_good F1 frCallee none f1 hpF hCalleeF
    generalize hG : getOrAllocFRInAnyReg F1 frCallee true none = G
    rw [hG] at q1 q2 q3 q4 q5
    have hCAG : (((s.nRegs : Int) + SFLCalleeClosureOrCB).toNat) <
        G.2.nRegs := by
      rw [q3, f14, g2]
      exact hCA
    obtain ⟨m1, m2, m3, m4⟩ := movFRFromHW_dst_good G.2
      (((s.nRegs : Int) + SFLCalleeClosureOrCB).toNat) G.1
      (some ((G.2.frameRegs frCallee).localType)) q1 hCAG
    have hpX := poolsOK_movFRFromHW G.2
      (((s.nRegs : Int) + SFLCalleeClosureOrCB).toNat) G.1
      (some ((G.2.frameRegs frCallee).localType)) q1.1 hCAG q2
    generalize hX : movFRFromHW G.2
      (((s.nRegs : Int) + SFLCalleeClosureOrCB).toNat) G.1
      (some ((G.2.frameRegs frCallee).localType)) = X
    rw [hX] at m1 m2 m3 hpX
    have hXn : X.nRegs = s.nRegs := by
      rw [m2, q3, f14, g2]
    have hXCA : X.latest (((s.nRegs : Int) + SFLCalleeClosureOrCB).toNat) =
        s.latest frCallee := by
      rw [m3, q5, f11, g4]
    exact callPost_sem s.nRegs X argc (s.latest frCallee) m1 hpX hXn hargs hXCA
  · rw [if_neg hcase]
    have heq : frCallee = (((s.nRegs : Int) + SFLCalleeClosureOrCB).toNat) :=
      not_not.mp hcase
    have hXCA : S1.latest (((s.nRegs : Int) + SFLCalleeClosureOrCB).toNat) =
        s.latest frCallee := by
      rw [g4, heq]
    exact callPost_sem s.nRegs S1 argc (s.latest frCallee) g1 hp1 g2 hargs hXCA

/-- C7: `Emitter::call` places the callee in the CalleeClosureOrCB frame slot
of the outgoing frame (skipping the move when the callee register already is
that slot), writes the tagged `undefined` value into the NewTarget slot,
synchronizes the callee, new-target and every outgoing argument slot to frame
memory, and invokes the `_sh_ljs_call` runtime helper exactly once, passing as
its third argument the count `argc - 1`; in particular a call with `argc = 3`
passes the count 2. -/
theorem claim_C7_call_emission (s : EmitState) (frRes frCallee argc : Nat)
    (hGood : Good s) (hpools : PoolsOK s)
    (hCallee : frCallee < s.nRegs) (hargc : 1 ≤ argc)
    (hargs : argc + 8 ≤ s.nRegs) (hargW : argc < 4294967296) :
    trace (call s frRes frCallee argc) = trace s ++
      [Instr.movRuntimeArg 0, Instr.movFrameArg 1,
       Instr.movImmArg 2 (argc - 1),
       Instr.callHelper shLjsCall] ∧
    (callPre s frCallee argc).latest
      (((s.nRegs : Int) + SFLCalleeClosureOrCB).toNat) = s.latest frCallee ∧
    (callPre s frCallee argc).latest
      (((s.nRegs : Int) + SFLNewTarget).toNat) = undefinedRaw ∧
    (callPre s frCallee argc).frameVal
      (((s.nRegs : Int) + SFLCalleeClosureOrCB).toNat) =
      (callPre s frCallee argc).latest
        (((s.nRegs : Int) + SFLCalleeClosureOrCB).toNat) ∧
    (callPre s frCallee argc).frameVal
      (((s.nRegs : Int) + SFLNewTarget).toNat) =
      (callPre s frCallee argc).latest
        (((s.nRegs : Int) + SFLNewTarget).toNat) ∧
    (∀ i, i < argc →
      (callPre s frCallee argc).frameVal
        (((s.nRegs : Int) + SFLThisArg - (i : Int)).toNat) =
      (callPre s frCallee argc).latest
        (((s.nRegs : Int) + SFLThisArg - (i : Int)).toNat)) := by
  refine ⟨?_, callPre_sem s frCallee argc hGood hpools hCallee hargs⟩
  rw [trace_call, w32_argcount argc hargc hargW]

theorem claim_C7_call_emission_witness :
    trace (call sFull 0 2 3) = trace sFull ++
      [Instr.movRuntimeArg 0, Instr.movFrameArg 1,
       Instr.movImmArg 2 (3 - 1),
       Instr.callHelper shLjsCall] ∧
    (callPre sFull 2 3).latest
      (((sFull.nRegs : Int) + SFLCalleeClosureOrCB).toNat) = sFull.latest 2 ∧
    (callPre sFull 2 3).latest
      (((sFull.nRegs : Int) + SFLNewTarget).toNat) = undefinedRaw ∧
    (callPre sFull 2 3).frameVal
      (((sFull.nRegs : Int) + SFLCalleeClosureOrCB).toNat) =
      (callPre sFull 2 3).latest
        (((sFull.nRegs : Int) + SFLCalleeClosureOrCB).toNat) ∧
    (callPre sFull 2 3).frameVal
      (((sFull.nRegs : Int) + SFLNewTarget).toNat) =
      (callPre sFull 2 3).latest
        (((sFull.nRegs : Int) + SFLNewTarget).toNat) ∧
    (∀ i : Nat, i < 3 →
      (callPre sFull 2 3).frameVal
        (((sFull.nRegs : Int) + SFLThisArg - (i : Int)).toNat) =
      (callPre sFull 2 3).latest
        (((sFull.nRegs : Int) + SFLThisArg - (i : Int)).toNat)) :=
  claim_C7_call_emission sFull 0 2 3 good_sFull
    (by unfold PoolsOK; decide) (by decide) (by decide) (by decide) (by decide)

end Jit
